import Mathlib

/-! A/53 user data codec (`cbs_misc.c`, `cbs_misc_syntax_template.c`) and EIA-608
caption decoder (`ccaption_dec.c`) of libavcodec.

A shallow embedding of the coded-bitstream grammar for A/53 user data (ATSC
closed-caption packets, bar data, AFD) with its four entry points, and of the
caption decoder (unit validation, the state machine of `process_cc608`, the
packet driver `decode`), followed by theorems about them.

Conventions of the embedding
* C unsigned fields (`uint8_t`, `uint16_t`, `uint32_t`) and sizes (`size_t`)
  are natural numbers.  Every value the grammar stores into a field has at
  most as many bits as the field, so no store of the grammar truncates.
* A conversion that can change the value is written out: `to_int` where a
  `size_t` or `int64_t` value is assigned to an `int` (the count of triplets
  of `ff_cbs_read_a53_cc_side_data`, the times of `decode`), `to_uint8` where
  an `int` is assigned to a `uint8_t`.
* A byte buffer together with its length is a `List Nat`; a byte is a natural
  number below 256 (only the low eight bits of an entry are ever read).
* A C function that returns an error code and mutates a record through a
  pointer returns the code together with the record as the call leaves it.
* The two unions of `cbs_misc.h` are modelled with one field per member; only
  the member selected by the tag is meaningful, as in C.
-/

namespace FFmpeg

/-! ## Outcomes -/

/-- Negative return codes of libavutil used by the codec, and the two abnormal
ends of a C call: a failed `av_assert0` and an array index outside its array. -/
inductive AVError where
  | EINVAL
  | ENOSPC
  | ENOMEM
  | INVALIDDATA
  | PATCHWELCOME
  | assert_failed
  | out_of_bounds
  deriving DecidableEq, Repr

deriving instance DecidableEq for Except

/-! ## Conversions between integer types -/

/-- The conversion of an integer value to `int` (32 bits, two's complement):
the value between `-2^31` and `2^31 - 1` that is congruent to it modulo
`2^32`.  C leaves the result for a value out of range to the implementation;
this is the result on the compilers that build libavcodec. -/
def to_int (v : Int) : Int := (v + 2147483648) % 4294967296 - 2147483648

/-- The conversion of an integer value to `uint8_t`: the value modulo 256. -/
def to_uint8 (v : Int) : Nat := (v % 256).toNat

/-! ## Bit strings -/

/-- The `width` low bits of `value`, most significant bit first. -/
def nat_bits : Nat → Nat → List Bool
  | 0, _ => []
  | w + 1, value => value.testBit w :: nat_bits w value

/-- The unsigned number a bit string denotes, most significant bit first. -/
def bits_val : List Bool → Nat
  | [] => 0
  | b :: bs => b.toNat * 2 ^ bs.length + bits_val bs

/-- The bits of a byte buffer in stream order (each byte most significant bit first). -/
def bytes_to_bits : List Nat → List Bool
  | [] => []
  | b :: bs => nat_bits 8 b ++ bytes_to_bits bs

/-- The bytes that hold a bit string, the last byte padded with zero bits. -/
def bits_to_bytes : List Bool → List Nat
  | b7 :: b6 :: b5 :: b4 :: b3 :: b2 :: b1 :: b0 :: tl =>
    bits_val [b7, b6, b5, b4, b3, b2, b1, b0] :: bits_to_bytes tl
  | [] => []
  | bs => [bits_val (bs ++ List.replicate (8 - bs.length) false)]

/-! ## Bit cursors (external collaborators of the codec) -/

/-- Read cursor: a byte buffer, a bit position and the number of readable bits. -/
structure GetBitContext where
  buffer : List Nat
  index : Nat
  size_in_bits : Nat
  deriving DecidableEq, Repr

/-- Modelled from the spec: `init_get_bits` of `get_bits.h` is not part of the
sources.  The spec: "initialize a read cursor over exactly that many bits ...
Fails with an initialization error if the cursor cannot be established (never
for this fixed-size input)". -/
def init_get_bits (buffer : List Nat) (bit_size : Nat) : Except AVError GetBitContext :=
  .ok ⟨buffer, 0, bit_size⟩

/-- Number of bits between the position and the end of the readable bits. -/
def get_bits_left (s : GetBitContext) : Nat := s.size_in_bits - s.index

/-- Number of bits consumed so far. -/
def get_bits_count (s : GetBitContext) : Nat := s.index

/-- The next `n` bits as an unsigned number, and the advanced cursor. -/
def get_bits_long (s : GetBitContext) (n : Nat) : Nat × GetBitContext :=
  (bits_val (((bytes_to_bits s.buffer).drop s.index).take n), { s with index := s.index + n })

/-- Modelled from the spec: `ff_cbs_read_unsigned` of `cbs.c` is not part of
the sources.  The spec: "read N bits as unsigned, with [min,max] range
enforcement" over "a byte buffer with an explicit bit position", failing with
the invalid-data condition; a read past the end of the input is the same
malformed-input condition. -/
def ff_cbs_read_unsigned (gbc : GetBitContext) (width range_min range_max : Nat) :
    Except AVError (Nat × GetBitContext) :=
  if get_bits_left gbc < width then .error .INVALIDDATA
  else
    let r := get_bits_long gbc width
    if r.1 < range_min ∨ r.1 > range_max then .error .INVALIDDATA
    else .ok r

/-- Write cursor: the bits put so far and the capacity of the buffer in bits.
The bytes of the destination are the packed bits (`flush_put_bits`). -/
structure PutBitContext where
  bits : List Bool
  size_in_bits : Nat
  deriving DecidableEq, Repr

/-- Modelled from the spec: `init_put_bits` of `put_bits.h` is not part of the
sources.  The spec: "initialize a write cursor" over a destination of
`buffer_size` bytes. -/
def init_put_bits (buffer_size : Nat) : PutBitContext := ⟨[], 8 * buffer_size⟩

/-- Number of bits written so far. -/
def put_bits_count (s : PutBitContext) : Nat := s.bits.length

/-- Number of bits that still fit. -/
def put_bits_left (s : PutBitContext) : Nat := s.size_in_bits - s.bits.length

/-- Append the `n` low bits of `value`. -/
def put_bits (s : PutBitContext) (n value : Nat) : PutBitContext :=
  { s with bits := s.bits ++ nat_bits n value }

/-- The bytes of the destination that hold the written bits, the last one
padded with zero bits. -/
def flush_put_bits (s : PutBitContext) : List Nat := bits_to_bytes s.bits

/-- Modelled from the spec: `ff_cbs_write_unsigned` of `cbs.c` is not part of
the sources.  The spec: "write N bits of an unsigned value, with [min,max]
range enforcement", and "Fails with out-of-space if the buffer is too small". -/
def ff_cbs_write_unsigned (pbc : PutBitContext) (width value range_min range_max : Nat) :
    Except AVError PutBitContext :=
  if value < range_min ∨ value > range_max then .error .INVALIDDATA
  else if put_bits_left pbc < width then .error .ENOSPC
  else .ok (put_bits pbc width value)

/-- Largest unsigned value of `length` bits (`MAX_UINT_BITS` of `cbs_internal.h`). -/
def MAX_UINT_BITS (length : Nat) : Nat := 2 ^ length - 1

/-- Big-endian four-character tag (`MKBETAG` of libavutil). -/
def MKBETAG (a b c d : Nat) : Nat := d ||| (c <<< 8) ||| (b <<< 16) ||| (a <<< 24)

/-! ## Records of `cbs_misc.h` -/

/-- Tag of ATSC user data: 'G','A','9','4'. -/
def A53_USER_IDENTIFIER_ATSC : Nat := MKBETAG 0x47 0x41 0x39 0x34

/-- Tag of AFD data: 'D','T','G','1'. -/
def A53_USER_IDENTIFIER_AFD : Nat := MKBETAG 0x44 0x54 0x47 0x31

/-- Type code of CC data. -/
def A53_USER_DATA_TYPE_CODE_CC_DATA : Nat := 0x03

/-- Type code of bar data. -/
def A53_USER_DATA_TYPE_CODE_BAR_DATA : Nat := 0x06

/-- Bar data: four flags and four line numbers. -/
structure A53BarData where
  top_bar_flag : Nat
  bottom_bar_flag : Nat
  left_bar_flag : Nat
  right_bar_flag : Nat
  line_number_end_of_top_bar : Nat
  line_number_end_of_bottom_bar : Nat
  line_number_end_of_left_bar : Nat
  line_number_end_of_right_bar : Nat
  deriving DecidableEq, Repr

/-- One closed-caption packet. -/
structure CEA708CCDataPacket where
  cc_valid : Nat
  cc_type : Nat
  cc_data_1 : Nat
  cc_data_2 : Nat
  deriving DecidableEq, Repr

/-- CC data; `cc_data_pkts` is the C array of 31 packets. -/
structure CEA708CCData where
  process_em_data_flag : Nat
  process_cc_data_flag : Nat
  additional_data_flag : Nat
  em_data : Nat
  cc_count : Nat
  cc_data_pkts : List CEA708CCDataPacket
  deriving DecidableEq, Repr

/-- ATSC user data: a type code and the union of CC data and bar data. -/
structure A53ATSCUserData where
  user_data_type_code : Nat
  cc_data : CEA708CCData
  bar_data : A53BarData
  deriving DecidableEq, Repr

/-- AFD data. -/
structure A53AFDData where
  active_format_flag : Nat
  active_format : Nat
  deriving DecidableEq, Repr

/-- A/53 user data: the identifier and the union of ATSC and AFD data. -/
structure A53UserData where
  user_identifier : Nat
  atsc : A53ATSCUserData
  afd : A53AFDData
  deriving DecidableEq, Repr

/-! ## The write instantiation of the grammar (`READWRITE write`) -/

/-- Write `xui(width, name, var)`: the value, range-checked to `width` bits. -/
def write_xui (rw : PutBitContext) (width var : Nat) : Except AVError PutBitContext :=
  ff_cbs_write_unsigned rw width var 0 (MAX_UINT_BITS width)

/-- Write `fixed(width, name, value)`: the expected value verbatim. -/
def write_fixed (rw : PutBitContext) (width value : Nat) : Except AVError PutBitContext :=
  ff_cbs_write_unsigned rw width value value value

/-- The function `cbs_misc_write_a53_bar_data`. -/
def cbs_misc_write_a53_bar_data (rw : PutBitContext) (current : A53BarData) :
    Except AVError PutBitContext := do
  let rw ← write_xui rw 1 current.top_bar_flag
  let rw ← write_xui rw 1 current.bottom_bar_flag
  let rw ← write_xui rw 1 current.left_bar_flag
  let rw ← write_xui rw 1 current.right_bar_flag
  let rw ← write_fixed rw 4 0xf
  let rw ← (if current.top_bar_flag ≠ 0 then
      write_fixed rw 2 3 >>= fun rw => write_xui rw 14 current.line_number_end_of_top_bar
    else pure rw)
  let rw ← (if current.bottom_bar_flag ≠ 0 then
      write_fixed rw 2 3 >>= fun rw => write_xui rw 14 current.line_number_end_of_bottom_bar
    else pure rw)
  let rw ← (if current.left_bar_flag ≠ 0 then
      write_fixed rw 2 3 >>= fun rw => write_xui rw 14 current.line_number_end_of_left_bar
    else pure rw)
  let rw ← (if current.right_bar_flag ≠ 0 then
      write_fixed rw 2 3 >>= fun rw => write_xui rw 14 current.line_number_end_of_right_bar
    else pure rw)
  return rw

/-- The function `cbs_misc_write_cea708_cc_data_packet`. -/
def cbs_misc_write_cea708_cc_data_packet (rw : PutBitContext) (current : CEA708CCDataPacket) :
    Except AVError PutBitContext := do
  let rw ← write_fixed rw 5 0x1f
  let rw ← write_xui rw 1 current.cc_valid
  let rw ← write_xui rw 2 current.cc_type
  let rw ← write_xui rw 8 current.cc_data_1
  let rw ← write_xui rw 8 current.cc_data_2
  return rw

/-- The packet loop `for (i = 0; i < cc_count; i++)` of the writers: `n`
iterations are left and the next index is `i`.  Entry `cc_data_pkts[i]` is
read; an index outside the array ends the call abnormally. -/
def write_cc_data_pkts (pkts : List CEA708CCDataPacket) :
    Nat → Nat → PutBitContext → Except AVError PutBitContext
  | 0, _, rw => .ok rw
  | n + 1, i, rw =>
    match pkts.get? i with
    | none => .error .out_of_bounds
    | some pkt =>
      match cbs_misc_write_cea708_cc_data_packet rw pkt with
      | .error err => .error err
      | .ok rw => write_cc_data_pkts pkts n (i + 1) rw

/-- The function `cbs_misc_write_cea708_cc_data`. -/
def cbs_misc_write_cea708_cc_data (rw : PutBitContext) (current : CEA708CCData) :
    Except AVError PutBitContext := do
  let rw ← write_xui rw 1 current.process_em_data_flag
  let rw ← write_xui rw 1 current.process_cc_data_flag
  let rw ← write_xui rw 1 current.additional_data_flag
  let rw ← write_xui rw 5 current.cc_count
  let rw ← write_xui rw 8 current.em_data
  let rw ← write_cc_data_pkts current.cc_data_pkts current.cc_count 0 rw
  let rw ← write_fixed rw 8 0xff
  return rw

/-- The function `cbs_misc_write_a53_atsc_user_data`. -/
def cbs_misc_write_a53_atsc_user_data (rw : PutBitContext) (current : A53ATSCUserData) :
    Except AVError PutBitContext := do
  let rw ← write_xui rw 8 current.user_data_type_code
  if current.user_data_type_code = A53_USER_DATA_TYPE_CODE_CC_DATA then
    cbs_misc_write_cea708_cc_data rw current.cc_data
  else if current.user_data_type_code = A53_USER_DATA_TYPE_CODE_BAR_DATA then
    cbs_misc_write_a53_bar_data rw current.bar_data
  else
    return rw

/-- The function `cbs_misc_write_a53_afd_data`. -/
def cbs_misc_write_a53_afd_data (rw : PutBitContext) (current : A53AFDData) :
    Except AVError PutBitContext := do
  let rw ← write_fixed rw 1 0
  let rw ← write_xui rw 1 current.active_format_flag
  let rw ← write_fixed rw 6 1
  if current.active_format_flag ≠ 0 then
    let rw ← write_fixed rw 4 0xf
    let rw ← write_xui rw 4 current.active_format
    return rw
  else
    return rw

/-- The function `cbs_misc_write_a53_user_data`. -/
def cbs_misc_write_a53_user_data (rw : PutBitContext) (current : A53UserData) :
    Except AVError PutBitContext := do
  let rw ← write_xui rw 32 current.user_identifier
  if current.user_identifier = A53_USER_IDENTIFIER_ATSC then
    cbs_misc_write_a53_atsc_user_data rw current.atsc
  else if current.user_identifier = A53_USER_IDENTIFIER_AFD then
    cbs_misc_write_a53_afd_data rw current.afd
  else
    return rw

/-- The entry point `ff_cbs_write_a53_user_data`.  `length` is the capacity
`*length` of `write_buffer` on entry; a successful call returns the bytes
`write_buffer[0 .. *length)` and the new `*length`. -/
def ff_cbs_write_a53_user_data (length : Nat) (data : A53UserData) :
    Except AVError (List Nat × Nat) :=
  let pbc := init_put_bits length
  match cbs_misc_write_a53_user_data pbc data with
  | .error err => .error err
  | .ok pbc =>
    if put_bits_count pbc % 8 ≠ 0 then .error .assert_failed
    else .ok (flush_put_bits pbc, put_bits_count pbc / 8)

/-! ## The read instantiation of the grammar (`READWRITE read`) -/

/-- What a read grammar function leaves behind: `ok` is return value 0 with
the advanced cursor, `fail` a negative return value; both carry the record
`*current` as the call leaves it. -/
inductive Ret (ρ τ : Type) where
  | ok (rw : ρ) (current : τ)
  | fail (err : AVError) (current : τ)
  deriving DecidableEq, Repr

/-- The macro `CHECK(call)`: go on after success, return the error otherwise. -/
def Ret.check {ρ τ : Type} (r : Ret ρ τ) (next : ρ → τ → Ret ρ τ) : Ret ρ τ :=
  match r with
  | .ok rw current => next rw current
  | .fail err current => .fail err current

/-- The record a call leaves behind. -/
def Ret.current {ρ τ : Type} : Ret ρ τ → τ
  | .ok _ current => current
  | .fail _ current => current

/-- A call on a member `&current->member`: the member is stored back. -/
def Ret.member {ρ σ τ : Type} (r : Ret ρ σ) (store : σ → τ) : Ret ρ τ :=
  match r with
  | .ok rw current => .ok rw (store current)
  | .fail err current => .fail err (store current)

/-- Read `xui(width, name, var)`: the value is range-checked to `width` bits
and stored with `store` (`var = value`) after a successful read only. -/
def read_xui {τ : Type} (width : Nat) (store : τ → Nat → τ) (rw : GetBitContext)
    (current : τ) : Ret GetBitContext τ :=
  match ff_cbs_read_unsigned rw width 0 (MAX_UINT_BITS width) with
  | .error err => .fail err current
  | .ok (value, rw) => .ok rw (store current value)

/-- Read `fixed(width, name, expected)`: the value must equal `expected` and
is discarded. -/
def read_fixed {τ : Type} (width expected : Nat) (rw : GetBitContext) (current : τ) :
    Ret GetBitContext τ :=
  match ff_cbs_read_unsigned rw width expected expected with
  | .error err => .fail err current
  | .ok (_, rw) => .ok rw current

/-- The function `cbs_misc_read_a53_bar_data`. -/
def cbs_misc_read_a53_bar_data (rw : GetBitContext) (current : A53BarData) :
    Ret GetBitContext A53BarData :=
  (read_xui 1 (fun c v => { c with top_bar_flag := v }) rw current).check fun rw current =>
  (read_xui 1 (fun c v => { c with bottom_bar_flag := v }) rw current).check fun rw current =>
  (read_xui 1 (fun c v => { c with left_bar_flag := v }) rw current).check fun rw current =>
  (read_xui 1 (fun c v => { c with right_bar_flag := v }) rw current).check fun rw current =>
  (read_fixed 4 0xf rw current).check fun rw current =>
  (if current.top_bar_flag ≠ 0 then
    (read_fixed 2 3 rw current).check fun rw current =>
    read_xui 14 (fun c v => { c with line_number_end_of_top_bar := v }) rw current
   else .ok rw current).check fun rw current =>
  (if current.bottom_bar_flag ≠ 0 then
    (read_fixed 2 3 rw current).check fun rw current =>
    read_xui 14 (fun c v => { c with line_number_end_of_bottom_bar := v }) rw current
   else .ok rw current).check fun rw current =>
  (if current.left_bar_flag ≠ 0 then
    (read_fixed 2 3 rw current).check fun rw current =>
    read_xui 14 (fun c v => { c with line_number_end_of_left_bar := v }) rw current
   else .ok rw current).check fun rw current =>
  (if current.right_bar_flag ≠ 0 then
    (read_fixed 2 3 rw current).check fun rw current =>
    read_xui 14 (fun c v => { c with line_number_end_of_right_bar := v }) rw current
   else .ok rw current).check fun rw current =>
  .ok rw current

/-- The function `cbs_misc_read_cea708_cc_data_packet`. -/
def cbs_misc_read_cea708_cc_data_packet (rw : GetBitContext) (current : CEA708CCDataPacket) :
    Ret GetBitContext CEA708CCDataPacket :=
  (read_fixed 5 0x1f rw current).check fun rw current =>
  (read_xui 1 (fun c v => { c with cc_valid := v }) rw current).check fun rw current =>
  (read_xui 2 (fun c v => { c with cc_type := v }) rw current).check fun rw current =>
  (read_xui 8 (fun c v => { c with cc_data_1 := v }) rw current).check fun rw current =>
  (read_xui 8 (fun c v => { c with cc_data_2 := v }) rw current).check fun rw current =>
  .ok rw current

/-- The packet loop `for (i = 0; i < cc_count; i++)` of the readers: `n`
iterations are left and the next index is `i`.  Each iteration reads a packet
into `cc_data_pkts[i]`; an index outside the array ends the call abnormally. -/
def read_cc_data_pkts :
    Nat → Nat → GetBitContext → CEA708CCData → Ret GetBitContext CEA708CCData
  | 0, _, rw, current => .ok rw current
  | n + 1, i, rw, current =>
    match current.cc_data_pkts.get? i with
    | none => .fail .out_of_bounds current
    | some pkt =>
      ((cbs_misc_read_cea708_cc_data_packet rw pkt).member
        fun p => { current with cc_data_pkts := current.cc_data_pkts.set i p }).check
        fun rw current => read_cc_data_pkts n (i + 1) rw current

/-- The function `cbs_misc_read_cea708_cc_data`. -/
def cbs_misc_read_cea708_cc_data (rw : GetBitContext) (current : CEA708CCData) :
    Ret GetBitContext CEA708CCData :=
  (read_xui 1 (fun c v => { c with process_em_data_flag := v }) rw current).check
    fun rw current =>
  (read_xui 1 (fun c v => { c with process_cc_data_flag := v }) rw current).check
    fun rw current =>
  (read_xui 1 (fun c v => { c with additional_data_flag := v }) rw current).check
    fun rw current =>
  (read_xui 5 (fun c v => { c with cc_count := v }) rw current).check fun rw current =>
  (read_xui 8 (fun c v => { c with em_data := v }) rw current).check fun rw current =>
  (read_cc_data_pkts current.cc_count 0 rw current).check fun rw current =>
  (read_fixed 8 0xff rw current).check fun rw current =>
  .ok rw current

/-- The function `cbs_misc_read_a53_atsc_user_data`. -/
def cbs_misc_read_a53_atsc_user_data (rw : GetBitContext) (current : A53ATSCUserData) :
    Ret GetBitContext A53ATSCUserData :=
  (read_xui 8 (fun c v => { c with user_data_type_code := v }) rw current).check
    fun rw current =>
  if current.user_data_type_code = A53_USER_DATA_TYPE_CODE_CC_DATA then
    (cbs_misc_read_cea708_cc_data rw current.cc_data).member
      fun c => { current with cc_data := c }
  else if current.user_data_type_code = A53_USER_DATA_TYPE_CODE_BAR_DATA then
    (cbs_misc_read_a53_bar_data rw current.bar_data).member
      fun c => { current with bar_data := c }
  else
    .ok rw current

/-- The function `cbs_misc_read_a53_afd_data`. -/
def cbs_misc_read_a53_afd_data (rw : GetBitContext) (current : A53AFDData) :
    Ret GetBitContext A53AFDData :=
  (read_fixed 1 0 rw current).check fun rw current =>
  (read_xui 1 (fun c v => { c with active_format_flag := v }) rw current).check
    fun rw current =>
  (read_fixed 6 1 rw current).check fun rw current =>
  if current.active_format_flag ≠ 0 then
    (read_fixed 4 0xf rw current).check fun rw current =>
    (read_xui 4 (fun c v => { c with active_format := v }) rw current).check fun rw current =>
    .ok rw current
  else
    .ok rw current

/-- The function `cbs_misc_read_a53_user_data`. -/
def cbs_misc_read_a53_user_data (rw : GetBitContext) (current : A53UserData) :
    Ret GetBitContext A53UserData :=
  (read_xui 32 (fun c v => { c with user_identifier := v }) rw current).check
    fun rw current =>
  if current.user_identifier = A53_USER_IDENTIFIER_ATSC then
    (cbs_misc_read_a53_atsc_user_data rw current.atsc).member
      fun c => { current with atsc := c }
  else if current.user_identifier = A53_USER_IDENTIFIER_AFD then
    (cbs_misc_read_a53_afd_data rw current.afd).member
      fun c => { current with afd := c }
  else
    .ok rw current

/-- The entry point `ff_cbs_read_a53_user_data`: `read_buffer` holds `length`
bytes and `data` is the record `*data` on entry. -/
def ff_cbs_read_a53_user_data (data : A53UserData) (read_buffer : List Nat) :
    Ret GetBitContext A53UserData :=
  match init_get_bits read_buffer (8 * read_buffer.length) with
  | .error err => .fail err data
  | .ok gbc => cbs_misc_read_a53_user_data gbc data

/-- The compound literal `ff_cbs_read_a53_cc_side_data` assigns to `*data`
before it reads the packets.  Every member the literal does not name is zero;
the union members it does not select are modelled as zero too. -/
def cc_side_data_init (cc_count : Nat) : A53UserData :=
  { user_identifier := A53_USER_IDENTIFIER_ATSC
    atsc :=
      { user_data_type_code := A53_USER_DATA_TYPE_CODE_CC_DATA
        cc_data :=
          { process_em_data_flag := 0
            process_cc_data_flag := 1
            additional_data_flag := 0
            em_data := 0
            cc_count := cc_count
            cc_data_pkts := List.replicate 31 ⟨0, 0, 0, 0⟩ }
        bar_data := ⟨0, 0, 0, 0, 0, 0, 0, 0⟩ }
    afd := ⟨0, 0⟩ }

/-- The entry point `ff_cbs_read_a53_cc_side_data`: `side_data` holds
`side_data_size` bytes and `data` is the record `*data` on entry.  The count
`side_data_size / 3` is assigned to the `int cc_count`, which the check
compares with 31, and `cc_count` is then assigned to the `uint8_t` field of
the record, which bounds the packet loop. -/
def ff_cbs_read_a53_cc_side_data (data : A53UserData) (side_data : List Nat) :
    Ret GetBitContext A53UserData :=
  let side_data_size := side_data.length
  if side_data_size % 3 ≠ 0 then .fail .EINVAL data
  else
    let cc_count := to_int ((side_data_size / 3 : Nat) : Int)
    if cc_count > 31 then .fail .EINVAL data
    else
      let data : A53UserData := cc_side_data_init (to_uint8 cc_count)
      match init_get_bits side_data (8 * side_data_size) with
      | .error err => .fail err data
      | .ok gbc =>
        (read_cc_data_pkts data.atsc.cc_data.cc_count 0 gbc data.atsc.cc_data).member
          fun c => { data with atsc := { data.atsc with cc_data := c } }

/-- Modelled from the spec: `av_reallocp` of libavutil is not part of the
sources.  The spec: "grows the destination buffer by exactly `3 × cc_count`
bytes"; the old content is kept and the added bytes, indeterminate in C, are
zero here.  A pointer is `none` when it is `NULL`; a request for zero bytes
releases the buffer. -/
def av_reallocp (ptr : Option (List Nat)) (size : Nat) : Except AVError (Option (List Nat)) :=
  if size = 0 then .ok none
  else .ok (some ((ptr.getD []).take size ++ List.replicate (size - (ptr.getD []).length) 0))

/-- The buffer after `bytes` have been stored at `offset`. -/
def store_bytes (buf : List Nat) (offset : Nat) (bytes : List Nat) : List Nat :=
  buf.take offset ++ bytes ++ buf.drop (offset + bytes.length)

/-- What `ff_cbs_write_a53_cc_side_data` leaves behind: the return value
(`none` is 0), the pointer `*side_data` and the size `*side_data_size`. -/
structure SideDataRet where
  ret : Option AVError
  side_data : Option (List Nat)
  side_data_size : Nat
  deriving DecidableEq, Repr

/-- The entry point `ff_cbs_write_a53_cc_side_data`. -/
def ff_cbs_write_a53_cc_side_data (side_data : Option (List Nat)) (side_data_size : Nat)
    (data : A53UserData) : SideDataRet :=
  if data.user_identifier ≠ A53_USER_IDENTIFIER_ATSC ∨
      data.atsc.user_data_type_code ≠ A53_USER_DATA_TYPE_CODE_CC_DATA then
    ⟨some .EINVAL, side_data, side_data_size⟩
  else
    let cc := data.atsc.cc_data
    match av_reallocp side_data (side_data_size + 3 * cc.cc_count) with
    | .error err => ⟨some err, none, side_data_size⟩
    | .ok side_data =>
      let pbc := init_put_bits (3 * cc.cc_count)
      match write_cc_data_pkts cc.cc_data_pkts cc.cc_count 0 pbc with
      | .error err => ⟨some err, none, side_data_size⟩
      | .ok pbc =>
        ⟨none, side_data.map fun buf => store_bytes buf side_data_size (flush_put_bits pbc),
          side_data_size + 3 * cc.cc_count⟩

/-! ## The bit layout of the records, and the values the grammar accepts

These definitions follow the layout of the spec (section 3); the theorems
below relate the grammar functions to them. -/

/-- Bits of a conditionally present bar line: the 2-bit marker 3 and the
14-bit line number when the flag is set, nothing otherwise. -/
def bar_line_bits (flag line : Nat) : List Bool :=
  if flag ≠ 0 then nat_bits 2 3 ++ nat_bits 14 line else []

/-- Bit layout of bar data. -/
def a53_bar_data_bits (c : A53BarData) : List Bool :=
  nat_bits 1 c.top_bar_flag ++ (nat_bits 1 c.bottom_bar_flag ++ (nat_bits 1 c.left_bar_flag ++
    (nat_bits 1 c.right_bar_flag ++ (nat_bits 4 0xf ++
    (bar_line_bits c.top_bar_flag c.line_number_end_of_top_bar ++
    (bar_line_bits c.bottom_bar_flag c.line_number_end_of_bottom_bar ++
    (bar_line_bits c.left_bar_flag c.line_number_end_of_left_bar ++
    bar_line_bits c.right_bar_flag c.line_number_end_of_right_bar)))))))

/-- Bit layout of one CC packet: marker 0x1f, valid, type and two data bytes. -/
def cea708_cc_data_packet_bits (p : CEA708CCDataPacket) : List Bool :=
  nat_bits 5 0x1f ++ (nat_bits 1 p.cc_valid ++ (nat_bits 2 p.cc_type ++
    (nat_bits 8 p.cc_data_1 ++ nat_bits 8 p.cc_data_2)))

/-- Bit layout of a sequence of CC packets. -/
def cc_data_pkts_bits : List CEA708CCDataPacket → List Bool
  | [] => []
  | p :: ps => cea708_cc_data_packet_bits p ++ cc_data_pkts_bits ps

/-- Bit layout of CC data: flags, count, `em_data`, the first `cc_count`
packets and the marker 0xff. -/
def cea708_cc_data_bits (c : CEA708CCData) : List Bool :=
  nat_bits 1 c.process_em_data_flag ++ (nat_bits 1 c.process_cc_data_flag ++
    (nat_bits 1 c.additional_data_flag ++ (nat_bits 5 c.cc_count ++ (nat_bits 8 c.em_data ++
    (cc_data_pkts_bits (c.cc_data_pkts.take c.cc_count) ++ nat_bits 8 0xff)))))

/-- Bit layout of ATSC user data. -/
def a53_atsc_user_data_bits (c : A53ATSCUserData) : List Bool :=
  nat_bits 8 c.user_data_type_code ++
    (if c.user_data_type_code = A53_USER_DATA_TYPE_CODE_CC_DATA then
      cea708_cc_data_bits c.cc_data
    else if c.user_data_type_code = A53_USER_DATA_TYPE_CODE_BAR_DATA then
      a53_bar_data_bits c.bar_data
    else [])

/-- Bit layout of AFD data. -/
def a53_afd_data_bits (c : A53AFDData) : List Bool :=
  nat_bits 1 0 ++ (nat_bits 1 c.active_format_flag ++ (nat_bits 6 1 ++
    (if c.active_format_flag ≠ 0 then nat_bits 4 0xf ++ nat_bits 4 c.active_format else [])))

/-- Bit layout of A/53 user data. -/
def a53_user_data_bits (c : A53UserData) : List Bool :=
  nat_bits 32 c.user_identifier ++
    (if c.user_identifier = A53_USER_IDENTIFIER_ATSC then a53_atsc_user_data_bits c.atsc
    else if c.user_identifier = A53_USER_IDENTIFIER_AFD then a53_afd_data_bits c.afd
    else [])

/-- Encoded size in bytes of A/53 user data. -/
def a53_user_data_size (c : A53UserData) : Nat :=
  4 +
    (if c.user_identifier = A53_USER_IDENTIFIER_ATSC then
      1 +
        (if c.atsc.user_data_type_code = A53_USER_DATA_TYPE_CODE_CC_DATA then
          2 + 3 * c.atsc.cc_data.cc_count + 1
        else if c.atsc.user_data_type_code = A53_USER_DATA_TYPE_CODE_BAR_DATA then
          1 + (if c.atsc.bar_data.top_bar_flag ≠ 0 then 2 else 0)
            + (if c.atsc.bar_data.bottom_bar_flag ≠ 0 then 2 else 0)
            + (if c.atsc.bar_data.left_bar_flag ≠ 0 then 2 else 0)
            + (if c.atsc.bar_data.right_bar_flag ≠ 0 then 2 else 0)
        else 0)
    else if c.user_identifier = A53_USER_IDENTIFIER_AFD then
      1 + (if c.afd.active_format_flag ≠ 0 then 1 else 0)
    else 0)

/-- The encoded fields of bar data fit their widths: each flag is one bit and
the line number of each set flag is 14 bits. -/
def A53BarData.Valid (c : A53BarData) : Prop :=
  c.top_bar_flag ≤ 1 ∧ c.bottom_bar_flag ≤ 1 ∧ c.left_bar_flag ≤ 1 ∧ c.right_bar_flag ≤ 1 ∧
  (c.top_bar_flag ≠ 0 → c.line_number_end_of_top_bar < 2 ^ 14) ∧
  (c.bottom_bar_flag ≠ 0 → c.line_number_end_of_bottom_bar < 2 ^ 14) ∧
  (c.left_bar_flag ≠ 0 → c.line_number_end_of_left_bar < 2 ^ 14) ∧
  (c.right_bar_flag ≠ 0 → c.line_number_end_of_right_bar < 2 ^ 14)

instance (c : A53BarData) : Decidable c.Valid := by
  unfold A53BarData.Valid; infer_instance

/-- The fields of a CC packet fit their widths. -/
def CEA708CCDataPacket.Valid (p : CEA708CCDataPacket) : Prop :=
  p.cc_valid ≤ 1 ∧ p.cc_type ≤ 3 ∧ p.cc_data_1 ≤ 255 ∧ p.cc_data_2 ≤ 255

instance (p : CEA708CCDataPacket) : Decidable p.Valid := by
  unfold CEA708CCDataPacket.Valid; infer_instance

/-- The encoded fields of CC data fit their widths: flags of one bit, a count
of at most 31, `em_data` of 8 bits, and the first `cc_count` packets valid;
the packet array has its 31 entries. -/
def CEA708CCData.Valid (c : CEA708CCData) : Prop :=
  c.process_em_data_flag ≤ 1 ∧ c.process_cc_data_flag ≤ 1 ∧ c.additional_data_flag ≤ 1 ∧
  c.cc_count ≤ 31 ∧ c.em_data ≤ 255 ∧ c.cc_data_pkts.length = 31 ∧
  ∀ p ∈ c.cc_data_pkts.take c.cc_count, p.Valid

instance (c : CEA708CCData) : Decidable c.Valid := by
  unfold CEA708CCData.Valid; infer_instance

/-- The encoded fields of ATSC user data fit their widths. -/
def A53ATSCUserData.Valid (c : A53ATSCUserData) : Prop :=
  c.user_data_type_code ≤ 255 ∧
  (c.user_data_type_code = A53_USER_DATA_TYPE_CODE_CC_DATA → c.cc_data.Valid) ∧
  (c.user_data_type_code = A53_USER_DATA_TYPE_CODE_BAR_DATA → c.bar_data.Valid)

instance (c : A53ATSCUserData) : Decidable c.Valid := by
  unfold A53ATSCUserData.Valid; infer_instance

/-- The encoded fields of AFD data fit their widths. -/
def A53AFDData.Valid (c : A53AFDData) : Prop :=
  c.active_format_flag ≤ 1 ∧ (c.active_format_flag ≠ 0 → c.active_format ≤ 15)

instance (c : A53AFDData) : Decidable c.Valid := by
  unfold A53AFDData.Valid; infer_instance

/-- Every field that the grammar encodes for this value fits its bit width. -/
def A53UserData.Valid (c : A53UserData) : Prop :=
  c.user_identifier < 2 ^ 32 ∧
  (c.user_identifier = A53_USER_IDENTIFIER_ATSC → c.atsc.Valid) ∧
  (c.user_identifier = A53_USER_IDENTIFIER_AFD → c.afd.Valid)

instance (c : A53UserData) : Decidable c.Valid := by
  unfold A53UserData.Valid; infer_instance

/-- A checked append to a write cursor: the bits are appended when they fit,
and the call fails with out-of-space otherwise. -/
def put_chk (rw : PutBitContext) (bs : List Bool) : Except AVError PutBitContext :=
  if bs.length ≤ rw.size_in_bits - rw.bits.length then .ok ⟨rw.bits ++ bs, rw.size_in_bits⟩
  else .error .ENOSPC

/-- The read cursor advanced by `n` bits. -/
def GetBitContext.adv (rw : GetBitContext) (n : Nat) : GetBitContext :=
  { rw with index := rw.index + n }

/-- The cursor covers its whole buffer, stands inside it, and `bits` are the
bits from its position to the end of the buffer. -/
def Reads (rw : GetBitContext) (bits : List Bool) : Prop :=
  rw.size_in_bits = 8 * rw.buffer.length ∧ rw.index ≤ 8 * rw.buffer.length ∧
  (bytes_to_bits rw.buffer).drop rw.index = bits

/-- What decoding the encoding of bar data `v` into the record `d` leaves:
the flags of `v`, the line numbers of `v` whose flag is set, and the other
line numbers of `d`. -/
def A53BarData.decoded (v d : A53BarData) : A53BarData :=
  { top_bar_flag := v.top_bar_flag
    bottom_bar_flag := v.bottom_bar_flag
    left_bar_flag := v.left_bar_flag
    right_bar_flag := v.right_bar_flag
    line_number_end_of_top_bar :=
      if v.top_bar_flag ≠ 0 then v.line_number_end_of_top_bar
      else d.line_number_end_of_top_bar
    line_number_end_of_bottom_bar :=
      if v.bottom_bar_flag ≠ 0 then v.line_number_end_of_bottom_bar
      else d.line_number_end_of_bottom_bar
    line_number_end_of_left_bar :=
      if v.left_bar_flag ≠ 0 then v.line_number_end_of_left_bar
      else d.line_number_end_of_left_bar
    line_number_end_of_right_bar :=
      if v.right_bar_flag ≠ 0 then v.line_number_end_of_right_bar
      else d.line_number_end_of_right_bar }

/-- What decoding the encoding of CC data `v` into the record `d` leaves: the
flags, count and `em_data` of `v`, the first `cc_count` packets of `v`, and
the remaining packets of `d`. -/
def CEA708CCData.decoded (v d : CEA708CCData) : CEA708CCData :=
  { process_em_data_flag := v.process_em_data_flag
    process_cc_data_flag := v.process_cc_data_flag
    additional_data_flag := v.additional_data_flag
    em_data := v.em_data
    cc_count := v.cc_count
    cc_data_pkts := v.cc_data_pkts.take v.cc_count ++ d.cc_data_pkts.drop v.cc_count }

/-- What the embedded reader leaves when it decodes the encoding of ATSC user
data `v` into `d`: the type code of `v` and the decoded member the type code
selects.  The other member, which shares its storage in C and is not
meaningful there, is that of `d` in the embedding. -/
def A53ATSCUserData.decoded (v d : A53ATSCUserData) : A53ATSCUserData :=
  { user_data_type_code := v.user_data_type_code
    cc_data :=
      if v.user_data_type_code = A53_USER_DATA_TYPE_CODE_CC_DATA then
        v.cc_data.decoded d.cc_data
      else d.cc_data
    bar_data :=
      if v.user_data_type_code = A53_USER_DATA_TYPE_CODE_CC_DATA then d.bar_data
      else if v.user_data_type_code = A53_USER_DATA_TYPE_CODE_BAR_DATA then
        v.bar_data.decoded d.bar_data
      else d.bar_data }

/-- What decoding the encoding of AFD data `v` into `d` leaves: the flag of
`v`, and the active format of `v` when the flag is set, of `d` otherwise. -/
def A53AFDData.decoded (v d : A53AFDData) : A53AFDData :=
  { active_format_flag := v.active_format_flag
    active_format := if v.active_format_flag ≠ 0 then v.active_format else d.active_format }

/-- What the embedded reader leaves when it decodes the encoding of A/53 user
data `v` into the record `d`: the identifier of `v` and the decoded member the
identifier selects.  The other member, which shares its storage in C and is
not meaningful there, is that of `d` in the embedding. -/
def A53UserData.decoded (v d : A53UserData) : A53UserData :=
  { user_identifier := v.user_identifier
    atsc :=
      if v.user_identifier = A53_USER_IDENTIFIER_ATSC then v.atsc.decoded d.atsc else d.atsc
    afd :=
      if v.user_identifier = A53_USER_IDENTIFIER_ATSC then d.afd
      else if v.user_identifier = A53_USER_IDENTIFIER_AFD then v.afd.decoded d.afd
      else d.afd }

/-- The record `r` holds the value of `v` in the identifier and in every field
that the grammar encodes for `v`: for ATSC data the type code; for CC data the
three flags, `cc_count`, `em_data` and the first `cc_count` packets; for bar
data the four flags and the line number of each set flag; for AFD data
`active_format_flag` and, when it is set, `active_format`. -/
def A53UserData.EncodedEq (r v : A53UserData) : Prop :=
  r.user_identifier = v.user_identifier ∧
  (v.user_identifier = A53_USER_IDENTIFIER_ATSC →
    r.atsc.user_data_type_code = v.atsc.user_data_type_code ∧
    (v.atsc.user_data_type_code = A53_USER_DATA_TYPE_CODE_CC_DATA →
      r.atsc.cc_data.process_em_data_flag = v.atsc.cc_data.process_em_data_flag ∧
      r.atsc.cc_data.process_cc_data_flag = v.atsc.cc_data.process_cc_data_flag ∧
      r.atsc.cc_data.additional_data_flag = v.atsc.cc_data.additional_data_flag ∧
      r.atsc.cc_data.cc_count = v.atsc.cc_data.cc_count ∧
      r.atsc.cc_data.em_data = v.atsc.cc_data.em_data ∧
      r.atsc.cc_data.cc_data_pkts.take v.atsc.cc_data.cc_count =
        v.atsc.cc_data.cc_data_pkts.take v.atsc.cc_data.cc_count) ∧
    (v.atsc.user_data_type_code = A53_USER_DATA_TYPE_CODE_BAR_DATA →
      r.atsc.bar_data.top_bar_flag = v.atsc.bar_data.top_bar_flag ∧
      r.atsc.bar_data.bottom_bar_flag = v.atsc.bar_data.bottom_bar_flag ∧
      r.atsc.bar_data.left_bar_flag = v.atsc.bar_data.left_bar_flag ∧
      r.atsc.bar_data.right_bar_flag = v.atsc.bar_data.right_bar_flag ∧
      (v.atsc.bar_data.top_bar_flag ≠ 0 →
        r.atsc.bar_data.line_number_end_of_top_bar =
          v.atsc.bar_data.line_number_end_of_top_bar) ∧
      (v.atsc.bar_data.bottom_bar_flag ≠ 0 →
        r.atsc.bar_data.line_number_end_of_bottom_bar =
          v.atsc.bar_data.line_number_end_of_bottom_bar) ∧
      (v.atsc.bar_data.left_bar_flag ≠ 0 →
        r.atsc.bar_data.line_number_end_of_left_bar =
          v.atsc.bar_data.line_number_end_of_left_bar) ∧
      (v.atsc.bar_data.right_bar_flag ≠ 0 →
        r.atsc.bar_data.line_number_end_of_right_bar =
          v.atsc.bar_data.line_number_end_of_right_bar))) ∧
  (v.user_identifier = A53_USER_IDENTIFIER_AFD →
    r.afd.active_format_flag = v.afd.active_format_flag ∧
    (v.afd.active_format_flag ≠ 0 → r.afd.active_format = v.afd.active_format))

instance (r v : A53UserData) : Decidable (r.EncodedEq v) := by
  unfold A53UserData.EncodedEq; infer_instance

/-- The packets a side-data payload carries, one per triplet of bytes: valid
is bit 2 and type the two low bits of the first byte, the data bytes follow. -/
def side_data_pkts : List Nat → List CEA708CCDataPacket
  | b0 :: b1 :: b2 :: rest => ⟨b0 / 4 % 2, b0 % 4, b1, b2⟩ :: side_data_pkts rest
  | _ => []

/-- The triplet of bytes that carries a packet in side data. -/
def pkt_side_data (p : CEA708CCDataPacket) : List Nat :=
  [0xF8 ||| (p.cc_valid <<< 2) ||| p.cc_type, p.cc_data_1, p.cc_data_2]

/-- The side-data bytes of a sequence of packets. -/
def pkts_side_data : List CEA708CCDataPacket → List Nat
  | [] => []
  | p :: ps => pkt_side_data p ++ pkts_side_data ps

/-- The write cursor `rw1` is `rw` with the bits `bs` appended. -/
def Wrote (rw : PutBitContext) (bs : List Bool) (rw1 : PutBitContext) : Prop :=
  rw1 = ⟨rw.bits ++ bs, rw.size_in_bits⟩

/-- Reading from `rw` consumed exactly the bits `bs` and arrived at `rw1`. -/
def Consumed (rw : GetBitContext) (bs : List Bool) (rw1 : GetBitContext) : Prop :=
  rw1 = rw.adv bs.length ∧ ∃ rest, Reads rw (bs ++ rest)

/-- Every failure of a read is the invalid-data condition. -/
def FailsInvalid {ρ τ : Type} (r : Ret ρ τ) : Prop :=
  ∀ e c, r = .fail e c → e = .INVALIDDATA

/-! ## Streams with arbitrary fixed fields -/

/-- Values carried by a stream at the positions of the fixed fields of the
grammar: the marker of each CC packet (by index), the marker closing CC data,
the reserved bits of bar data and the 2-bit marker of each of its four lines,
and the zero bit, alignment bits and reserved bits of AFD data. -/
structure FixedFields where
  pkt_marker_bits : Nat → Nat
  marker_bits : Nat
  bar_reserved : Nat
  top_one_bits : Nat
  bottom_one_bits : Nat
  left_one_bits : Nat
  right_one_bits : Nat
  zero_bit : Nat
  alignment_bits : Nat
  afd_reserved : Nat

/-- The values that the grammar expects in the fixed fields. -/
def FixedFields.expected : FixedFields :=
  ⟨fun _ => 0x1f, 0xff, 0xf, 3, 3, 3, 3, 0, 1, 0xf⟩

/-- Every value fits the width of its field. -/
def FixedFields.InRange (fx : FixedFields) : Prop :=
  (∀ i, i < 31 → fx.pkt_marker_bits i < 2 ^ 5) ∧ fx.marker_bits < 2 ^ 8 ∧
  fx.bar_reserved < 2 ^ 4 ∧ fx.top_one_bits < 2 ^ 2 ∧ fx.bottom_one_bits < 2 ^ 2 ∧
  fx.left_one_bits < 2 ^ 2 ∧ fx.right_one_bits < 2 ^ 2 ∧ fx.zero_bit < 2 ^ 1 ∧
  fx.alignment_bits < 2 ^ 6 ∧ fx.afd_reserved < 2 ^ 4

instance (fx : FixedFields) : Decidable fx.InRange := by
  unfold FixedFields.InRange; infer_instance

/-- Bits of a conditionally present bar line whose marker holds `one_bits`. -/
def bar_line_stream (flag one_bits line : Nat) : List Bool :=
  if flag ≠ 0 then nat_bits 2 one_bits ++ nat_bits 14 line else []

/-- Bits of bar data whose fixed fields hold the values `fx`. -/
def a53_bar_data_stream (fx : FixedFields) (c : A53BarData) : List Bool :=
  nat_bits 1 c.top_bar_flag ++ (nat_bits 1 c.bottom_bar_flag ++ (nat_bits 1 c.left_bar_flag ++
    (nat_bits 1 c.right_bar_flag ++ (nat_bits 4 fx.bar_reserved ++
    (bar_line_stream c.top_bar_flag fx.top_one_bits c.line_number_end_of_top_bar ++
    (bar_line_stream c.bottom_bar_flag fx.bottom_one_bits c.line_number_end_of_bottom_bar ++
    (bar_line_stream c.left_bar_flag fx.left_one_bits c.line_number_end_of_left_bar ++
    bar_line_stream c.right_bar_flag fx.right_one_bits c.line_number_end_of_right_bar)))))))

/-- Bits of one CC packet whose marker holds `m`. -/
def cea708_cc_data_packet_stream (m : Nat) (p : CEA708CCDataPacket) : List Bool :=
  nat_bits 5 m ++ (nat_bits 1 p.cc_valid ++ (nat_bits 2 p.cc_type ++
    (nat_bits 8 p.cc_data_1 ++ nat_bits 8 p.cc_data_2)))

/-- Bits of a sequence of CC packets, the packet at position `j` of the list
having the marker `m (i + j)`. -/
def cc_data_pkts_stream (m : Nat → Nat) : Nat → List CEA708CCDataPacket → List Bool
  | _, [] => []
  | i, p :: ps => cea708_cc_data_packet_stream (m i) p ++ cc_data_pkts_stream m (i + 1) ps

/-- Bits of CC data whose fixed fields hold the values `fx`. -/
def cea708_cc_data_stream (fx : FixedFields) (c : CEA708CCData) : List Bool :=
  nat_bits 1 c.process_em_data_flag ++ (nat_bits 1 c.process_cc_data_flag ++
    (nat_bits 1 c.additional_data_flag ++ (nat_bits 5 c.cc_count ++ (nat_bits 8 c.em_data ++
    (cc_data_pkts_stream fx.pkt_marker_bits 0 (c.cc_data_pkts.take c.cc_count) ++
      nat_bits 8 fx.marker_bits)))))

/-- Bits of ATSC user data whose fixed fields hold the values `fx`. -/
def a53_atsc_user_data_stream (fx : FixedFields) (c : A53ATSCUserData) : List Bool :=
  nat_bits 8 c.user_data_type_code ++
    (if c.user_data_type_code = A53_USER_DATA_TYPE_CODE_CC_DATA then
      cea708_cc_data_stream fx c.cc_data
    else if c.user_data_type_code = A53_USER_DATA_TYPE_CODE_BAR_DATA then
      a53_bar_data_stream fx c.bar_data
    else [])

/-- Bits of AFD data whose fixed fields hold the values `fx`. -/
def a53_afd_data_stream (fx : FixedFields) (c : A53AFDData) : List Bool :=
  nat_bits 1 fx.zero_bit ++ (nat_bits 1 c.active_format_flag ++ (nat_bits 6 fx.alignment_bits ++
    (if c.active_format_flag ≠ 0 then nat_bits 4 fx.afd_reserved ++ nat_bits 4 c.active_format
    else [])))

/-- Bits of A/53 user data whose fixed fields hold the values `fx`: the shape
of the grammar, field by field, with arbitrary content in the fixed fields. -/
def a53_user_data_stream (fx : FixedFields) (c : A53UserData) : List Bool :=
  nat_bits 32 c.user_identifier ++
    (if c.user_identifier = A53_USER_IDENTIFIER_ATSC then a53_atsc_user_data_stream fx c.atsc
    else if c.user_identifier = A53_USER_IDENTIFIER_AFD then a53_afd_data_stream fx c.afd
    else [])

/-- Some fixed field of bar data that the grammar reads for `c` differs from
its expected value. -/
def A53BarData.Mismatch (fx : FixedFields) (c : A53BarData) : Prop :=
  fx.bar_reserved ≠ 0xf ∨ (c.top_bar_flag ≠ 0 ∧ fx.top_one_bits ≠ 3) ∨
  (c.bottom_bar_flag ≠ 0 ∧ fx.bottom_one_bits ≠ 3) ∨
  (c.left_bar_flag ≠ 0 ∧ fx.left_one_bits ≠ 3) ∨
  (c.right_bar_flag ≠ 0 ∧ fx.right_one_bits ≠ 3)

/-- Some fixed field of CC data that the grammar reads for `c` differs from
its expected value: the marker of one of the `cc_count` packets or the closing
marker. -/
def CEA708CCData.Mismatch (fx : FixedFields) (c : CEA708CCData) : Prop :=
  (∃ i, i < c.cc_count ∧ fx.pkt_marker_bits i ≠ 0x1f) ∨ fx.marker_bits ≠ 0xff

/-- Some fixed field of AFD data that the grammar reads for `c` differs from
its expected value. -/
def A53AFDData.Mismatch (fx : FixedFields) (c : A53AFDData) : Prop :=
  fx.zero_bit ≠ 0 ∨ fx.alignment_bits ≠ 1 ∨ (c.active_format_flag ≠ 0 ∧ fx.afd_reserved ≠ 0xf)

/-- Some fixed field of the grammar dispatched for `c` differs from its
expected value. -/
def A53UserData.Mismatch (fx : FixedFields) (c : A53UserData) : Prop :=
  (c.user_identifier = A53_USER_IDENTIFIER_ATSC ∧
    c.atsc.user_data_type_code = A53_USER_DATA_TYPE_CODE_CC_DATA ∧ c.atsc.cc_data.Mismatch fx) ∨
  (c.user_identifier = A53_USER_IDENTIFIER_ATSC ∧
    c.atsc.user_data_type_code = A53_USER_DATA_TYPE_CODE_BAR_DATA ∧ c.atsc.bar_data.Mismatch fx) ∨
  (c.user_identifier = A53_USER_IDENTIFIER_AFD ∧ c.afd.Mismatch fx)

/-! ## The EIA-608 caption decoder (`ccaption_dec.c`): data

Conventions of this part
* `struct Screen` holds three grids of `SCREEN_ROWS` rows of
  `SCREEN_COLUMNS + 1` bytes; a grid is a list of rows and a row a list of
  bytes.  The `int16_t` mask `row_used` is the natural number with the same
  16-bit pattern.
* The two screens of a context are a pair; a pointer to one of them
  (`ctx->screen + n`) is its index `n`.
* A function that returns `void` and mutates the context returns the context
  as the call leaves it.
* An access to a grid row beyond row 14, to a screen other than 0 and 1, or a
  string scan over a row that holds no zero byte leave the object in C; the
  definitions below are exact on contexts where these do not occur, and the
  theorems state such conditions as hypotheses where they depend on them.
  The one access of this kind that the decoder makes from a context with its
  cursor inside the grid is the read of row 15 by `roll_up`, which `grid_row`
  models by the layout of `struct Screen`.
* `char` and `uint8_t` values are the byte they hold; the byte pairs handed
  to `process_cc608` are 7-bit values, on which the two types agree.
-/

/-- Number of rows of a screen. -/
def SCREEN_ROWS : Nat := 15

/-- Number of character columns of a row (a row holds one more byte, for the
terminating zero). -/
def SCREEN_COLUMNS : Nat := 32

/-- The macro `SET_FLAG(var, val)`: `var |= 1 << val`. -/
def SET_FLAG (var val : Nat) : Nat := var ||| (1 <<< val)

/-- The macro `UNSET_FLAG(var, val)`: `var &= ~(1 << val)`, on the 16-bit
pattern of the mask. -/
def UNSET_FLAG (var val : Nat) : Nat := var &&& (0xFFFF ^^^ (1 <<< val))

/-- The macro `CHECK_FLAG(var, val)`: `var & (1 << val)`. -/
def CHECK_FLAG (var val : Nat) : Nat := var &&& (1 <<< val)

/-- The display modes, `enum cc_mode`. -/
inductive cc_mode where
  | CCMODE_POPON
  | CCMODE_PAINTON
  | CCMODE_ROLLUP
  | CCMODE_TEXT
  deriving DecidableEq, Repr

def CCCOL_WHITE : Nat := 0
def CCCOL_GREEN : Nat := 1
def CCCOL_BLUE : Nat := 2
def CCCOL_CYAN : Nat := 3
def CCCOL_RED : Nat := 4
def CCCOL_YELLOW : Nat := 5
def CCCOL_MAGENTA : Nat := 6
def CCCOL_USERDEFINED : Nat := 7
def CCCOL_BLACK : Nat := 8
def CCCOL_TRANSPARENT : Nat := 9

def CCFONT_REGULAR : Nat := 0
def CCFONT_ITALICS : Nat := 1
def CCFONT_UNDERLINED : Nat := 2
def CCFONT_UNDERLINED_ITALICS : Nat := 3

/-- The table `pac2_attribs`: colour, font and indent of the 32 attribute
codes. -/
def pac2_attribs : List (Nat × Nat × Nat) :=
  [ (CCCOL_WHITE, CCFONT_REGULAR, 0),
    (CCCOL_WHITE, CCFONT_UNDERLINED, 0),
    (CCCOL_GREEN, CCFONT_REGULAR, 0),
    (CCCOL_GREEN, CCFONT_UNDERLINED, 0),
    (CCCOL_BLUE, CCFONT_REGULAR, 0),
    (CCCOL_BLUE, CCFONT_UNDERLINED, 0),
    (CCCOL_CYAN, CCFONT_REGULAR, 0),
    (CCCOL_CYAN, CCFONT_UNDERLINED, 0),
    (CCCOL_RED, CCFONT_REGULAR, 0),
    (CCCOL_RED, CCFONT_UNDERLINED, 0),
    (CCCOL_YELLOW, CCFONT_REGULAR, 0),
    (CCCOL_YELLOW, CCFONT_UNDERLINED, 0),
    (CCCOL_MAGENTA, CCFONT_REGULAR, 0),
    (CCCOL_MAGENTA, CCFONT_UNDERLINED, 0),
    (CCCOL_WHITE, CCFONT_ITALICS, 0),
    (CCCOL_WHITE, CCFONT_UNDERLINED_ITALICS, 0),
    (CCCOL_WHITE, CCFONT_REGULAR, 0),
    (CCCOL_WHITE, CCFONT_UNDERLINED, 0),
    (CCCOL_WHITE, CCFONT_REGULAR, 4),
    (CCCOL_WHITE, CCFONT_UNDERLINED, 4),
    (CCCOL_WHITE, CCFONT_REGULAR, 8),
    (CCCOL_WHITE, CCFONT_UNDERLINED, 8),
    (CCCOL_WHITE, CCFONT_REGULAR, 12),
    (CCCOL_WHITE, CCFONT_UNDERLINED, 12),
    (CCCOL_WHITE, CCFONT_REGULAR, 16),
    (CCCOL_WHITE, CCFONT_UNDERLINED, 16),
    (CCCOL_WHITE, CCFONT_REGULAR, 20),
    (CCCOL_WHITE, CCFONT_UNDERLINED, 20),
    (CCCOL_WHITE, CCFONT_REGULAR, 24),
    (CCCOL_WHITE, CCFONT_UNDERLINED, 24),
    (CCCOL_WHITE, CCFONT_REGULAR, 28),
    (CCCOL_WHITE, CCFONT_UNDERLINED, 28) ]

/-- One caption screen, `struct Screen`. -/
structure Screen where
  characters : List (List Nat)
  colors : List (List Nat)
  fonts : List (List Nat)
  row_used : Nat
  deriving DecidableEq, Repr

/-- The decoder context, `CCaptionSubContext` (the `class` pointer apart).
`buffer` is the text held by the `AVBPrint`, `prev_string` the held cue text
(`none` for `NULL`), `pktbuf` the bytes of the packet buffer. -/
structure CCaptionSubContext where
  real_time : Nat
  screen : Screen × Screen
  active_screen : Nat
  cursor_row : Nat
  cursor_column : Nat
  cursor_color : Nat
  cursor_font : Nat
  buffer : List Nat
  screen_reaped : Nat
  rollup : Int
  mode : cc_mode
  prev_string : Option (List Nat)
  prev_time : Int
  prev_cmd : Nat × Nat
  pktbuf : List Nat
  deriving DecidableEq, Repr

/-- The screen `ctx->screen[n]`. -/
def CCaptionSubContext.screen_at (ctx : CCaptionSubContext) (n : Nat) : Screen :=
  if n = 0 then ctx.screen.1 else ctx.screen.2

/-- The context after the store `ctx->screen[n] = s`. -/
def CCaptionSubContext.set_screen (ctx : CCaptionSubContext) (n : Nat) (s : Screen) :
    CCaptionSubContext :=
  if n = 0 then { ctx with screen := (s, ctx.screen.2) }
  else { ctx with screen := (ctx.screen.1, s) }

/-- The C negation `!x` of an integer. -/
def lnot (x : Nat) : Nat := if x = 0 then 1 else 0

/-- The bytes of a C string: those before the first zero byte. -/
def c_str (s : List Nat) : List Nat := s.takeWhile (fun c => c ≠ 0)

/-- The effect of `memcpy(dst, src, n)` on `dst`. -/
def memcpy (dst src : List Nat) (n : Nat) : List Nat := src.take n ++ dst.drop n

/-- Modelled from the spec: `av_parity` of libavutil, which is not among the
sources; the parity of the number of one bits of a byte, 1 when the byte has
odd parity and 0 otherwise. -/
def av_parity (v : Nat) : Nat := ((nat_bits 8 v).count true) % 2

/-! ## The EIA-608 caption decoder: the state machine -/

/-- `write_char`: store `ch` at column `col` of the row when the column is
one of the 32 character columns, or the terminator column and `ch` is zero;
otherwise leave the row and report invalid data. -/
def write_char (row : List Nat) (col ch : Nat) : List Nat × Option AVError :=
  if col < SCREEN_COLUMNS then (row.set col ch, none)
  else if col = SCREEN_COLUMNS ∧ ch = 0 then (row.set col ch, none)
  else (row, some .INVALIDDATA)

/-- `validate_cc_data_pair` on the three bytes of a unit: the return code
(`none` for 0) and the three bytes as the call leaves them. -/
def validate_cc_data_pair (cc_data_pair : Nat × Nat × Nat) :
    Option AVError × (Nat × Nat × Nat) :=
  let p0 := cc_data_pair.1
  let p1 := cc_data_pair.2.1
  let p2 := cc_data_pair.2.2
  let cc_valid := (p0 &&& 4) >>> 2
  let cc_type := p0 &&& 3
  if cc_valid = 0 then (some .INVALIDDATA, (p0, p1, p2))
  else if (cc_type = 0 ∨ cc_type = 1) ∧ av_parity p2 = 0 then
    (some .INVALIDDATA, (p0, p1, p2))
  else
    let p1 := if (cc_type = 0 ∨ cc_type = 1) ∧ av_parity p1 = 0 then 0x7F else p1
    if (p0 = 0xFA ∨ p0 = 0xFC ∨ p0 = 0xFD) ∧ p1 &&& 0x7F = 0 ∧ p2 &&& 0x7F = 0 then
      (some .PATCHWELCOME, (p0, p1, p2))
    else if cc_type = 3 ∨ cc_type = 2 then (some .PATCHWELCOME, (p0, p1, p2))
    else (none, (p0, p1 &&& 0x7F, p2 &&& 0x7F))

/-- `get_writing_screen`, as the index of the screen it points to: the
inactive screen in POP-ON mode, the active one in the other modes. -/
def get_writing_screen (ctx : CCaptionSubContext) : Nat :=
  match ctx.mode with
  | .CCMODE_POPON => lnot ctx.active_screen
  | .CCMODE_PAINTON => ctx.active_screen
  | .CCMODE_ROLLUP => ctx.active_screen
  | .CCMODE_TEXT => ctx.active_screen

/-- The first loop of `roll_up`: `for (i = 0; i < n; i++) UNSET_FLAG(row_used, i)`
with `n = cursor_row - keep_lines`, started at `i`. -/
def roll_up_unset (n : Int) : Nat → Int → Nat → Nat
  | 0, _, row_used => row_used
  | fuel + 1, i, row_used =>
    if i < n then roll_up_unset n fuel (i + 1) (UNSET_FLAG row_used i.toNat) else row_used

/-- The row `grid[i]` that a copy of `roll_up` reads, for `i` up to
`SCREEN_ROWS`.  Row `SCREEN_ROWS` lies one row past the grid; the arrays of
`struct Screen` follow one another, so the bytes that C reads there are those
of `after`, the first row of what follows the grid. -/
def grid_row (grid : List (List Nat)) (after : List Nat) (i : Nat) : List Nat :=
  if i < SCREEN_ROWS then grid.getD i [] else after

/-- The bytes that follow the `fonts` grid of a screen (a padding byte,
`row_used` and what follows the screen).  They are not part of the embedding
and read as zero; nothing but the copies of `roll_up` reads the `fonts`
grid. -/
def after_fonts : List Nat := List.replicate (SCREEN_COLUMNS + 1) 0

/-- The second loop of `roll_up`:
`for (i = 0; i < keep_lines && screen->row_used; i++)`, started at `i`.  Row
`i_row` takes the 32 characters, colours and fonts of row `i_row + 1` and is
marked used when that row is.  In the last turn `i_row + 1` is
`cursor_row + 1`, which is row 15 when the cursor is on row 14. -/
def roll_up_shift (cursor_row : Nat) (keep_lines : Int) : Nat → Int → Screen → Screen
  | 0, _, screen => screen
  | fuel + 1, i, screen =>
    if i < keep_lines ∧ screen.row_used ≠ 0 then
      let i_row := ((cursor_row : Int) - keep_lines + i + 1).toNat
      let screen :=
        { screen with
          characters := screen.characters.set i_row
            (memcpy (screen.characters.getD i_row [])
              (grid_row screen.characters (screen.colors.getD 0 []) (i_row + 1))
              SCREEN_COLUMNS) }
      let screen :=
        { screen with
          colors := screen.colors.set i_row
            (memcpy (screen.colors.getD i_row [])
              (grid_row screen.colors (screen.fonts.getD 0 []) (i_row + 1))
              SCREEN_COLUMNS) }
      let screen :=
        { screen with
          fonts := screen.fonts.set i_row
            (memcpy (screen.fonts.getD i_row [])
              (grid_row screen.fonts after_fonts (i_row + 1))
              SCREEN_COLUMNS) }
      let screen :=
        if CHECK_FLAG screen.row_used (i_row + 1) ≠ 0 then
          { screen with row_used := SET_FLAG screen.row_used i_row }
        else screen
      roll_up_shift cursor_row keep_lines fuel (i + 1) screen
    else screen

/-- `roll_up`.  Each loop runs at most as many times as its bound, which is
the fuel it is given. -/
def roll_up (ctx : CCaptionSubContext) : CCaptionSubContext :=
  if ctx.mode = .CCMODE_TEXT then ctx
  else
    let n := get_writing_screen ctx
    let screen := ctx.screen_at n
    let keep_lines : Int := min ((ctx.cursor_row : Int) + 1) ctx.rollup
    let screen :=
      { screen with
        row_used := roll_up_unset ((ctx.cursor_row : Int) - keep_lines)
          ((ctx.cursor_row : Int) - keep_lines).toNat 0 screen.row_used }
    let screen := roll_up_shift ctx.cursor_row keep_lines keep_lines.toNat 0 screen
    let screen := { screen with row_used := UNSET_FLAG screen.row_used ctx.cursor_row }
    ctx.set_screen n screen

/-- The loop of `reap_screen`:
`for (i = 0; screen->row_used && i < SCREEN_ROWS; i++)`, started at `i`; each
used row appends its text, after its leading spaces, and the marker `\N`. -/
def reap_screen_rows (screen : Screen) : Nat → Nat → List Nat → List Nat
  | 0, _, buffer => buffer
  | fuel + 1, i, buffer =>
    if screen.row_used ≠ 0 ∧ i < SCREEN_ROWS then
      reap_screen_rows screen fuel (i + 1)
        (if CHECK_FLAG screen.row_used i ≠ 0 then
          buffer ++ c_str ((screen.characters.getD i []).dropWhile (fun c => c = 0x20)) ++
            [0x5c, 0x4e]
        else buffer)
    else buffer

/-- `reap_screen` (its return value, which every caller discards, apart).
The print buffer is unlimited and its growth succeeds, so the out-of-memory
exit of the loop is not taken. -/
def reap_screen (ctx : CCaptionSubContext) : CCaptionSubContext :=
  let screen := ctx.screen_at ctx.active_screen
  let buffer := reap_screen_rows screen SCREEN_ROWS 0 []
  let buffer :=
    if screen.row_used ≠ 0 ∧ buffer.length ≥ 2 then buffer.take (buffer.length - 2) else buffer
  { ctx with buffer := buffer, screen_reaped := 1 }

/-- `handle_textattr`; `i = lo - 0x20` is computed for `lo ≥ 0x20`, as in
every call. -/
def handle_textattr (ctx : CCaptionSubContext) (_hi lo : Nat) : CCaptionSubContext :=
  let i := lo - 0x20
  let n := get_writing_screen ctx
  let screen := ctx.screen_at n
  let row := screen.characters.getD ctx.cursor_row []
  if i ≥ 32 then ctx
  else
    let ctx :=
      { ctx with
        cursor_color := (pac2_attribs.getD i (0, 0, 0)).1
        cursor_font := (pac2_attribs.getD i (0, 0, 0)).2.1 }
    let screen := { screen with row_used := SET_FLAG screen.row_used ctx.cursor_row }
    let w := write_char row ctx.cursor_column 0x20
    let screen := { screen with characters := screen.characters.set ctx.cursor_row w.1 }
    let ctx := ctx.set_screen n screen
    if w.2 = none then { ctx with cursor_column := ctx.cursor_column + 1 } else ctx

/-- The table `row_map` of `handle_pac`. -/
def row_map : List Int := [11, -1, 1, 2, 3, 4, 12, 13, 14, 15, 5, 6, 7, 8, 9, 10]

/-- The loop of `handle_pac`: `indent` times, write a space at the cursor
column and advance it when the write succeeded. -/
def handle_pac_indent : Nat → List Nat × Nat → List Nat × Nat
  | 0, s => s
  | indent + 1, (row, cursor_column) =>
    let w := write_char row cursor_column 0x20
    handle_pac_indent indent (w.1, if w.2 = none then cursor_column + 1 else cursor_column)

/-- `handle_pac`. -/
def handle_pac (ctx : CCaptionSubContext) (hi lo : Nat) : CCaptionSubContext :=
  let index := ((hi <<< 1) &&& 0x0e) ||| ((lo >>> 5) &&& 0x01)
  let n := get_writing_screen ctx
  let screen := ctx.screen_at n
  if row_map.getD index 0 ≤ 0 then ctx
  else
    let lo := lo &&& 0x1f
    let ctx :=
      { ctx with
        cursor_row := (row_map.getD index 0 - 1).toNat
        cursor_color := (pac2_attribs.getD lo (0, 0, 0)).1
        cursor_font := (pac2_attribs.getD lo (0, 0, 0)).2.1
        cursor_column := 0 }
    let indent := (pac2_attribs.getD lo (0, 0, 0)).2.2
    let row := screen.characters.getD ctx.cursor_row []
    let w := handle_pac_indent indent (row, ctx.cursor_column)
    let screen := { screen with characters := screen.characters.set ctx.cursor_row w.1 }
    { ctx.set_screen n screen with cursor_column := w.2 }

/-- `handle_erase`. -/
def handle_erase (ctx : CCaptionSubContext) (n_screen : Nat) : CCaptionSubContext :=
  ctx.set_screen n_screen { ctx.screen_at n_screen with row_used := 0 }

/-- `handle_eoc`. -/
def handle_eoc (ctx : CCaptionSubContext) : CCaptionSubContext :=
  reap_screen { ctx with active_screen := lnot ctx.active_screen, cursor_column := 0 }

/-- `handle_delete_end_of_row`. -/
def handle_delete_end_of_row (ctx : CCaptionSubContext) (_hi _lo : Nat) : CCaptionSubContext :=
  let n := get_writing_screen ctx
  let screen := ctx.screen_at n
  let row := screen.characters.getD ctx.cursor_row []
  let w := write_char row ctx.cursor_column 0
  ctx.set_screen n { screen with characters := screen.characters.set ctx.cursor_row w.1 }

/-- `handle_char`. -/
def handle_char (ctx : CCaptionSubContext) (hi lo : Nat) : CCaptionSubContext :=
  let n := get_writing_screen ctx
  let screen := ctx.screen_at n
  let row := screen.characters.getD ctx.cursor_row []
  let screen := { screen with row_used := SET_FLAG screen.row_used ctx.cursor_row }
  let w := write_char row ctx.cursor_column hi
  let cursor_column := if w.2 = none then ctx.cursor_column + 1 else ctx.cursor_column
  let w :=
    if lo ≠ 0 then
      let w2 := write_char w.1 cursor_column lo
      (w2.1, if w2.2 = none then cursor_column + 1 else cursor_column)
    else (w.1, cursor_column)
  let row := (write_char w.1 w.2 0).1
  let screen := { screen with characters := screen.characters.set ctx.cursor_row row }
  { ctx.set_screen n screen with cursor_column := w.2, prev_cmd := (0, 0) }

/-- The `switch (lo)` of `process_cc608` for `hi` in 0x14, 0x15, 0x1c. -/
def process_cc608_switch (ctx : CCaptionSubContext) (hi lo : Nat) : CCaptionSubContext :=
  if lo = 0x20 then { ctx with mode := .CCMODE_POPON }
  else if lo = 0x24 then handle_delete_end_of_row ctx hi lo
  else if lo = 0x25 then { ctx with rollup := 2, mode := .CCMODE_ROLLUP }
  else if lo = 0x26 then { ctx with rollup := 3, mode := .CCMODE_ROLLUP }
  else if lo = 0x27 then { ctx with rollup := 4, mode := .CCMODE_ROLLUP }
  else if lo = 0x29 then { ctx with mode := .CCMODE_PAINTON }
  else if lo = 0x2b then { ctx with mode := .CCMODE_TEXT }
  else if lo = 0x2c then handle_erase ctx ctx.active_screen
  else if lo = 0x2d then { roll_up (reap_screen ctx) with cursor_column := 0 }
  else if lo = 0x2e then handle_erase ctx (lnot ctx.active_screen)
  else if lo = 0x2f then handle_eoc ctx
  else ctx

/-- The dispatch of `process_cc608`, before the pair is recorded. -/
def process_cc608_dispatch (ctx : CCaptionSubContext) (hi lo : Nat) : CCaptionSubContext :=
  if hi = ctx.prev_cmd.1 ∧ lo = ctx.prev_cmd.2 then ctx
  else if (hi = 0x10 ∧ (lo ≥ 0x40 ∧ lo ≤ 0x5f)) ∨
      ((hi ≥ 0x11 ∧ hi ≤ 0x17) ∧ (lo ≥ 0x40 ∧ lo ≤ 0x7f)) then handle_pac ctx hi lo
  else if (hi = 0x11 ∧ lo ≥ 0x20 ∧ lo ≤ 0x2f) ∨ (hi = 0x17 ∧ lo ≥ 0x2e ∧ lo ≤ 0x2f) then
    handle_textattr ctx hi lo
  else if hi = 0x14 ∨ hi = 0x15 ∨ hi = 0x1c then process_cc608_switch ctx hi lo
  else if (hi = 0x17 ∨ hi = 0x1f) ∧ (lo = 0x21 ∨ lo = 0x22 ∨ lo = 0x23) then ctx
  else if hi ≥ 0x20 then handle_char ctx hi lo
  else ctx

/-- `process_cc608`: the dispatch, then the unconditional store of the pair
into `prev_cmd`. -/
def process_cc608 (ctx : CCaptionSubContext) (hi lo : Nat) : CCaptionSubContext :=
  { process_cc608_dispatch ctx hi lo with prev_cmd := (hi, lo) }

/-! ## The EIA-608 caption decoder: the packet driver -/

/-- A rational time base, `AVRational`. -/
structure AVRational where
  num : Int
  den : Int
  deriving DecidableEq, Repr

/-- The time base of ASS cues, `ass_tb`. -/
def ass_tb : AVRational := ⟨1, 100⟩

/-- Modelled from the spec: the constant `AV_TIME_BASE_Q` of libavutil, which is
not among the sources; the time base of `sub->pts`, one microsecond. -/
def AV_TIME_BASE_Q : AVRational := ⟨1, 1000000⟩

/-- The part of `AVCodecContext` that `decode` reads. -/
structure AVCodecContext where
  time_base : AVRational
  deriving DecidableEq, Repr

/-- A packet, `AVPacket`: its `data`, of `size` bytes, and its `pts`. -/
structure AVPacket where
  data : List Nat
  pts : Int
  deriving DecidableEq, Repr

/-- The size of a packet, `avpkt->size`. -/
def AVPacket.size (avpkt : AVPacket) : Nat := avpkt.data.length

/-- A cue handed to the subtitle sink: its text, start time and duration. -/
structure AVSubtitleRect where
  ass : List Nat
  ts_start : Int
  duration : Int
  deriving DecidableEq, Repr

/-- The subtitle that `decode` fills, `AVSubtitle`: its rectangles and `pts`. -/
structure AVSubtitle where
  rects : List AVSubtitleRect
  pts : Int
  deriving DecidableEq, Repr

/-- The number of rectangles, `sub->num_rects`. -/
def AVSubtitle.num_rects (sub : AVSubtitle) : Nat := sub.rects.length

/-- Modelled from the spec: `ff_ass_add_rect` of `ass.c`, which is not among the
sources; the external subtitle-rectangle sink, which receives a cue text with
its start time and duration and appends it to the subtitle.  The allocation it
performs succeeds. -/
def ff_ass_add_rect (sub : AVSubtitle) (dialog : List Nat) (ts_start duration : Int) :
    AVSubtitle :=
  { sub with rects := sub.rects ++ [⟨c_str dialog, ts_start, duration⟩] }

/-- Modelled from the spec: `ff_ass_add_rect_bprint` of `ass.c`, which is not
among the sources; the same sink, fed with the text of a print buffer. -/
def ff_ass_add_rect_bprint (sub : AVSubtitle) (buf : List Nat) (ts_start duration : Int) :
    AVSubtitle :=
  ff_ass_add_rect sub buf ts_start duration

/-- Modelled from the spec: `av_buffer_realloc` of libavutil, which is not among
the sources; the buffer grown to `size` bytes, its old content kept.  The
allocation succeeds; the content of the new bytes is indeterminate in C and
`decode` overwrites all of them before it reads any. -/
def av_buffer_realloc (buf : List Nat) (size : Nat) : List Nat :=
  buf.take size ++ List.replicate (size - buf.length) 0

/-- What one turn of the loop of `decode` does after `process_cc608` has set
the reaped flag: clear the flag and, in batch mode, emit the held cue (if any)
and hold the new text; in real-time mode, emit the new text at once.
`rescale` is `av_rescale_q`, a function of libavutil that is not among the
sources and is taken as a parameter.  Its result is assigned to the
`int start_time` and `int end_time`, and the duration is their difference in
`int`; where that subtraction overflows, which C leaves undefined, the
embedding keeps the 32 bits of the result. -/
def decode_emit (rescale : Int → AVRational → AVRational → Int) (avctx : AVCodecContext)
    (avpkt : AVPacket) (ctx : CCaptionSubContext) (sub : AVSubtitle) :
    CCaptionSubContext × AVSubtitle :=
  let ctx := { ctx with screen_reaped := 0 }
  if ctx.real_time = 0 then
    let r : CCaptionSubContext × AVSubtitle :=
      match ctx.prev_string with
      | some prev_string =>
        let start_time := to_int (rescale ctx.prev_time avctx.time_base ass_tb)
        let end_time := to_int (rescale avpkt.pts avctx.time_base ass_tb)
        let sub := ff_ass_add_rect sub prev_string start_time (to_int (end_time - start_time))
        let sub := { sub with pts := rescale ctx.prev_time avctx.time_base AV_TIME_BASE_Q }
        ({ ctx with prev_string := none }, sub)
      | none => (ctx, sub)
    let ctx := { r.1 with buffer := r.1.buffer ++ [0x0d, 0x0a] }
    ({ ctx with prev_string := some (c_str ctx.buffer), prev_time := avpkt.pts }, r.2)
  else
    let start_time := to_int (rescale avpkt.pts avctx.time_base ass_tb)
    let sub := ff_ass_add_rect_bprint sub ctx.buffer start_time (-1)
    (ctx, { sub with pts := rescale avpkt.pts avctx.time_base AV_TIME_BASE_Q })

/-- The loop of `decode`, `for (i = 0; i < len; i += 3)`, for the `n` units
that start at byte `i` of the packet buffer `bptr`.  The result is `none` when
a unit does not lie wholly inside the buffer. -/
def decode_units (rescale : Int → AVRational → AVRational → Int) (avctx : AVCodecContext)
    (avpkt : AVPacket) :
    Nat → Nat → CCaptionSubContext → AVSubtitle → List Nat →
      Option (CCaptionSubContext × AVSubtitle × List Nat)
  | 0, _, ctx, sub, bptr => some (ctx, sub, bptr)
  | n + 1, i, ctx, sub, bptr =>
    match bptr.get? i, bptr.get? (i + 1), bptr.get? (i + 2) with
    | some b0, some b1, some b2 =>
      let cc_type := b0 &&& 3
      let v := validate_cc_data_pair (b0, b1, b2)
      let bptr := ((bptr.set i v.2.1).set (i + 1) v.2.2.1).set (i + 2) v.2.2.2
      if v.1 ≠ none then decode_units rescale avctx avpkt n (i + 3) ctx sub bptr
      else if cc_type = 1 then decode_units rescale avctx avpkt n (i + 3) ctx sub bptr
      else
        let ctx := process_cc608 ctx (v.2.2.1 &&& 0x7f) (v.2.2.2 &&& 0x7f)
        if ctx.screen_reaped = 0 then decode_units rescale avctx avpkt n (i + 3) ctx sub bptr
        else
          let r := decode_emit rescale avctx avpkt ctx sub
          decode_units rescale avctx avpkt n (i + 3) r.1 r.2 bptr
    | _, _, _ => none

/-- What `decode` returns: the return code (`none` for 0), the context, the
subtitle and `*got_sub`. -/
structure DecodeRet where
  ret : Option AVError
  ctx : CCaptionSubContext
  sub : AVSubtitle
  got_sub : Nat
  deriving DecidableEq, Repr

/-- `decode`.  The loop `for (i = 0; i < len; i += 3)` makes
`(len + 2) / 3` turns.  The growth of the packet buffer and the sink succeed,
so that the early returns of the loop are not taken and the return code is
0. -/
def decode (rescale : Int → AVRational → AVRational → Int) (avctx : AVCodecContext)
    (ctx : CCaptionSubContext) (sub : AVSubtitle) (avpkt : AVPacket) : Option DecodeRet :=
  let len := avpkt.size
  let pktbuf := if ctx.pktbuf.length < len then av_buffer_realloc ctx.pktbuf len else ctx.pktbuf
  let bptr := memcpy pktbuf avpkt.data len
  match decode_units rescale avctx avpkt ((len + 2) / 3) 0 ctx sub bptr with
  | some (ctx, sub, bptr) =>
    some ⟨none, { ctx with pktbuf := bptr }, sub, if sub.num_rects > 0 then 1 else 0⟩
  | none => none

/-- A zero-initialised screen. -/
def zero_screen : Screen :=
  ⟨List.replicate SCREEN_ROWS (List.replicate (SCREEN_COLUMNS + 1) 0),
    List.replicate SCREEN_ROWS (List.replicate (SCREEN_COLUMNS + 1) 0),
    List.replicate SCREEN_ROWS (List.replicate (SCREEN_COLUMNS + 1) 0), 0⟩

/-- The private data of a codec context before `init_decoder`: zero-initialised,
with the option `real_time` set. -/
def zero_context (real_time : Nat) : CCaptionSubContext :=
  { real_time := real_time
    screen := (zero_screen, zero_screen)
    active_screen := 0
    cursor_row := 0
    cursor_column := 0
    cursor_color := 0
    cursor_font := 0
    buffer := []
    screen_reaped := 0
    rollup := 0
    mode := .CCMODE_POPON
    prev_string := none
    prev_time := 0
    prev_cmd := (0, 0)
    pktbuf := [] }

/-- `init_decoder`: the print buffer is initialised, the mode is POP-ON and a
packet buffer of 128 bytes is allocated.  `pktbuf` is the content of the
allocated block, which C leaves indeterminate; the header set-up and the
allocation succeed. -/
def init_decoder (ctx : CCaptionSubContext) (pktbuf : List Nat) : CCaptionSubContext :=
  { ctx with buffer := [], mode := .CCMODE_POPON, pktbuf := pktbuf }

/-- `flush_decoder`. -/
def flush_decoder (ctx : CCaptionSubContext) : CCaptionSubContext :=
  { ctx with
    screen := ({ ctx.screen.1 with row_used := 0 }, { ctx.screen.2 with row_used := 0 })
    buffer := []
    screen_reaped := 1
    mode := .CCMODE_POPON }

/-! ## The EIA-608 caption decoder: vocabulary of the statements -/

/-- The three grids of a screen have `SCREEN_ROWS` rows of
`SCREEN_COLUMNS + 1` bytes, as the arrays of `struct Screen` have. -/
def Screen.WF (s : Screen) : Prop :=
  (s.characters.length = SCREEN_ROWS ∧ ∀ row ∈ s.characters, row.length = SCREEN_COLUMNS + 1) ∧
  (s.colors.length = SCREEN_ROWS ∧ ∀ row ∈ s.colors, row.length = SCREEN_COLUMNS + 1) ∧
  (s.fonts.length = SCREEN_ROWS ∧ ∀ row ∈ s.fonts, row.length = SCREEN_COLUMNS + 1)

instance (s : Screen) : Decidable s.WF := by
  unfold Screen.WF; infer_instance

/-- Row `i` of the screen is marked used. -/
def Screen.used (s : Screen) (i : Nat) : Prop := CHECK_FLAG s.row_used i ≠ 0

instance (s : Screen) (i : Nat) : Decidable (s.used i) := by
  unfold Screen.used; infer_instance

/-- The rows of the screen that are marked used, in increasing order. -/
def used_rows (s : Screen) : List Nat :=
  (List.range SCREEN_ROWS).filter (fun i => CHECK_FLAG s.row_used i ≠ 0)

/-- The text of a row: its zero-terminated characters with the leading spaces
removed. -/
def row_text (row : List Nat) : List Nat := (c_str row).dropWhile (fun c => c = 0x20)

/-- Texts joined by the line-break marker `\N`, with no marker after the last
one. -/
def join_lines : List (List Nat) → List Nat
  | [] => []
  | [t] => t
  | t :: u :: ts => t ++ [0x5c, 0x4e] ++ join_lines (u :: ts)

/-- The text of a screen: the texts of its used rows, in increasing row order,
joined by the line-break marker. -/
def screen_text (s : Screen) : List Nat :=
  join_lines ((used_rows s).map (fun i => row_text (s.characters.getD i [])))

/-! ## Sample records -/

/-- A record with every field zero and its 31 packets zero: the content of a
zero-initialised `A53UserData`. -/
def zero_user_data : A53UserData :=
  ⟨0, ⟨0, ⟨0, 0, 0, 0, 0, List.replicate 31 ⟨0, 0, 0, 0⟩⟩, ⟨0, 0, 0, 0, 0, 0, 0, 0⟩⟩, ⟨0, 0⟩⟩

/-- AFD data whose flag is unset while `active_format` holds 5. -/
def afd_unset_user_data : A53UserData :=
  { zero_user_data with user_identifier := A53_USER_IDENTIFIER_AFD, afd := ⟨0, 5⟩ }

/-- CC data with two packets. -/
def cc_user_data : A53UserData :=
  { zero_user_data with
    user_identifier := A53_USER_IDENTIFIER_ATSC
    atsc :=
      { zero_user_data.atsc with
        user_data_type_code := A53_USER_DATA_TYPE_CODE_CC_DATA
        cc_data :=
          ⟨0, 1, 0, 0xff, 2,
            [⟨1, 0, 0x94, 0x20⟩, ⟨1, 1, 0x48, 0x69⟩] ++ List.replicate 29 ⟨0, 0, 0, 0⟩⟩ } }

/-- Bar data with the top and left bars present. -/
def bar_user_data : A53UserData :=
  { zero_user_data with
    user_identifier := A53_USER_IDENTIFIER_ATSC
    atsc :=
      { zero_user_data.atsc with
        user_data_type_code := A53_USER_DATA_TYPE_CODE_BAR_DATA
        bar_data := ⟨1, 0, 1, 0, 20, 0, 30, 0⟩ } }

/-- A decoder after `init_decoder`, with the option `real_time` and a packet
buffer of 128 zero bytes. -/
def fresh_context (real_time : Nat) : CCaptionSubContext :=
  init_decoder (zero_context real_time) (List.replicate 128 0)

/-- The identity in place of `av_rescale_q`, for the samples. -/
def rescale_id (a : Int) (_bq _cq : AVRational) : Int := a

/-- The units resume-pop-on twice, 'H' 'i', end-of-caption twice, each with
the validity bit set, type 0 and odd parity on both data bytes. -/
def hi_packet : AVPacket :=
  ⟨[0xfc, 0x94, 0x20, 0xfc, 0x94, 0x20, 0xfc, 0xc8, 0xe9, 0xfc, 0x94, 0x2f, 0xfc, 0x94, 0x2f],
    1000⟩

/-- A context reached in ROLL-UP mode with window 2: text written on rows 7, 8
and 5, the cursor left on row 5. -/
def rollup_context : CCaptionSubContext :=
  [(0x14, 0x25), (0x16, 0x60), (0x41, 0), (0x17, 0x40), (0x42, 0), (0x15, 0x60), (0x43, 0x44)].foldl
    (fun ctx p => process_cc608 ctx p.1 p.2) (fresh_context 0)

/-- A context in ROLL-UP mode with window 2, the cursor on row 5 and the text
"Hi" on that row. -/
def rollup_row5_context : CCaptionSubContext :=
  [(0x14, 0x25), (0x15, 0x60), (0x48, 0x69)].foldl
    (fun ctx p => process_cc608 ctx p.1 p.2) (fresh_context 0)

/-- A context in POP-ON mode with the text "Hi" on row 0 of the inactive
screen: a fresh decoder after the pair 'H', 'i'. -/
def popon_hi_context : CCaptionSubContext :=
  process_cc608 (fresh_context 0) 0x48 0x69

/-- A context in PAINT-ON mode, entered after a roll-up command with window 2,
with the cursor on row 5 and the text "CD" on that row. -/
def painton_row5_context : CCaptionSubContext :=
  [(0x14, 0x25), (0x14, 0x29), (0x15, 0x60), (0x43, 0x44)].foldl
    (fun ctx p => process_cc608 ctx p.1 p.2) (fresh_context 0)

/-- A context in TEXT mode with the text "Hi" on row 0 of the active screen. -/
def text_hi_context : CCaptionSubContext :=
  [(0x14, 0x2b), (0x48, 0x69)].foldl
    (fun ctx p => process_cc608 ctx p.1 p.2) (fresh_context 0)

/-- A context in ROLL-UP mode with window 3 and the cursor on row 5: the text
"AB" on row 3, row 4 unused, the text "CD" on row 5. -/
def rollup3_gap_context : CCaptionSubContext :=
  [(0x14, 0x26), (0x12, 0x60), (0x41, 0x42), (0x15, 0x60), (0x43, 0x44)].foldl
    (fun ctx p => process_cc608 ctx p.1 p.2) (fresh_context 0)

/-- A context in ROLL-UP mode with window 2 and the cursor on row 5: the text
"AB" on row 3, row 4 unused, the text "CD" on row 5. -/
def rollup2_above_context : CCaptionSubContext :=
  [(0x14, 0x25), (0x12, 0x60), (0x41, 0x42), (0x15, 0x60), (0x43, 0x44)].foldl
    (fun ctx p => process_cc608 ctx p.1 p.2) (fresh_context 0)

/-- The context of a batch decoder that holds the cue "Hi" reaped at time 1000
and has since taken resume-pop-on and the pair 'Y', 'o': the state after
`decode` of `hi_packet`, then the two pairs. -/
def held_hi_context : CCaptionSubContext :=
  [(0x14, 0x20), (0x59, 0x6f)].foldl (fun ctx p => process_cc608 ctx p.1 p.2)
    (((decode rescale_id ⟨⟨1, 1000⟩⟩ (fresh_context 0) ⟨[], 0⟩ hi_packet).map
      (fun r => r.ctx)).getD (fresh_context 0))

/-- The context of a batch decoder whose packets have the time base of the
cues, 1/100, and that holds the cue "Hi" reaped at time `2^32 + 1000`: the
state after `decode` of `hi_packet` at that time, then resume-pop-on and the
pair 'Y', 'o'. -/
def held_late_context : CCaptionSubContext :=
  [(0x14, 0x20), (0x59, 0x6f)].foldl (fun ctx p => process_cc608 ctx p.1 p.2)
    (((decode rescale_id ⟨ass_tb⟩ (fresh_context 0) ⟨[], 0⟩ ⟨hi_packet.data, 4294968296⟩).map
      (fun r => r.ctx)).getD (fresh_context 0))

/-- A context in POP-ON mode whose cursor row 5 is full: 28 spaces of indent
and "ABCD", the cursor on column 32. -/
def full_row_context : CCaptionSubContext :=
  [(0x15, 0x7e), (0x41, 0x42), (0x43, 0x44)].foldl
    (fun ctx p => process_cc608 ctx p.1 p.2) (fresh_context 0)

/-- Every failure of a write is the invalid-data or the out-of-space
condition. -/
def FailsRange {α : Type} (x : Except AVError α) : Prop :=
  ∀ e, x = .error e → e = .INVALIDDATA ∨ e = .ENOSPC

/-- CC data with two packets, the first with `cc_valid = 2`, which one bit
cannot hold. -/
def cc_valid_two_user_data : A53UserData :=
  { cc_user_data with
    atsc :=
      { cc_user_data.atsc with
        cc_data :=
          { cc_user_data.atsc.cc_data with
            cc_data_pkts :=
              [⟨2, 0, 0x94, 0x20⟩, ⟨1, 1, 0x48, 0x69⟩] ++ List.replicate 29 ⟨0, 0, 0, 0⟩ } } }

/-- The bytes of ATSC CC data as the spec lays them out: the tag
'G','A','9','4', the type code 0x03, the byte of the three flags and the
count, `em_data`, the triplets of the first `cc_count` packets and 0xFF. -/
def cc_data_bytes (c : CEA708CCData) : List Nat :=
  [0x47, 0x41, 0x39, 0x34, 0x03,
    (c.process_em_data_flag <<< 7) ||| (c.process_cc_data_flag <<< 6) |||
      (c.additional_data_flag <<< 5) ||| c.cc_count,
    c.em_data] ++ pkts_side_data (c.cc_data_pkts.take c.cc_count) ++ [0xFF]

/-- The two big-endian bytes of `0xC000 | line` for a set flag, nothing for
an unset one. -/
def bar_line_bytes (flag line : Nat) : List Nat :=
  if flag ≠ 0 then [(0xC000 ||| line) >>> 8, (0xC000 ||| line) &&& 0xFF] else []

/-- The bytes of ATSC bar data as the spec lays them out: the tag, the type
code 0x06, the byte `flags << 4 | 0x0F` and the line of each set flag in top,
bottom, left, right order. -/
def bar_data_bytes (c : A53BarData) : List Nat :=
  [0x47, 0x41, 0x39, 0x34, 0x06,
    (((c.top_bar_flag <<< 3) ||| (c.bottom_bar_flag <<< 2) ||| (c.left_bar_flag <<< 1) |||
      c.right_bar_flag) <<< 4) ||| 0x0F] ++
    (bar_line_bytes c.top_bar_flag c.line_number_end_of_top_bar ++
    (bar_line_bytes c.bottom_bar_flag c.line_number_end_of_bottom_bar ++
    (bar_line_bytes c.left_bar_flag c.line_number_end_of_left_bar ++
    bar_line_bytes c.right_bar_flag c.line_number_end_of_right_bar)))

/-- The bytes of AFD data as the spec lays them out: the tag 'D','T','G','1',
the byte `active_format_flag << 6 | 0x01` and, when the flag is set, the byte
`0xF0 | active_format`. -/
def afd_data_bytes (c : A53AFDData) : List Nat :=
  [0x44, 0x54, 0x47, 0x31, (c.active_format_flag <<< 6) ||| 0x01] ++
    (if c.active_format_flag ≠ 0 then [0xF0 ||| c.active_format] else [])

/-- The number of set flags of bar data. -/
def bar_flags_set (c : A53BarData) : Nat :=
  (if c.top_bar_flag ≠ 0 then 1 else 0) + (if c.bottom_bar_flag ≠ 0 then 1 else 0) +
    (if c.left_bar_flag ≠ 0 then 1 else 0) + (if c.right_bar_flag ≠ 0 then 1 else 0)

/-- AFD data with the flag set and active format 10. -/
def afd_set_user_data : A53UserData :=
  { zero_user_data with user_identifier := A53_USER_IDENTIFIER_AFD, afd := ⟨1, 10⟩ }

/-- A record tagged ATSC / CC_DATA whose `cc_count` is 32, one more than the
packet array holds; its 31 packets have in-range fields. -/
def cc_count_32_user_data : A53UserData :=
  { cc_user_data with
    atsc :=
      { cc_user_data.atsc with
        cc_data := { cc_user_data.atsc.cc_data with cc_count := 32 } } }

/-- The context after a sequence of byte pairs, each processed by
`process_cc608`. -/
def process_pairs (ctx : CCaptionSubContext) (pairs : List (Nat × Nat)) : CCaptionSubContext :=
  pairs.foldl (fun ctx p => process_cc608 ctx p.1 p.2) ctx

/-- Column 32 of every row of the character grid holds a zero. -/
def Screen.Terminated (s : Screen) : Prop :=
  ∀ row ∈ s.characters, row[SCREEN_COLUMNS]? = some 0

instance (s : Screen) : Decidable s.Terminated := by
  unfold Screen.Terminated; infer_instance

/-- A row of 33 bytes whose last byte is zero. -/
def row_terminated (row : List Nat) : Prop :=
  row.length = SCREEN_COLUMNS + 1 ∧ row[SCREEN_COLUMNS]? = some 0

/-- A row of 33 bytes. -/
def row_sized (row : List Nat) : Prop := row.length = SCREEN_COLUMNS + 1

/-- A grid of `SCREEN_ROWS` rows that all satisfy `P`. -/
def GridRows (P : List Nat → Prop) (g : List (List Nat)) : Prop :=
  g.length = SCREEN_ROWS ∧ ∀ row ∈ g, P row

/-- The three grids of the screen have their size, and the rows of the
character grid their terminating zero. -/
def Screen.Sound (s : Screen) : Prop :=
  GridRows row_terminated s.characters ∧ GridRows row_sized s.colors ∧
    GridRows row_sized s.fonts

/-- The source rows `i_row + 1` that the turns of the second loop of `roll_up`
copy from, in the order of the turns: the loop of `roll_up_shift` with the row
index of each turn recorded. -/
def roll_up_shift_rows (cursor_row : Nat) (keep_lines : Int) : Nat → Int → Screen → List Nat
  | 0, _, _ => []
  | fuel + 1, i, screen =>
    if i < keep_lines ∧ screen.row_used ≠ 0 then
      let i_row := ((cursor_row : Int) - keep_lines + i + 1).toNat
      (i_row + 1) ::
        roll_up_shift_rows cursor_row keep_lines fuel (i + 1)
          (roll_up_shift cursor_row keep_lines 1 i screen)
    else []

/-- The source rows that `roll_up` copies from: `roll_up` up to its second
loop, then the rows of that loop. -/
def roll_up_source_rows (ctx : CCaptionSubContext) : List Nat :=
  if ctx.mode = .CCMODE_TEXT then []
  else
    let n := get_writing_screen ctx
    let screen := ctx.screen_at n
    let keep_lines : Int := min ((ctx.cursor_row : Int) + 1) ctx.rollup
    let screen :=
      { screen with
        row_used := roll_up_unset ((ctx.cursor_row : Int) - keep_lines)
          ((ctx.cursor_row : Int) - keep_lines).toNat 0 screen.row_used }
    roll_up_shift_rows ctx.cursor_row keep_lines keep_lines.toNat 0 screen

/-- A context in ROLL-UP mode with window 2 whose cursor is on the last row,
row 14, with the text "AB" on it. -/
def rollup_bottom_context : CCaptionSubContext :=
  process_pairs (fresh_context 0) [(0x14, 0x25), (0x14, 0x60), (0x41, 0x42)]

/-- A context in PAINT-ON mode in which "AB" was written on row 0 and the
displayed memory was then erased: no row is used, the cursor is on column 2. -/
def erased_context : CCaptionSubContext :=
  process_pairs (fresh_context 0) [(0x14, 0x29), (0x41, 0x42), (0x14, 0x2c)]

/-- The same context with "XY" in place of "AB" on the erased row 0. -/
def erased_other_context : CCaptionSubContext :=
  process_pairs (fresh_context 0) [(0x14, 0x29), (0x58, 0x59), (0x14, 0x2c)]

/-- The context of a decoder after a packet of two units, resume-pop-on and
the pair 'a', 'b': the packet buffer holds the bytes 0x61, 0x62 at the
indices 4 and 5. -/
def stale_context : CCaptionSubContext :=
  ((decode rescale_id ⟨⟨1, 1000⟩⟩ (fresh_context 0) ⟨[], 0⟩
    ⟨[0xfc, 0x94, 0x20, 0xfc, 0x61, 0x62], 0⟩).map (fun r => r.ctx)).getD (fresh_context 0)

/-! ## Lemmas on bit strings -/

@[simp] theorem nat_bits_length (w v : Nat) : (nat_bits w v).length = w := by
  induction w with
  | zero => rfl
  | succ w ih => simp [nat_bits, ih]

theorem bits_val_append (a b : List Bool) :
    bits_val (a ++ b) = bits_val a * 2 ^ b.length + bits_val b := by
  induction a with
  | nil => simp [bits_val]
  | cons x a ih =>
    show bits_val (x :: (a ++ b)) = _
    simp only [List.cons_append, bits_val, ih, List.length_append, pow_add]
    ring

theorem bits_val_lt (bs : List Bool) : bits_val bs < 2 ^ bs.length := by
  induction bs with
  | nil => simp [bits_val]
  | cons b bs ih =>
    cases b
    all_goals
      simp only [bits_val, List.length_cons, pow_succ, Bool.toNat_false, Bool.toNat_true]
      omega

theorem bits_val_nat_bits (w v : Nat) : bits_val (nat_bits w v) = v % 2 ^ w := by
  induction w with
  | zero => simp [nat_bits, bits_val, Nat.mod_one]
  | succ w ih =>
    simp only [nat_bits, bits_val, nat_bits_length, ih, Nat.mod_pow_succ,
      Nat.testBit_to_div_mod]
    rcases Nat.mod_two_eq_zero_or_one (v / 2 ^ w) with h | h
    · simp [h]
    · simp [h]; ring

theorem bits_val_nat_bits_of_lt {w v : Nat} (h : v < 2 ^ w) : bits_val (nat_bits w v) = v := by
  rw [bits_val_nat_bits, Nat.mod_eq_of_lt h]

theorem nat_bits_mod_two_pow (w m v : Nat) (h : w ≤ m) :
    nat_bits w (v % 2 ^ m) = nat_bits w v := by
  induction w with
  | zero => rfl
  | succ w ih =>
    simp only [nat_bits, Nat.testBit_mod_two_pow]
    rw [ih (by omega)]
    simp
    omega

theorem nat_bits_bits_val (bs : List Bool) : nat_bits bs.length (bits_val bs) = bs := by
  induction bs with
  | nil => rfl
  | cons b bs ih =>
    have hlt := bits_val_lt bs
    simp only [List.length_cons, nat_bits, bits_val]
    have e : b.toNat * 2 ^ bs.length + bits_val bs = 2 ^ bs.length * b.toNat + bits_val bs := by
      ring
    rw [e, Nat.testBit_mul_pow_two_add _ hlt]
    have e2 : nat_bits bs.length (2 ^ bs.length * b.toNat + bits_val bs) = bs := by
      rw [← nat_bits_mod_two_pow _ bs.length _ (le_refl _), Nat.mul_add_mod,
        Nat.mod_eq_of_lt hlt, ih]
    rw [e2]
    cases b <;> simp

theorem nat_bits_add (m n v : Nat) :
    nat_bits (m + n) v = nat_bits m (v / 2 ^ n) ++ nat_bits n v := by
  induction m with
  | zero => simp [nat_bits]
  | succ m ih =>
    have e : m + 1 + n = (m + n) + 1 := by omega
    rw [e]
    simp only [nat_bits, ih, ← Nat.shiftRight_eq_div_pow, Nat.testBit_shiftRight,
      List.cons_append]
    rw [Nat.add_comm n m]

@[simp] theorem bytes_to_bits_length (buf : List Nat) :
    (bytes_to_bits buf).length = 8 * buf.length := by
  induction buf with
  | nil => rfl
  | cons b bs ih => simp [bytes_to_bits, ih]; omega

theorem bytes_to_bits_append (a b : List Nat) :
    bytes_to_bits (a ++ b) = bytes_to_bits a ++ bytes_to_bits b := by
  induction a with
  | nil => rfl
  | cons x a ih => simp [bytes_to_bits, ih]

theorem bits_to_bytes_cons8 (bs tl : List Bool) (h : bs.length = 8) :
    bits_to_bytes (bs ++ tl) = bits_val bs :: bits_to_bytes tl := by
  match bs, h with
  | [b7, b6, b5, b4, b3, b2, b1, b0], _ => simp [bits_to_bytes]

theorem bits_to_bytes_aligned (n : Nat) (bs : List Bool) (h : bs.length = 8 * n) :
    bytes_to_bits (bits_to_bytes bs) = bs ∧ (bits_to_bytes bs).length = n := by
  induction n generalizing bs with
  | zero =>
    have : bs = [] := List.length_eq_zero.mp (by omega)
    subst this
    simp [bits_to_bytes, bytes_to_bits]
  | succ n ih =>
    have hs : bs = bs.take 8 ++ bs.drop 8 := (List.take_append_drop 8 bs).symm
    have h8 : (bs.take 8).length = 8 := by simp; omega
    have hd : (bs.drop 8).length = 8 * n := by simp; omega
    rw [hs, bits_to_bytes_cons8 _ _ h8]
    have e := nat_bits_bits_val (bs.take 8)
    rw [h8] at e
    simp only [bytes_to_bits, e, (ih _ hd).1, (ih _ hd).2, List.length_cons, and_self]

theorem bits_to_bytes_append (n : Nat) (a b : List Bool) (h : a.length = 8 * n) :
    bits_to_bytes (a ++ b) = bits_to_bytes a ++ bits_to_bytes b := by
  induction n generalizing a with
  | zero =>
    have : a = [] := List.length_eq_zero.mp (by omega)
    subst this
    simp [bits_to_bytes]
  | succ n ih =>
    have hs : a = a.take 8 ++ a.drop 8 := (List.take_append_drop 8 a).symm
    have h8 : (a.take 8).length = 8 := by simp; omega
    have hd : (a.drop 8).length = 8 * n := by simp; omega
    rw [hs, List.append_assoc, bits_to_bytes_cons8 _ _ h8, bits_to_bytes_cons8 _ _ h8,
      ih _ hd]
    rfl

/-! ## Lemmas on the write cursor -/

theorem write_fixed_eq (rw : PutBitContext) (w v : Nat) :
    write_fixed rw w v = put_chk rw (nat_bits w v) := by
  simp only [write_fixed, ff_cbs_write_unsigned, put_chk, put_bits_left, put_bits,
    nat_bits_length, lt_irrefl, gt_iff_lt, or_self, if_false]
  split_ifs <;> first | rfl | omega

theorem write_xui_eq (rw : PutBitContext) (w v : Nat) (h : v < 2 ^ w) :
    write_xui rw w v = put_chk rw (nat_bits w v) := by
  have h2 : ¬ (v < 0 ∨ v > MAX_UINT_BITS w) := by
    simp only [MAX_UINT_BITS]; omega
  simp only [write_xui, ff_cbs_write_unsigned, put_chk, put_bits_left, put_bits,
    nat_bits_length, h2, if_false]
  split_ifs <;> first | rfl | omega

theorem put_chk_nil (rw : PutBitContext) : put_chk rw [] = pure rw := by
  simp [put_chk, pure, Except.pure]

theorem put_chk_bind (rw : PutBitContext) (a b : List Bool) :
    (put_chk rw a >>= fun rw1 => put_chk rw1 b) = put_chk rw (a ++ b) := by
  simp only [put_chk, bind, Except.bind, List.length_append]
  split_ifs <;> simp_all <;> omega

theorem put_chk_bind_bind {α : Type} (rw : PutBitContext) (a b : List Bool)
    (k : PutBitContext → Except AVError α) :
    (put_chk rw a >>= fun rw1 => put_chk rw1 b >>= k) = put_chk rw (a ++ b) >>= k := by
  rw [← put_chk_bind, bind_assoc]

theorem put_chk_ite (rw : PutBitContext) (c : Prop) [Decidable c] (a : List Bool) :
    (if c then put_chk rw a else pure rw) = put_chk rw (if c then a else []) := by
  split_ifs <;> simp [put_chk_nil]

theorem write_bar_line_eq (rw : PutBitContext) (flag line : Nat)
    (h : flag ≠ 0 → line < 2 ^ 14) :
    (if flag ≠ 0 then write_fixed rw 2 3 >>= fun rw => write_xui rw 14 line
    else pure rw) = put_chk rw (bar_line_bits flag line) := by
  unfold bar_line_bits
  split_ifs with hf
  · rw [write_fixed_eq]
    simp only [write_xui_eq _ _ _ (h hf), put_chk_bind]
  · exact (put_chk_nil rw).symm

theorem write_a53_bar_data_eq (rw : PutBitContext) (c : A53BarData) (h : c.Valid) :
    cbs_misc_write_a53_bar_data rw c = put_chk rw (a53_bar_data_bits c) := by
  obtain ⟨h1, h2, h3, h4, l1, l2, l3, l4⟩ := h
  simp only [cbs_misc_write_a53_bar_data, a53_bar_data_bits,
    write_xui_eq _ 1 c.top_bar_flag (by omega), write_xui_eq _ 1 c.bottom_bar_flag (by omega),
    write_xui_eq _ 1 c.left_bar_flag (by omega), write_xui_eq _ 1 c.right_bar_flag (by omega),
    write_fixed_eq _ 4, write_bar_line_eq _ _ _ l1, write_bar_line_eq _ _ _ l2,
    write_bar_line_eq _ _ _ l3, write_bar_line_eq _ _ _ l4, put_chk_bind_bind, bind_pure,
    put_chk_bind, List.append_assoc]

theorem write_cea708_cc_data_packet_eq (rw : PutBitContext) (p : CEA708CCDataPacket)
    (h : p.Valid) :
    cbs_misc_write_cea708_cc_data_packet rw p = put_chk rw (cea708_cc_data_packet_bits p) := by
  obtain ⟨h1, h2, h3, h4⟩ := h
  simp only [cbs_misc_write_cea708_cc_data_packet, cea708_cc_data_packet_bits,
    write_xui_eq _ 1 p.cc_valid (by omega), write_xui_eq _ 2 p.cc_type (by omega),
    write_xui_eq _ 8 p.cc_data_1 (by omega), write_xui_eq _ 8 p.cc_data_2 (by omega),
    write_fixed_eq _ 5, put_chk_bind_bind, bind_pure, put_chk_bind, List.append_assoc]

theorem write_cc_data_pkts_eq (pkts : List CEA708CCDataPacket) (n i : Nat)
    (rw : PutBitContext) (hlen : i + n ≤ pkts.length)
    (h : ∀ p ∈ (pkts.drop i).take n, p.Valid) :
    write_cc_data_pkts pkts n i rw = put_chk rw (cc_data_pkts_bits ((pkts.drop i).take n)) := by
  induction n generalizing i rw with
  | zero => simp [write_cc_data_pkts, cc_data_pkts_bits, put_chk_nil, pure, Except.pure]
  | succ n ih =>
    have hi : i < pkts.length := by omega
    have hd : pkts.drop i = pkts[i] :: pkts.drop (i + 1) := List.drop_eq_getElem_cons hi
    rw [hd, List.take_succ_cons] at h ⊢
    have hp : pkts[i].Valid := h _ (List.mem_cons_self _ _)
    have ih2 := fun rw1 =>
      ih (i + 1) rw1 (by omega) (fun p hp => h p (List.mem_cons_of_mem _ hp))
    simp only [write_cc_data_pkts, List.get?_eq_getElem?, List.getElem?_eq_getElem hi,
      write_cea708_cc_data_packet_eq _ _ hp, cc_data_pkts_bits]
    rw [← put_chk_bind]
    cases hc : put_chk rw (cea708_cc_data_packet_bits pkts[i]) with
    | error e => rfl
    | ok rw1 => simp only [bind, Except.bind, ih2]

theorem write_cea708_cc_data_eq (rw : PutBitContext) (c : CEA708CCData) (h : c.Valid) :
    cbs_misc_write_cea708_cc_data rw c = put_chk rw (cea708_cc_data_bits c) := by
  obtain ⟨h1, h2, h3, h4, h5, h6, h7⟩ := h
  have hl := fun rw1 => write_cc_data_pkts_eq c.cc_data_pkts c.cc_count 0 rw1 (by omega)
    (by simpa using h7)
  simp only [List.drop_zero] at hl
  simp only [cbs_misc_write_cea708_cc_data, cea708_cc_data_bits,
    write_xui_eq _ 1 c.process_em_data_flag (by omega),
    write_xui_eq _ 1 c.process_cc_data_flag (by omega),
    write_xui_eq _ 1 c.additional_data_flag (by omega),
    write_xui_eq _ 5 c.cc_count (by omega), write_xui_eq _ 8 c.em_data (by omega),
    write_fixed_eq _ 8, hl, put_chk_bind_bind, bind_pure, put_chk_bind, List.append_assoc]

theorem write_a53_atsc_user_data_eq (rw : PutBitContext) (c : A53ATSCUserData) (h : c.Valid) :
    cbs_misc_write_a53_atsc_user_data rw c = put_chk rw (a53_atsc_user_data_bits c) := by
  obtain ⟨h1, h2, h3⟩ := h
  simp only [cbs_misc_write_a53_atsc_user_data, a53_atsc_user_data_bits,
    write_xui_eq _ 8 c.user_data_type_code (by omega)]
  split_ifs with hc hb
  · simp only [write_cea708_cc_data_eq _ _ (h2 hc), put_chk_bind]
  · simp only [write_a53_bar_data_eq _ _ (h3 hb), put_chk_bind]
  · simp [put_chk]

theorem write_a53_afd_data_eq (rw : PutBitContext) (c : A53AFDData) (h : c.Valid) :
    cbs_misc_write_a53_afd_data rw c = put_chk rw (a53_afd_data_bits c) := by
  obtain ⟨h1, h2⟩ := h
  simp only [cbs_misc_write_a53_afd_data, a53_afd_data_bits,
    write_xui_eq _ 1 c.active_format_flag (by omega), write_fixed_eq]
  split_ifs with hf
  · have := h2 hf
    simp only [write_xui_eq _ 4 c.active_format (by omega), put_chk_bind_bind, bind_pure,
      put_chk_bind]
  · simp only [put_chk_bind_bind, bind_pure, put_chk_bind, List.append_nil]

theorem write_a53_user_data_eq (rw : PutBitContext) (c : A53UserData) (h : c.Valid) :
    cbs_misc_write_a53_user_data rw c = put_chk rw (a53_user_data_bits c) := by
  obtain ⟨h1, h2, h3⟩ := h
  simp only [cbs_misc_write_a53_user_data, a53_user_data_bits,
    write_xui_eq _ 32 c.user_identifier h1]
  split_ifs with hc hb
  · simp only [write_a53_atsc_user_data_eq _ _ (h2 hc), put_chk_bind]
  · simp only [write_a53_afd_data_eq _ _ (h3 hb), put_chk_bind]
  · simp [put_chk]

/-! ## Lemmas on the read cursor -/

@[simp] theorem adv_adv (rw : GetBitContext) (a b : Nat) : (rw.adv a).adv b = rw.adv (a + b) := by
  simp [GetBitContext.adv, Nat.add_assoc]

@[simp] theorem adv_zero (rw : GetBitContext) : rw.adv 0 = rw := by
  simp [GetBitContext.adv]

@[simp] theorem adv_index (rw : GetBitContext) (a : Nat) : (rw.adv a).index = rw.index + a := rfl

@[simp] theorem adv_buffer (rw : GetBitContext) (a : Nat) : (rw.adv a).buffer = rw.buffer := rfl

theorem reads_init (buf : List Nat) : Reads ⟨buf, 0, 8 * buf.length⟩ (bytes_to_bits buf) := by
  simp [Reads]

theorem Reads.length_eq {rw : GetBitContext} {bits : List Bool} (h : Reads rw bits) :
    rw.index + bits.length = 8 * rw.buffer.length := by
  obtain ⟨_, h2, h3⟩ := h
  rw [← h3]
  simp
  omega

theorem Reads.adv {rw : GetBitContext} {bs rest : List Bool} (h : Reads rw (bs ++ rest)) :
    Reads (rw.adv bs.length) rest := by
  have hl := h.length_eq
  obtain ⟨h1, h2, h3⟩ := h
  simp only [List.length_append] at hl
  refine ⟨h1, by simp only [adv_index, adv_buffer]; omega, ?_⟩
  simp only [adv_index, adv_buffer, ← List.drop_drop, h3, List.drop_left]

theorem Reads.adv_nat_bits {rw : GetBitContext} {w v : Nat} {rest : List Bool}
    (h : Reads rw (nat_bits w v ++ rest)) : Reads (rw.adv w) rest := by
  simpa using h.adv

theorem Reads.adv_adv_nat_bits {rw : GetBitContext} {a w v : Nat} {rest : List Bool}
    (h : Reads (rw.adv a) (nat_bits w v ++ rest)) : Reads (rw.adv (a + w)) rest := by
  simpa using h.adv

theorem read_unsigned_eq {rw : GetBitContext} {bs rest : List Bool} {w : Nat} (lo hi : Nat)
    (h : Reads rw (bs ++ rest)) (hw : bs.length = w) :
    ff_cbs_read_unsigned rw w lo hi =
      if bits_val bs < lo ∨ bits_val bs > hi then .error .INVALIDDATA
      else .ok (bits_val bs, rw.adv w) := by
  subst hw
  have hl := h.length_eq
  obtain ⟨h1, h2, h3⟩ := h
  simp only [List.length_append] at hl
  have hleft : ¬ get_bits_left rw < bs.length := by
    simp only [get_bits_left]; omega
  simp only [ff_cbs_read_unsigned, hleft, if_false, get_bits_long, h3, List.take_left]
  rfl

theorem read_unsigned_short {rw : GetBitContext} {bits : List Bool} {w : Nat} (lo hi : Nat)
    (h : Reads rw bits) (hw : bits.length < w) :
    ff_cbs_read_unsigned rw w lo hi = .error .INVALIDDATA := by
  have hl := h.length_eq
  obtain ⟨h1, h2, h3⟩ := h
  have hleft : get_bits_left rw < w := by
    simp only [get_bits_left]; omega
  simp only [ff_cbs_read_unsigned, hleft, if_true]

theorem read_xui_eq {τ : Type} {rw : GetBitContext} {w v : Nat} {rest : List Bool}
    (h : Reads rw (nat_bits w v ++ rest)) (hv : v < 2 ^ w) (store : τ → Nat → τ) (cur : τ) :
    read_xui w store rw cur = .ok (rw.adv w) (store cur v) := by
  have hr : ¬ (v < 0 ∨ v > MAX_UINT_BITS w) := by
    simp only [MAX_UINT_BITS]; omega
  simp only [read_xui, read_unsigned_eq 0 (MAX_UINT_BITS w) h (nat_bits_length w v),
    bits_val_nat_bits_of_lt hv, hr, if_false]

theorem read_fixed_eq {τ : Type} {rw : GetBitContext} {w v : Nat} {rest : List Bool}
    (h : Reads rw (nat_bits w v ++ rest)) (hv : v < 2 ^ w) (cur : τ) :
    read_fixed w v rw cur = .ok (rw.adv w) cur := by
  simp only [read_fixed, read_unsigned_eq v v h (nat_bits_length w v),
    bits_val_nat_bits_of_lt hv, lt_irrefl, gt_iff_lt, or_self, if_false]

@[simp] theorem Ret.check_ok {ρ τ : Type} (rw : ρ) (cur : τ) (k : ρ → τ → Ret ρ τ) :
    (Ret.ok rw cur).check k = k rw cur := rfl

@[simp] theorem Ret.check_fail {ρ τ : Type} (e : AVError) (cur : τ) (k : ρ → τ → Ret ρ τ) :
    (Ret.fail e cur : Ret ρ τ).check k = .fail e cur := rfl

@[simp] theorem Ret.member_ok {ρ σ τ : Type} (rw : ρ) (cur : σ) (store : σ → τ) :
    (Ret.ok rw cur).member store = .ok rw (store cur) := rfl

@[simp] theorem Ret.member_fail {ρ σ τ : Type} (e : AVError) (cur : σ) (store : σ → τ) :
    (Ret.fail e cur : Ret ρ σ).member store = .fail e (store cur) := rfl

theorem read_cea708_cc_data_packet_eq {rw : GetBitContext} {rest : List Bool}
    (v d : CEA708CCDataPacket) (h : Reads rw (cea708_cc_data_packet_bits v ++ rest))
    (hv : v.Valid) :
    cbs_misc_read_cea708_cc_data_packet rw d = .ok (rw.adv 24) v := by
  obtain ⟨v1, v2, v3, v4⟩ := hv
  simp only [cea708_cc_data_packet_bits, List.append_assoc] at h
  have h1 := h.adv_nat_bits
  have h2 := h1.adv_adv_nat_bits
  have h3 := h2.adv_adv_nat_bits
  have h4 := h3.adv_adv_nat_bits
  simp only [Nat.reduceAdd] at h2 h3 h4
  simp only [cbs_misc_read_cea708_cc_data_packet, read_fixed_eq h (by norm_num),
    read_xui_eq h1 (show v.cc_valid < 2 ^ 1 by omega),
    read_xui_eq h2 (show v.cc_type < 2 ^ 2 by omega),
    read_xui_eq h3 (show v.cc_data_1 < 2 ^ 8 by omega),
    read_xui_eq h4 (show v.cc_data_2 < 2 ^ 8 by omega), Ret.check_ok, adv_adv, Nat.reduceAdd]

theorem take_succ_set {α : Type} (l : List α) (i : Nat) (x : α) (h : i < l.length) :
    (l.set i x).take (i + 1) = l.take i ++ [x] := by
  induction l generalizing i with
  | nil => simp at h
  | cons a l ih =>
    cases i with
    | zero => simp
    | succ i => simpa using ih i (by simpa using h)

theorem drop_set_lt {α : Type} (l : List α) (i k : Nat) (x : α) (h : i < k) :
    (l.set i x).drop k = l.drop k := by
  induction l generalizing i k with
  | nil => simp
  | cons a l ih =>
    cases k with
    | zero => omega
    | succ k =>
      cases i with
      | zero => simp
      | succ i => simpa using ih i k (by omega)

@[simp] theorem cea708_cc_data_packet_bits_length (p : CEA708CCDataPacket) :
    (cea708_cc_data_packet_bits p).length = 24 := by
  simp [cea708_cc_data_packet_bits]

@[simp] theorem cc_data_pkts_bits_length (pkts : List CEA708CCDataPacket) :
    (cc_data_pkts_bits pkts).length = 24 * pkts.length := by
  induction pkts with
  | nil => rfl
  | cons p ps ih => simp [cc_data_pkts_bits, ih]; omega

theorem read_cc_data_pkts_eq (pkts : List CEA708CCDataPacket) (n i : Nat)
    (rw : GetBitContext) (rest : List Bool) (cur : CEA708CCData)
    (h : Reads rw (cc_data_pkts_bits pkts ++ rest)) (hv : ∀ p ∈ pkts, p.Valid)
    (hn : pkts.length = n) (hi : i + n ≤ cur.cc_data_pkts.length) :
    read_cc_data_pkts n i rw cur = .ok (rw.adv (24 * n))
      { cur with
        cc_data_pkts := cur.cc_data_pkts.take i ++ pkts ++ cur.cc_data_pkts.drop (i + n) } := by
  induction pkts generalizing n i rw cur with
  | nil =>
    subst hn
    simp [read_cc_data_pkts]
  | cons p ps ih =>
    subst hn
    have hlt : i < cur.cc_data_pkts.length := by simp at hi; omega
    simp only [cc_data_pkts_bits, List.append_assoc] at h
    have hp := read_cea708_cc_data_packet_eq p cur.cc_data_pkts[i] h
      (hv p (List.mem_cons_self _ _))
    have h2 : Reads (rw.adv 24) (cc_data_pkts_bits ps ++ rest) := by simpa using h.adv
    have ih2 := ih ps.length (i + 1) (rw.adv 24)
      { cur with cc_data_pkts := cur.cc_data_pkts.set i p } h2
      (fun q hq => hv q (List.mem_cons_of_mem _ hq)) rfl
      (by simp at hi ⊢; omega)
    simp only [List.length_cons, read_cc_data_pkts, List.get?_eq_getElem?,
      List.getElem?_eq_getElem hlt, hp, Ret.member_ok, Ret.check_ok, ih2, adv_adv,
      take_succ_set _ _ _ hlt, drop_set_lt _ i (i + 1 + ps.length) p (by omega)]
    have e1 : 24 + 24 * ps.length = 24 * (ps.length + 1) := by ring
    have e2 : i + 1 + ps.length = i + (ps.length + 1) := by ring
    simp [e1, e2]

theorem read_cea708_cc_data_eq {rw : GetBitContext} {rest : List Bool} (v d : CEA708CCData)
    (h : Reads rw (cea708_cc_data_bits v ++ rest)) (hv : v.Valid)
    (hd : d.cc_data_pkts.length = 31) :
    cbs_misc_read_cea708_cc_data rw d = .ok (rw.adv (24 + 24 * v.cc_count)) (v.decoded d) := by
  obtain ⟨v1, v2, v3, v4, v5, v6, v7⟩ := hv
  simp only [cea708_cc_data_bits, List.append_assoc] at h
  have h1 := h.adv_nat_bits
  have h2 := h1.adv_adv_nat_bits
  have h3 := h2.adv_adv_nat_bits
  have h4 := h3.adv_adv_nat_bits
  have h5 := h4.adv_adv_nat_bits
  simp only [Nat.reduceAdd] at h2 h3 h4 h5
  have hlen : (v.cc_data_pkts.take v.cc_count).length = v.cc_count := by
    simp only [List.length_take]; omega
  have hloop := fun cur hi =>
    read_cc_data_pkts_eq (v.cc_data_pkts.take v.cc_count) v.cc_count 0 (rw.adv 16)
      (nat_bits 8 0xff ++ rest) cur h5 v7 hlen hi
  have h6 : Reads (rw.adv (16 + 24 * v.cc_count)) (nat_bits 8 0xff ++ rest) := by
    have := h5.adv
    simpa [hlen] using this
  simp only [cbs_misc_read_cea708_cc_data,
    read_xui_eq h (show v.process_em_data_flag < 2 ^ 1 by omega),
    read_xui_eq h1 (show v.process_cc_data_flag < 2 ^ 1 by omega),
    read_xui_eq h2 (show v.additional_data_flag < 2 ^ 1 by omega),
    read_xui_eq h3 (show v.cc_count < 2 ^ 5 by omega),
    read_xui_eq h4 (show v.em_data < 2 ^ 8 by omega), Ret.check_ok, adv_adv, Nat.reduceAdd]
  rw [hloop _ (by simp only [hd]; omega)]
  simp only [Ret.check_ok, adv_adv, read_fixed_eq h6 (by norm_num)]
  have e : 16 + 24 * v.cc_count + 8 = 24 + 24 * v.cc_count := by omega
  simp [e, CEA708CCData.decoded]

@[simp] theorem bar_line_bits_length (flag line : Nat) :
    (bar_line_bits flag line).length = if flag ≠ 0 then 16 else 0 := by
  unfold bar_line_bits
  split_ifs <;> simp

theorem read_bar_line_eq {τ : Type} {rw : GetBitContext} {flag line : Nat} {rest : List Bool}
    (h : Reads rw (bar_line_bits flag line ++ rest)) (hl : flag ≠ 0 → line < 2 ^ 14)
    (store : τ → Nat → τ) (cur : τ) :
    (if flag ≠ 0 then
      (read_fixed 2 3 rw cur).check fun rw cur => read_xui 14 store rw cur
    else .ok rw cur) =
      .ok (rw.adv (if flag ≠ 0 then 16 else 0)) (if flag ≠ 0 then store cur line else cur) := by
  unfold bar_line_bits at h
  split_ifs with hf
  · rw [if_pos hf, List.append_assoc] at h
    have h1 := h.adv_nat_bits
    simp only [read_fixed_eq h (by norm_num), Ret.check_ok, read_xui_eq h1 (hl hf), adv_adv]
  · rw [adv_zero]

theorem read_a53_bar_data_eq {rw : GetBitContext} {rest : List Bool} (v d : A53BarData)
    (h : Reads rw (a53_bar_data_bits v ++ rest)) (hv : v.Valid) :
    cbs_misc_read_a53_bar_data rw d = .ok (rw.adv (a53_bar_data_bits v).length) (v.decoded d) := by
  obtain ⟨f1, f2, f3, f4, l1, l2, l3, l4⟩ := hv
  have hlen : (a53_bar_data_bits v).length =
      8 + (if v.top_bar_flag ≠ 0 then 16 else 0) + (if v.bottom_bar_flag ≠ 0 then 16 else 0)
        + (if v.left_bar_flag ≠ 0 then 16 else 0) + (if v.right_bar_flag ≠ 0 then 16 else 0) := by
    simp only [a53_bar_data_bits, List.length_append, nat_bits_length, bar_line_bits_length]
    omega
  rw [hlen]
  simp only [a53_bar_data_bits, List.append_assoc] at h
  have h1 := h.adv_nat_bits
  have h2 := h1.adv_adv_nat_bits
  have h3 := h2.adv_adv_nat_bits
  have h4 := h3.adv_adv_nat_bits
  have h5 := h4.adv_adv_nat_bits
  simp only [Nat.reduceAdd] at h2 h3 h4 h5
  have h6 := h5.adv
  have h7 := h6.adv
  have h8 := h7.adv
  simp only [adv_adv, bar_line_bits_length] at h6 h7 h8
  simp only [cbs_misc_read_a53_bar_data,
    read_xui_eq h (show v.top_bar_flag < 2 ^ 1 by omega),
    read_xui_eq h1 (show v.bottom_bar_flag < 2 ^ 1 by omega),
    read_xui_eq h2 (show v.left_bar_flag < 2 ^ 1 by omega),
    read_xui_eq h3 (show v.right_bar_flag < 2 ^ 1 by omega),
    read_fixed_eq h4 (show 0xf < 2 ^ 4 by norm_num), Ret.check_ok, adv_adv, Nat.reduceAdd,
    read_bar_line_eq h5 l1, read_bar_line_eq h6 l2, read_bar_line_eq h7 l3,
    read_bar_line_eq h8 l4, A53BarData.decoded,
    apply_ite A53BarData.top_bar_flag, apply_ite A53BarData.bottom_bar_flag,
    apply_ite A53BarData.left_bar_flag, apply_ite A53BarData.right_bar_flag, ite_self]
  congr 1
  split_ifs <;> simp [*]

theorem read_a53_afd_data_eq {rw : GetBitContext} {rest : List Bool} (v d : A53AFDData)
    (h : Reads rw (a53_afd_data_bits v ++ rest)) (hv : v.Valid) :
    cbs_misc_read_a53_afd_data rw d = .ok (rw.adv (a53_afd_data_bits v).length) (v.decoded d) := by
  obtain ⟨f1, a1⟩ := hv
  simp only [a53_afd_data_bits, List.append_assoc] at h
  have h1 := h.adv_nat_bits
  have h2 := h1.adv_adv_nat_bits
  have h3 := h2.adv_adv_nat_bits
  simp only [Nat.reduceAdd] at h2 h3
  by_cases hf : v.active_format_flag ≠ 0
  · rw [if_pos hf, List.append_assoc] at h3
    have h4 := h3.adv_adv_nat_bits
    simp only [Nat.reduceAdd] at h4
    have := a1 hf
    simp only [cbs_misc_read_a53_afd_data, read_fixed_eq h (show 0 < 2 ^ 1 by norm_num),
      read_xui_eq h1 (show v.active_format_flag < 2 ^ 1 by omega),
      read_fixed_eq h2 (show 1 < 2 ^ 6 by norm_num), Ret.check_ok, adv_adv, Nat.reduceAdd,
      if_pos hf, read_fixed_eq h3 (show 0xf < 2 ^ 4 by norm_num),
      read_xui_eq h4 (show v.active_format < 2 ^ 4 by omega), A53AFDData.decoded,
      a53_afd_data_bits, List.length_append, nat_bits_length]
  · simp only [cbs_misc_read_a53_afd_data, read_fixed_eq h (show 0 < 2 ^ 1 by norm_num),
      read_xui_eq h1 (show v.active_format_flag < 2 ^ 1 by omega),
      read_fixed_eq h2 (show 1 < 2 ^ 6 by norm_num), Ret.check_ok, adv_adv, Nat.reduceAdd,
      if_neg hf, A53AFDData.decoded, a53_afd_data_bits, List.length_append,
      nat_bits_length, List.length_nil]

theorem cea708_cc_data_bits_length (v : CEA708CCData) (h : v.cc_count ≤ v.cc_data_pkts.length) :
    (cea708_cc_data_bits v).length = 24 + 24 * v.cc_count := by
  simp only [cea708_cc_data_bits, List.length_append, nat_bits_length,
    cc_data_pkts_bits_length, List.length_take]
  omega

theorem read_a53_atsc_user_data_eq {rw : GetBitContext} {rest : List Bool}
    (v d : A53ATSCUserData) (h : Reads rw (a53_atsc_user_data_bits v ++ rest)) (hv : v.Valid)
    (hd : d.cc_data.cc_data_pkts.length = 31) :
    cbs_misc_read_a53_atsc_user_data rw d =
      .ok (rw.adv (a53_atsc_user_data_bits v).length) (v.decoded d) := by
  obtain ⟨t1, t2, t3⟩ := hv
  simp only [a53_atsc_user_data_bits, List.append_assoc] at h
  have h1 := h.adv_nat_bits
  simp only [cbs_misc_read_a53_atsc_user_data,
    read_xui_eq h (show v.user_data_type_code < 2 ^ 8 by omega), Ret.check_ok,
    a53_atsc_user_data_bits, A53ATSCUserData.decoded, List.length_append, nat_bits_length]
  by_cases hc : v.user_data_type_code = A53_USER_DATA_TYPE_CODE_CC_DATA
  · simp only [hc, if_true] at h1 ⊢
    have hv2 := t2 hc
    rw [read_cea708_cc_data_eq v.cc_data d.cc_data h1 hv2 hd,
      cea708_cc_data_bits_length _ (by rw [hv2.2.2.2.2.2.1]; exact hv2.2.2.2.1)]
    simp
  · by_cases hb : v.user_data_type_code = A53_USER_DATA_TYPE_CODE_BAR_DATA
    · simp only [hc, hb, if_true, if_false] at h1 ⊢
      rw [read_a53_bar_data_eq v.bar_data d.bar_data h1 (t3 hb)]
      simp [A53_USER_DATA_TYPE_CODE_BAR_DATA, A53_USER_DATA_TYPE_CODE_CC_DATA]
    · simp only [hc, hb, if_false, List.length_nil, Nat.add_zero]

theorem read_a53_user_data_eq {rw : GetBitContext} {rest : List Bool}
    (v d : A53UserData) (h : Reads rw (a53_user_data_bits v ++ rest)) (hv : v.Valid)
    (hd : d.atsc.cc_data.cc_data_pkts.length = 31) :
    cbs_misc_read_a53_user_data rw d =
      .ok (rw.adv (a53_user_data_bits v).length) (v.decoded d) := by
  obtain ⟨t1, t2, t3⟩ := hv
  simp only [a53_user_data_bits, List.append_assoc] at h
  have h1 := h.adv_nat_bits
  simp only [cbs_misc_read_a53_user_data, read_xui_eq h t1, Ret.check_ok,
    a53_user_data_bits, A53UserData.decoded, List.length_append, nat_bits_length]
  by_cases hc : v.user_identifier = A53_USER_IDENTIFIER_ATSC
  · simp only [hc, if_true] at h1 ⊢
    rw [read_a53_atsc_user_data_eq v.atsc d.atsc h1 (t2 hc) hd]
    simp
  · by_cases hb : v.user_identifier = A53_USER_IDENTIFIER_AFD
    · simp only [hc, hb, if_true, if_false] at h1 ⊢
      rw [read_a53_afd_data_eq v.afd d.afd h1 (t3 hb)]
      simp [A53_USER_IDENTIFIER_AFD, A53_USER_IDENTIFIER_ATSC, MKBETAG]
    · simp only [hc, hb, if_false, List.length_nil, Nat.add_zero]

/-! ## The entry points on valid values -/

theorem a53_user_data_bits_length (v : A53UserData)
    (h : v.user_identifier = A53_USER_IDENTIFIER_ATSC →
      v.atsc.user_data_type_code = A53_USER_DATA_TYPE_CODE_CC_DATA →
      v.atsc.cc_data.cc_count ≤ v.atsc.cc_data.cc_data_pkts.length) :
    (a53_user_data_bits v).length = 8 * a53_user_data_size v := by
  simp only [a53_user_data_bits, a53_user_data_size, a53_atsc_user_data_bits,
    a53_afd_data_bits, a53_bar_data_bits]
  by_cases h1 : v.user_identifier = A53_USER_IDENTIFIER_ATSC
  · by_cases h2 : v.atsc.user_data_type_code = A53_USER_DATA_TYPE_CODE_CC_DATA
    · simp only [if_pos h1, if_pos h2, List.length_append, nat_bits_length,
        cea708_cc_data_bits_length _ (h h1 h2)]
      omega
    · simp only [if_pos h1, if_neg h2, List.length_append, nat_bits_length,
        bar_line_bits_length, apply_ite List.length, List.length_nil]
      split_ifs <;> omega
  · simp only [if_neg h1, List.length_append, nat_bits_length, apply_ite List.length,
      List.length_nil]
    split_ifs <;> omega

theorem Valid.cc_count_le {v : A53UserData} (hv : v.Valid) :
    v.user_identifier = A53_USER_IDENTIFIER_ATSC →
      v.atsc.user_data_type_code = A53_USER_DATA_TYPE_CODE_CC_DATA →
      v.atsc.cc_data.cc_count ≤ v.atsc.cc_data.cc_data_pkts.length := by
  intro h1 h2
  have := (hv.2.1 h1).2.1 h2
  rw [this.2.2.2.2.2.1]
  exact this.2.2.2.1

theorem write_a53_user_data_valid (length : Nat) (v : A53UserData) (hv : v.Valid) :
    ff_cbs_write_a53_user_data length v =
      if a53_user_data_size v ≤ length then
        .ok (bits_to_bytes (a53_user_data_bits v), a53_user_data_size v)
      else .error .ENOSPC := by
  have hl := a53_user_data_bits_length v (Valid.cc_count_le hv)
  simp only [ff_cbs_write_a53_user_data, write_a53_user_data_eq _ _ hv, put_chk, init_put_bits,
    List.length_nil, Nat.sub_zero, hl, List.nil_append]
  split_ifs with h1 h2
  · simp [put_bits_count, flush_put_bits, hl]
  · omega
  · omega
  · rfl

theorem read_a53_user_data_valid (v d : A53UserData) (hv : v.Valid)
    (hd : d.atsc.cc_data.cc_data_pkts.length = 31) :
    ff_cbs_read_a53_user_data d (bits_to_bytes (a53_user_data_bits v)) =
      .ok ⟨bits_to_bytes (a53_user_data_bits v), 8 * a53_user_data_size v,
        8 * a53_user_data_size v⟩ (v.decoded d) := by
  have hl := a53_user_data_bits_length v (Valid.cc_count_le hv)
  obtain ⟨hb, hn⟩ := bits_to_bytes_aligned _ _ hl
  have hr := reads_init (bits_to_bytes (a53_user_data_bits v))
  rw [hb, hn] at hr
  have := read_a53_user_data_eq v d
    (show Reads _ (a53_user_data_bits v ++ []) by simpa using hr) hv hd
  simp only [ff_cbs_read_a53_user_data, init_get_bits, hn, this, hl]
  simp [GetBitContext.adv]

/-! ## Side data -/

theorem side_data_first_byte_bits (b : Nat) (h : b / 8 = 0x1f) :
    nat_bits 8 b = nat_bits 5 0x1f ++ (nat_bits 1 (b / 4 % 2) ++ nat_bits 2 (b % 4)) := by
  have e1 := nat_bits_add 5 3 b
  have e2 := nat_bits_add 1 2 b
  have e3 := nat_bits_mod_two_pow 1 1 (b / 4) (le_refl _)
  have e4 := nat_bits_mod_two_pow 2 2 b (le_refl _)
  simp only [Nat.reduceAdd, Nat.reducePow, pow_one] at e1 e2 e3 e4
  rw [e1, e2, h, e3, e4]

theorem side_data_pkts_spec (n : Nat) (l : List Nat) (hlen : l.length = 3 * n)
    (hb : ∀ b ∈ l, b < 256) (hm : ∀ i, i < n → l.getD (3 * i) 0 / 8 = 0x1f) :
    bytes_to_bits l = cc_data_pkts_bits (side_data_pkts l) ∧
    (side_data_pkts l).length = n ∧ (∀ p ∈ side_data_pkts l, p.Valid) ∧
    ∀ i, i < n → (side_data_pkts l).get? i =
      some ⟨l.getD (3 * i) 0 / 4 % 2, l.getD (3 * i) 0 % 4, l.getD (3 * i + 1) 0,
        l.getD (3 * i + 2) 0⟩ := by
  induction n generalizing l with
  | zero =>
    have : l = [] := List.length_eq_zero.mp (by omega)
    subst this
    simp [bytes_to_bits, side_data_pkts, cc_data_pkts_bits]
  | succ n ih =>
    match l, hlen with
    | b0 :: b1 :: b2 :: rest, hlen =>
      have hr : rest.length = 3 * n := by simp at hlen; omega
      have h0 : b0 / 8 = 0x1f := by simpa using hm 0 (by omega)
      have hb0 : b0 < 256 := hb b0 (by simp)
      have hb1 : b1 < 256 := hb b1 (by simp)
      have hb2 : b2 < 256 := hb b2 (by simp)
      obtain ⟨i1, i2, i3, i4⟩ := ih rest hr (fun b h => hb b (by simp [h]))
        (fun i hi => by
          have := hm (i + 1) (by omega)
          have e : 3 * (i + 1) = 3 * i + 3 := by ring
          simpa [e] using this)
      refine ⟨?_, ?_, ?_, ?_⟩
      · simp only [bytes_to_bits, side_data_pkts, cc_data_pkts_bits,
          cea708_cc_data_packet_bits, side_data_first_byte_bits b0 h0, i1, List.append_assoc]
      · simp [side_data_pkts, i2]
      · intro p hp
        simp only [side_data_pkts, List.mem_cons] at hp
        rcases hp with rfl | hp
        · refine ⟨?_, ?_, ?_, ?_⟩ <;> simp only <;> omega
        · exact i3 p hp
      · intro i hi
        cases i with
        | zero => simp [side_data_pkts]
        | succ i =>
          have e : 3 * (i + 1) = 3 * i + 3 := by ring
          have := i4 i (by omega)
          simp only [side_data_pkts, List.get?_cons_succ, this, e]
          simp [List.getD_cons_succ]

theorem to_int_of_lt (n : Nat) (h : n < 2147483648) : to_int (n : Int) = n := by
  unfold to_int
  omega

theorem to_uint8_of_lt (n : Nat) (h : n < 256) : to_uint8 (n : Int) = n := by
  unfold to_uint8
  omega

theorem read_a53_cc_side_data_small (d : A53UserData) (l : List Nat)
    (h3 : l.length % 3 = 0) (hs : l.length / 3 ≤ 31) :
    ff_cbs_read_a53_cc_side_data d l =
      (read_cc_data_pkts (l.length / 3) 0 ⟨l, 0, 8 * l.length⟩
        (cc_side_data_init (l.length / 3)).atsc.cc_data).member
        fun c => { cc_side_data_init (l.length / 3) with
          atsc := { (cc_side_data_init (l.length / 3)).atsc with cc_data := c } } := by
  unfold ff_cbs_read_a53_cc_side_data
  have e1 : to_int ((l.length / 3 : Nat) : Int) = (l.length / 3 : Nat) :=
    to_int_of_lt _ (by omega)
  have e2 : to_uint8 ((l.length / 3 : Nat) : Int) = l.length / 3 := to_uint8_of_lt _ (by omega)
  simp only [if_neg (show ¬ l.length % 3 ≠ 0 by omega), e1, e2,
    if_neg (show ¬ ((l.length / 3 : Nat) : Int) > 31 by omega), init_get_bits]
  rfl

theorem read_a53_cc_side_data_ok (d : A53UserData) (n : Nat) (l : List Nat)
    (hlen : l.length = 3 * n) (hn : n ≤ 31) (hb : ∀ b ∈ l, b < 256)
    (hm : ∀ i, i < n → l.getD (3 * i) 0 / 8 = 0x1f) :
    ff_cbs_read_a53_cc_side_data d l = .ok ⟨l, 24 * n, 8 * l.length⟩
      { cc_side_data_init n with
        atsc :=
          { (cc_side_data_init n).atsc with
            cc_data :=
              { (cc_side_data_init n).atsc.cc_data with
                cc_data_pkts := side_data_pkts l ++ List.replicate (31 - n) ⟨0, 0, 0, 0⟩ } } } := by
  obtain ⟨i1, i2, i3, _⟩ := side_data_pkts_spec n l hlen hb hm
  have hr := reads_init l
  rw [i1] at hr
  have hdiv : l.length / 3 = n := by omega
  have hloop := read_cc_data_pkts_eq (side_data_pkts l) n 0 ⟨l, 0, 8 * l.length⟩ []
    (cc_side_data_init n).atsc.cc_data (by simpa using hr) i3 i2
    (by simp only [cc_side_data_init, List.length_replicate]; omega)
  rw [read_a53_cc_side_data_small d l (by omega) (by omega), hdiv, hloop]
  simp only [Ret.member_ok, List.take_zero, List.nil_append, Nat.zero_add, GetBitContext.adv,
    cc_side_data_init, List.drop_replicate]

theorem ff_cbs_read_unsigned_error {rw : GetBitContext} {w lo hi : Nat} {e : AVError}
    (h : ff_cbs_read_unsigned rw w lo hi = .error e) : e = .INVALIDDATA := by
  simp only [ff_cbs_read_unsigned] at h
  split_ifs at h
  · exact (Except.error.inj h).symm
  · exact (Except.error.inj h).symm

theorem read_xui_fail {τ : Type} {rw : GetBitContext} {w : Nat} {store : τ → Nat → τ}
    {cur c : τ} {e : AVError} (h : read_xui w store rw cur = .fail e c) :
    e = .INVALIDDATA ∧ c = cur := by
  unfold read_xui at h
  split at h
  · next e2 he =>
    simp only [Ret.fail.injEq] at h
    exact ⟨h.1 ▸ ff_cbs_read_unsigned_error he, h.2.symm⟩
  · simp at h

theorem read_fixed_fail {τ : Type} {rw : GetBitContext} {w v : Nat}
    {cur c : τ} {e : AVError} (h : read_fixed w v rw cur = .fail e c) :
    e = .INVALIDDATA ∧ c = cur := by
  unfold read_fixed at h
  split at h
  · next e2 he =>
    simp only [Ret.fail.injEq] at h
    exact ⟨h.1 ▸ ff_cbs_read_unsigned_error he, h.2.symm⟩
  · simp at h

theorem Ret.check_eq_fail {ρ τ : Type} {r : Ret ρ τ} {k : ρ → τ → Ret ρ τ} {e : AVError}
    {c : τ} (h : r.check k = .fail e c) :
    r = .fail e c ∨ ∃ rw1 c1, r = .ok rw1 c1 ∧ k rw1 c1 = .fail e c := by
  cases r with
  | ok rw1 c1 => exact Or.inr ⟨rw1, c1, rfl, h⟩
  | fail e1 c1 => exact Or.inl h

theorem read_cea708_cc_data_packet_fail {rw : GetBitContext} {cur c : CEA708CCDataPacket}
    {e : AVError} (h : cbs_misc_read_cea708_cc_data_packet rw cur = .fail e c) :
    e = .INVALIDDATA := by
  unfold cbs_misc_read_cea708_cc_data_packet at h
  rcases Ret.check_eq_fail h with h | ⟨_, _, _, h⟩
  · exact (read_fixed_fail h).1
  rcases Ret.check_eq_fail h with h | ⟨_, _, _, h⟩
  · exact (read_xui_fail h).1
  rcases Ret.check_eq_fail h with h | ⟨_, _, _, h⟩
  · exact (read_xui_fail h).1
  rcases Ret.check_eq_fail h with h | ⟨_, _, _, h⟩
  · exact (read_xui_fail h).1
  rcases Ret.check_eq_fail h with h | ⟨_, _, _, h⟩
  · exact (read_xui_fail h).1
  · simp at h

theorem read_cc_data_pkts_fail (n i : Nat) (rw : GetBitContext) (cur c : CEA708CCData)
    (e : AVError) (hi : i + n ≤ cur.cc_data_pkts.length)
    (h : read_cc_data_pkts n i rw cur = .fail e c) : e = .INVALIDDATA := by
  induction n generalizing i rw cur with
  | zero => simp [read_cc_data_pkts] at h
  | succ n ih =>
    have hlt : i < cur.cc_data_pkts.length := by omega
    simp only [read_cc_data_pkts, List.get?_eq_getElem?, List.getElem?_eq_getElem hlt] at h
    cases hp : cbs_misc_read_cea708_cc_data_packet rw cur.cc_data_pkts[i] with
    | fail e1 c1 =>
      rw [hp] at h
      simp only [Ret.member_fail, Ret.check_fail, Ret.fail.injEq] at h
      exact h.1 ▸ read_cea708_cc_data_packet_fail hp
    | ok rw1 c1 =>
      rw [hp] at h
      simp only [Ret.member_ok, Ret.check_ok] at h
      exact ih (i + 1) rw1 _ (by simp; omega) h

theorem Ret.member_eq_fail {ρ σ τ : Type} {r : Ret ρ σ} {store : σ → τ} {e : AVError} {c : τ}
    (h : r.member store = .fail e c) : ∃ c1, r = .fail e c1 ∧ c = store c1 := by
  cases r with
  | ok rw1 c1 => simp [Ret.member] at h
  | fail e1 c1 =>
    simp only [Ret.member_fail, Ret.fail.injEq] at h
    exact ⟨c1, by rw [h.1], h.2.symm⟩

theorem read_a53_cc_side_data_not_einval (d c : A53UserData) (l : List Nat)
    (h3 : l.length % 3 = 0) (h31 : l.length / 3 ≤ 31) :
    ff_cbs_read_a53_cc_side_data d l ≠ .fail .EINVAL c := by
  intro h
  rw [read_a53_cc_side_data_small d l h3 h31] at h
  obtain ⟨c1, hc, _⟩ := Ret.member_eq_fail h
  have := read_cc_data_pkts_fail _ _ _ _ _ _
    (by simp only [cc_side_data_init, List.length_replicate]; omega) hc
  cases this

theorem read_a53_cc_side_data_large (d : A53UserData) (l : List Nat)
    (h : l.length % 3 ≠ 0 ∨ (31 < l.length / 3 ∧ l.length / 3 < 2147483648)) :
    ff_cbs_read_a53_cc_side_data d l = .fail .EINVAL d := by
  unfold ff_cbs_read_a53_cc_side_data
  by_cases h3 : l.length % 3 ≠ 0
  · simp only [if_pos h3]
  · have h31 := h.resolve_left h3
    have e1 : to_int ((l.length / 3 : Nat) : Int) = (l.length / 3 : Nat) :=
      to_int_of_lt _ h31.2
    simp only [if_neg h3, e1, if_pos (show ((l.length / 3 : Nat) : Int) > 31 by omega)]

theorem pkt_first_byte (p : CEA708CCDataPacket) (h1 : p.cc_valid ≤ 1) (h2 : p.cc_type ≤ 3) :
    bits_val (nat_bits 5 0x1f ++ (nat_bits 1 p.cc_valid ++ nat_bits 2 p.cc_type)) =
      0xF8 ||| (p.cc_valid <<< 2) ||| p.cc_type := by
  generalize p.cc_valid = a at h1 ⊢
  generalize p.cc_type = b at h2 ⊢
  interval_cases a <;> interval_cases b <;> decide

theorem bits_to_bytes_cc_data_pkts (ps : List CEA708CCDataPacket) (h : ∀ p ∈ ps, p.Valid) :
    bits_to_bytes (cc_data_pkts_bits ps) = pkts_side_data ps := by
  induction ps with
  | nil => simp [cc_data_pkts_bits, pkts_side_data, bits_to_bytes]
  | cons p ps ih =>
    obtain ⟨v1, v2, v3, v4⟩ := h p (List.mem_cons_self _ _)
    have e : cc_data_pkts_bits (p :: ps) =
        (nat_bits 5 0x1f ++ (nat_bits 1 p.cc_valid ++ nat_bits 2 p.cc_type)) ++
          (nat_bits 8 p.cc_data_1 ++ (nat_bits 8 p.cc_data_2 ++ cc_data_pkts_bits ps)) := by
      simp only [cc_data_pkts_bits, cea708_cc_data_packet_bits, List.append_assoc]
    rw [e, bits_to_bytes_cons8 _ _ (by simp), bits_to_bytes_cons8 _ _ (by simp),
      bits_to_bytes_cons8 _ _ (by simp), ih (fun q hq => h q (List.mem_cons_of_mem _ hq)),
      pkt_first_byte p v1 v2, bits_val_nat_bits_of_lt (show p.cc_data_1 < 2 ^ 8 by omega),
      bits_val_nat_bits_of_lt (show p.cc_data_2 < 2 ^ 8 by omega)]
    rfl

@[simp] theorem pkts_side_data_length (ps : List CEA708CCDataPacket) :
    (pkts_side_data ps).length = 3 * ps.length := by
  induction ps with
  | nil => rfl
  | cons p ps ih => simp [pkts_side_data, pkt_side_data, ih]; omega

theorem pkts_side_data_triplet (ps : List CEA708CCDataPacket) (i : Nat) (p : CEA708CCDataPacket)
    (h : ps.get? i = some p) :
    ((pkts_side_data ps).drop (3 * i)).take 3 = pkt_side_data p := by
  induction ps generalizing i with
  | nil => simp at h
  | cons q ps ih =>
    cases i with
    | zero =>
      simp only [List.get?_cons_zero, Option.some.injEq] at h
      subst h
      simp [pkts_side_data, pkt_side_data]
    | succ i =>
      have e : 3 * (i + 1) = 3 + 3 * i := by ring
      simp only [List.get?_cons_succ] at h
      rw [e, pkts_side_data, ← List.drop_drop]
      have : (pkt_side_data q ++ pkts_side_data ps).drop 3 = pkts_side_data ps := by
        simp [pkt_side_data]
      rw [this, ih i h]

theorem store_bytes_grown (buf bytes : List Nat) (m : Nat) (hm : bytes.length = m) :
    store_bytes (buf.take (buf.length + m) ++ List.replicate (buf.length + m - buf.length) 0)
      buf.length bytes = buf ++ bytes := by
  have e1 : buf.take (buf.length + m) = buf := List.take_of_length_le (by omega)
  have e2 : buf.length + m - buf.length = m := by omega
  rw [e1, e2]
  unfold store_bytes
  rw [List.take_left, hm, List.drop_of_length_le (by simp), List.append_nil]

theorem write_a53_cc_side_data_ok (side_data : Option (List Nat)) (side_data_size : Nat)
    (data : A53UserData) (h1 : data.user_identifier = A53_USER_IDENTIFIER_ATSC)
    (h2 : data.atsc.user_data_type_code = A53_USER_DATA_TYPE_CODE_CC_DATA)
    (hn : data.atsc.cc_data.cc_count ≤ 31) (hlen : data.atsc.cc_data.cc_data_pkts.length = 31)
    (hp : ∀ p ∈ data.atsc.cc_data.cc_data_pkts.take data.atsc.cc_data.cc_count, p.Valid)
    (hs : (side_data.getD []).length = side_data_size) :
    ff_cbs_write_a53_cc_side_data side_data side_data_size data =
      ⟨none,
        if side_data_size + 3 * data.atsc.cc_data.cc_count = 0 then none
        else some (side_data.getD [] ++
          pkts_side_data (data.atsc.cc_data.cc_data_pkts.take data.atsc.cc_data.cc_count)),
        side_data_size + 3 * data.atsc.cc_data.cc_count⟩ := by
  have htl : (data.atsc.cc_data.cc_data_pkts.take data.atsc.cc_data.cc_count).length =
      data.atsc.cc_data.cc_count := by
    simp only [List.length_take]; omega
  have hl : write_cc_data_pkts data.atsc.cc_data.cc_data_pkts data.atsc.cc_data.cc_count 0
      (init_put_bits (3 * data.atsc.cc_data.cc_count)) =
      .ok ⟨cc_data_pkts_bits
        (data.atsc.cc_data.cc_data_pkts.take data.atsc.cc_data.cc_count),
        8 * (3 * data.atsc.cc_data.cc_count)⟩ := by
    rw [write_cc_data_pkts_eq data.atsc.cc_data.cc_data_pkts data.atsc.cc_data.cc_count 0
      (init_put_bits (3 * data.atsc.cc_data.cc_count)) (by omega) (by simpa using hp)]
    simp only [List.drop_zero, put_chk, init_put_bits, List.length_nil, Nat.sub_zero,
      cc_data_pkts_bits_length, htl, List.nil_append]
    rw [if_pos (by omega)]
  unfold ff_cbs_write_a53_cc_side_data
  rw [if_neg (by simp [h1, h2])]
  simp only [av_reallocp, hl, flush_put_bits, bits_to_bytes_cc_data_pkts _ hp]
  by_cases h0 : side_data_size + 3 * data.atsc.cc_data.cc_count = 0
  · simp [h0]
  · subst hs
    simp only [if_neg h0, Option.map_some']
    rw [store_bytes_grown _ _ (3 * data.atsc.cc_data.cc_count)
      (by rw [pkts_side_data_length, htl])]

/-! ## What a successful write has written -/

theorem Wrote.append {a b c : PutBitContext} {x y : List Bool} (h1 : Wrote a x b)
    (h2 : Wrote b y c) : Wrote a (x ++ y) c := by
  unfold Wrote at *
  subst h1
  simp [h2]

theorem Wrote.refl (rw : PutBitContext) : Wrote rw [] rw := by
  simp [Wrote]

theorem bind_eq_ok {α β : Type} {x : Except AVError α} {f : α → Except AVError β} {b : β}
    (h : (x >>= f) = .ok b) : ∃ a, x = .ok a ∧ f a = .ok b := by
  cases x with
  | error e => cases h
  | ok a => exact ⟨a, rfl, h⟩

theorem pure_eq_ok {α : Type} {a b : α} (h : (pure a : Except AVError α) = .ok b) : a = b :=
  Except.ok.inj h

theorem write_unsigned_ok {pbc pbc1 : PutBitContext} {w v lo hi : Nat}
    (h : ff_cbs_write_unsigned pbc w v lo hi = .ok pbc1) :
    Wrote pbc (nat_bits w v) pbc1 ∧ lo ≤ v ∧ v ≤ hi := by
  unfold ff_cbs_write_unsigned at h
  split_ifs at h with h1 h2
  refine ⟨(Except.ok.inj h).symm, by omega, by omega⟩

theorem write_xui_ok {rw rw1 : PutBitContext} {w v : Nat} (h : write_xui rw w v = .ok rw1) :
    Wrote rw (nat_bits w v) rw1 :=
  (write_unsigned_ok h).1

theorem write_fixed_ok {rw rw1 : PutBitContext} {w v : Nat} (h : write_fixed rw w v = .ok rw1) :
    Wrote rw (nat_bits w v) rw1 :=
  (write_unsigned_ok h).1

theorem write_bar_line_ok {rw rw1 : PutBitContext} {flag line : Nat}
    (h : (if flag ≠ 0 then write_fixed rw 2 3 >>= fun rw => write_xui rw 14 line
      else pure rw) = .ok rw1) : Wrote rw (bar_line_bits flag line) rw1 := by
  unfold bar_line_bits
  split_ifs at h ⊢ with hf
  · obtain ⟨r1, e1, h⟩ := bind_eq_ok h
    exact (write_fixed_ok e1).append (write_xui_ok h)
  · rw [pure_eq_ok h]
    exact Wrote.refl _

theorem write_a53_bar_data_ok {rw rw1 : PutBitContext} {c : A53BarData}
    (h : cbs_misc_write_a53_bar_data rw c = .ok rw1) : Wrote rw (a53_bar_data_bits c) rw1 := by
  unfold cbs_misc_write_a53_bar_data at h
  obtain ⟨r1, e1, h⟩ := bind_eq_ok h
  obtain ⟨r2, e2, h⟩ := bind_eq_ok h
  obtain ⟨r3, e3, h⟩ := bind_eq_ok h
  obtain ⟨r4, e4, h⟩ := bind_eq_ok h
  obtain ⟨r5, e5, h⟩ := bind_eq_ok h
  obtain ⟨r6, e6, h⟩ := bind_eq_ok h
  obtain ⟨r7, e7, h⟩ := bind_eq_ok h
  obtain ⟨r8, e8, h⟩ := bind_eq_ok h
  obtain ⟨r9, e9, h⟩ := bind_eq_ok h
  rw [← pure_eq_ok h]
  exact (write_xui_ok e1).append ((write_xui_ok e2).append ((write_xui_ok e3).append
    ((write_xui_ok e4).append ((write_fixed_ok e5).append ((write_bar_line_ok e6).append
    ((write_bar_line_ok e7).append ((write_bar_line_ok e8).append (write_bar_line_ok e9))))))))

theorem write_cea708_cc_data_packet_ok {rw rw1 : PutBitContext} {p : CEA708CCDataPacket}
    (h : cbs_misc_write_cea708_cc_data_packet rw p = .ok rw1) :
    Wrote rw (cea708_cc_data_packet_bits p) rw1 := by
  unfold cbs_misc_write_cea708_cc_data_packet at h
  obtain ⟨r1, e1, h⟩ := bind_eq_ok h
  obtain ⟨r2, e2, h⟩ := bind_eq_ok h
  obtain ⟨r3, e3, h⟩ := bind_eq_ok h
  obtain ⟨r4, e4, h⟩ := bind_eq_ok h
  obtain ⟨r5, e5, h⟩ := bind_eq_ok h
  rw [← pure_eq_ok h]
  exact (write_fixed_ok e1).append ((write_xui_ok e2).append ((write_xui_ok e3).append
    ((write_xui_ok e4).append (write_xui_ok e5))))

theorem write_cc_data_pkts_ok (pkts : List CEA708CCDataPacket) (n i : Nat)
    (rw rw1 : PutBitContext) (h : write_cc_data_pkts pkts n i rw = .ok rw1) :
    Wrote rw (cc_data_pkts_bits ((pkts.drop i).take n)) rw1 := by
  induction n generalizing i rw with
  | zero =>
    simp only [write_cc_data_pkts, Except.ok.injEq] at h
    subst h
    simpa [cc_data_pkts_bits] using Wrote.refl rw
  | succ n ih =>
    unfold write_cc_data_pkts at h
    cases hg : pkts.get? i with
    | none => simp only [hg] at h; cases h
    | some p =>
      simp only [hg] at h
      cases hp : cbs_misc_write_cea708_cc_data_packet rw p with
      | error e => simp only [hp] at h; cases h
      | ok r1 =>
        simp only [hp] at h
        have hw := ih (i + 1) r1 h
        rw [List.get?_eq_getElem?] at hg
        obtain ⟨hi, hg2⟩ := List.getElem?_eq_some_iff.mp hg
        have hd : pkts.drop i = p :: pkts.drop (i + 1) := by
          rw [List.drop_eq_getElem_cons hi, hg2]
        rw [hd, List.take_succ_cons, cc_data_pkts_bits]
        exact (write_cea708_cc_data_packet_ok hp).append hw

theorem write_cea708_cc_data_ok {rw rw1 : PutBitContext} {c : CEA708CCData}
    (h : cbs_misc_write_cea708_cc_data rw c = .ok rw1) : Wrote rw (cea708_cc_data_bits c) rw1 := by
  unfold cbs_misc_write_cea708_cc_data at h
  obtain ⟨r1, e1, h⟩ := bind_eq_ok h
  obtain ⟨r2, e2, h⟩ := bind_eq_ok h
  obtain ⟨r3, e3, h⟩ := bind_eq_ok h
  obtain ⟨r4, e4, h⟩ := bind_eq_ok h
  obtain ⟨r5, e5, h⟩ := bind_eq_ok h
  obtain ⟨r6, e6, h⟩ := bind_eq_ok h
  obtain ⟨r7, e7, h⟩ := bind_eq_ok h
  rw [← pure_eq_ok h]
  have e6b := write_cc_data_pkts_ok _ _ _ _ _ e6
  rw [List.drop_zero] at e6b
  exact (write_xui_ok e1).append ((write_xui_ok e2).append ((write_xui_ok e3).append
    ((write_xui_ok e4).append ((write_xui_ok e5).append (e6b.append (write_fixed_ok e7))))))

theorem write_a53_atsc_user_data_ok {rw rw1 : PutBitContext} {c : A53ATSCUserData}
    (h : cbs_misc_write_a53_atsc_user_data rw c = .ok rw1) :
    Wrote rw (a53_atsc_user_data_bits c) rw1 := by
  unfold cbs_misc_write_a53_atsc_user_data at h
  obtain ⟨r1, e1, h⟩ := bind_eq_ok h
  unfold a53_atsc_user_data_bits
  split_ifs at h ⊢ with hc hb
  · exact (write_xui_ok e1).append (write_cea708_cc_data_ok h)
  · exact (write_xui_ok e1).append (write_a53_bar_data_ok h)
  · rw [← pure_eq_ok h]
    exact (write_xui_ok e1).append (Wrote.refl _)

theorem write_a53_afd_data_ok {rw rw1 : PutBitContext} {c : A53AFDData}
    (h : cbs_misc_write_a53_afd_data rw c = .ok rw1) : Wrote rw (a53_afd_data_bits c) rw1 := by
  unfold cbs_misc_write_a53_afd_data at h
  obtain ⟨r1, e1, h⟩ := bind_eq_ok h
  obtain ⟨r2, e2, h⟩ := bind_eq_ok h
  obtain ⟨r3, e3, h⟩ := bind_eq_ok h
  unfold a53_afd_data_bits
  split_ifs at h ⊢ with hf
  · obtain ⟨r4, e4, h⟩ := bind_eq_ok h
    obtain ⟨r5, e5, h⟩ := bind_eq_ok h
    rw [← pure_eq_ok h]
    exact (write_fixed_ok e1).append ((write_xui_ok e2).append ((write_fixed_ok e3).append
      ((write_fixed_ok e4).append (write_xui_ok e5))))
  · rw [← pure_eq_ok h]
    exact (write_fixed_ok e1).append ((write_xui_ok e2).append ((write_fixed_ok e3).append
      (Wrote.refl _)))

theorem write_a53_user_data_ok {rw rw1 : PutBitContext} {c : A53UserData}
    (h : cbs_misc_write_a53_user_data rw c = .ok rw1) : Wrote rw (a53_user_data_bits c) rw1 := by
  unfold cbs_misc_write_a53_user_data at h
  obtain ⟨r1, e1, h⟩ := bind_eq_ok h
  unfold a53_user_data_bits
  split_ifs at h ⊢ with hc hb
  · exact (write_xui_ok e1).append (write_a53_atsc_user_data_ok h)
  · exact (write_xui_ok e1).append (write_a53_afd_data_ok h)
  · rw [← pure_eq_ok h]
    exact (write_xui_ok e1).append (Wrote.refl _)

theorem a53_user_data_bits_aligned (v : A53UserData) : (a53_user_data_bits v).length % 8 = 0 := by
  simp only [a53_user_data_bits, a53_atsc_user_data_bits, a53_afd_data_bits, a53_bar_data_bits,
    cea708_cc_data_bits, List.length_append, nat_bits_length, bar_line_bits_length,
    apply_ite List.length, List.length_nil, cc_data_pkts_bits_length, List.length_take]
  split_ifs <;> omega

/-! ## What a successful read has consumed -/

theorem Reads.unique {rw : GetBitContext} {a b : List Bool} (h1 : Reads rw a) (h2 : Reads rw b) :
    a = b := by
  rw [← h1.2.2, ← h2.2.2]

theorem Consumed.reads {rw rw1 : GetBitContext} {bs : List Bool} (h : Consumed rw bs rw1) :
    ∃ bits, Reads rw1 bits := by
  obtain ⟨h1, rest, h2⟩ := h
  exact ⟨rest, h1 ▸ h2.adv⟩

theorem Consumed.nil {rw : GetBitContext} {bits : List Bool} (h : Reads rw bits) :
    Consumed rw [] rw :=
  ⟨by simp, bits, by simpa using h⟩

theorem Consumed.trans {a b c : GetBitContext} {x y : List Bool} (h1 : Consumed a x b)
    (h2 : Consumed b y c) : Consumed a (x ++ y) c := by
  obtain ⟨e1, r1, k1⟩ := h1
  obtain ⟨e2, r2, k2⟩ := h2
  subst e1
  have := Reads.unique k1.adv k2
  subst this
  exact ⟨by simp [e2], r2, by simpa using k1⟩

theorem read_unsigned_ok {rw rw1 : GetBitContext} {w lo hi v : Nat}
    (h : ff_cbs_read_unsigned rw w lo hi = .ok (v, rw1)) :
    rw1 = rw.adv w ∧ lo ≤ v ∧ v ≤ hi ∧ w ≤ get_bits_left rw ∧
      v = bits_val (((bytes_to_bits rw.buffer).drop rw.index).take w) := by
  simp only [ff_cbs_read_unsigned] at h
  split_ifs at h with h1 h2
  simp only [get_bits_long, Except.ok.injEq, Prod.mk.injEq] at h h2
  exact ⟨h.2.symm, by omega, by omega, by omega, h.1.symm⟩

theorem read_unsigned_consumed {rw rw1 : GetBitContext} {w lo hi v : Nat} {bits : List Bool}
    (h : ff_cbs_read_unsigned rw w lo hi = .ok (v, rw1)) (hr : Reads rw bits) :
    Consumed rw (nat_bits w v) rw1 ∧ lo ≤ v ∧ v ≤ hi := by
  obtain ⟨h1, h2, h3, h4, h5⟩ := read_unsigned_ok h
  have hl := hr.length_eq
  obtain ⟨r1, r2, r3⟩ := hr
  rw [r3] at h5
  have hw : (bits.take w).length = w := by
    simp only [List.length_take, get_bits_left] at h4 ⊢
    omega
  have e : nat_bits w v = bits.take w := by
    have := nat_bits_bits_val (bits.take w)
    rw [hw] at this
    rw [h5, this]
  refine ⟨⟨by simpa using h1, bits.drop w, ?_⟩, h2, h3⟩
  rw [e, List.take_append_drop]
  exact ⟨r1, r2, r3⟩

theorem Ret.check_eq_ok {ρ τ : Type} {r : Ret ρ τ} {k : ρ → τ → Ret ρ τ} {rw : ρ} {c : τ}
    (h : r.check k = .ok rw c) : ∃ rw1 c1, r = .ok rw1 c1 ∧ k rw1 c1 = .ok rw c := by
  cases r with
  | ok rw1 c1 => exact ⟨rw1, c1, rfl, h⟩
  | fail e1 c1 => cases h

theorem Ret.member_eq_ok {ρ σ τ : Type} {r : Ret ρ σ} {store : σ → τ} {rw : ρ} {c : τ}
    (h : r.member store = .ok rw c) : ∃ c1, r = .ok rw c1 ∧ c = store c1 := by
  cases r with
  | ok rw1 c1 =>
    simp only [Ret.member_ok, Ret.ok.injEq] at h
    exact ⟨c1, by rw [h.1], h.2.symm⟩
  | fail e1 c1 => cases h

theorem read_xui_ok {τ : Type} {rw rw1 : GetBitContext} {w : Nat} {store : τ → Nat → τ}
    {cur c : τ} {bits : List Bool} (h : read_xui w store rw cur = .ok rw1 c)
    (hr : Reads rw bits) :
    ∃ v, Consumed rw (nat_bits w v) rw1 ∧ c = store cur v ∧ v < 2 ^ w := by
  unfold read_xui at h
  split at h
  · cases h
  · next v rw2 he =>
    simp only [Ret.ok.injEq] at h
    obtain ⟨k1, _, k3⟩ := read_unsigned_consumed he hr
    have : 0 < 2 ^ w := Nat.two_pow_pos w
    exact ⟨v, h.1 ▸ k1, h.2.symm, by simp only [MAX_UINT_BITS] at k3; omega⟩

theorem read_fixed_ok {τ : Type} {rw rw1 : GetBitContext} {w v : Nat}
    {cur c : τ} {bits : List Bool} (h : read_fixed w v rw cur = .ok rw1 c)
    (hr : Reads rw bits) : Consumed rw (nat_bits w v) rw1 ∧ c = cur := by
  unfold read_fixed at h
  split at h
  · cases h
  · next v2 rw2 he =>
    simp only [Ret.ok.injEq] at h
    obtain ⟨k1, k2, k3⟩ := read_unsigned_consumed he hr
    have : v2 = v := by omega
    subst this
    exact ⟨h.1 ▸ k1, h.2.symm⟩

theorem read_cea708_cc_data_packet_ok {rw rw1 : GetBitContext} {cur r : CEA708CCDataPacket}
    {bits : List Bool} (h : cbs_misc_read_cea708_cc_data_packet rw cur = .ok rw1 r)
    (hr : Reads rw bits) : Consumed rw (cea708_cc_data_packet_bits r) rw1 ∧ r.Valid := by
  unfold cbs_misc_read_cea708_cc_data_packet at h
  obtain ⟨a1, c1, e1, h⟩ := Ret.check_eq_ok h
  obtain ⟨k1, s1⟩ := read_fixed_ok e1 hr
  obtain ⟨b1, hr1⟩ := k1.reads
  obtain ⟨a2, c2, e2, h⟩ := Ret.check_eq_ok h
  obtain ⟨v2, k2, s2, l2⟩ := read_xui_ok e2 hr1
  obtain ⟨b2, hr2⟩ := k2.reads
  obtain ⟨a3, c3, e3, h⟩ := Ret.check_eq_ok h
  obtain ⟨v3, k3, s3, l3⟩ := read_xui_ok e3 hr2
  obtain ⟨b3, hr3⟩ := k3.reads
  obtain ⟨a4, c4, e4, h⟩ := Ret.check_eq_ok h
  obtain ⟨v4, k4, s4, l4⟩ := read_xui_ok e4 hr3
  obtain ⟨b4, hr4⟩ := k4.reads
  obtain ⟨a5, c5, e5, h⟩ := Ret.check_eq_ok h
  obtain ⟨v5, k5, s5, l5⟩ := read_xui_ok e5 hr4
  simp only [Ret.ok.injEq] at h
  obtain ⟨h1, h2⟩ := h
  subst h1 h2 s5 s4 s3 s2 s1
  refine ⟨k1.trans (k2.trans (k3.trans (k4.trans k5))), ?_⟩
  refine ⟨?_, ?_, ?_, ?_⟩ <;> simp only <;> omega

theorem read_cc_data_pkts_ok (n : Nat) :
    ∀ (i : Nat) (rw rw1 : GetBitContext) (cur r : CEA708CCData) (bits : List Bool),
      read_cc_data_pkts n i rw cur = .ok rw1 r → Reads rw bits →
      Consumed rw (cc_data_pkts_bits ((r.cc_data_pkts.drop i).take n)) rw1 ∧
      (∀ p ∈ (r.cc_data_pkts.drop i).take n, p.Valid) ∧
      r.cc_data_pkts.length = cur.cc_data_pkts.length ∧
      r.cc_data_pkts.take i = cur.cc_data_pkts.take i ∧
      (n ≠ 0 → i + n ≤ cur.cc_data_pkts.length) ∧
      (r.process_em_data_flag = cur.process_em_data_flag ∧
        r.process_cc_data_flag = cur.process_cc_data_flag ∧
        r.additional_data_flag = cur.additional_data_flag ∧ r.em_data = cur.em_data ∧
        r.cc_count = cur.cc_count) := by
  induction n with
  | zero =>
    intro i rw rw1 cur r bits h hr
    simp only [read_cc_data_pkts, Ret.ok.injEq] at h
    obtain ⟨h1, h2⟩ := h
    subst h1 h2
    exact ⟨by simpa [cc_data_pkts_bits] using Consumed.nil hr, by simp, rfl, rfl, by simp,
      rfl, rfl, rfl, rfl, rfl⟩
  | succ n ih =>
    intro i rw rw1 cur r bits h hr
    unfold read_cc_data_pkts at h
    cases hg : cur.cc_data_pkts.get? i with
    | none => simp only [hg] at h; cases h
    | some x =>
      simp only [hg] at h
      obtain ⟨a1, c1, e1, h⟩ := Ret.check_eq_ok h
      obtain ⟨p, ep, sp⟩ := Ret.member_eq_ok e1
      subst sp
      obtain ⟨kp, vp⟩ := read_cea708_cc_data_packet_ok ep hr
      obtain ⟨b1, hr1⟩ := kp.reads
      obtain ⟨k, hv, hlen, htake, hle, hrest⟩ := ih (i + 1) a1 rw1 _ r b1 h hr1
      simp only [List.length_set] at hlen
      rw [List.get?_eq_getElem?] at hg
      obtain ⟨hi, _⟩ := List.getElem?_eq_some_iff.mp hg
      have hir : i < r.cc_data_pkts.length := by omega
      simp only [take_succ_set _ _ _ hi] at htake
      have hri : r.cc_data_pkts[i] = p := by
        have h1 : (r.cc_data_pkts.take (i + 1))[i]? = some p := by
          rw [htake, List.getElem?_append_right (by simp)]
          simp [List.length_take, Nat.min_eq_left (Nat.le_of_lt hi)]
        rw [List.getElem?_take_of_lt (by omega), List.getElem?_eq_getElem hir] at h1
        exact Option.some.inj h1
      have hd : r.cc_data_pkts.drop i = p :: r.cc_data_pkts.drop (i + 1) := by
        rw [List.drop_eq_getElem_cons hir, hri]
      refine ⟨?_, ?_, hlen, ?_, ?_, ?_⟩
      · rw [hd, List.take_succ_cons, cc_data_pkts_bits]
        exact kp.trans k
      · rw [hd, List.take_succ_cons]
        intro q hq
        rcases List.mem_cons.mp hq with rfl | hq
        · exact vp
        · exact hv q hq
      · have := congrArg (List.take i) htake
        rw [List.take_take, List.take_append_of_le_length (by simp; omega), List.take_take] at this
        simpa using this
      · intro _
        by_cases hn : n = 0
        · omega
        · have := hle hn
          simp only [List.length_set] at this
          omega
      · exact hrest

theorem read_cea708_cc_data_ok {rw rw1 : GetBitContext} {cur r : CEA708CCData}
    {bits : List Bool} (h : cbs_misc_read_cea708_cc_data rw cur = .ok rw1 r)
    (hr : Reads rw bits) :
    Consumed rw (cea708_cc_data_bits r) rw1 ∧ r.cc_count ≤ 31 ∧
      (cur.cc_data_pkts.length = 31 → r.Valid) := by
  unfold cbs_misc_read_cea708_cc_data at h
  obtain ⟨a1, c1, e1, h⟩ := Ret.check_eq_ok h
  obtain ⟨v1, k1, s1, l1⟩ := read_xui_ok e1 hr
  obtain ⟨b1, hr1⟩ := k1.reads
  obtain ⟨a2, c2, e2, h⟩ := Ret.check_eq_ok h
  obtain ⟨v2, k2, s2, l2⟩ := read_xui_ok e2 hr1
  obtain ⟨b2, hr2⟩ := k2.reads
  obtain ⟨a3, c3, e3, h⟩ := Ret.check_eq_ok h
  obtain ⟨v3, k3, s3, l3⟩ := read_xui_ok e3 hr2
  obtain ⟨b3, hr3⟩ := k3.reads
  obtain ⟨a4, c4, e4, h⟩ := Ret.check_eq_ok h
  obtain ⟨v4, k4, s4, l4⟩ := read_xui_ok e4 hr3
  obtain ⟨b4, hr4⟩ := k4.reads
  obtain ⟨a5, c5, e5, h⟩ := Ret.check_eq_ok h
  obtain ⟨v5, k5, s5, l5⟩ := read_xui_ok e5 hr4
  obtain ⟨b5, hr5⟩ := k5.reads
  obtain ⟨a6, c6, e6, h⟩ := Ret.check_eq_ok h
  obtain ⟨k6, hv6, hlen6, _, _, f1, f2, f3, f4, f5⟩ := read_cc_data_pkts_ok _ _ _ _ _ _ _ e6 hr5
  obtain ⟨b6, hr6⟩ := k6.reads
  obtain ⟨a7, c7, e7, h⟩ := Ret.check_eq_ok h
  obtain ⟨k7, s7⟩ := read_fixed_ok e7 hr6
  simp only [Ret.ok.injEq] at h
  obtain ⟨h1, h2⟩ := h
  subst h1 h2 s7 s5 s4 s3 s2 s1
  simp only [List.drop_zero] at k6 hv6 hlen6 f1 f2 f3 f4 f5
  have hc : c7.cc_count ≤ 31 := by rw [f5]; omega
  refine ⟨?_, hc, fun hd => ⟨by rw [f1]; omega, by rw [f2]; omega, by rw [f3]; omega, hc,
    by rw [f4]; omega, by rw [hlen6]; exact hd, by rw [f5]; exact hv6⟩⟩
  have := k1.trans (k2.trans (k3.trans (k4.trans (k5.trans (k6.trans k7)))))
  simpa only [cea708_cc_data_bits, f1, f2, f3, f4, f5] using this

theorem bar_line_bits_congr (flag a b : Nat) (h : flag ≠ 0 → a = b) :
    bar_line_bits flag a = bar_line_bits flag b := by
  unfold bar_line_bits
  split_ifs with hf
  · rw [h hf]
  · rfl

theorem read_bar_line_ok {τ : Type} {rw rw1 : GetBitContext} {flag : Nat}
    {store : τ → Nat → τ} {cur c : τ} {bits : List Bool}
    (h : (if flag ≠ 0 then
        (read_fixed 2 3 rw cur).check fun rw cur => read_xui 14 store rw cur
      else .ok rw cur) = .ok rw1 c)
    (hr : Reads rw bits) :
    ∃ line, Consumed rw (bar_line_bits flag line) rw1 ∧
      c = (if flag ≠ 0 then store cur line else cur) ∧ (flag ≠ 0 → line < 2 ^ 14) := by
  unfold bar_line_bits
  split_ifs at h ⊢ with hf
  · obtain ⟨a1, c1, e1, h⟩ := Ret.check_eq_ok h
    obtain ⟨k1, s1⟩ := read_fixed_ok e1 hr
    obtain ⟨b1, hr1⟩ := k1.reads
    obtain ⟨v2, k2, s2, l2⟩ := read_xui_ok h hr1
    subst s1
    exact ⟨v2, k1.trans k2, s2, fun _ => l2⟩
  · simp only [Ret.ok.injEq] at h
    obtain ⟨h1, h2⟩ := h
    subst h1 h2
    exact ⟨0, Consumed.nil hr, rfl, fun h => absurd h hf⟩

theorem read_a53_bar_data_ok {rw rw1 : GetBitContext} {cur r : A53BarData}
    {bits : List Bool} (h : cbs_misc_read_a53_bar_data rw cur = .ok rw1 r)
    (hr : Reads rw bits) : Consumed rw (a53_bar_data_bits r) rw1 ∧ r.Valid := by
  unfold cbs_misc_read_a53_bar_data at h
  obtain ⟨a1, c1, e1, g1⟩ := Ret.check_eq_ok h
  obtain ⟨v1, k1, s1, l1⟩ := read_xui_ok e1 hr
  obtain ⟨b1, hr1⟩ := k1.reads
  obtain ⟨a2, c2, e2, g2⟩ := Ret.check_eq_ok g1
  obtain ⟨v2, k2, s2, l2⟩ := read_xui_ok e2 hr1
  obtain ⟨b2, hr2⟩ := k2.reads
  obtain ⟨a3, c3, e3, g3⟩ := Ret.check_eq_ok g2
  obtain ⟨v3, k3, s3, l3⟩ := read_xui_ok e3 hr2
  obtain ⟨b3, hr3⟩ := k3.reads
  obtain ⟨a4, c4, e4, g4⟩ := Ret.check_eq_ok g3
  obtain ⟨v4, k4, s4, l4⟩ := read_xui_ok e4 hr3
  obtain ⟨b4, hr4⟩ := k4.reads
  obtain ⟨a5, c5, e5, g5⟩ := Ret.check_eq_ok g4
  obtain ⟨k5, s5⟩ := read_fixed_ok e5 hr4
  obtain ⟨b5, hr5⟩ := k5.reads
  obtain ⟨a6, c6, e6, g6⟩ := Ret.check_eq_ok g5
  obtain ⟨n6, k6, s6, l6⟩ := read_bar_line_ok e6 hr5
  obtain ⟨b6, hr6⟩ := k6.reads
  obtain ⟨a7, c7, e7, g7⟩ := Ret.check_eq_ok g6
  obtain ⟨n7, k7, s7, l7⟩ := read_bar_line_ok e7 hr6
  obtain ⟨b7, hr7⟩ := k7.reads
  obtain ⟨a8, c8, e8, g8⟩ := Ret.check_eq_ok g7
  obtain ⟨n8, k8, s8, l8⟩ := read_bar_line_ok e8 hr7
  obtain ⟨b8, hr8⟩ := k8.reads
  obtain ⟨a9, c9, e9, g9⟩ := Ret.check_eq_ok g8
  obtain ⟨n9, k9, s9, l9⟩ := read_bar_line_ok e9 hr8
  simp only [Ret.ok.injEq] at g9
  obtain ⟨h1, h2⟩ := g9
  have hk := k1.trans (k2.trans (k3.trans (k4.trans (k5.trans (k6.trans (k7.trans
    (k8.trans k9)))))))
  clear e1 e2 e3 e4 e5 e6 e7 e8 e9 g1 g2 g3 g4 g5 g6 g7 g8 h k1 k2 k3 k4 k5 k6 k7 k8 k9
  subst h1 h2 s9 s8 s7 s6 s5 s4 s3 s2 s1
  simp only [apply_ite A53BarData.top_bar_flag, apply_ite A53BarData.bottom_bar_flag,
    apply_ite A53BarData.left_bar_flag, apply_ite A53BarData.right_bar_flag, ite_self]
    at hk l6 l7 l8 l9
  refine ⟨?_, ?_⟩
  · by_cases f1 : v1 = 0 <;> by_cases f2 : v2 = 0 <;> by_cases f3 : v3 = 0 <;>
      by_cases f4 : v4 = 0 <;>
      simp only [f1, f2, f3, f4, ne_eq, not_true_eq_false, not_false_eq_true, if_true,
        if_false, a53_bar_data_bits, bar_line_bits] at hk ⊢ <;>
      exact hk
  · by_cases f1 : v1 = 0 <;> by_cases f2 : v2 = 0 <;> by_cases f3 : v3 = 0 <;>
      by_cases f4 : v4 = 0 <;>
      simp only [f1, f2, f3, f4, ne_eq, not_true_eq_false, not_false_eq_true, if_true,
        if_false, A53BarData.Valid, forall_true_left, false_implies, true_implies, and_true,
        true_and] at l6 l7 l8 l9 ⊢ <;>
      omega

theorem read_a53_afd_data_ok {rw rw1 : GetBitContext} {cur r : A53AFDData}
    {bits : List Bool} (h : cbs_misc_read_a53_afd_data rw cur = .ok rw1 r)
    (hr : Reads rw bits) : Consumed rw (a53_afd_data_bits r) rw1 ∧ r.Valid := by
  unfold cbs_misc_read_a53_afd_data at h
  obtain ⟨a1, c1, e1, g1⟩ := Ret.check_eq_ok h
  obtain ⟨k1, s1⟩ := read_fixed_ok e1 hr
  obtain ⟨b1, hr1⟩ := k1.reads
  obtain ⟨a2, c2, e2, g2⟩ := Ret.check_eq_ok g1
  obtain ⟨v2, k2, s2, l2⟩ := read_xui_ok e2 hr1
  obtain ⟨b2, hr2⟩ := k2.reads
  obtain ⟨a3, c3, e3, g3⟩ := Ret.check_eq_ok g2
  obtain ⟨k3, s3⟩ := read_fixed_ok e3 hr2
  obtain ⟨b3, hr3⟩ := k3.reads
  have hflag : c3.active_format_flag = v2 := by rw [s3, s2, s1]
  by_cases hf : c3.active_format_flag ≠ 0
  · rw [if_pos hf] at g3
    obtain ⟨a4, c4, e4, g4⟩ := Ret.check_eq_ok g3
    obtain ⟨k4, s4⟩ := read_fixed_ok e4 hr3
    obtain ⟨b4, hr4⟩ := k4.reads
    obtain ⟨a5, c5, e5, g5⟩ := Ret.check_eq_ok g4
    obtain ⟨v5, k5, s5, l5⟩ := read_xui_ok e5 hr4
    simp only [Ret.ok.injEq] at g5
    obtain ⟨h1, h2⟩ := g5
    have hk := k1.trans (k2.trans (k3.trans (k4.trans k5)))
    rw [hflag] at hf
    clear e1 e2 e3 e4 e5 g1 g2 g3 g4 h k1 k2 k3 k4 k5 hflag
    subst h1 h2 s5 s4 s3 s2 s1
    refine ⟨by simpa only [a53_afd_data_bits, if_pos hf] using hk, ?_, fun _ => ?_⟩
    · show v2 ≤ 1
      omega
    · show v5 ≤ 15
      omega
  · rw [if_neg hf] at g3
    simp only [Ret.ok.injEq] at g3
    obtain ⟨h1, h2⟩ := g3
    have hk := k1.trans (k2.trans k3)
    rw [hflag] at hf
    clear e1 e2 e3 g1 g2 h k1 k2 k3 hflag
    subst h1 h2 s3 s2 s1
    refine ⟨by simpa only [a53_afd_data_bits, if_neg hf, List.append_nil] using hk, ?_,
      fun h => absurd h hf⟩
    show v2 ≤ 1
    omega

theorem read_a53_atsc_user_data_ok {rw rw1 : GetBitContext} {cur r : A53ATSCUserData}
    {bits : List Bool} (h : cbs_misc_read_a53_atsc_user_data rw cur = .ok rw1 r)
    (hr : Reads rw bits) :
    Consumed rw (a53_atsc_user_data_bits r) rw1 ∧
      (r.user_data_type_code = A53_USER_DATA_TYPE_CODE_CC_DATA → r.cc_data.cc_count ≤ 31) ∧
      (cur.cc_data.cc_data_pkts.length = 31 → r.Valid) := by
  unfold cbs_misc_read_a53_atsc_user_data at h
  obtain ⟨a1, c1, e1, g1⟩ := Ret.check_eq_ok h
  obtain ⟨v1, k1, s1, l1⟩ := read_xui_ok e1 hr
  obtain ⟨b1, hr1⟩ := k1.reads
  have htype : c1.user_data_type_code = v1 := by rw [s1]
  have hcc : c1.cc_data = cur.cc_data := by rw [s1]
  by_cases hc : c1.user_data_type_code = A53_USER_DATA_TYPE_CODE_CC_DATA
  · rw [if_pos hc] at g1
    obtain ⟨c2, e2, s2⟩ := Ret.member_eq_ok g1
    obtain ⟨k2, l2, v2⟩ := read_cea708_cc_data_ok e2 hr1
    have hk := k1.trans k2
    rw [hcc] at v2
    rw [htype] at hc
    clear e1 e2 g1 h k1 k2 htype hcc
    subst s2 s1
    refine ⟨by simpa only [a53_atsc_user_data_bits, if_pos hc] using hk, fun _ => l2,
      fun hd => ⟨?_, fun _ => v2 hd, fun hb => ?_⟩⟩
    · show v1 ≤ 255
      omega
    · exact absurd (hc.symm.trans hb) (by decide)
  · rw [if_neg hc] at g1
    by_cases hb : c1.user_data_type_code = A53_USER_DATA_TYPE_CODE_BAR_DATA
    · rw [if_pos hb] at g1
      obtain ⟨c2, e2, s2⟩ := Ret.member_eq_ok g1
      obtain ⟨k2, v2⟩ := read_a53_bar_data_ok e2 hr1
      have hk := k1.trans k2
      rw [htype] at hc hb
      clear e1 e2 g1 h k1 k2 htype hcc
      subst s2 s1
      refine ⟨by simpa only [a53_atsc_user_data_bits, if_neg hc, if_pos hb] using hk,
        fun h => absurd h hc, fun _ => ⟨?_, fun h => absurd h hc, fun _ => v2⟩⟩
      show v1 ≤ 255
      omega
    · rw [if_neg hb] at g1
      simp only [Ret.ok.injEq] at g1
      obtain ⟨h1, h2⟩ := g1
      rw [htype] at hc hb
      clear e1 h htype hcc
      subst h1 h2 s1
      refine ⟨by simpa only [a53_atsc_user_data_bits, if_neg hc, if_neg hb, List.append_nil]
        using k1, fun h => absurd h hc, fun _ => ⟨?_, fun h => absurd h hc,
        fun h => absurd h hb⟩⟩
      show v1 ≤ 255
      omega

theorem read_a53_user_data_ok {rw rw1 : GetBitContext} {cur r : A53UserData}
    {bits : List Bool} (h : cbs_misc_read_a53_user_data rw cur = .ok rw1 r)
    (hr : Reads rw bits) :
    Consumed rw (a53_user_data_bits r) rw1 ∧
      (r.user_identifier = A53_USER_IDENTIFIER_ATSC →
        r.atsc.user_data_type_code = A53_USER_DATA_TYPE_CODE_CC_DATA →
        r.atsc.cc_data.cc_count ≤ 31) ∧
      (cur.atsc.cc_data.cc_data_pkts.length = 31 → r.Valid) := by
  unfold cbs_misc_read_a53_user_data at h
  obtain ⟨a1, c1, e1, g1⟩ := Ret.check_eq_ok h
  obtain ⟨v1, k1, s1, l1⟩ := read_xui_ok e1 hr
  obtain ⟨b1, hr1⟩ := k1.reads
  have hid : c1.user_identifier = v1 := by rw [s1]
  have hat : c1.atsc = cur.atsc := by rw [s1]
  by_cases hc : c1.user_identifier = A53_USER_IDENTIFIER_ATSC
  · rw [if_pos hc] at g1
    obtain ⟨c2, e2, s2⟩ := Ret.member_eq_ok g1
    obtain ⟨k2, l2, v2⟩ := read_a53_atsc_user_data_ok e2 hr1
    have hk := k1.trans k2
    rw [hat] at v2
    rw [hid] at hc
    clear e1 e2 g1 h k1 k2 hid hat
    subst s2 s1
    refine ⟨by simpa only [a53_user_data_bits, if_pos hc] using hk, fun _ => l2,
      fun hd => ⟨l1, fun _ => v2 hd, fun hb => ?_⟩⟩
    exact absurd (hc.symm.trans hb) (by decide)
  · rw [if_neg hc] at g1
    by_cases hb : c1.user_identifier = A53_USER_IDENTIFIER_AFD
    · rw [if_pos hb] at g1
      obtain ⟨c2, e2, s2⟩ := Ret.member_eq_ok g1
      obtain ⟨k2, v2⟩ := read_a53_afd_data_ok e2 hr1
      have hk := k1.trans k2
      rw [hid] at hc hb
      clear e1 e2 g1 h k1 k2 hid hat
      subst s2 s1
      exact ⟨by simpa only [a53_user_data_bits, if_neg hc, if_pos hb] using hk,
        fun h => absurd h hc, fun _ => ⟨l1, fun h => absurd h hc, fun _ => v2⟩⟩
    · rw [if_neg hb] at g1
      simp only [Ret.ok.injEq] at g1
      obtain ⟨h1, h2⟩ := g1
      rw [hid] at hc hb
      clear e1 h hid hat
      subst h1 h2 s1
      exact ⟨by simpa only [a53_user_data_bits, if_neg hc, if_neg hb, List.append_nil]
        using k1, fun h => absurd h hc, fun _ => ⟨l1, fun h => absurd h hc,
        fun h => absurd h hb⟩⟩

/-! ## Every failure of a read is invalid-data -/

theorem FailsInvalid.check {ρ τ : Type} {r : Ret ρ τ} {k : ρ → τ → Ret ρ τ}
    (hr : FailsInvalid r) (hk : ∀ rw c, r = .ok rw c → FailsInvalid (k rw c)) :
    FailsInvalid (r.check k) := by
  intro e c h
  rcases Ret.check_eq_fail h with h | ⟨rw1, c1, e1, h⟩
  · exact hr e c h
  · exact hk rw1 c1 e1 e c h

theorem FailsInvalid.member {ρ σ τ : Type} {r : Ret ρ σ} {store : σ → τ}
    (hr : FailsInvalid r) : FailsInvalid (r.member store) := by
  intro e c h
  obtain ⟨c1, h1, _⟩ := Ret.member_eq_fail h
  exact hr e c1 h1

theorem FailsInvalid.ok {ρ τ : Type} (rw : ρ) (c : τ) : FailsInvalid (Ret.ok rw c) := by
  intro e c1 h
  cases h

theorem read_xui_failsInvalid {τ : Type} (w : Nat) (store : τ → Nat → τ) (rw : GetBitContext)
    (cur : τ) : FailsInvalid (read_xui w store rw cur) :=
  fun _ _ h => (read_xui_fail h).1

theorem read_fixed_failsInvalid {τ : Type} (w v : Nat) (rw : GetBitContext) (cur : τ) :
    FailsInvalid (read_fixed w v rw cur) :=
  fun _ _ h => (read_fixed_fail h).1

theorem read_xui_val {τ : Type} {rw rw1 : GetBitContext} {w : Nat} {store : τ → Nat → τ}
    {cur c : τ} (h : read_xui w store rw cur = .ok rw1 c) :
    ∃ v, c = store cur v ∧ v < 2 ^ w ∧ rw1 = rw.adv w := by
  unfold read_xui at h
  split at h
  · cases h
  · next v rw2 he =>
    simp only [Ret.ok.injEq] at h
    obtain ⟨k1, _, k3, _, _⟩ := read_unsigned_ok he
    have : 0 < 2 ^ w := Nat.two_pow_pos w
    exact ⟨v, h.2.symm, by simp only [MAX_UINT_BITS] at k3; omega, h.1 ▸ k1⟩

theorem read_fixed_val {τ : Type} {rw rw1 : GetBitContext} {w v : Nat} {cur c : τ}
    (h : read_fixed w v rw cur = .ok rw1 c) : c = cur ∧ rw1 = rw.adv w := by
  unfold read_fixed at h
  split at h
  · cases h
  · next v2 rw2 he =>
    simp only [Ret.ok.injEq] at h
    exact ⟨h.2.symm, h.1 ▸ (read_unsigned_ok he).1⟩

theorem read_cea708_cc_data_failsInvalid (rw : GetBitContext) (cur : CEA708CCData)
    (hd : cur.cc_data_pkts.length = 31) : FailsInvalid (cbs_misc_read_cea708_cc_data rw cur) := by
  unfold cbs_misc_read_cea708_cc_data
  refine FailsInvalid.check (read_xui_failsInvalid _ _ _ _) (fun a1 c1 e1 => ?_)
  refine FailsInvalid.check (read_xui_failsInvalid _ _ _ _) (fun a2 c2 e2 => ?_)
  refine FailsInvalid.check (read_xui_failsInvalid _ _ _ _) (fun a3 c3 e3 => ?_)
  refine FailsInvalid.check (read_xui_failsInvalid _ _ _ _) (fun a4 c4 e4 => ?_)
  refine FailsInvalid.check (read_xui_failsInvalid _ _ _ _) (fun a5 c5 e5 => ?_)
  obtain ⟨v1, s1, _, _⟩ := read_xui_val e1
  obtain ⟨v2, s2, _, _⟩ := read_xui_val e2
  obtain ⟨v3, s3, _, _⟩ := read_xui_val e3
  obtain ⟨v4, s4, l4, _⟩ := read_xui_val e4
  obtain ⟨v5, s5, _, _⟩ := read_xui_val e5
  have hcount : c5.cc_count = v4 := by rw [s5, s4]
  have hpk : c5.cc_data_pkts = cur.cc_data_pkts := by rw [s5, s4, s3, s2, s1]
  refine FailsInvalid.check (fun e c h => read_cc_data_pkts_fail _ _ _ _ _ _
    (by rw [hcount, hpk, hd]; omega) h) (fun a6 c6 e6 => ?_)
  exact FailsInvalid.check (read_fixed_failsInvalid _ _ _ _) (fun _ _ _ => FailsInvalid.ok _ _)

theorem read_bar_line_failsInvalid {τ : Type} (flag : Nat) (store : τ → Nat → τ)
    (rw : GetBitContext) (cur : τ) :
    FailsInvalid (if flag ≠ 0 then
        (read_fixed 2 3 rw cur).check fun rw cur => read_xui 14 store rw cur
      else .ok rw cur) := by
  split_ifs
  · exact FailsInvalid.check (read_fixed_failsInvalid _ _ _ _)
      (fun _ _ _ => read_xui_failsInvalid _ _ _ _)
  · exact FailsInvalid.ok _ _

theorem read_a53_bar_data_failsInvalid (rw : GetBitContext) (cur : A53BarData) :
    FailsInvalid (cbs_misc_read_a53_bar_data rw cur) := by
  unfold cbs_misc_read_a53_bar_data
  refine FailsInvalid.check (read_xui_failsInvalid _ _ _ _) (fun a1 c1 e1 => ?_)
  refine FailsInvalid.check (read_xui_failsInvalid _ _ _ _) (fun a2 c2 e2 => ?_)
  refine FailsInvalid.check (read_xui_failsInvalid _ _ _ _) (fun a3 c3 e3 => ?_)
  refine FailsInvalid.check (read_xui_failsInvalid _ _ _ _) (fun a4 c4 e4 => ?_)
  refine FailsInvalid.check (read_fixed_failsInvalid _ _ _ _) (fun a5 c5 e5 => ?_)
  refine FailsInvalid.check (read_bar_line_failsInvalid _ _ _ _) (fun a6 c6 e6 => ?_)
  refine FailsInvalid.check (read_bar_line_failsInvalid _ _ _ _) (fun a7 c7 e7 => ?_)
  refine FailsInvalid.check (read_bar_line_failsInvalid _ _ _ _) (fun a8 c8 e8 => ?_)
  exact FailsInvalid.check (read_bar_line_failsInvalid _ _ _ _) (fun _ _ _ => FailsInvalid.ok _ _)

theorem read_a53_afd_data_failsInvalid (rw : GetBitContext) (cur : A53AFDData) :
    FailsInvalid (cbs_misc_read_a53_afd_data rw cur) := by
  unfold cbs_misc_read_a53_afd_data
  refine FailsInvalid.check (read_fixed_failsInvalid _ _ _ _) (fun a1 c1 e1 => ?_)
  refine FailsInvalid.check (read_xui_failsInvalid _ _ _ _) (fun a2 c2 e2 => ?_)
  refine FailsInvalid.check (read_fixed_failsInvalid _ _ _ _) (fun a3 c3 e3 => ?_)
  split_ifs
  · refine FailsInvalid.check (read_fixed_failsInvalid _ _ _ _) (fun a4 c4 e4 => ?_)
    exact FailsInvalid.check (read_xui_failsInvalid _ _ _ _) (fun _ _ _ => FailsInvalid.ok _ _)
  · exact FailsInvalid.ok _ _

theorem read_a53_atsc_user_data_failsInvalid (rw : GetBitContext) (cur : A53ATSCUserData)
    (hd : cur.cc_data.cc_data_pkts.length = 31) :
    FailsInvalid (cbs_misc_read_a53_atsc_user_data rw cur) := by
  unfold cbs_misc_read_a53_atsc_user_data
  refine FailsInvalid.check (read_xui_failsInvalid _ _ _ _) (fun a1 c1 e1 => ?_)
  obtain ⟨v1, s1, _, _⟩ := read_xui_val e1
  have hcc : c1.cc_data = cur.cc_data := by rw [s1]
  split_ifs
  · exact FailsInvalid.member (read_cea708_cc_data_failsInvalid _ _ (by rw [hcc]; exact hd))
  · exact FailsInvalid.member (read_a53_bar_data_failsInvalid _ _)
  · exact FailsInvalid.ok _ _

theorem read_a53_user_data_failsInvalid (rw : GetBitContext) (cur : A53UserData)
    (hd : cur.atsc.cc_data.cc_data_pkts.length = 31) :
    FailsInvalid (cbs_misc_read_a53_user_data rw cur) := by
  unfold cbs_misc_read_a53_user_data
  refine FailsInvalid.check (read_xui_failsInvalid _ _ _ _) (fun a1 c1 e1 => ?_)
  obtain ⟨v1, s1, _, _⟩ := read_xui_val e1
  have hat : c1.atsc = cur.atsc := by rw [s1]
  split_ifs
  · exact FailsInvalid.member (read_a53_atsc_user_data_failsInvalid _ _ (by rw [hat]; exact hd))
  · exact FailsInvalid.member (read_a53_afd_data_failsInvalid _ _)
  · exact FailsInvalid.ok _ _

/-! ## Bytes and tags -/

theorem MKBETAG_eq (a b c d : Nat) (hb : b < 256) (hc : c < 256) (hd : d < 256) :
    MKBETAG a b c d = a * 2 ^ 24 + b * 2 ^ 16 + c * 2 ^ 8 + d := by
  unfold MKBETAG
  simp only [Nat.shiftLeft_eq]
  have e1 : d ||| c * 2 ^ 8 = 2 ^ 8 * c + d := by
    rw [Nat.or_comm, Nat.mul_comm, ← Nat.mul_add_lt_is_or (by omega)]
  have e2 : (2 ^ 8 * c + d) ||| b * 2 ^ 16 = 2 ^ 16 * b + (2 ^ 8 * c + d) := by
    rw [Nat.or_comm, Nat.mul_comm, ← Nat.mul_add_lt_is_or (by omega)]
  have e3 : (2 ^ 16 * b + (2 ^ 8 * c + d)) ||| a * 2 ^ 24 =
      2 ^ 24 * a + (2 ^ 16 * b + (2 ^ 8 * c + d)) := by
    rw [Nat.or_comm, Nat.mul_comm, ← Nat.mul_add_lt_is_or (by omega)]
  rw [e1, e2, e3]
  ring

theorem MKBETAG_bits (a b c d : Nat) (_ : a < 256) (hb : b < 256) (hc : c < 256)
    (hd : d < 256) :
    nat_bits 8 a ++ (nat_bits 8 b ++ (nat_bits 8 c ++ nat_bits 8 d)) =
      nat_bits 32 (MKBETAG a b c d) := by
  rw [MKBETAG_eq a b c d hb hc hd]
  have e1 := nat_bits_add 8 24 (a * 2 ^ 24 + b * 2 ^ 16 + c * 2 ^ 8 + d)
  have e2 := nat_bits_add 8 16 (a * 2 ^ 24 + b * 2 ^ 16 + c * 2 ^ 8 + d)
  have e3 := nat_bits_add 8 8 (a * 2 ^ 24 + b * 2 ^ 16 + c * 2 ^ 8 + d)
  have m1 := nat_bits_mod_two_pow 8 8 ((a * 2 ^ 24 + b * 2 ^ 16 + c * 2 ^ 8 + d) / 2 ^ 16)
    (le_refl _)
  have m2 := nat_bits_mod_two_pow 8 8 ((a * 2 ^ 24 + b * 2 ^ 16 + c * 2 ^ 8 + d) / 2 ^ 8)
    (le_refl _)
  have m3 := nat_bits_mod_two_pow 8 8 (a * 2 ^ 24 + b * 2 ^ 16 + c * 2 ^ 8 + d) (le_refl _)
  have d0 : (a * 2 ^ 24 + b * 2 ^ 16 + c * 2 ^ 8 + d) / 2 ^ 24 = a := by omega
  have d1 : (a * 2 ^ 24 + b * 2 ^ 16 + c * 2 ^ 8 + d) / 2 ^ 16 % 2 ^ 8 = b := by omega
  have d2 : (a * 2 ^ 24 + b * 2 ^ 16 + c * 2 ^ 8 + d) / 2 ^ 8 % 2 ^ 8 = c := by omega
  have d3 : (a * 2 ^ 24 + b * 2 ^ 16 + c * 2 ^ 8 + d) % 2 ^ 8 = d := by omega
  rw [d1] at m1
  rw [d2] at m2
  rw [d3] at m3
  simp only [Nat.reduceAdd] at e1 e2 e3
  rw [e1, e2, e3, d0, ← m1, ← m2, ← m3]

theorem read_a53_user_data_unknown_id (d : A53UserData) (b0 b1 b2 b3 : Nat) (rest : List Nat)
    (h0 : b0 < 256) (h1 : b1 < 256) (h2 : b2 < 256) (h3 : b3 < 256)
    (ha : MKBETAG b0 b1 b2 b3 ≠ A53_USER_IDENTIFIER_ATSC)
    (hb : MKBETAG b0 b1 b2 b3 ≠ A53_USER_IDENTIFIER_AFD) :
    ff_cbs_read_a53_user_data d (b0 :: b1 :: b2 :: b3 :: rest) =
      .ok ⟨b0 :: b1 :: b2 :: b3 :: rest, 32, 8 * (b0 :: b1 :: b2 :: b3 :: rest).length⟩
        { d with user_identifier := MKBETAG b0 b1 b2 b3 } := by
  have hr := reads_init (b0 :: b1 :: b2 :: b3 :: rest)
  have hbits : bytes_to_bits (b0 :: b1 :: b2 :: b3 :: rest) =
      nat_bits 32 (MKBETAG b0 b1 b2 b3) ++ bytes_to_bits rest := by
    rw [← MKBETAG_bits b0 b1 b2 b3 h0 h1 h2 h3]
    simp only [bytes_to_bits, List.append_assoc]
  rw [hbits] at hr
  have hlt : MKBETAG b0 b1 b2 b3 < 2 ^ 32 := by
    rw [MKBETAG_eq b0 b1 b2 b3 h1 h2 h3]; omega
  simp only [ff_cbs_read_a53_user_data, init_get_bits, cbs_misc_read_a53_user_data,
    read_xui_eq hr hlt, Ret.check_ok, if_neg ha, if_neg hb]
  rfl

theorem read_a53_user_data_unknown_type (d : A53UserData) (t : Nat) (rest : List Nat)
    (ht : t < 256) (ha : t ≠ A53_USER_DATA_TYPE_CODE_CC_DATA)
    (hb : t ≠ A53_USER_DATA_TYPE_CODE_BAR_DATA) :
    ff_cbs_read_a53_user_data d (0x47 :: 0x41 :: 0x39 :: 0x34 :: t :: rest) =
      .ok ⟨0x47 :: 0x41 :: 0x39 :: 0x34 :: t :: rest, 40,
          8 * (0x47 :: 0x41 :: 0x39 :: 0x34 :: t :: rest).length⟩
        { d with
          user_identifier := A53_USER_IDENTIFIER_ATSC
          atsc := { d.atsc with user_data_type_code := t } } := by
  have hr := reads_init (0x47 :: 0x41 :: 0x39 :: 0x34 :: t :: rest)
  have hbits : bytes_to_bits (0x47 :: 0x41 :: 0x39 :: 0x34 :: t :: rest) =
      nat_bits 32 A53_USER_IDENTIFIER_ATSC ++ (nat_bits 8 t ++ bytes_to_bits rest) := by
    have : nat_bits 32 A53_USER_IDENTIFIER_ATSC =
        nat_bits 8 0x47 ++ (nat_bits 8 0x41 ++ (nat_bits 8 0x39 ++ nat_bits 8 0x34)) := by
      decide
    rw [this]
    simp only [bytes_to_bits, List.append_assoc]
  rw [hbits] at hr
  have hr1 := hr.adv_nat_bits
  have e1 := read_xui_eq hr (show A53_USER_IDENTIFIER_ATSC < 2 ^ 32 by decide)
    (fun (c : A53UserData) v => { c with user_identifier := v }) d
  have e2 := read_xui_eq hr1 (show t < 2 ^ 8 by omega)
    (fun (c : A53ATSCUserData) v => { c with user_data_type_code := v }) d.atsc
  unfold ff_cbs_read_a53_user_data
  simp only [init_get_bits]
  unfold cbs_misc_read_a53_user_data
  rw [e1, Ret.check_ok, if_pos rfl]
  unfold cbs_misc_read_a53_atsc_user_data
  rw [e2, Ret.check_ok, if_neg ha, if_neg hb, Ret.member_ok, adv_adv]
  rfl

/-! ## Fixed fields -/

theorem read_fixed_mismatch {τ : Type} (w v : Nat) (rw : GetBitContext) (cur : τ)
    (h : bits_val (((bytes_to_bits rw.buffer).drop rw.index).take w) ≠ v) :
    read_fixed w v rw cur = .fail .INVALIDDATA cur := by
  unfold read_fixed ff_cbs_read_unsigned
  by_cases hl : get_bits_left rw < w
  · simp only [if_pos hl]
  · have hne : (get_bits_long rw w).1 < v ∨ (get_bits_long rw w).1 > v := by
      simp only [get_bits_long]
      omega
    simp only [if_neg hl, if_pos hne]

theorem read_cea708_cc_data_packet_marker (rw : GetBitContext) (cur : CEA708CCDataPacket)
    (h : bits_val (((bytes_to_bits rw.buffer).drop rw.index).take 5) ≠ 0x1f) :
    cbs_misc_read_cea708_cc_data_packet rw cur = .fail .INVALIDDATA cur := by
  unfold cbs_misc_read_cea708_cc_data_packet
  rw [read_fixed_mismatch 5 0x1f rw cur h, Ret.check_fail]

theorem ff_read_a53_user_data_failsInvalid (d : A53UserData) (buf : List Nat)
    (hd : d.atsc.cc_data.cc_data_pkts.length = 31) :
    FailsInvalid (ff_cbs_read_a53_user_data d buf) := by
  unfold ff_cbs_read_a53_user_data
  simp only [init_get_bits]
  exact read_a53_user_data_failsInvalid _ _ hd

theorem ff_read_a53_user_data_layout {d r : A53UserData} {buf : List Nat} {rw : GetBitContext}
    (hd : d.atsc.cc_data.cc_data_pkts.length = 31)
    (h : ff_cbs_read_a53_user_data d buf = .ok rw r) :
    r.Valid ∧ ∃ rest, bytes_to_bits buf = a53_user_data_bits r ++ rest := by
  unfold ff_cbs_read_a53_user_data at h
  simp only [init_get_bits] at h
  obtain ⟨⟨_, rest, hr⟩, _, hv⟩ := read_a53_user_data_ok h (reads_init buf)
  exact ⟨hv hd, rest, Reads.unique (reads_init buf) hr⟩

theorem nat_bits_append_inj {w a b : Nat} {X Y : List Bool} (ha : a < 2 ^ w) (hb : b < 2 ^ w)
    (h : nat_bits w a ++ X = nat_bits w b ++ Y) : a = b ∧ X = Y := by
  obtain ⟨h1, h2⟩ := List.append_inj h (by rw [nat_bits_length, nat_bits_length])
  have h3 := congrArg bits_val h1
  rw [bits_val_nat_bits_of_lt ha, bits_val_nat_bits_of_lt hb] at h3
  exact ⟨h3, h2⟩

theorem nat_bits_append_tail {w a b : Nat} {X Y : List Bool}
    (h : nat_bits w a ++ X = nat_bits w b ++ Y) : X = Y :=
  (List.append_inj h (by rw [nat_bits_length, nat_bits_length])).2

theorem a53_user_data_stream_expected (c : A53UserData) :
    a53_user_data_stream FixedFields.expected c = a53_user_data_bits c := by
  have hp : ∀ (ps : List CEA708CCDataPacket) (i : Nat),
      cc_data_pkts_stream (fun _ => 0x1f) i ps = cc_data_pkts_bits ps := by
    intro ps
    induction ps with
    | nil => intro i; rfl
    | cons p ps ih =>
      intro i
      simp only [cc_data_pkts_stream, cc_data_pkts_bits, ih]
      rfl
  simp only [a53_user_data_stream, a53_user_data_bits, a53_atsc_user_data_stream,
    a53_atsc_user_data_bits, cea708_cc_data_stream, cea708_cc_data_bits, a53_bar_data_stream,
    a53_bar_data_bits, bar_line_stream, bar_line_bits, a53_afd_data_stream, a53_afd_data_bits,
    FixedFields.expected, hp]

theorem cc_data_pkts_stream_inj (m : Nat → Nat) :
    ∀ (ps qs : List CEA708CCDataPacket) (i : Nat) (X Y : List Bool),
      ps.length = qs.length → (∀ j, j < ps.length → m (i + j) < 2 ^ 5) →
      cc_data_pkts_stream m i ps ++ X = cc_data_pkts_bits qs ++ Y →
      (∀ j, j < ps.length → m (i + j) = 0x1f) ∧ X = Y := by
  intro ps
  induction ps with
  | nil =>
    intro qs i X Y hl _ h
    cases qs with
    | nil => exact ⟨fun j hj => absurd hj (Nat.not_lt_zero j), h⟩
    | cons q qs => cases hl
  | cons p ps ih =>
    intro qs i X Y hl hm h
    cases qs with
    | nil => cases hl
    | cons q qs =>
      simp only [cc_data_pkts_stream, cc_data_pkts_bits, cea708_cc_data_packet_stream,
        cea708_cc_data_packet_bits, List.append_assoc] at h
      obtain ⟨g1, h⟩ := nat_bits_append_inj (hm 0 (Nat.succ_pos _)) (by decide) h
      have h := nat_bits_append_tail (nat_bits_append_tail (nat_bits_append_tail
        (nat_bits_append_tail h)))
      obtain ⟨g2, g3⟩ := ih qs (i + 1) X Y (by simpa using hl)
        (fun j hj => by
          have := hm (j + 1) (by simp only [List.length_cons]; omega)
          rwa [Nat.add_assoc, Nat.add_comm 1 j])
        h
      refine ⟨fun j hj => ?_, g3⟩
      cases j with
      | zero => exact g1
      | succ j =>
        have := g2 j (by simp only [List.length_cons] at hj; omega)
        rwa [Nat.add_assoc, Nat.add_comm 1 j] at this

theorem cea708_cc_data_stream_inj {fx : FixedFields} {v r : CEA708CCData} {X Y : List Bool}
    (hfx : fx.InRange) (hv : v.Valid) (hr : r.Valid)
    (h : cea708_cc_data_stream fx v ++ X = cea708_cc_data_bits r ++ Y) : ¬ v.Mismatch fx := by
  obtain ⟨_, _, _, hvc, _, hvl, _⟩ := hv
  obtain ⟨_, _, _, hrc, _, hrl, _⟩ := hr
  simp only [cea708_cc_data_stream, cea708_cc_data_bits, List.append_assoc] at h
  have h := nat_bits_append_tail (nat_bits_append_tail (nat_bits_append_tail h))
  obtain ⟨gc, h⟩ := nat_bits_append_inj (show v.cc_count < 2 ^ 5 by omega)
    (show r.cc_count < 2 ^ 5 by omega) h
  have h := nat_bits_append_tail h
  rw [← gc] at h
  have hlv : (v.cc_data_pkts.take v.cc_count).length = v.cc_count := by
    rw [List.length_take, hvl]; omega
  have hlr : (r.cc_data_pkts.take v.cc_count).length = v.cc_count := by
    rw [List.length_take, hrl]; omega
  obtain ⟨gm, h⟩ := cc_data_pkts_stream_inj _ _ _ 0 _ _ (hlv.trans hlr.symm)
    (fun j hj => by
      rw [Nat.zero_add]
      exact hfx.1 j (by omega))
    h
  obtain ⟨gk, _⟩ := nat_bits_append_inj hfx.2.1 (by decide) h
  rintro (⟨i, hi, hne⟩ | hne)
  · have := gm i (by omega)
    rw [Nat.zero_add] at this
    exact hne this
  · exact hne gk

theorem bar_line_stream_inj {f m l k : Nat} {X Y : List Bool} (hm : m < 2 ^ 2)
    (h : bar_line_stream f m l ++ X = bar_line_bits f k ++ Y) : (f ≠ 0 → m = 3) ∧ X = Y := by
  unfold bar_line_stream bar_line_bits at h
  by_cases hf : f ≠ 0
  · rw [if_pos hf, if_pos hf, List.append_assoc, List.append_assoc] at h
    obtain ⟨g, h⟩ := nat_bits_append_inj hm (by decide) h
    exact ⟨fun _ => g, nat_bits_append_tail h⟩
  · rw [if_neg hf, if_neg hf] at h
    exact ⟨fun hf1 => absurd hf1 hf, h⟩

theorem a53_bar_data_stream_inj {fx : FixedFields} {v r : A53BarData} {X Y : List Bool}
    (hfx : fx.InRange) (hv : v.Valid) (hr : r.Valid)
    (h : a53_bar_data_stream fx v ++ X = a53_bar_data_bits r ++ Y) : ¬ v.Mismatch fx := by
  obtain ⟨v1, v2, v3, v4, _⟩ := hv
  obtain ⟨r1, r2, r3, r4, _⟩ := hr
  obtain ⟨_, _, x0, x1, x2, x3, x4, _⟩ := hfx
  simp only [a53_bar_data_stream, a53_bar_data_bits, List.append_assoc] at h
  obtain ⟨f1, h⟩ := nat_bits_append_inj (show v.top_bar_flag < 2 ^ 1 by omega)
    (show r.top_bar_flag < 2 ^ 1 by omega) h
  obtain ⟨f2, h⟩ := nat_bits_append_inj (show v.bottom_bar_flag < 2 ^ 1 by omega)
    (show r.bottom_bar_flag < 2 ^ 1 by omega) h
  obtain ⟨f3, h⟩ := nat_bits_append_inj (show v.left_bar_flag < 2 ^ 1 by omega)
    (show r.left_bar_flag < 2 ^ 1 by omega) h
  obtain ⟨f4, h⟩ := nat_bits_append_inj (show v.right_bar_flag < 2 ^ 1 by omega)
    (show r.right_bar_flag < 2 ^ 1 by omega) h
  obtain ⟨g0, h⟩ := nat_bits_append_inj x0 (by decide) h
  rw [← f1, ← f2, ← f3, ← f4] at h
  obtain ⟨g1, h⟩ := bar_line_stream_inj x1 h
  obtain ⟨g2, h⟩ := bar_line_stream_inj x2 h
  obtain ⟨g3, h⟩ := bar_line_stream_inj x3 h
  obtain ⟨g4, _⟩ := bar_line_stream_inj x4 h
  rintro (hne | ⟨hf, hne⟩ | ⟨hf, hne⟩ | ⟨hf, hne⟩ | ⟨hf, hne⟩)
  · exact hne g0
  · exact hne (g1 hf)
  · exact hne (g2 hf)
  · exact hne (g3 hf)
  · exact hne (g4 hf)

theorem a53_afd_data_stream_inj {fx : FixedFields} {v r : A53AFDData} {X Y : List Bool}
    (hfx : fx.InRange) (hv : v.Valid) (hr : r.Valid)
    (h : a53_afd_data_stream fx v ++ X = a53_afd_data_bits r ++ Y) : ¬ v.Mismatch fx := by
  obtain ⟨_, _, _, _, _, _, _, x1, x2, x3⟩ := hfx
  simp only [a53_afd_data_stream, a53_afd_data_bits, List.append_assoc] at h
  obtain ⟨g1, h⟩ := nat_bits_append_inj x1 (by decide) h
  obtain ⟨gf, h⟩ := nat_bits_append_inj (show v.active_format_flag < 2 ^ 1 by have := hv.1; omega)
    (show r.active_format_flag < 2 ^ 1 by have := hr.1; omega) h
  obtain ⟨g2, h⟩ := nat_bits_append_inj x2 (by decide) h
  rw [← gf] at h
  rintro (hne | hne | ⟨hf, hne⟩)
  · exact hne g1
  · exact hne g2
  · rw [if_pos hf, if_pos hf, List.append_assoc, List.append_assoc] at h
    exact hne (nat_bits_append_inj x3 (by decide) h).1

theorem a53_user_data_stream_inj {fx : FixedFields} {v r : A53UserData} {X Y : List Bool}
    (hfx : fx.InRange) (hv : v.Valid) (hr : r.Valid)
    (h : a53_user_data_stream fx v ++ X = a53_user_data_bits r ++ Y) : ¬ v.Mismatch fx := by
  simp only [a53_user_data_stream, a53_user_data_bits, List.append_assoc] at h
  obtain ⟨gi, h⟩ := nat_bits_append_inj hv.1 hr.1 h
  rw [← gi] at h
  have hra := hr.2.1
  have hrf := hr.2.2
  rw [← gi] at hra hrf
  rintro (⟨h1, h2, hm⟩ | ⟨h1, h2, hm⟩ | ⟨h1, hm⟩)
  · rw [if_pos h1, if_pos h1] at h
    simp only [a53_atsc_user_data_stream, a53_atsc_user_data_bits, List.append_assoc] at h
    obtain ⟨gt, h⟩ := nat_bits_append_inj (show v.atsc.user_data_type_code < 2 ^ 8 by
      have := (hv.2.1 h1).1; omega) (show r.atsc.user_data_type_code < 2 ^ 8 by
      have := (hra h1).1; omega) h
    rw [← gt, if_pos h2, if_pos h2] at h
    exact cea708_cc_data_stream_inj hfx ((hv.2.1 h1).2.1 h2) ((hra h1).2.1 (gt ▸ h2)) h hm
  · rw [if_pos h1, if_pos h1] at h
    simp only [a53_atsc_user_data_stream, a53_atsc_user_data_bits, List.append_assoc] at h
    obtain ⟨gt, h⟩ := nat_bits_append_inj (show v.atsc.user_data_type_code < 2 ^ 8 by
      have := (hv.2.1 h1).1; omega) (show r.atsc.user_data_type_code < 2 ^ 8 by
      have := (hra h1).1; omega) h
    have h3 : ¬ v.atsc.user_data_type_code = A53_USER_DATA_TYPE_CODE_CC_DATA := by
      rw [h2]; decide
    rw [← gt, if_neg h3, if_neg h3, if_pos h2, if_pos h2] at h
    exact a53_bar_data_stream_inj hfx ((hv.2.1 h1).2.2 h2) ((hra h1).2.2 (gt ▸ h2)) h hm
  · have h3 : ¬ v.user_identifier = A53_USER_IDENTIFIER_ATSC := by
      rw [h1]; decide
    rw [if_neg h3, if_neg h3, if_pos h1, if_pos h1] at h
    exact a53_afd_data_stream_inj hfx (hv.2.2 h1) (hrf h1) h hm

theorem read_a53_cc_side_data_inv {d r : A53UserData} {buf : List Nat} {rw : GetBitContext}
    (hs : buf.length / 3 < 2147483648)
    (h : ff_cbs_read_a53_cc_side_data d buf = .ok rw r) :
    r.user_identifier = A53_USER_IDENTIFIER_ATSC ∧
    r.atsc.user_data_type_code = A53_USER_DATA_TYPE_CODE_CC_DATA ∧
    r.atsc.cc_data.cc_count = buf.length / 3 ∧ buf.length / 3 ≤ 31 ∧ buf.length % 3 = 0 ∧
    r.atsc.cc_data.cc_data_pkts.length = 31 := by
  by_cases hl : buf.length % 3 ≠ 0 ∨ (31 < buf.length / 3 ∧ buf.length / 3 < 2147483648)
  · rw [read_a53_cc_side_data_large d buf hl] at h
    cases h
  · have h3 : buf.length % 3 = 0 := by omega
    have h31 : buf.length / 3 ≤ 31 := by omega
    rw [read_a53_cc_side_data_small d buf h3 h31] at h
    obtain ⟨c1, e1, s1⟩ := Ret.member_eq_ok h
    obtain ⟨_, _, hlen, _, _, _, _, _, _, hc⟩ :=
      read_cc_data_pkts_ok _ _ _ _ _ _ _ e1 (reads_init buf)
    subst s1
    refine ⟨rfl, rfl, hc, h31, h3, ?_⟩
    simpa only [cc_side_data_init, List.length_replicate] using hlen

/-! ## Redundant commands -/

theorem process_cc608_repeat (ctx : CCaptionSubContext) (hi lo : Nat) :
    process_cc608 (process_cc608 ctx hi lo) hi lo = process_cc608 ctx hi lo := by
  have h : process_cc608_dispatch (process_cc608 ctx hi lo) hi lo = process_cc608 ctx hi lo := by
    unfold process_cc608_dispatch
    rw [if_pos ⟨rfl, rfl⟩]
  show ({ process_cc608_dispatch (process_cc608 ctx hi lo) hi lo with prev_cmd := (hi, lo) } :
    CCaptionSubContext) = process_cc608 ctx hi lo
  rw [h]
  rfl

/-! ## The caption decoder ignores the packet buffer -/

theorem screen_at_pktbuf (ctx : CCaptionSubContext) (p : List Nat) (n : Nat) :
    ({ ctx with pktbuf := p } : CCaptionSubContext).screen_at n = ctx.screen_at n := rfl

theorem set_screen_pktbuf (ctx : CCaptionSubContext) (p : List Nat) (n : Nat) (s : Screen) :
    ({ ctx with pktbuf := p } : CCaptionSubContext).set_screen n s =
      { ctx.set_screen n s with pktbuf := p } := by
  unfold CCaptionSubContext.set_screen
  split_ifs <;> rfl

theorem get_writing_screen_pktbuf (ctx : CCaptionSubContext) (p : List Nat) :
    get_writing_screen { ctx with pktbuf := p } = get_writing_screen ctx := rfl

theorem reap_screen_pktbuf (ctx : CCaptionSubContext) (p : List Nat) :
    reap_screen { ctx with pktbuf := p } = { reap_screen ctx with pktbuf := p } := rfl

theorem roll_up_pktbuf (ctx : CCaptionSubContext) (p : List Nat) :
    roll_up { ctx with pktbuf := p } = { roll_up ctx with pktbuf := p } := by
  unfold roll_up CCaptionSubContext.set_screen
  simp only [get_writing_screen_pktbuf, screen_at_pktbuf]
  split_ifs <;> rfl

theorem handle_textattr_pktbuf (ctx : CCaptionSubContext) (p : List Nat) (hi lo : Nat) :
    handle_textattr { ctx with pktbuf := p } hi lo = { handle_textattr ctx hi lo with pktbuf := p } := by
  unfold handle_textattr CCaptionSubContext.set_screen
  simp only [get_writing_screen_pktbuf, screen_at_pktbuf]
  split_ifs <;> rfl

theorem handle_pac_pktbuf (ctx : CCaptionSubContext) (p : List Nat) (hi lo : Nat) :
    handle_pac { ctx with pktbuf := p } hi lo = { handle_pac ctx hi lo with pktbuf := p } := by
  unfold handle_pac CCaptionSubContext.set_screen
  simp only [get_writing_screen_pktbuf, screen_at_pktbuf]
  split_ifs <;> rfl

theorem handle_erase_pktbuf (ctx : CCaptionSubContext) (p : List Nat) (n : Nat) :
    handle_erase { ctx with pktbuf := p } n = { handle_erase ctx n with pktbuf := p } := by
  unfold handle_erase CCaptionSubContext.set_screen
  simp only [screen_at_pktbuf]
  split_ifs <;> rfl

theorem handle_eoc_pktbuf (ctx : CCaptionSubContext) (p : List Nat) :
    handle_eoc { ctx with pktbuf := p } = { handle_eoc ctx with pktbuf := p } := rfl

theorem handle_delete_end_of_row_pktbuf (ctx : CCaptionSubContext) (p : List Nat) (hi lo : Nat) :
    handle_delete_end_of_row { ctx with pktbuf := p } hi lo =
      { handle_delete_end_of_row ctx hi lo with pktbuf := p } := by
  unfold handle_delete_end_of_row CCaptionSubContext.set_screen
  simp only [get_writing_screen_pktbuf, screen_at_pktbuf]
  split_ifs <;> rfl

theorem handle_char_pktbuf (ctx : CCaptionSubContext) (p : List Nat) (hi lo : Nat) :
    handle_char { ctx with pktbuf := p } hi lo = { handle_char ctx hi lo with pktbuf := p } := by
  unfold handle_char CCaptionSubContext.set_screen
  simp only [get_writing_screen_pktbuf, screen_at_pktbuf]
  split_ifs <;> rfl

theorem process_cc608_switch_pktbuf (ctx : CCaptionSubContext) (p : List Nat) (hi lo : Nat) :
    process_cc608_switch { ctx with pktbuf := p } hi lo =
      { process_cc608_switch ctx hi lo with pktbuf := p } := by
  unfold process_cc608_switch
  rw [handle_delete_end_of_row_pktbuf ctx p, handle_erase_pktbuf ctx p, handle_erase_pktbuf ctx p,
    reap_screen_pktbuf ctx p, roll_up_pktbuf _ p, handle_eoc_pktbuf ctx p]
  by_cases h1 : lo = 0x20
  · rw [if_pos h1, if_pos h1]
  rw [if_neg h1, if_neg h1]
  by_cases h2 : lo = 0x24
  · rw [if_pos h2, if_pos h2]
  rw [if_neg h2, if_neg h2]
  by_cases h3 : lo = 0x25
  · rw [if_pos h3, if_pos h3]
  rw [if_neg h3, if_neg h3]
  by_cases h4 : lo = 0x26
  · rw [if_pos h4, if_pos h4]
  rw [if_neg h4, if_neg h4]
  by_cases h5 : lo = 0x27
  · rw [if_pos h5, if_pos h5]
  rw [if_neg h5, if_neg h5]
  by_cases h6 : lo = 0x29
  · rw [if_pos h6, if_pos h6]
  rw [if_neg h6, if_neg h6]
  by_cases h7 : lo = 0x2b
  · rw [if_pos h7, if_pos h7]
  rw [if_neg h7, if_neg h7]
  by_cases h8 : lo = 0x2c
  · rw [if_pos h8, if_pos h8]
  rw [if_neg h8, if_neg h8]
  by_cases h9 : lo = 0x2d
  · rw [if_pos h9, if_pos h9]
  rw [if_neg h9, if_neg h9]
  by_cases h10 : lo = 0x2e
  · rw [if_pos h10, if_pos h10]
  rw [if_neg h10, if_neg h10]
  by_cases h11 : lo = 0x2f
  · rw [if_pos h11, if_pos h11]
  rw [if_neg h11, if_neg h11]

theorem process_cc608_dispatch_pktbuf (ctx : CCaptionSubContext) (p : List Nat) (hi lo : Nat) :
    process_cc608_dispatch { ctx with pktbuf := p } hi lo =
      { process_cc608_dispatch ctx hi lo with pktbuf := p } := by
  unfold process_cc608_dispatch
  rw [handle_pac_pktbuf ctx p, handle_textattr_pktbuf ctx p, process_cc608_switch_pktbuf ctx p,
    handle_char_pktbuf ctx p]
  dsimp only
  split_ifs <;> rfl

theorem process_cc608_pktbuf (ctx : CCaptionSubContext) (p : List Nat) (hi lo : Nat) :
    process_cc608 { ctx with pktbuf := p } hi lo = { process_cc608 ctx hi lo with pktbuf := p } := by
  unfold process_cc608
  rw [process_cc608_dispatch_pktbuf ctx p]

theorem decode_emit_pktbuf (rescale : Int → AVRational → AVRational → Int) (avctx : AVCodecContext)
    (avpkt : AVPacket) (ctx : CCaptionSubContext) (sub : AVSubtitle) (p : List Nat) :
    decode_emit rescale avctx avpkt { ctx with pktbuf := p } sub =
      ({ (decode_emit rescale avctx avpkt ctx sub).1 with pktbuf := p },
        (decode_emit rescale avctx avpkt ctx sub).2) := by
  unfold decode_emit
  dsimp only
  split_ifs
  · cases ctx.prev_string <;> rfl
  · rfl

theorem decode_units_pktbuf (rescale : Int → AVRational → AVRational → Int) (avctx : AVCodecContext)
    (avpkt : AVPacket) (p : List Nat) :
    ∀ (n i : Nat) (ctx : CCaptionSubContext) (sub : AVSubtitle) (bptr : List Nat),
      decode_units rescale avctx avpkt n i { ctx with pktbuf := p } sub bptr =
        (decode_units rescale avctx avpkt n i ctx sub bptr).map
          (fun r => ({ r.1 with pktbuf := p }, r.2)) := by
  intro n
  induction n with
  | zero => intro i ctx sub bptr; rfl
  | succ n ih =>
    intro i ctx sub bptr
    unfold decode_units
    cases bptr.get? i with
    | none => rfl
    | some b0 =>
      cases bptr.get? (i + 1) with
      | none => rfl
      | some b1 =>
        cases bptr.get? (i + 2) with
        | none => rfl
        | some b2 =>
          dsimp only
          rw [process_cc608_pktbuf ctx p, decode_emit_pktbuf rescale avctx avpkt _ sub p]
          dsimp only
          split_ifs <;> exact ih _ _ _ _

theorem get?_of_lt {l : List Nat} {i : Nat} (h : i < l.length) : l.get? i = some (l.getD i 0) := by
  rw [List.get?_eq_getElem?, List.getD_eq_getElem?_getD, List.getElem?_eq_getElem h]
  rfl

theorem get?_append_of_lt {l : List Nat} (tail : List Nat) {i : Nat} (h : i < l.length) :
    (l ++ tail).get? i = some (l.getD i 0) := by
  rw [List.get?_eq_getElem?, List.getElem?_append_left h, ← List.get?_eq_getElem?, get?_of_lt h]

theorem set_append_of_lt {l : List Nat} (tail : List Nat) {i : Nat} (v : Nat) (h : i < l.length) :
    (l ++ tail).set i v = l.set i v ++ tail := by
  rw [List.set_append, if_pos h]

theorem decode_units_append (rescale : Int → AVRational → AVRational → Int)
    (avctx : AVCodecContext) (avpkt : AVPacket) (tail : List Nat) :
    ∀ (n i : Nat) (ctx : CCaptionSubContext) (sub : AVSubtitle) (bptr : List Nat),
      i + 3 * n ≤ bptr.length →
      decode_units rescale avctx avpkt n i ctx sub (bptr ++ tail) =
        (decode_units rescale avctx avpkt n i ctx sub bptr).map
          (fun r => (r.1, r.2.1, r.2.2 ++ tail)) := by
  intro n
  induction n with
  | zero => intro i ctx sub bptr _; rfl
  | succ n ih =>
    intro i ctx sub bptr hle
    have h0 : i < bptr.length := by omega
    have h1 : i + 1 < bptr.length := by omega
    have h2 : i + 2 < bptr.length := by omega
    unfold decode_units
    rw [get?_append_of_lt tail h0, get?_append_of_lt tail h1, get?_append_of_lt tail h2,
      get?_of_lt h0, get?_of_lt h1, get?_of_lt h2]
    dsimp only
    rw [set_append_of_lt tail _ h0, set_append_of_lt tail _ (by rw [List.length_set]; exact h1),
      set_append_of_lt tail _ (by rw [List.length_set, List.length_set]; exact h2)]
    have hl : i + 3 + 3 * n ≤ (((bptr.set i
        (validate_cc_data_pair (bptr.getD i 0, bptr.getD (i + 1) 0, bptr.getD (i + 2) 0)).2.1).set
        (i + 1)
        (validate_cc_data_pair (bptr.getD i 0, bptr.getD (i + 1) 0, bptr.getD (i + 2) 0)).2.2.1).set
        (i + 2)
        (validate_cc_data_pair (bptr.getD i 0, bptr.getD (i + 1) 0,
          bptr.getD (i + 2) 0)).2.2.2).length := by
      rw [List.length_set, List.length_set, List.length_set]
      omega
    split_ifs <;> exact ih _ _ _ _ hl

/-- What `decode` computes for a packet of `3 * n` bytes: the loop runs over
the bytes of the packet alone. -/
theorem decode_eq (rescale : Int → AVRational → AVRational → Int) (avctx : AVCodecContext)
    (ctx : CCaptionSubContext) (sub : AVSubtitle) (avpkt : AVPacket) (n : Nat)
    (hlen : avpkt.data.length = 3 * n) :
    decode rescale avctx ctx sub avpkt =
      (decode_units rescale avctx avpkt n 0 { ctx with pktbuf := [] } sub avpkt.data).map
        (fun r => ⟨none, { r.1 with pktbuf := r.2.2 ++ ctx.pktbuf.drop avpkt.data.length },
          r.2.1, if r.2.1.num_rects > 0 then 1 else 0⟩) := by
  unfold decode
  have hn : (avpkt.size + 2) / 3 = n := by
    unfold AVPacket.size
    omega
  have hm : memcpy (if ctx.pktbuf.length < avpkt.size then av_buffer_realloc ctx.pktbuf avpkt.size
      else ctx.pktbuf) avpkt.data avpkt.size = avpkt.data ++ ctx.pktbuf.drop avpkt.data.length := by
    unfold memcpy AVPacket.size
    rw [List.take_length]
    congr 1
    split_ifs with h
    · unfold av_buffer_realloc
      rw [List.take_of_length_le (le_of_lt h), List.drop_eq_nil_of_le (le_of_lt h),
        List.drop_eq_nil_of_le (by rw [List.length_append, List.length_replicate]; omega)]
    · rfl
  dsimp only
  rw [hn, hm, decode_units_append rescale avctx avpkt _ n 0 ctx sub avpkt.data (by omega)]
  have hc : ctx = { ({ ctx with pktbuf := [] } : CCaptionSubContext) with pktbuf := ctx.pktbuf } := rfl
  conv_lhs => rw [hc]
  rw [decode_units_pktbuf]
  cases decode_units rescale avctx avpkt n 0 { ctx with pktbuf := [] } sub avpkt.data with
  | none => rfl
  | some r => rfl

/-! ## Unit validation -/

theorem cc_valid_eq_zero_iff (p0 : Nat) : (p0 &&& 4) >>> 2 = 0 ↔ p0 &&& 4 = 0 := by
  have h : p0 &&& 4 = 4 * (p0.testBit 2).toNat := by
    rw [Nat.and_comm]
    exact Nat.two_pow_and p0 2
  rw [h, Nat.shiftRight_eq_div_pow]
  cases p0.testBit 2 <;> simp

theorem and_7f_le (v : Nat) : v &&& 0x7F ≤ 0x7F := Nat.and_le_right

theorem and_7f_and_7f (v : Nat) : v &&& 0x7F &&& 0x7F = v &&& 0x7F := by
  rw [Nat.and_assoc, Nat.and_self]

theorem validate_third_byte_parity (p0 p1 p2 : Nat) (hv : p0 &&& 4 ≠ 0)
    (ht : p0 &&& 3 = 0 ∨ p0 &&& 3 = 1) (h2 : av_parity p2 = 0) :
    validate_cc_data_pair (p0, p1, p2) = (some .INVALIDDATA, (p0, p1, p2)) := by
  unfold validate_cc_data_pair
  dsimp only
  rw [if_neg (fun h => hv ((cc_valid_eq_zero_iff p0).mp h)), if_pos ⟨ht, h2⟩]

theorem validate_second_byte_substituted (p0 p1 p2 : Nat) (hv : p0 &&& 4 ≠ 0)
    (ht : p0 &&& 3 = 0) (h2 : av_parity p2 = 1) (h1 : av_parity p1 = 0) :
    validate_cc_data_pair (p0, p1, p2) = (none, (p0, 0x7F, p2 &&& 0x7F)) := by
  unfold validate_cc_data_pair
  dsimp only
  have c0 : ¬ (p0 &&& 4) >>> 2 = 0 := fun h => hv ((cc_valid_eq_zero_iff p0).mp h)
  have c1 : ¬ ((p0 &&& 3 = 0 ∨ p0 &&& 3 = 1) ∧ av_parity p2 = 0) := by
    rw [h2]
    exact fun h => absurd h.2 (by decide)
  have c2 : (p0 &&& 3 = 0 ∨ p0 &&& 3 = 1) ∧ av_parity p1 = 0 := ⟨Or.inl ht, h1⟩
  have c3 : ¬ (p0 &&& 3 = 3 ∨ p0 &&& 3 = 2) := by omega
  have c4 : ¬ ((p0 = 0xFA ∨ p0 = 0xFC ∨ p0 = 0xFD) ∧ 0x7F &&& 0x7F = 0 ∧ p2 &&& 0x7F = 0) :=
    fun h => absurd h.2.1 (by decide)
  simp only [if_neg c0, if_neg c1, if_pos c2, if_neg c3, if_neg c4]
  rfl

theorem validate_patchwelcome (p0 p1 p2 : Nat) (hv : p0 &&& 4 ≠ 0)
    (h : (p0 &&& 3 = 2 ∨ p0 &&& 3 = 3) ∨
      ((p0 = 0xFC ∨ p0 = 0xFD) ∧ av_parity p1 = 1 ∧ av_parity p2 = 1 ∧
        p1 &&& 0x7F = 0 ∧ p2 &&& 0x7F = 0)) :
    (validate_cc_data_pair (p0, p1, p2)).1 = some .PATCHWELCOME := by
  unfold validate_cc_data_pair
  dsimp only
  have c0 : ¬ (p0 &&& 4) >>> 2 = 0 := fun h => hv ((cc_valid_eq_zero_iff p0).mp h)
  rcases h with h | ⟨h0, h1, h2, h3, h4⟩
  · have c1 : ¬ ((p0 &&& 3 = 0 ∨ p0 &&& 3 = 1) ∧ av_parity p2 = 0) := by omega
    have c2 : ¬ ((p0 &&& 3 = 0 ∨ p0 &&& 3 = 1) ∧ av_parity p1 = 0) := by omega
    have c3 : p0 &&& 3 = 3 ∨ p0 &&& 3 = 2 := by omega
    simp only [if_neg c0, if_neg c1, if_neg c2, if_pos c3]
    by_cases c4 : (p0 = 0xFA ∨ p0 = 0xFC ∨ p0 = 0xFD) ∧ p1 &&& 0x7F = 0 ∧ p2 &&& 0x7F = 0
    · rw [if_pos c4]
    · rw [if_neg c4]
  · have c1 : ¬ ((p0 &&& 3 = 0 ∨ p0 &&& 3 = 1) ∧ av_parity p2 = 0) := by omega
    have c2 : ¬ ((p0 &&& 3 = 0 ∨ p0 &&& 3 = 1) ∧ av_parity p1 = 0) := by omega
    have c4 : (p0 = 0xFA ∨ p0 = 0xFC ∨ p0 = 0xFD) ∧ p1 &&& 0x7F = 0 ∧ p2 &&& 0x7F = 0 :=
      ⟨Or.inr h0, h3, h4⟩
    simp only [if_neg c0, if_neg c1, if_neg c2, if_pos c4]

theorem validate_ok (p0 p1 p2 : Nat) (h : (validate_cc_data_pair (p0, p1, p2)).1 = none) :
    validate_cc_data_pair (p0, p1, p2) =
      (none, (p0, (if av_parity p1 = 0 then 0x7F else p1 &&& 0x7F), p2 &&& 0x7F)) ∧
    p0 &&& 4 ≠ 0 ∧ p0 &&& 3 ≤ 1 := by
  unfold validate_cc_data_pair at h ⊢
  dsimp only at h ⊢
  by_cases c0 : (p0 &&& 4) >>> 2 = 0
  · simp only [if_pos c0] at h
    cases h
  by_cases c1 : (p0 &&& 3 = 0 ∨ p0 &&& 3 = 1) ∧ av_parity p2 = 0
  · simp only [if_neg c0, if_pos c1] at h
    cases h
  by_cases c3 : p0 &&& 3 = 3 ∨ p0 &&& 3 = 2
  · exfalso
    by_cases c4 : (p0 = 0xFA ∨ p0 = 0xFC ∨ p0 = 0xFD) ∧
        (if (p0 &&& 3 = 0 ∨ p0 &&& 3 = 1) ∧ av_parity p1 = 0 then 0x7F else p1) &&& 0x7F = 0 ∧
        p2 &&& 0x7F = 0
    · simp only [if_neg c0, if_neg c1, if_pos c4] at h
      cases h
    · simp only [if_neg c0, if_neg c1, if_neg c4, if_pos c3] at h
      cases h
  have ht : p0 &&& 3 = 0 ∨ p0 &&& 3 = 1 := by
    have : p0 &&& 3 ≤ 3 := Nat.and_le_right
    omega
  refine ⟨?_, fun h0 => c0 ((cc_valid_eq_zero_iff p0).mpr h0), by omega⟩
  by_cases c4 : (p0 = 0xFA ∨ p0 = 0xFC ∨ p0 = 0xFD) ∧
      (if (p0 &&& 3 = 0 ∨ p0 &&& 3 = 1) ∧ av_parity p1 = 0 then 0x7F else p1) &&& 0x7F = 0 ∧
      p2 &&& 0x7F = 0
  · simp only [if_neg c0, if_neg c1, if_pos c4] at h
    cases h
  simp only [if_neg c0, if_neg c1, if_neg c4, if_neg c3]
  by_cases hq : av_parity p1 = 0
  · rw [if_pos ⟨ht, hq⟩, if_pos hq]
    rfl
  · rw [if_neg (fun h => hq h.2), if_neg hq]

/-! ## The loop of `decode` -/

theorem set_getD_self {l : List Nat} {i : Nat} (h : i < l.length) : l.set i (l.getD i 0) = l := by
  apply List.ext_getElem?
  intro j
  by_cases hij : i = j
  · subst hij
    rw [List.getElem?_set_self h, List.getD_eq_getElem?_getD, List.getElem?_eq_getElem h]
    rfl
  · rw [List.getElem?_set_ne hij]

/-- The loop of `decode` over units that validation rejects without changing
them: nothing changes. -/
theorem decode_units_rejected (rescale : Int → AVRational → AVRational → Int)
    (avctx : AVCodecContext) (avpkt : AVPacket) :
    ∀ (n i : Nat) (ctx : CCaptionSubContext) (sub : AVSubtitle) (bptr : List Nat),
      i + 3 * n ≤ bptr.length →
      (∀ k, k < n → ∃ e,
        validate_cc_data_pair (bptr.getD (i + 3 * k) 0, bptr.getD (i + 3 * k + 1) 0,
          bptr.getD (i + 3 * k + 2) 0) =
        (some e, (bptr.getD (i + 3 * k) 0, bptr.getD (i + 3 * k + 1) 0,
          bptr.getD (i + 3 * k + 2) 0))) →
      decode_units rescale avctx avpkt n i ctx sub bptr = some (ctx, sub, bptr) := by
  intro n
  induction n with
  | zero => intro i ctx sub bptr _ _; rfl
  | succ n ih =>
    intro i ctx sub bptr hle hrej
    have h0 : i < bptr.length := by omega
    have h1 : i + 1 < bptr.length := by omega
    have h2 : i + 2 < bptr.length := by omega
    obtain ⟨e, he⟩ := hrej 0 (Nat.succ_pos n)
    simp only [Nat.mul_zero, Nat.add_zero] at he
    unfold decode_units
    rw [get?_of_lt h0, get?_of_lt h1, get?_of_lt h2]
    dsimp only
    rw [he]
    dsimp only
    rw [set_getD_self h0, set_getD_self h1, set_getD_self h2, if_pos (by simp)]
    apply ih (i + 3) ctx sub bptr (by omega)
    intro k hk
    have := hrej (k + 1) (by omega)
    have e1 : i + 3 * (k + 1) = i + 3 + 3 * k := by omega
    rw [e1] at this
    exact this

/-- One turn of the loop of `decode` on a unit that passes validation and is
not of type 1. -/
theorem decode_units_accepted (rescale : Int → AVRational → AVRational → Int)
    (avctx : AVCodecContext) (avpkt : AVPacket) (n : Nat) (ctx : CCaptionSubContext)
    (sub : AVSubtitle) (p0 p1 p2 hi lo : Nat) (rest : List Nat)
    (hv : validate_cc_data_pair (p0, p1, p2) = (none, (p0, hi, lo)))
    (hi7 : hi &&& 0x7f = hi) (lo7 : lo &&& 0x7f = lo) (ht : p0 &&& 3 ≠ 1) :
    decode_units rescale avctx avpkt (n + 1) 0 ctx sub (p0 :: p1 :: p2 :: rest) =
      if (process_cc608 ctx hi lo).screen_reaped = 0 then
        decode_units rescale avctx avpkt n 3 (process_cc608 ctx hi lo) sub (p0 :: hi :: lo :: rest)
      else
        decode_units rescale avctx avpkt n 3
          (decode_emit rescale avctx avpkt (process_cc608 ctx hi lo) sub).1
          (decode_emit rescale avctx avpkt (process_cc608 ctx hi lo) sub).2
          (p0 :: hi :: lo :: rest) := by
  conv_lhs => unfold decode_units
  simp only [List.get?_cons_zero, List.get?_cons_succ, hv, List.set_cons_zero, List.set_cons_succ,
    hi7, lo7, if_neg ht, ne_eq, not_true_eq_false, if_false, Nat.zero_add]

/-! ## Reaping a screen -/

theorem c_str_dropWhile_space (row : List Nat) :
    c_str (row.dropWhile (fun c => c = 0x20)) = row_text row := by
  unfold row_text c_str
  induction row with
  | nil => rfl
  | cons a l ih =>
    by_cases h : a = 0x20
    · subst h
      simp only [List.dropWhile_cons, decide_True, if_true, List.takeWhile_cons, ne_eq,
        OfNat.ofNat_ne_zero, not_false_eq_true]
      exact ih
    · by_cases h0 : a = 0
      · subst h0
        simp
      · simp [List.dropWhile_cons, List.takeWhile_cons, h, h0]

theorem join_lines_marker : ∀ (l : List (List Nat)), l ≠ [] →
    (l.map (fun t => t ++ [0x5c, 0x4e])).flatten = join_lines l ++ [0x5c, 0x4e]
  | [], h => absurd rfl h
  | [t], _ => by simp [join_lines]
  | t :: u :: ts, _ => by
    have ih := join_lines_marker (u :: ts) (List.cons_ne_nil _ _)
    rw [List.map_cons, List.flatten_cons, ih]
    simp [join_lines]

theorem reap_screen_rows_eq (screen : Screen) (h : screen.row_used ≠ 0) :
    ∀ (fuel i : Nat) (buffer : List Nat), i + fuel ≤ SCREEN_ROWS →
      reap_screen_rows screen fuel i buffer =
        buffer ++ (((List.range' i fuel).filter
          (fun j => CHECK_FLAG screen.row_used j ≠ 0)).map
          (fun j => row_text (screen.characters.getD j []) ++ [0x5c, 0x4e])).flatten := by
  intro fuel
  induction fuel with
  | zero => intro i buffer _; simp [reap_screen_rows]
  | succ fuel ih =>
    intro i buffer hle
    unfold reap_screen_rows
    rw [if_pos ⟨h, by omega⟩, ih (i + 1) _ (by omega), List.range'_succ]
    by_cases hc : CHECK_FLAG screen.row_used i ≠ 0
    · rw [if_pos hc, List.filter_cons_of_pos (by simpa using hc), List.map_cons, List.flatten_cons,
        c_str_dropWhile_space]
      simp only [List.append_assoc]
    · rw [if_neg hc, List.filter_cons_of_neg (by simpa using hc)]

theorem c_str_rows (f : Nat → List Nat) (rows : List Nat) :
    (rows.map f).map (fun t => t ++ [0x5c, 0x4e]) =
      rows.map (fun j => f j ++ [0x5c, 0x4e]) := by
  rw [List.map_map]
  rfl

theorem reap_screen_eq (ctx : CCaptionSubContext) :
    reap_screen ctx =
      { ctx with buffer := screen_text (ctx.screen_at ctx.active_screen), screen_reaped := 1 } := by
  unfold reap_screen
  dsimp only
  congr 1
  by_cases h : (ctx.screen_at ctx.active_screen).row_used = 0
  · have e1 : reap_screen_rows (ctx.screen_at ctx.active_screen) SCREEN_ROWS 0 [] = [] := by
      show reap_screen_rows (ctx.screen_at ctx.active_screen) (14 + 1) 0 [] = []
      unfold reap_screen_rows
      rw [if_neg (fun hh => hh.1 h)]
    have e2 : screen_text (ctx.screen_at ctx.active_screen) = [] := by
      unfold screen_text used_rows CHECK_FLAG
      rw [h]
      simp [join_lines]
    rw [e1, e2, if_neg (fun hh => hh.1 h)]
  · rw [reap_screen_rows_eq _ h SCREEN_ROWS 0 [] (by simp), List.nil_append]
    unfold screen_text used_rows
    rw [List.range_eq_range', ← c_str_rows]
    generalize (List.range' 0 SCREEN_ROWS).filter
      (fun i => CHECK_FLAG (ctx.screen_at ctx.active_screen).row_used i ≠ 0) = rows
    cases hr : rows.map (fun i => row_text ((ctx.screen_at ctx.active_screen).characters.getD i []))
      with
    | nil =>
      rw [List.map_nil, List.flatten_nil, if_neg (fun hh => absurd hh.2 (by simp))]
      rfl
    | cons t ts =>
      rw [join_lines_marker _ (List.cons_ne_nil t ts), if_pos ⟨h, by simp⟩]
      simp

/-! ## Rolling up -/

theorem check_flag_ne_zero_iff (v i : Nat) : CHECK_FLAG v i ≠ 0 ↔ v.testBit i = true := by
  unfold CHECK_FLAG
  rw [Nat.one_shiftLeft, Nat.and_comm, Nat.two_pow_and]
  cases v.testBit i <;> simp

theorem testBit_set_flag (v j i : Nat) :
    (SET_FLAG v j).testBit i = (v.testBit i || decide (j = i)) := by
  unfold SET_FLAG
  rw [Nat.testBit_or, Nat.one_shiftLeft, Nat.testBit_two_pow]

theorem testBit_unset_flag (v j i : Nat) :
    (UNSET_FLAG v j).testBit i = (v.testBit i && (decide (i < 16) ^^ decide (j = i))) := by
  unfold UNSET_FLAG
  have h : (0xFFFF : Nat) = 2 ^ 16 - 1 := by norm_num
  rw [Nat.testBit_and, Nat.testBit_xor, Nat.one_shiftLeft, Nat.testBit_two_pow, h,
    Nat.testBit_two_pow_sub_one]

theorem ne_zero_of_testBit {v i : Nat} (h : v.testBit i = true) : v ≠ 0 := by
  intro h0
  rw [h0, Nat.zero_testBit] at h
  cases h

theorem screen_at_set_screen (ctx : CCaptionSubContext) (n : Nat) (s : Screen) :
    (ctx.set_screen n s).screen_at n = s := by
  unfold CCaptionSubContext.set_screen CCaptionSubContext.screen_at
  split_ifs <;> rfl

theorem process_cc608_carriage_return (ctx : CCaptionSubContext)
    (hprev : ctx.prev_cmd ≠ (0x14, 0x2d)) :
    process_cc608 ctx 0x14 0x2d =
      { roll_up (reap_screen ctx) with cursor_column := 0, prev_cmd := (0x14, 0x2d) } := by
  have hsup : ¬ (0x14 = ctx.prev_cmd.1 ∧ 0x2d = ctx.prev_cmd.2) :=
    fun h => hprev (Prod.ext h.1.symm h.2.symm)
  unfold process_cc608 process_cc608_dispatch
  rw [if_neg hsup]
  rfl

theorem roll_up_unset_three (row_used : Nat) :
    roll_up_unset 3 3 0 row_used = UNSET_FLAG (UNSET_FLAG (UNSET_FLAG row_used 0) 1) 2 := rfl

theorem roll_up_shift_turn (cursor_row : Nat) (keep_lines : Int) (fuel : Nat) (i : Int)
    (screen : Screen) (hi : i < keep_lines) (hu : screen.row_used ≠ 0) :
    roll_up_shift cursor_row keep_lines (fuel + 1) i screen =
      roll_up_shift cursor_row keep_lines fuel (i + 1)
        { characters := screen.characters.set ((cursor_row : Int) - keep_lines + i + 1).toNat
            (memcpy (screen.characters.getD ((cursor_row : Int) - keep_lines + i + 1).toNat [])
              (grid_row screen.characters (screen.colors.getD 0 [])
                (((cursor_row : Int) - keep_lines + i + 1).toNat + 1))
              SCREEN_COLUMNS)
          colors := screen.colors.set ((cursor_row : Int) - keep_lines + i + 1).toNat
            (memcpy (screen.colors.getD ((cursor_row : Int) - keep_lines + i + 1).toNat [])
              (grid_row screen.colors (screen.fonts.getD 0 [])
                (((cursor_row : Int) - keep_lines + i + 1).toNat + 1))
              SCREEN_COLUMNS)
          fonts := screen.fonts.set ((cursor_row : Int) - keep_lines + i + 1).toNat
            (memcpy (screen.fonts.getD ((cursor_row : Int) - keep_lines + i + 1).toNat [])
              (grid_row screen.fonts after_fonts
                (((cursor_row : Int) - keep_lines + i + 1).toNat + 1))
              SCREEN_COLUMNS)
          row_used :=
            if CHECK_FLAG screen.row_used (((cursor_row : Int) - keep_lines + i + 1).toNat + 1) ≠ 0
            then SET_FLAG screen.row_used ((cursor_row : Int) - keep_lines + i + 1).toNat
            else screen.row_used } := by
  conv_lhs => unfold roll_up_shift
  rw [if_pos ⟨hi, hu⟩]
  dsimp only
  congr 1
  split_ifs <;> rfl

/-- The screen that `roll_up` leaves for a cursor on row 5, a window of 2 and a
used row 5, in a mode that writes to the active screen. -/
theorem roll_up_window_two (ctx : CCaptionSubContext) (hmode : ctx.mode = .CCMODE_ROLLUP)
    (hroll : ctx.rollup = 2) (hrow : ctx.cursor_row = 5)
    (hused : CHECK_FLAG (ctx.screen_at ctx.active_screen).row_used 5 ≠ 0) :
    ((roll_up ctx).screen_at ctx.active_screen).row_used =
      UNSET_FLAG
        (if CHECK_FLAG (SET_FLAG (UNSET_FLAG (UNSET_FLAG (UNSET_FLAG
            (ctx.screen_at ctx.active_screen).row_used 0) 1) 2) 4) 6 ≠ 0 then
          SET_FLAG (SET_FLAG (UNSET_FLAG (UNSET_FLAG (UNSET_FLAG
            (ctx.screen_at ctx.active_screen).row_used 0) 1) 2) 4) 5
        else SET_FLAG (UNSET_FLAG (UNSET_FLAG (UNSET_FLAG
            (ctx.screen_at ctx.active_screen).row_used 0) 1) 2) 4) 5 ∧
    ((roll_up ctx).screen_at ctx.active_screen).characters =
      ((ctx.screen_at ctx.active_screen).characters.set 4
        (memcpy ((ctx.screen_at ctx.active_screen).characters.getD 4 [])
          ((ctx.screen_at ctx.active_screen).characters.getD 5 []) SCREEN_COLUMNS)).set 5
        (memcpy
          (((ctx.screen_at ctx.active_screen).characters.set 4
            (memcpy ((ctx.screen_at ctx.active_screen).characters.getD 4 [])
              ((ctx.screen_at ctx.active_screen).characters.getD 5 []) SCREEN_COLUMNS)).getD 5 [])
          (((ctx.screen_at ctx.active_screen).characters.set 4
            (memcpy ((ctx.screen_at ctx.active_screen).characters.getD 4 [])
              ((ctx.screen_at ctx.active_screen).characters.getD 5 []) SCREEN_COLUMNS)).getD 6 [])
          SCREEN_COLUMNS) := by
  have hb5 : (UNSET_FLAG (UNSET_FLAG (UNSET_FLAG
      (ctx.screen_at ctx.active_screen).row_used 0) 1) 2).testBit 5 = true := by
    rw [testBit_unset_flag, testBit_unset_flag, testBit_unset_flag,
      (check_flag_ne_zero_iff _ _).mp hused]
    decide
  have hw : get_writing_screen ctx = ctx.active_screen := by
    unfold get_writing_screen
    rw [hmode]
  have hk : min ((ctx.cursor_row : Int) + 1) ctx.rollup = 2 := by
    rw [hrow, hroll]
    decide
  unfold roll_up
  rw [if_neg (by rw [hmode]; decide)]
  dsimp only
  rw [hw, hk, hrow]
  have h3 : ((5 : Nat) : Int) - 2 = 3 := by decide
  rw [h3]
  have ht : (3 : Int).toNat = 3 := rfl
  have ht2 : (2 : Int).toNat = 2 := rfl
  rw [ht, ht2, roll_up_unset_three,
    roll_up_shift_turn 5 2 1 0 _ (by decide) (ne_zero_of_testBit hb5)]
  dsimp only
  have e4 : (((5 : Nat) : Int) - 2 + 0 + 1).toNat = 4 := by decide
  rw [e4, if_pos ((check_flag_ne_zero_iff _ _).mpr hb5)]
  have g5 : ∀ (g : List (List Nat)) (a : List Nat), grid_row g a (4 + 1) = g.getD 5 [] :=
    fun _ _ => rfl
  have g6 : ∀ (g : List (List Nat)) (a : List Nat), grid_row g a (5 + 1) = g.getD 6 [] :=
    fun _ _ => rfl
  simp only [g5]
  have hb4 : (SET_FLAG (UNSET_FLAG (UNSET_FLAG (UNSET_FLAG
      (ctx.screen_at ctx.active_screen).row_used 0) 1) 2) 4).testBit 4 = true := by
    rw [testBit_set_flag]
    simp
  rw [roll_up_shift_turn 5 2 0 (0 + 1) _ (by decide) (ne_zero_of_testBit hb4)]
  dsimp only
  have e5 : (((5 : Nat) : Int) - 2 + (0 + 1) + 1).toNat = 5 := by decide
  rw [e5, screen_at_set_screen]
  simp only [g6]
  unfold roll_up_shift
  dsimp only
  exact ⟨rfl, rfl⟩

theorem used_rows_below_six (s : Screen) (h0 : ¬ s.used 0) (h1 : ¬ s.used 1) (h2 : ¬ s.used 2)
    (h5 : ¬ s.used 5) : ((used_rows s).filter (fun i => i < 6)).length ≤ 2 := by
  have hsub : ((used_rows s).filter (fun i => i < 6)).Sublist
      ((List.range SCREEN_ROWS).filter (fun i => i = 3 ∨ i = 4)) := by
    unfold used_rows
    rw [List.filter_filter]
    apply List.monotone_filter_right
    intro i hi
    simp only [Bool.and_eq_true, decide_eq_true_eq] at hi
    obtain ⟨h6, hu⟩ := hi
    have hu' : s.used i := hu
    have : i ≠ 0 := fun e => h0 (e ▸ hu')
    have : i ≠ 1 := fun e => h1 (e ▸ hu')
    have : i ≠ 2 := fun e => h2 (e ▸ hu')
    have : i ≠ 5 := fun e => h5 (e ▸ hu')
    simp only [decide_eq_true_eq]
    omega
  exact hsub.length_le

theorem used_rows_all_below_six (s : Screen)
    (h : ∀ i, 6 ≤ i → i < SCREEN_ROWS → ¬ s.used i) :
    (used_rows s).filter (fun i => i < 6) = used_rows s := by
  apply List.filter_eq_self.mpr
  intro i hi
  unfold used_rows at hi
  rw [List.mem_filter, List.mem_range] at hi
  have hu : s.used i := of_decide_eq_true hi.2
  have : ¬ 6 ≤ i := fun h6 => h i h6 hi.1 hu
  exact decide_eq_true (by omega)

theorem take_memcpy (dst src : List Nat) (n : Nat) (h : n ≤ src.length) :
    (memcpy dst src n).take n = src.take n := by
  unfold memcpy
  rw [List.take_append_of_le_length (by rw [List.length_take]; omega), List.take_take,
    Nat.min_self]

theorem rolled_mask_testBit (ru i : Nat) (h5 : ru.testBit 5 = true) :
    (UNSET_FLAG
      (if CHECK_FLAG (SET_FLAG (UNSET_FLAG (UNSET_FLAG (UNSET_FLAG ru 0) 1) 2) 4) 6 ≠ 0 then
        SET_FLAG (SET_FLAG (UNSET_FLAG (UNSET_FLAG (UNSET_FLAG ru 0) 1) 2) 4) 5
      else SET_FLAG (UNSET_FLAG (UNSET_FLAG (UNSET_FLAG ru 0) 1) 2) 4) 5).testBit i =
      (decide (i = 4) || (ru.testBit i && (decide (i = 3) || (decide (6 ≤ i) && decide (i < 16))))) := by
  have hx : ∀ m, (UNSET_FLAG m 5).testBit i = (m.testBit i && (decide (i < 16) ^^ decide (5 = i))) :=
    fun m => testBit_unset_flag m 5 i
  have key : (SET_FLAG (UNSET_FLAG (UNSET_FLAG (UNSET_FLAG ru 0) 1) 2) 4).testBit i =
      (decide (i = 4) || (ru.testBit i && decide (3 ≤ i) && decide (i < 16))) := by
    rw [testBit_set_flag, testBit_unset_flag, testBit_unset_flag, testBit_unset_flag]
    rcases Nat.lt_or_ge i 3 with h | h
    · interval_cases i <;> simp
    · have d0 : decide (0 = i) = false := by simp; omega
      have d1 : decide (1 = i) = false := by simp; omega
      have d2 : decide (2 = i) = false := by simp; omega
      have d3 : decide (3 ≤ i) = true := by simp; omega
      rw [d0, d1, d2, d3]
      by_cases h16 : i < 16
      · have d16 : decide (i < 16) = true := by simp; omega
        rw [d16]
        cases ru.testBit i <;> by_cases h4 : i = 4 <;> simp [h4, eq_comm]
      · have d16 : decide (i < 16) = false := by simp; omega
        have d4 : decide (4 = i) = false := by simp; omega
        have d4' : decide (i = 4) = false := by simp; omega
        rw [d16, d4, d4']
        simp
  rw [hx]
  have hgoal : ∀ m : Nat, m.testBit i = ((SET_FLAG (UNSET_FLAG (UNSET_FLAG (UNSET_FLAG ru 0) 1) 2)
      4).testBit i || decide (5 = i)) ∨ m.testBit i =
      (SET_FLAG (UNSET_FLAG (UNSET_FLAG (UNSET_FLAG ru 0) 1) 2) 4).testBit i →
      (m.testBit i && (decide (i < 16) ^^ decide (5 = i))) =
      (decide (i = 4) || (ru.testBit i && (decide (i = 3) || (decide (6 ≤ i) && decide (i < 16))))) := by
    intro m hm
    rcases Nat.lt_or_ge i 6 with h | h
    · interval_cases i
      all_goals rcases hm with hm | hm
      all_goals rw [hm, key]
      all_goals simp [h5]
    · have d5 : decide (5 = i) = false := by simp; omega
      have d4 : decide (i = 4) = false := by simp; omega
      have d3 : decide (i = 3) = false := by simp; omega
      have d3' : decide (3 ≤ i) = true := by simp; omega
      have d6 : decide (6 ≤ i) = true := by simp; omega
      rcases hm with hm | hm
      all_goals rw [hm, key, d5, d4, d3, d3', d6]
      all_goals cases ru.testBit i <;> cases decide (i < 16) <;> rfl
  split_ifs
  · exact hgoal _ (Or.inl (testBit_set_flag _ 5 i))
  · exact hgoal _ (Or.inr rfl)

/-! ## The dispatch of `process_cc608` -/

theorem not_suppressed {ctx : CCaptionSubContext} {hi lo : Nat} (h : ctx.prev_cmd ≠ (hi, lo)) :
    ¬ (hi = ctx.prev_cmd.1 ∧ lo = ctx.prev_cmd.2) :=
  fun hh => h (Prod.ext hh.1.symm hh.2.symm)

theorem process_cc608_suppressed (ctx : CCaptionSubContext) (hi lo : Nat)
    (h : ctx.prev_cmd = (hi, lo)) : process_cc608 ctx hi lo = ctx := by
  unfold process_cc608 process_cc608_dispatch
  rw [if_pos ⟨by rw [h], by rw [h]⟩, ← h]

theorem process_cc608_char (ctx : CCaptionSubContext) (hi lo : Nat) (hhi : 0x20 ≤ hi)
    (hprev : ctx.prev_cmd ≠ (hi, lo)) :
    process_cc608 ctx hi lo = { handle_char ctx hi lo with prev_cmd := (hi, lo) } := by
  unfold process_cc608 process_cc608_dispatch
  rw [if_neg (not_suppressed hprev), if_neg (by omega), if_neg (by omega), if_neg (by omega),
    if_neg (by omega), if_pos hhi]

theorem process_cc608_control (ctx : CCaptionSubContext) (hi lo : Nat)
    (hhi : hi = 0x14 ∨ hi = 0x15 ∨ hi = 0x1c) (hlo : lo < 0x40)
    (hprev : ctx.prev_cmd ≠ (hi, lo)) :
    process_cc608 ctx hi lo = { process_cc608_switch ctx hi lo with prev_cmd := (hi, lo) } := by
  unfold process_cc608 process_cc608_dispatch
  rw [if_neg (not_suppressed hprev), if_neg (by omega), if_neg (by omega), if_pos hhi]

theorem process_cc608_pac (ctx : CCaptionSubContext) (hi lo : Nat)
    (hpac : (hi = 0x10 ∧ (lo ≥ 0x40 ∧ lo ≤ 0x5f)) ∨
      ((hi ≥ 0x11 ∧ hi ≤ 0x17) ∧ (lo ≥ 0x40 ∧ lo ≤ 0x7f)))
    (hprev : ctx.prev_cmd ≠ (hi, lo)) :
    process_cc608 ctx hi lo = { handle_pac ctx hi lo with prev_cmd := (hi, lo) } := by
  unfold process_cc608 process_cc608_dispatch
  rw [if_neg (not_suppressed hprev), if_pos hpac]

/-! ## What the handlers leave alone -/

theorem set_screen_mode (ctx : CCaptionSubContext) (n : Nat) (s : Screen) :
    (ctx.set_screen n s).mode = ctx.mode := by
  unfold CCaptionSubContext.set_screen
  split_ifs <;> rfl

theorem set_screen_active_screen (ctx : CCaptionSubContext) (n : Nat) (s : Screen) :
    (ctx.set_screen n s).active_screen = ctx.active_screen := by
  unfold CCaptionSubContext.set_screen
  split_ifs <;> rfl

theorem screen_at_set_screen_lnot (ctx : CCaptionSubContext) (n : Nat) (s : Screen) :
    (ctx.set_screen (lnot n) s).screen_at n = ctx.screen_at n := by
  unfold CCaptionSubContext.set_screen CCaptionSubContext.screen_at lnot
  by_cases h : n = 0 <;> simp [h]

theorem screen_at_set_screen_of_lnot (ctx : CCaptionSubContext) (n : Nat) (s : Screen) :
    (ctx.set_screen n s).screen_at (lnot n) = ctx.screen_at (lnot n) := by
  unfold CCaptionSubContext.set_screen CCaptionSubContext.screen_at lnot
  by_cases h : n = 0 <;> simp [h]

theorem roll_up_mode (ctx : CCaptionSubContext) : (roll_up ctx).mode = ctx.mode := by
  unfold roll_up
  split_ifs
  · rfl
  · exact set_screen_mode _ _ _

theorem handle_pac_mode (ctx : CCaptionSubContext) (hi lo : Nat) :
    (handle_pac ctx hi lo).mode = ctx.mode := by
  unfold handle_pac
  dsimp only
  split_ifs
  · rfl
  · exact set_screen_mode _ _ _

theorem handle_textattr_mode (ctx : CCaptionSubContext) (hi lo : Nat) :
    (handle_textattr ctx hi lo).mode = ctx.mode := by
  unfold handle_textattr
  dsimp only
  split_ifs
  · rfl
  · exact set_screen_mode _ _ _
  · exact set_screen_mode _ _ _

theorem handle_char_mode (ctx : CCaptionSubContext) (hi lo : Nat) :
    (handle_char ctx hi lo).mode = ctx.mode := by
  unfold handle_char
  exact set_screen_mode _ _ _

theorem handle_erase_mode (ctx : CCaptionSubContext) (n : Nat) :
    (handle_erase ctx n).mode = ctx.mode := by
  unfold handle_erase
  exact set_screen_mode _ _ _

theorem handle_delete_end_of_row_mode (ctx : CCaptionSubContext) (hi lo : Nat) :
    (handle_delete_end_of_row ctx hi lo).mode = ctx.mode := by
  unfold handle_delete_end_of_row
  exact set_screen_mode _ _ _

theorem process_cc608_switch_mode (ctx : CCaptionSubContext) (hi lo : Nat)
    (h : ¬ (lo = 0x20 ∨ lo = 0x25 ∨ lo = 0x26 ∨ lo = 0x27 ∨ lo = 0x29 ∨ lo = 0x2b)) :
    (process_cc608_switch ctx hi lo).mode = ctx.mode := by
  unfold process_cc608_switch
  rw [if_neg (by omega)]
  by_cases h24 : lo = 0x24
  · rw [if_pos h24]
    exact handle_delete_end_of_row_mode _ _ _
  rw [if_neg h24, if_neg (by omega), if_neg (by omega), if_neg (by omega), if_neg (by omega),
    if_neg (by omega)]
  by_cases h2c : lo = 0x2c
  · rw [if_pos h2c]
    exact handle_erase_mode _ _
  rw [if_neg h2c]
  by_cases h2d : lo = 0x2d
  · rw [if_pos h2d]
    exact roll_up_mode _
  rw [if_neg h2d]
  by_cases h2e : lo = 0x2e
  · rw [if_pos h2e]
    exact handle_erase_mode _ _
  rw [if_neg h2e]
  by_cases h2f : lo = 0x2f
  · rw [if_pos h2f]
    rfl
  rw [if_neg h2f]

theorem process_cc608_dispatch_mode (ctx : CCaptionSubContext) (hi lo : Nat)
    (h : ¬ ((hi = 0x14 ∨ hi = 0x15 ∨ hi = 0x1c) ∧ ctx.prev_cmd ≠ (hi, lo) ∧
      (lo = 0x20 ∨ lo = 0x25 ∨ lo = 0x26 ∨ lo = 0x27 ∨ lo = 0x29 ∨ lo = 0x2b))) :
    (process_cc608_dispatch ctx hi lo).mode = ctx.mode := by
  unfold process_cc608_dispatch
  by_cases h0 : hi = ctx.prev_cmd.1 ∧ lo = ctx.prev_cmd.2
  · rw [if_pos h0]
  rw [if_neg h0]
  have hprev : ctx.prev_cmd ≠ (hi, lo) := fun e => h0 ⟨by rw [e], by rw [e]⟩
  split_ifs with h1 h2 h3 h4 h5
  · exact handle_pac_mode _ _ _
  · exact handle_textattr_mode _ _ _
  · exact process_cc608_switch_mode _ _ _ (fun hl => h ⟨h3, hprev, hl⟩)
  · rfl
  · exact handle_char_mode _ _ _
  · rfl

theorem handle_char_screen_at_other (ctx : CCaptionSubContext) (hi lo : Nat) :
    (handle_char ctx hi lo).screen_at (lnot (get_writing_screen ctx)) =
      ctx.screen_at (lnot (get_writing_screen ctx)) := by
  unfold handle_char
  exact screen_at_set_screen_of_lnot _ _ _

theorem lnot_lnot_screen_at (ctx : CCaptionSubContext) (n : Nat) :
    ctx.screen_at (lnot (lnot n)) = ctx.screen_at n := by
  unfold CCaptionSubContext.screen_at lnot
  by_cases h : n = 0 <;> simp [h]

theorem roll_up_text (ctx : CCaptionSubContext) (hmode : ctx.mode = .CCMODE_TEXT) :
    roll_up ctx = ctx := by
  unfold roll_up
  rw [if_pos hmode]

theorem roll_up_cursor_row_unused (ctx : CCaptionSubContext) (hmode : ctx.mode ≠ .CCMODE_TEXT)
    (hrow : ctx.cursor_row < 16) :
    ¬ ((roll_up ctx).screen_at (get_writing_screen ctx)).used ctx.cursor_row := by
  unfold roll_up
  rw [if_neg hmode]
  dsimp only
  rw [screen_at_set_screen]
  unfold Screen.used
  rw [check_flag_ne_zero_iff]
  dsimp only
  rw [testBit_unset_flag]
  simp [hrow]

theorem process_cc608_eoc (ctx : CCaptionSubContext) (hi : Nat)
    (hhi : hi = 0x14 ∨ hi = 0x15 ∨ hi = 0x1c) (hprev : ctx.prev_cmd ≠ (hi, 0x2f)) :
    process_cc608 ctx hi 0x2f =
      { ctx with
        active_screen := lnot ctx.active_screen
        cursor_column := 0
        buffer := screen_text (ctx.screen_at (lnot ctx.active_screen))
        screen_reaped := 1
        prev_cmd := (hi, 0x2f) } := by
  rw [process_cc608_control ctx hi 0x2f hhi (by decide) hprev]
  show ({ handle_eoc ctx with prev_cmd := (hi, 0x2f) } : CCaptionSubContext) = _
  unfold handle_eoc
  rw [reap_screen_eq]
  rfl

/-! ## Cue emission -/

theorem c_str_no_zero (l : List Nat) : (0 : Nat) ∉ c_str l := by
  unfold c_str
  intro h
  have := List.mem_takeWhile_imp h
  simp at this

theorem c_str_of_no_zero (l : List Nat) (h : (0 : Nat) ∉ l) : c_str l = l := by
  unfold c_str
  rw [List.takeWhile_eq_self_iff]
  intro x hx
  simp only [ne_eq, decide_not, Bool.not_eq_true', decide_eq_false_iff_not]
  intro e
  exact h (e ▸ hx)

theorem row_text_no_zero (row : List Nat) : (0 : Nat) ∉ row_text row := by
  unfold row_text
  intro h
  exact c_str_no_zero row ((List.dropWhile_sublist _).subset h)

theorem join_lines_no_zero : ∀ (l : List (List Nat)), (∀ t ∈ l, (0 : Nat) ∉ t) →
    (0 : Nat) ∉ join_lines l
  | [], _ => by simp [join_lines]
  | [t], h => by
    simpa [join_lines] using h t (List.mem_singleton.mpr rfl)
  | t :: u :: ts, h => by
    have ih := join_lines_no_zero (u :: ts) (fun x hx => h x (List.mem_cons_of_mem _ hx))
    have ht := h t (List.mem_cons_self _ _)
    unfold join_lines
    simp only [List.mem_append, List.mem_cons, List.mem_singleton, not_or]
    simp only [List.not_mem_nil, or_false]
    exact ⟨⟨ht, by decide, by decide⟩, ih⟩

theorem screen_text_no_zero (s : Screen) : (0 : Nat) ∉ screen_text s := by
  unfold screen_text
  apply join_lines_no_zero
  intro t ht
  rw [List.mem_map] at ht
  obtain ⟨i, _, rfl⟩ := ht
  exact row_text_no_zero _

theorem c_str_screen_text_crlf (s : Screen) :
    c_str (screen_text s ++ [0x0d, 0x0a]) = screen_text s ++ [0x0d, 0x0a] := by
  apply c_str_of_no_zero
  simp only [List.mem_append, List.mem_cons, List.mem_singleton, not_or]
  simp only [List.not_mem_nil, or_false]
  exact ⟨screen_text_no_zero s, by decide, by decide⟩

theorem decode_emit_batch (rescale : Int → AVRational → AVRational → Int)
    (avctx : AVCodecContext) (avpkt : AVPacket) (ctx : CCaptionSubContext) (sub : AVSubtitle)
    (hbatch : ctx.real_time = 0) :
    decode_emit rescale avctx avpkt ctx sub =
      ({ ctx with
          screen_reaped := 0
          buffer := ctx.buffer ++ [0x0d, 0x0a]
          prev_string := some (c_str (ctx.buffer ++ [0x0d, 0x0a]))
          prev_time := avpkt.pts },
        match ctx.prev_string with
        | none => sub
        | some held =>
          { rects := sub.rects ++
              [⟨c_str held, to_int (rescale ctx.prev_time avctx.time_base ass_tb),
                to_int (to_int (rescale avpkt.pts avctx.time_base ass_tb) -
                  to_int (rescale ctx.prev_time avctx.time_base ass_tb))⟩]
            pts := rescale ctx.prev_time avctx.time_base AV_TIME_BASE_Q }) := by
  unfold decode_emit
  dsimp only
  rw [if_pos hbatch]
  cases ctx.prev_string <;> rfl

/-- What `decode` does with a packet that holds the one unit end-of-caption
(0xfc 0x94 0x2f) in batch mode. -/
theorem decode_end_of_caption (rescale : Int → AVRational → AVRational → Int)
    (avctx : AVCodecContext) (ctx : CCaptionSubContext) (sub : AVSubtitle) (pts : Int)
    (hbatch : ctx.real_time = 0) (hprev : ctx.prev_cmd ≠ (0x14, 0x2f)) :
    (decode rescale avctx ctx sub ⟨[0xfc, 0x94, 0x2f], pts⟩).map
        (fun r => (r.sub.rects, r.ctx.prev_string, r.ctx.prev_time)) =
      some
        (sub.rects ++
          (match ctx.prev_string with
          | none => []
          | some held =>
            [⟨c_str held, to_int (rescale ctx.prev_time avctx.time_base ass_tb),
              to_int (to_int (rescale pts avctx.time_base ass_tb) -
                to_int (rescale ctx.prev_time avctx.time_base ass_tb))⟩]),
          some (screen_text (ctx.screen_at (lnot ctx.active_screen)) ++ [0x0d, 0x0a]), pts) := by
  have hu : decode_units rescale avctx ⟨[0xfc, 0x94, 0x2f], pts⟩ 1 0 { ctx with pktbuf := [] } sub
      [0xfc, 0x94, 0x2f] =
      some ((decode_emit rescale avctx ⟨[0xfc, 0x94, 0x2f], pts⟩
          (process_cc608 { ctx with pktbuf := [] } 0x14 0x2f) sub).1,
        (decode_emit rescale avctx ⟨[0xfc, 0x94, 0x2f], pts⟩
          (process_cc608 { ctx with pktbuf := [] } 0x14 0x2f) sub).2, [0xfc, 0x14, 0x2f]) := by
    show decode_units rescale avctx ⟨[0xfc, 0x94, 0x2f], pts⟩ (0 + 1) 0 { ctx with pktbuf := [] }
      sub [0xfc, 0x94, 0x2f] = _
    rw [decode_units_accepted rescale avctx ⟨[0xfc, 0x94, 0x2f], pts⟩ 0 { ctx with pktbuf := [] }
      sub 0xfc 0x94 0x2f 0x14 0x2f [] (by decide) (by decide) (by decide) (by decide)]
    have hr : (process_cc608 { ctx with pktbuf := [] } 0x14 0x2f).screen_reaped = 1 := by
      rw [process_cc608_eoc { ctx with pktbuf := [] } 0x14 (Or.inl rfl) hprev]
    rw [if_neg (by rw [hr]; exact Nat.one_ne_zero)]
    rfl
  have hc := process_cc608_eoc { ctx with pktbuf := [] } 0x14 (Or.inl rfl) hprev
  generalize process_cc608 { ctx with pktbuf := [] } 0x14 0x2f = c1 at hu hc
  have h1 : c1.real_time = 0 := by rw [hc]; exact hbatch
  rw [decode_eq rescale avctx ctx sub ⟨[0xfc, 0x94, 0x2f], pts⟩ 1 rfl]
  show (Option.map _ (decode_units rescale avctx ⟨[0xfc, 0x94, 0x2f], pts⟩ 1 0
    { ctx with pktbuf := [] } sub [0xfc, 0x94, 0x2f])).map _ = _
  rw [hu, decode_emit_batch rescale avctx ⟨[0xfc, 0x94, 0x2f], pts⟩ c1 sub h1]
  dsimp only [Option.map]
  subst hc
  dsimp only
  rw [c_str_screen_text_crlf]
  cases ctx.prev_string
  · exact congrArg some (Prod.ext (List.append_nil _).symm rfl)
  · rfl

/-! ## Preamble address codes -/

theorem write_char_lt (row : List Nat) (col ch : Nat) (h : col < 32) :
    write_char row col ch = (row.set col ch, none) := by
  unfold write_char SCREEN_COLUMNS
  rw [if_pos h]

theorem handle_pac_indent_succ (n : Nat) (row : List Nat) (c : Nat) (h : c < 32) :
    handle_pac_indent (n + 1) (row, c) = handle_pac_indent n (row.set c 0x20, c + 1) := by
  conv_lhs => unfold handle_pac_indent
  rw [write_char_lt row c 0x20 h]
  rfl

theorem handle_pac_indent_snd : ∀ (n : Nat) (row : List Nat) (c : Nat), c + n ≤ 32 →
    (handle_pac_indent n (row, c)).2 = c + n
  | 0, _, _, _ => rfl
  | n + 1, row, c, h => by
    rw [handle_pac_indent_succ n row c (by omega), handle_pac_indent_snd n _ (c + 1) (by omega)]
    omega

theorem handle_pac_indent_cell : ∀ (n : Nat) (row : List Nat) (c j : Nat), c + n ≤ 32 →
    (handle_pac_indent n (row, c)).1[j]? =
      if c ≤ j ∧ j < c + n then (if j < row.length then some 0x20 else none) else row[j]?
  | 0, row, c, j, _ => by
    rw [if_neg (by omega)]
    rfl
  | n + 1, row, c, j, h => by
    rw [handle_pac_indent_succ n row c (by omega),
      handle_pac_indent_cell n _ (c + 1) j (by omega), List.length_set, List.getElem?_set]
    by_cases h1 : c + 1 ≤ j ∧ j < c + 1 + n
    · have h1' : c ≤ j ∧ j < c + (n + 1) := by omega
      rw [if_pos h1, if_pos h1']
    · rw [if_neg h1]
      by_cases h2 : c = j
      · subst h2
        rw [if_pos rfl, if_pos (⟨Nat.le_refl _, by omega⟩ : c ≤ c ∧ c < c + (n + 1))]
      · rw [if_neg h2, if_neg (by omega : ¬ (c ≤ j ∧ j < c + (n + 1)))]

theorem handle_pac_indent_row (n : Nat) (row : List Nat) (h : n ≤ 32) (hlen : n ≤ row.length) :
    (handle_pac_indent n (row, 0)).1 = List.replicate n 0x20 ++ row.drop n := by
  apply List.ext_getElem?
  intro j
  rw [handle_pac_indent_cell n row 0 j (by omega), List.getElem?_append,
    List.length_replicate, List.getElem?_replicate, List.getElem?_drop]
  by_cases hj : j < n
  · rw [if_pos ⟨Nat.zero_le _, by omega⟩, if_pos (by omega), if_pos hj, if_pos hj]
  · rw [if_neg (by omega), if_neg hj]
    congr 1
    omega

theorem pac_indent_le : ∀ k, k < 32 → (pac2_attribs.getD k (0, 0, 0)).2.2 ≤ 28 := by
  decide

theorem pac_row_pos (hi lo : Nat)
    (hpac : (hi = 0x10 ∧ (lo ≥ 0x40 ∧ lo ≤ 0x5f)) ∨
      ((hi ≥ 0x11 ∧ hi ≤ 0x17) ∧ (lo ≥ 0x40 ∧ lo ≤ 0x7f))) :
    0 < row_map.getD (((hi <<< 1) &&& 0x0e) ||| ((lo >>> 5) &&& 0x01)) 0 ∧
    row_map.getD (((hi <<< 1) &&& 0x0e) ||| ((lo >>> 5) &&& 0x01)) 0 ≤ 15 := by
  have hb : (lo >>> 5) &&& 0x01 = lo / 32 % 2 := by
    rw [Nat.and_one_is_mod, Nat.shiftRight_eq_div_pow]
  rw [hb]
  rcases hpac with ⟨h, hl⟩ | ⟨h, hl⟩
  · subst h
    have : lo / 32 % 2 = 0 := by omega
    rw [this]
    decide
  · obtain ⟨h1, h2⟩ := h
    have hc : lo / 32 % 2 = 0 ∨ lo / 32 % 2 = 1 := by omega
    interval_cases hi <;> rcases hc with hc | hc <;> rw [hc] <;> decide

theorem set_screen_cursor (ctx : CCaptionSubContext) (n : Nat) (s : Screen) :
    (ctx.set_screen n s).cursor_row = ctx.cursor_row ∧
    (ctx.set_screen n s).cursor_column = ctx.cursor_column ∧
    (ctx.set_screen n s).cursor_color = ctx.cursor_color ∧
    (ctx.set_screen n s).cursor_font = ctx.cursor_font := by
  unfold CCaptionSubContext.set_screen
  split_ifs <;> exact ⟨rfl, rfl, rfl, rfl⟩

theorem wf_row_length (s : Screen) (hwf : s.WF) (r : Nat) (hr : r < SCREEN_ROWS) :
    (s.characters.getD r []).length = SCREEN_COLUMNS + 1 := by
  obtain ⟨⟨hlen, hrows⟩, _, _⟩ := hwf
  rw [List.getD_eq_getElem _ _ (by rw [hlen]; exact hr)]
  exact hrows _ (List.getElem_mem _)

theorem getD_set_self (l : List (List Nat)) (r : Nat) (x : List Nat) (h : r < l.length) :
    (l.set r x).getD r [] = x := by
  rw [List.getD_eq_getElem?_getD, List.getElem?_set_self h]
  rfl

/-! ## Printable characters -/

theorem write_char_terminator (row : List Nat) :
    write_char row 32 0 = (row.set 32 0, none) := by
  unfold write_char SCREEN_COLUMNS
  rw [if_neg (by decide), if_pos ⟨rfl, rfl⟩]

theorem write_char_dropped (row : List Nat) (col ch : Nat) (hcol : 32 ≤ col) (hch : ch ≠ 0) :
    write_char row col ch = (row, some .INVALIDDATA) := by
  unfold write_char SCREEN_COLUMNS
  rw [if_neg (by omega), if_neg (fun h => hch h.2)]

theorem write_char_zero (row : List Nat) (col : Nat) (hcol : col ≤ 32) :
    (write_char row col 0).1 = row.set col 0 := by
  rcases Nat.lt_or_ge col 32 with h | h
  · rw [write_char_lt row col 0 h]
  · have : col = 32 := by omega
    subst this
    rw [write_char_terminator]

/-- The cells that `handle_char` writes: the row `ROW` and the cursor column
`COL` that it leaves, for a cursor column within the row. -/
theorem handle_char_cells (ctx : CCaptionSubContext) (hi lo : Nat) (hhi : 0x20 ≤ hi)
    (hlen : ((ctx.screen_at (get_writing_screen ctx)).characters.getD ctx.cursor_row []).length =
      33)
    (hc : ctx.cursor_column ≤ 32) :
    ∃ ROW COL,
      handle_char ctx hi lo =
        { ctx.set_screen (get_writing_screen ctx)
            { ctx.screen_at (get_writing_screen ctx) with
              row_used := SET_FLAG (ctx.screen_at (get_writing_screen ctx)).row_used ctx.cursor_row
              characters :=
                (ctx.screen_at (get_writing_screen ctx)).characters.set ctx.cursor_row ROW } with
          cursor_column := COL
          prev_cmd := (0, 0) } ∧
      COL = min 32 (ctx.cursor_column + if lo = 0 then 1 else 2) ∧
      (ctx.cursor_column < 32 → ROW[ctx.cursor_column]? = some hi) ∧
      (lo ≠ 0 → ctx.cursor_column + 1 < 32 → ROW[ctx.cursor_column + 1]? = some lo) ∧
      ROW[COL]? = some 0 ∧
      ∀ j, j < ctx.cursor_column ∨ COL < j →
        ROW[j]? = ((ctx.screen_at (get_writing_screen ctx)).characters.getD ctx.cursor_row [])[j]? := by
  generalize hrow : (ctx.screen_at (get_writing_screen ctx)).characters.getD ctx.cursor_row [] =
    row at hlen
  generalize hcol : ctx.cursor_column = c at hc
  rcases Nat.lt_or_ge c 32 with hc32 | hc32
  · by_cases hlo : lo = 0
    · refine ⟨(row.set c hi).set (c + 1) 0, c + 1, ?_, ?_, ?_, ?_, ?_, ?_⟩
      · unfold handle_char
        dsimp only
        rw [hrow, hcol, write_char_lt row c hi hc32]
        dsimp only
        rw [if_neg (not_not.mpr hlo), if_pos rfl]
        dsimp only
        rw [write_char_zero _ _ (by omega)]
      · rw [if_pos hlo]; omega
      · intro _
        rw [List.getElem?_set_ne (by omega), List.getElem?_set_self (by omega)]
      · intro h; exact absurd hlo h
      · rw [List.getElem?_set_self (by rw [List.length_set]; omega)]
      · intro j hj
        rw [List.getElem?_set_ne (by omega), List.getElem?_set_ne (by omega)]
    · rcases Nat.lt_or_ge (c + 1) 32 with hc31 | hc31
      · refine ⟨((row.set c hi).set (c + 1) lo).set (c + 2) 0, c + 2, ?_, ?_, ?_, ?_, ?_, ?_⟩
        · unfold handle_char
          dsimp only
          rw [hrow, hcol, write_char_lt row c hi hc32]
          dsimp only
          rw [if_pos hlo, if_pos rfl, write_char_lt _ (c + 1) lo hc31]
          dsimp only
          rw [if_pos rfl, write_char_zero _ _ (by omega)]
        · rw [if_neg hlo]; omega
        · intro _
          rw [List.getElem?_set_ne (by omega), List.getElem?_set_ne (by omega),
            List.getElem?_set_self (by omega)]
        · intro _ _
          rw [List.getElem?_set_ne (by omega),
            List.getElem?_set_self (by rw [List.length_set]; omega)]
        · rw [List.getElem?_set_self (by rw [List.length_set, List.length_set]; omega)]
        · intro j hj
          rw [List.getElem?_set_ne (by omega), List.getElem?_set_ne (by omega),
            List.getElem?_set_ne (by omega)]
      · have hc' : c = 31 := by omega
        subst hc'
        refine ⟨(row.set 31 hi).set 32 0, 32, ?_, ?_, ?_, ?_, ?_, ?_⟩
        · unfold handle_char
          dsimp only
          rw [hrow, hcol, write_char_lt row 31 hi hc32]
          dsimp only
          rw [if_pos hlo, if_pos rfl, write_char_dropped _ (31 + 1) lo (by decide) hlo]
          dsimp only
          rw [if_neg (by decide), write_char_zero _ _ (by decide)]
        · rw [if_neg hlo]; decide
        · intro _
          rw [List.getElem?_set_ne (by decide), List.getElem?_set_self (by omega)]
        · intro _ h; exact absurd h (by decide)
        · rw [List.getElem?_set_self (by rw [List.length_set]; omega)]
        · intro j hj
          rw [List.getElem?_set_ne (by omega), List.getElem?_set_ne (by omega)]
  · have hc' : c = 32 := by omega
    subst hc'
    have hhi0 : hi ≠ 0 := by omega
    refine ⟨row.set 32 0, 32, ?_, ?_, ?_, ?_, ?_, ?_⟩
    · unfold handle_char
      dsimp only
      rw [hrow, hcol, write_char_dropped row 32 hi (Nat.le_refl 32) hhi0]
      have hne : ¬ (some AVError.INVALIDDATA = none) := by decide
      by_cases hlo : lo = 0
      · simp only [hlo, hne, if_false, ne_eq, not_true_eq_false,
          write_char_zero row 32 (Nat.le_refl 32)]
      · simp only [hlo, hne, if_false, if_true, ne_eq, not_false_eq_true,
          write_char_dropped row 32 lo (Nat.le_refl 32) hlo,
          write_char_zero row 32 (Nat.le_refl 32)]
    · split_ifs <;> decide
    · intro h; exact absurd h (by decide)
    · intro _ h; exact absurd h (by decide)
    · rw [List.getElem?_set_self (by omega)]
    · intro j hj
      rw [List.getElem?_set_ne (by omega)]

/-! ## A successful write has checked the ranges -/

theorem write_xui_lt {rw rw1 : PutBitContext} {w v : Nat} (h : write_xui rw w v = .ok rw1) :
    v < 2 ^ w := by
  have h2 := (write_unsigned_ok h).2.2
  unfold MAX_UINT_BITS at h2
  have := Nat.one_le_two_pow (n := w)
  omega

theorem write_bar_line_lt {rw rw1 : PutBitContext} {flag line : Nat}
    (h : (if flag ≠ 0 then write_fixed rw 2 3 >>= fun rw => write_xui rw 14 line
      else pure rw) = .ok rw1) : flag ≠ 0 → line < 2 ^ 14 := by
  intro hf
  rw [if_pos hf] at h
  obtain ⟨r1, _, h⟩ := bind_eq_ok h
  exact write_xui_lt h

theorem write_a53_bar_data_checked {rw rw1 : PutBitContext} {c : A53BarData}
    (h : cbs_misc_write_a53_bar_data rw c = .ok rw1) : c.Valid := by
  unfold cbs_misc_write_a53_bar_data at h
  obtain ⟨r1, e1, h⟩ := bind_eq_ok h
  obtain ⟨r2, e2, h⟩ := bind_eq_ok h
  obtain ⟨r3, e3, h⟩ := bind_eq_ok h
  obtain ⟨r4, e4, h⟩ := bind_eq_ok h
  obtain ⟨r5, e5, h⟩ := bind_eq_ok h
  obtain ⟨r6, e6, h⟩ := bind_eq_ok h
  obtain ⟨r7, e7, h⟩ := bind_eq_ok h
  obtain ⟨r8, e8, h⟩ := bind_eq_ok h
  obtain ⟨r9, e9, h⟩ := bind_eq_ok h
  have h1 := write_xui_lt e1
  have h2 := write_xui_lt e2
  have h3 := write_xui_lt e3
  have h4 := write_xui_lt e4
  exact ⟨by omega, by omega, by omega, by omega, write_bar_line_lt e6, write_bar_line_lt e7,
    write_bar_line_lt e8, write_bar_line_lt e9⟩

theorem write_cea708_cc_data_packet_checked {rw rw1 : PutBitContext} {p : CEA708CCDataPacket}
    (h : cbs_misc_write_cea708_cc_data_packet rw p = .ok rw1) : p.Valid := by
  unfold cbs_misc_write_cea708_cc_data_packet at h
  obtain ⟨r1, e1, h⟩ := bind_eq_ok h
  obtain ⟨r2, e2, h⟩ := bind_eq_ok h
  obtain ⟨r3, e3, h⟩ := bind_eq_ok h
  obtain ⟨r4, e4, h⟩ := bind_eq_ok h
  obtain ⟨r5, e5, h⟩ := bind_eq_ok h
  have h2 := write_xui_lt e2
  have h3 := write_xui_lt e3
  have h4 := write_xui_lt e4
  have h5 := write_xui_lt e5
  exact ⟨by omega, by omega, by omega, by omega⟩

theorem write_cc_data_pkts_checked (pkts : List CEA708CCDataPacket) (n i : Nat)
    (rw rw1 : PutBitContext) (h : write_cc_data_pkts pkts n i rw = .ok rw1) :
    (∀ p ∈ (pkts.drop i).take n, p.Valid) ∧ (n ≠ 0 → i + n ≤ pkts.length) := by
  induction n generalizing i rw with
  | zero => simp
  | succ n ih =>
    unfold write_cc_data_pkts at h
    cases hg : pkts.get? i with
    | none => simp only [hg] at h; cases h
    | some p =>
      simp only [hg] at h
      cases hp : cbs_misc_write_cea708_cc_data_packet rw p with
      | error e => simp only [hp] at h; cases h
      | ok r1 =>
        simp only [hp] at h
        obtain ⟨hv, hl⟩ := ih (i + 1) r1 h
        rw [List.get?_eq_getElem?] at hg
        obtain ⟨hi, hg2⟩ := List.getElem?_eq_some_iff.mp hg
        have hd : pkts.drop i = p :: pkts.drop (i + 1) := by
          rw [List.drop_eq_getElem_cons hi, hg2]
        refine ⟨?_, ?_⟩
        · rw [hd, List.take_succ_cons]
          intro q hq
          rcases List.mem_cons.mp hq with e | hq
          · rw [e]
            exact write_cea708_cc_data_packet_checked hp
          · exact hv q hq
        · intro _
          by_cases hn : n = 0
          · subst hn
            omega
          · have := hl hn
            omega

theorem write_cea708_cc_data_checked {rw rw1 : PutBitContext} {c : CEA708CCData}
    (h : cbs_misc_write_cea708_cc_data rw c = .ok rw1) (hlen : c.cc_data_pkts.length = 31) :
    c.Valid := by
  unfold cbs_misc_write_cea708_cc_data at h
  obtain ⟨r1, e1, h⟩ := bind_eq_ok h
  obtain ⟨r2, e2, h⟩ := bind_eq_ok h
  obtain ⟨r3, e3, h⟩ := bind_eq_ok h
  obtain ⟨r4, e4, h⟩ := bind_eq_ok h
  obtain ⟨r5, e5, h⟩ := bind_eq_ok h
  obtain ⟨r6, e6, h⟩ := bind_eq_ok h
  have h1 := write_xui_lt e1
  have h2 := write_xui_lt e2
  have h3 := write_xui_lt e3
  have h4 := write_xui_lt e4
  have h5 := write_xui_lt e5
  have h6 := (write_cc_data_pkts_checked _ _ _ _ _ e6).1
  rw [List.drop_zero] at h6
  exact ⟨by omega, by omega, by omega, by omega, by omega, hlen, h6⟩

theorem write_a53_atsc_user_data_checked {rw rw1 : PutBitContext} {c : A53ATSCUserData}
    (h : cbs_misc_write_a53_atsc_user_data rw c = .ok rw1)
    (hlen : c.cc_data.cc_data_pkts.length = 31) : c.Valid := by
  unfold cbs_misc_write_a53_atsc_user_data at h
  obtain ⟨r1, e1, h⟩ := bind_eq_ok h
  have h1 := write_xui_lt e1
  refine ⟨by omega, ?_, ?_⟩
  · intro hc
    rw [if_pos hc] at h
    exact write_cea708_cc_data_checked h hlen
  · intro hb
    have hc : ¬ c.user_data_type_code = A53_USER_DATA_TYPE_CODE_CC_DATA := by
      rw [hb]; decide
    rw [if_neg hc, if_pos hb] at h
    exact write_a53_bar_data_checked h

theorem write_a53_afd_data_checked {rw rw1 : PutBitContext} {c : A53AFDData}
    (h : cbs_misc_write_a53_afd_data rw c = .ok rw1) : c.Valid := by
  unfold cbs_misc_write_a53_afd_data at h
  obtain ⟨r1, e1, h⟩ := bind_eq_ok h
  obtain ⟨r2, e2, h⟩ := bind_eq_ok h
  obtain ⟨r3, e3, h⟩ := bind_eq_ok h
  have h2 := write_xui_lt e2
  refine ⟨by omega, ?_⟩
  intro hf
  rw [if_pos hf] at h
  obtain ⟨r4, e4, h⟩ := bind_eq_ok h
  obtain ⟨r5, e5, h⟩ := bind_eq_ok h
  have h5 := write_xui_lt e5
  omega

theorem write_a53_user_data_checked {rw rw1 : PutBitContext} {c : A53UserData}
    (h : cbs_misc_write_a53_user_data rw c = .ok rw1)
    (hlen : c.atsc.cc_data.cc_data_pkts.length = 31) : c.Valid := by
  unfold cbs_misc_write_a53_user_data at h
  obtain ⟨r1, e1, h⟩ := bind_eq_ok h
  have h1 := write_xui_lt e1
  refine ⟨h1, ?_, ?_⟩
  · intro ha
    rw [if_pos ha] at h
    exact write_a53_atsc_user_data_checked h hlen
  · intro hb
    have ha : ¬ c.user_identifier = A53_USER_IDENTIFIER_ATSC := by
      rw [hb]; decide
    rw [if_neg ha, if_pos hb] at h
    exact write_a53_afd_data_checked h

theorem ff_write_a53_user_data_checked {length n : Nat} {v : A53UserData} {bytes : List Nat}
    (h : ff_cbs_write_a53_user_data length v = .ok (bytes, n))
    (hlen : v.atsc.cc_data.cc_data_pkts.length = 31) : v.Valid := by
  unfold ff_cbs_write_a53_user_data at h
  cases hw : cbs_misc_write_a53_user_data (init_put_bits length) v with
  | error e => simp only [hw] at h; cases h
  | ok pbc => exact write_a53_user_data_checked hw hlen

theorem FailsRange.bind {α β : Type} {x : Except AVError α} {f : α → Except AVError β}
    (hx : FailsRange x) (hf : ∀ a, x = .ok a → FailsRange (f a)) : FailsRange (x >>= f) := by
  intro e he
  cases x with
  | error e1 =>
    have : e1 = e := Except.error.inj he
    exact hx e (by rw [this])
  | ok a => exact hf a rfl e he

theorem FailsRange.pure {α : Type} (a : α) : FailsRange (pure a : Except AVError α) := by
  intro e he
  cases he

theorem write_unsigned_failsRange (pbc : PutBitContext) (w v lo hi : Nat) :
    FailsRange (ff_cbs_write_unsigned pbc w v lo hi) := by
  intro e he
  unfold ff_cbs_write_unsigned at he
  split_ifs at he
  · exact Or.inl (Except.error.inj he).symm
  · exact Or.inr (Except.error.inj he).symm

theorem write_xui_failsRange (rw : PutBitContext) (w v : Nat) : FailsRange (write_xui rw w v) :=
  write_unsigned_failsRange _ _ _ _ _

theorem write_fixed_failsRange (rw : PutBitContext) (w v : Nat) :
    FailsRange (write_fixed rw w v) :=
  write_unsigned_failsRange _ _ _ _ _

theorem write_bar_line_failsRange (rw : PutBitContext) (flag line : Nat) :
    FailsRange (if flag ≠ 0 then write_fixed rw 2 3 >>= fun rw => write_xui rw 14 line
      else pure rw) := by
  split_ifs
  · exact (write_fixed_failsRange _ _ _).bind fun _ _ => write_xui_failsRange _ _ _
  · exact FailsRange.pure _

theorem write_a53_bar_data_failsRange (rw : PutBitContext) (c : A53BarData) :
    FailsRange (cbs_misc_write_a53_bar_data rw c) := by
  unfold cbs_misc_write_a53_bar_data
  refine (write_xui_failsRange _ _ _).bind fun _ _ => ?_
  refine (write_xui_failsRange _ _ _).bind fun _ _ => ?_
  refine (write_xui_failsRange _ _ _).bind fun _ _ => ?_
  refine (write_xui_failsRange _ _ _).bind fun _ _ => ?_
  refine (write_fixed_failsRange _ _ _).bind fun _ _ => ?_
  refine (write_bar_line_failsRange _ _ _).bind fun _ _ => ?_
  refine (write_bar_line_failsRange _ _ _).bind fun _ _ => ?_
  refine (write_bar_line_failsRange _ _ _).bind fun _ _ => ?_
  refine (write_bar_line_failsRange _ _ _).bind fun _ _ => ?_
  exact FailsRange.pure _

theorem write_cea708_cc_data_packet_failsRange (rw : PutBitContext) (p : CEA708CCDataPacket) :
    FailsRange (cbs_misc_write_cea708_cc_data_packet rw p) := by
  unfold cbs_misc_write_cea708_cc_data_packet
  refine (write_fixed_failsRange _ _ _).bind fun _ _ => ?_
  refine (write_xui_failsRange _ _ _).bind fun _ _ => ?_
  refine (write_xui_failsRange _ _ _).bind fun _ _ => ?_
  refine (write_xui_failsRange _ _ _).bind fun _ _ => ?_
  refine (write_xui_failsRange _ _ _).bind fun _ _ => ?_
  exact FailsRange.pure _

theorem write_cc_data_pkts_failsRange (pkts : List CEA708CCDataPacket) (n i : Nat)
    (rw : PutBitContext) (hlen : i + n ≤ pkts.length) :
    FailsRange (write_cc_data_pkts pkts n i rw) := by
  induction n generalizing i rw with
  | zero =>
    intro e he
    simp only [write_cc_data_pkts] at he
    cases he
  | succ n ih =>
    intro e he
    unfold write_cc_data_pkts at he
    have hi : i < pkts.length := by omega
    rw [List.get?_eq_getElem?, List.getElem?_eq_getElem hi] at he
    simp only at he
    cases hp : cbs_misc_write_cea708_cc_data_packet rw pkts[i] with
    | error e1 =>
      simp only [hp] at he
      have : e1 = e := Except.error.inj he
      exact write_cea708_cc_data_packet_failsRange rw pkts[i] e (by rw [hp, this])
    | ok r1 =>
      simp only [hp] at he
      exact ih (i + 1) r1 (by omega) e he

theorem write_cea708_cc_data_failsRange (rw : PutBitContext) (c : CEA708CCData)
    (hlen : c.cc_data_pkts.length = 31) : FailsRange (cbs_misc_write_cea708_cc_data rw c) := by
  unfold cbs_misc_write_cea708_cc_data
  refine (write_xui_failsRange _ _ _).bind fun _ _ => ?_
  refine (write_xui_failsRange _ _ _).bind fun _ _ => ?_
  refine (write_xui_failsRange _ _ _).bind fun _ _ => ?_
  refine (write_xui_failsRange _ _ _).bind fun _ h4 => ?_
  have hc := write_xui_lt h4
  refine (write_xui_failsRange _ _ _).bind fun _ _ => ?_
  refine (write_cc_data_pkts_failsRange _ _ _ _ (by omega)).bind fun _ _ => ?_
  refine (write_fixed_failsRange _ _ _).bind fun _ _ => ?_
  exact FailsRange.pure _

theorem write_a53_atsc_user_data_failsRange (rw : PutBitContext) (c : A53ATSCUserData)
    (hlen : c.cc_data.cc_data_pkts.length = 31) :
    FailsRange (cbs_misc_write_a53_atsc_user_data rw c) := by
  unfold cbs_misc_write_a53_atsc_user_data
  refine (write_xui_failsRange _ _ _).bind fun _ _ => ?_
  split_ifs
  · exact write_cea708_cc_data_failsRange _ _ hlen
  · exact write_a53_bar_data_failsRange _ _
  · exact FailsRange.pure _

theorem write_a53_afd_data_failsRange (rw : PutBitContext) (c : A53AFDData) :
    FailsRange (cbs_misc_write_a53_afd_data rw c) := by
  unfold cbs_misc_write_a53_afd_data
  refine (write_fixed_failsRange _ _ _).bind fun _ _ => ?_
  refine (write_xui_failsRange _ _ _).bind fun _ _ => ?_
  refine (write_fixed_failsRange _ _ _).bind fun _ _ => ?_
  split_ifs
  · refine (write_fixed_failsRange _ _ _).bind fun _ _ => ?_
    refine (write_xui_failsRange _ _ _).bind fun _ _ => ?_
    exact FailsRange.pure _
  · exact FailsRange.pure _

theorem write_a53_user_data_failsRange (rw : PutBitContext) (c : A53UserData)
    (hlen : c.atsc.cc_data.cc_data_pkts.length = 31) :
    FailsRange (cbs_misc_write_a53_user_data rw c) := by
  unfold cbs_misc_write_a53_user_data
  refine (write_xui_failsRange _ _ _).bind fun _ _ => ?_
  split_ifs
  · exact write_a53_atsc_user_data_failsRange _ _ hlen
  · exact write_a53_afd_data_failsRange _ _
  · exact FailsRange.pure _

theorem ff_write_a53_user_data_failsRange (length : Nat) (v : A53UserData)
    (hlen : v.atsc.cc_data.cc_data_pkts.length = 31) :
    FailsRange (ff_cbs_write_a53_user_data length v) := by
  intro e he
  unfold ff_cbs_write_a53_user_data at he
  cases hw : cbs_misc_write_a53_user_data (init_put_bits length) v with
  | error e1 =>
    simp only [hw] at he
    have : e1 = e := Except.error.inj he
    exact write_a53_user_data_failsRange _ _ hlen e (by rw [hw, this])
  | ok pbc =>
    simp only [hw] at he
    have hal : put_bits_count pbc % 8 = 0 := by
      have := write_a53_user_data_ok hw
      unfold Wrote at this
      rw [this]
      unfold put_bits_count init_put_bits
      simpa using a53_user_data_bits_aligned v
    rw [if_neg (by omega)] at he
    cases he

/-! ## The bytes of the encodings -/

theorem cc_flags_byte : ∀ a, a < 2 → ∀ b, b < 2 → ∀ c, c < 2 → ∀ n, n < 32 →
    bits_val (nat_bits 1 a ++ (nat_bits 1 b ++ (nat_bits 1 c ++ nat_bits 5 n))) =
      (a <<< 7) ||| (b <<< 6) ||| (c <<< 5) ||| n := by
  decide

theorem bar_flags_byte : ∀ a, a < 2 → ∀ b, b < 2 → ∀ c, c < 2 → ∀ d, d < 2 →
    bits_val (nat_bits 1 a ++ (nat_bits 1 b ++ (nat_bits 1 c ++ (nat_bits 1 d ++
      nat_bits 4 0xf)))) =
      (((a <<< 3) ||| (b <<< 2) ||| (c <<< 1) ||| d) <<< 4) ||| 0x0F := by
  decide

theorem afd_flag_byte : ∀ a, a < 2 →
    bits_val (nat_bits 1 0 ++ (nat_bits 1 a ++ nat_bits 6 1)) = (a <<< 6) ||| 0x01 := by
  decide

theorem afd_format_byte : ∀ a, a < 16 →
    bits_val (nat_bits 4 0xf ++ nat_bits 4 a) = 0xF0 ||| a := by
  decide

theorem bits_to_bytes_byte (bs : List Bool) (h : bs.length = 8) :
    bits_to_bytes bs = [bits_val bs] := by
  have := bits_to_bytes_cons8 bs [] h
  rw [List.append_nil] at this
  rw [this]
  rfl

theorem bar_line_bits_bytes (flag line : Nat) (h : flag ≠ 0 → line < 2 ^ 14) :
    bits_to_bytes (bar_line_bits flag line) = bar_line_bytes flag line ∧
    (bar_line_bits flag line).length = 8 * (if flag ≠ 0 then 2 else 0) := by
  unfold bar_line_bits bar_line_bytes
  by_cases hf : flag ≠ 0
  · have hl := h hf
    rw [if_pos hf, if_pos hf, if_pos hf]
    refine ⟨?_, by simp⟩
    have e1 : nat_bits 14 line = nat_bits 6 (line / 2 ^ 8) ++ nat_bits 8 line :=
      nat_bits_add 6 8 line
    have e2 : nat_bits 2 3 ++ nat_bits 14 line =
        (nat_bits 2 3 ++ nat_bits 6 (line / 2 ^ 8)) ++ nat_bits 8 line := by
      rw [e1, List.append_assoc]
    have e3 : nat_bits 2 3 ++ nat_bits 6 (line / 2 ^ 8) = nat_bits 8 (192 + line / 2 ^ 8) := by
      have := nat_bits_add 2 6 (192 + line / 2 ^ 8)
      have hq : (192 + line / 2 ^ 8) / 2 ^ 6 = 3 := by omega
      have hm : nat_bits 6 (192 + line / 2 ^ 8) = nat_bits 6 (line / 2 ^ 8) := by
        rw [← nat_bits_mod_two_pow 6 6 (192 + line / 2 ^ 8) (Nat.le_refl 6)]
        congr 1
        omega
      rw [this, hq, hm]
    have hor : 0xC000 ||| line = 0xC000 + line := by
      have := Nat.mul_add_lt_is_or (i := 14) hl 3
      norm_num at this
      omega
    rw [e2, e3, bits_to_bytes_cons8 _ _ (by simp), bits_to_bytes_byte _ (by simp),
      bits_val_nat_bits, bits_val_nat_bits, hor, Nat.shiftRight_eq_div_pow]
    have ha : (0xFF : Nat) = 2 ^ 8 - 1 := by norm_num
    rw [ha, Nat.and_pow_two_sub_one_eq_mod]
    congr 1
    · omega
    · congr 1
      omega
  · rw [if_neg hf, if_neg hf, if_neg hf]
    exact ⟨rfl, rfl⟩

theorem bits_to_bytes_aligned_append (a b : List Bool) (n : Nat) (h : a.length = 8 * n) :
    bits_to_bytes (a ++ b) = bits_to_bytes a ++ bits_to_bytes b :=
  bits_to_bytes_append n a b h

theorem cc_data_pkts_bits_length_eq (ps : List CEA708CCDataPacket) :
    (cc_data_pkts_bits ps).length = 8 * (3 * ps.length) := by
  induction ps with
  | nil => rfl
  | cons p ps ih =>
    simp only [cc_data_pkts_bits, cea708_cc_data_packet_bits, List.length_append,
      nat_bits_length, ih, List.length_cons]
    omega

theorem tag_atsc_bits : nat_bits 32 A53_USER_IDENTIFIER_ATSC =
    nat_bits 8 0x47 ++ (nat_bits 8 0x41 ++ (nat_bits 8 0x39 ++ nat_bits 8 0x34)) := by
  decide

theorem tag_afd_bits : nat_bits 32 A53_USER_IDENTIFIER_AFD =
    nat_bits 8 0x44 ++ (nat_bits 8 0x54 ++ (nat_bits 8 0x47 ++ nat_bits 8 0x31)) := by
  decide

theorem cc_data_bits_bytes (v : A53UserData) (hv : v.Valid)
    (h1 : v.user_identifier = A53_USER_IDENTIFIER_ATSC)
    (h2 : v.atsc.user_data_type_code = A53_USER_DATA_TYPE_CODE_CC_DATA) :
    bits_to_bytes (a53_user_data_bits v) = cc_data_bytes v.atsc.cc_data := by
  obtain ⟨f1, f2, f3, f4, f5, _, f7⟩ := hv.2.1 h1 |>.2.1 h2
  have e : a53_user_data_bits v =
      nat_bits 8 0x47 ++ (nat_bits 8 0x41 ++ (nat_bits 8 0x39 ++ (nat_bits 8 0x34 ++
      (nat_bits 8 0x03 ++
      ((nat_bits 1 v.atsc.cc_data.process_em_data_flag ++
        (nat_bits 1 v.atsc.cc_data.process_cc_data_flag ++
        (nat_bits 1 v.atsc.cc_data.additional_data_flag ++
          nat_bits 5 v.atsc.cc_data.cc_count))) ++
      (nat_bits 8 v.atsc.cc_data.em_data ++
      (cc_data_pkts_bits (v.atsc.cc_data.cc_data_pkts.take v.atsc.cc_data.cc_count) ++
        nat_bits 8 0xff))))))) := by
    unfold a53_user_data_bits a53_atsc_user_data_bits cea708_cc_data_bits
    rw [if_pos h1, if_pos h2, h1, h2, tag_atsc_bits]
    simp only [List.append_assoc]
    rfl
  rw [e, bits_to_bytes_cons8 _ _ (by simp), bits_to_bytes_cons8 _ _ (by simp),
    bits_to_bytes_cons8 _ _ (by simp), bits_to_bytes_cons8 _ _ (by simp),
    bits_to_bytes_cons8 _ _ (by simp), bits_to_bytes_cons8 _ _ (by simp),
    bits_to_bytes_cons8 _ _ (by simp),
    bits_to_bytes_append _ _ _ (cc_data_pkts_bits_length_eq _),
    bits_to_bytes_cc_data_pkts _ f7, bits_to_bytes_byte _ (by simp),
    cc_flags_byte _ (by omega) _ (by omega) _ (by omega) _ (by omega),
    bits_val_nat_bits_of_lt (show v.atsc.cc_data.em_data < 2 ^ 8 by omega)]
  rfl

theorem bar_data_bits_bytes (v : A53UserData) (hv : v.Valid)
    (h1 : v.user_identifier = A53_USER_IDENTIFIER_ATSC)
    (h2 : v.atsc.user_data_type_code = A53_USER_DATA_TYPE_CODE_BAR_DATA) :
    bits_to_bytes (a53_user_data_bits v) = bar_data_bytes v.atsc.bar_data := by
  obtain ⟨f1, f2, f3, f4, l1, l2, l3, l4⟩ := hv.2.1 h1 |>.2.2 h2
  have hc : ¬ v.atsc.user_data_type_code = A53_USER_DATA_TYPE_CODE_CC_DATA := by
    rw [h2]; decide
  have e : a53_user_data_bits v =
      nat_bits 8 0x47 ++ (nat_bits 8 0x41 ++ (nat_bits 8 0x39 ++ (nat_bits 8 0x34 ++
      (nat_bits 8 0x06 ++
      ((nat_bits 1 v.atsc.bar_data.top_bar_flag ++
        (nat_bits 1 v.atsc.bar_data.bottom_bar_flag ++
        (nat_bits 1 v.atsc.bar_data.left_bar_flag ++
        (nat_bits 1 v.atsc.bar_data.right_bar_flag ++ nat_bits 4 0xf)))) ++
      (bar_line_bits v.atsc.bar_data.top_bar_flag v.atsc.bar_data.line_number_end_of_top_bar ++
      (bar_line_bits v.atsc.bar_data.bottom_bar_flag
          v.atsc.bar_data.line_number_end_of_bottom_bar ++
      (bar_line_bits v.atsc.bar_data.left_bar_flag v.atsc.bar_data.line_number_end_of_left_bar ++
        bar_line_bits v.atsc.bar_data.right_bar_flag
          v.atsc.bar_data.line_number_end_of_right_bar)))))))) := by
    unfold a53_user_data_bits a53_atsc_user_data_bits a53_bar_data_bits
    rw [if_pos h1, if_neg hc, if_pos h2, h1, h2, tag_atsc_bits]
    simp only [List.append_assoc]
    rfl
  obtain ⟨b1, n1⟩ := bar_line_bits_bytes _ _ l1
  obtain ⟨b2, n2⟩ := bar_line_bits_bytes _ _ l2
  obtain ⟨b3, n3⟩ := bar_line_bits_bytes _ _ l3
  obtain ⟨b4, _⟩ := bar_line_bits_bytes _ _ l4
  rw [e, bits_to_bytes_cons8 _ _ (by simp), bits_to_bytes_cons8 _ _ (by simp),
    bits_to_bytes_cons8 _ _ (by simp), bits_to_bytes_cons8 _ _ (by simp),
    bits_to_bytes_cons8 _ _ (by simp), bits_to_bytes_cons8 _ _ (by simp),
    bits_to_bytes_append _ _ _ n1, bits_to_bytes_append _ _ _ n2,
    bits_to_bytes_append _ _ _ n3, b1, b2, b3, b4,
    bar_flags_byte _ (by omega) _ (by omega) _ (by omega) _ (by omega)]
  rfl

theorem afd_data_bits_bytes (v : A53UserData) (hv : v.Valid)
    (h1 : v.user_identifier = A53_USER_IDENTIFIER_AFD) :
    bits_to_bytes (a53_user_data_bits v) = afd_data_bytes v.afd := by
  obtain ⟨f1, f2⟩ := hv.2.2 h1
  have ha : ¬ v.user_identifier = A53_USER_IDENTIFIER_ATSC := by
    rw [h1]; decide
  unfold afd_data_bytes
  by_cases hf : v.afd.active_format_flag ≠ 0
  · have e : a53_user_data_bits v =
        nat_bits 8 0x44 ++ (nat_bits 8 0x54 ++ (nat_bits 8 0x47 ++ (nat_bits 8 0x31 ++
        ((nat_bits 1 0 ++ (nat_bits 1 v.afd.active_format_flag ++ nat_bits 6 1)) ++
        (nat_bits 4 0xf ++ nat_bits 4 v.afd.active_format))))) := by
      unfold a53_user_data_bits a53_afd_data_bits
      rw [if_neg ha, if_pos h1, if_pos hf, h1, tag_afd_bits]
      simp only [List.append_assoc]
    rw [e, if_pos hf, bits_to_bytes_cons8 _ _ (by simp), bits_to_bytes_cons8 _ _ (by simp),
      bits_to_bytes_cons8 _ _ (by simp), bits_to_bytes_cons8 _ _ (by simp),
      bits_to_bytes_cons8 _ _ (by simp), bits_to_bytes_byte _ (by simp),
      afd_flag_byte _ (by omega), afd_format_byte _ (by have := f2 hf; omega)]
    rfl
  · have e : a53_user_data_bits v =
        nat_bits 8 0x44 ++ (nat_bits 8 0x54 ++ (nat_bits 8 0x47 ++ (nat_bits 8 0x31 ++
        (nat_bits 1 0 ++ (nat_bits 1 v.afd.active_format_flag ++ nat_bits 6 1))))) := by
      unfold a53_user_data_bits a53_afd_data_bits
      rw [if_neg ha, if_pos h1, if_neg hf, h1, tag_afd_bits]
      simp only [List.append_assoc, List.append_nil]
    rw [e, if_neg hf, bits_to_bytes_cons8 _ _ (by simp), bits_to_bytes_cons8 _ _ (by simp),
      bits_to_bytes_cons8 _ _ (by simp), bits_to_bytes_cons8 _ _ (by simp),
      bits_to_bytes_byte _ (by simp), afd_flag_byte _ (by omega)]
    rfl

/-! ## Decoding, then encoding -/

theorem bits_to_bytes_bytes_to_bits (l : List Nat) (h : ∀ b ∈ l, b < 256) :
    bits_to_bytes (bytes_to_bits l) = l := by
  induction l with
  | nil => rfl
  | cons b bs ih =>
    unfold bytes_to_bits
    rw [bits_to_bytes_cons8 _ _ (by simp), ih (fun x hx => h x (List.mem_cons_of_mem _ hx)),
      bits_val_nat_bits_of_lt (show b < 2 ^ 8 from h b (List.mem_cons_self _ _))]

theorem bytes_to_bits_prefix (buf : List Nat) (X rest : List Bool) (n : Nat)
    (hb : ∀ b ∈ buf, b < 256) (h : bytes_to_bits buf = X ++ rest) (hX : X.length = 8 * n) :
    n ≤ buf.length ∧ bits_to_bytes X = buf.take n := by
  have hl := congrArg List.length h
  rw [bytes_to_bits_length, List.length_append, hX] at hl
  have hn : n ≤ buf.length := by omega
  have e : bytes_to_bits (buf.take n) ++ bytes_to_bits (buf.drop n) = X ++ rest := by
    rw [← bytes_to_bits_append, List.take_append_drop, h]
  have e1 := (List.append_inj e (by
    rw [bytes_to_bits_length, List.length_take, hX, Nat.min_eq_left hn])).1
  refine ⟨hn, ?_⟩
  rw [← e1, bits_to_bytes_bytes_to_bits _ (fun x hx => hb x (List.mem_of_mem_take hx))]

theorem read_a53_cc_side_data_layout {d r : A53UserData} {buf : List Nat} {rw : GetBitContext}
    (hs : buf.length / 3 < 2147483648)
    (h : ff_cbs_read_a53_cc_side_data d buf = .ok rw r) :
    (∀ p ∈ r.atsc.cc_data.cc_data_pkts.take r.atsc.cc_data.cc_count, p.Valid) ∧
    bytes_to_bits buf =
      cc_data_pkts_bits (r.atsc.cc_data.cc_data_pkts.take r.atsc.cc_data.cc_count) := by
  obtain ⟨_, _, hc, h31, h3, hlen⟩ := read_a53_cc_side_data_inv hs h
  rw [read_a53_cc_side_data_small d buf h3 h31] at h
  obtain ⟨c1, e1, s1⟩ := Ret.member_eq_ok h
  obtain ⟨⟨_, rest, hr⟩, hv, _, _, _, _, _, _, _, hcc⟩ :=
    read_cc_data_pkts_ok _ _ _ _ _ _ _ e1 (reads_init buf)
  subst s1
  rw [List.drop_zero] at hr hv
  have hcc' : c1.cc_count = buf.length / 3 := by
    rw [hcc]
    rfl
  rw [← hcc'] at hr hv
  refine ⟨hv, ?_⟩
  have hu := Reads.unique (reads_init buf) hr
  have hl := congrArg List.length hu
  rw [bytes_to_bits_length, List.length_append, cc_data_pkts_bits_length_eq, List.length_take]
    at hl
  have hlen' : c1.cc_data_pkts.length = 31 := hlen
  rw [hlen', hcc', Nat.min_eq_left h31] at hl
  have hrest : rest = [] := List.length_eq_zero.mp (by omega)
  rw [hu, hrest, List.append_nil]

/-- Where the count of triplets fits an `int` (`side_data_size / 3 < 2^31`),
`ff_cbs_read_a53_cc_side_data` returns invalid-argument exactly when the
payload length is not a multiple of 3 or a third of it exceeds 31, and it
then leaves the record `*data` as it was. -/
theorem read_a53_cc_side_data_einval_iff (d : A53UserData) (side_data : List Nat)
    (hs : side_data.length / 3 < 2147483648) :
    ((side_data.length % 3 ≠ 0 ∨ side_data.length / 3 > 31) →
      ff_cbs_read_a53_cc_side_data d side_data = .fail .EINVAL d) ∧
    ((∃ c, ff_cbs_read_a53_cc_side_data d side_data = .fail .EINVAL c) ↔
      (side_data.length % 3 ≠ 0 ∨ side_data.length / 3 > 31)) := by
  have hrej : (side_data.length % 3 ≠ 0 ∨ side_data.length / 3 > 31) →
      ff_cbs_read_a53_cc_side_data d side_data = .fail .EINVAL d := fun h =>
    read_a53_cc_side_data_large d side_data (h.imp id fun h31 => ⟨h31, hs⟩)
  refine ⟨hrej, ⟨?_, fun h => ⟨d, hrej h⟩⟩⟩
  rintro ⟨c, hc⟩
  by_contra hn
  exact read_a53_cc_side_data_not_einval d c side_data (by omega) (by omega) hc

/-- Where the count of triplets fits an `int`, a payload of bytes that
`ff_cbs_read_a53_cc_side_data` accepts is reproduced by
`ff_cbs_write_a53_cc_side_data` of the resulting record onto an empty
buffer. -/
theorem cc_side_data_round_trip_of_lt (d r : A53UserData) (side_data : List Nat)
    (rw : GetBitContext) (hb : ∀ b ∈ side_data, b < 256)
    (hs : side_data.length / 3 < 2147483648)
    (h : ff_cbs_read_a53_cc_side_data d side_data = .ok rw r) :
    ff_cbs_write_a53_cc_side_data none 0 r =
      ⟨none, if side_data = [] then none else some side_data, side_data.length⟩ := by
  obtain ⟨h1, h2, hc, h31, h3, hlen⟩ := read_a53_cc_side_data_inv hs h
  obtain ⟨hv, hbits⟩ := read_a53_cc_side_data_layout hs h
  have hw := write_a53_cc_side_data_ok none 0 r h1 h2 (by omega) hlen hv rfl
  have hbytes : pkts_side_data (r.atsc.cc_data.cc_data_pkts.take r.atsc.cc_data.cc_count) =
      side_data := by
    rw [← bits_to_bytes_cc_data_pkts _ hv, ← hbits, bits_to_bytes_bytes_to_bits _ hb]
  have hsz : 0 + 3 * r.atsc.cc_data.cc_count = side_data.length := by
    rw [hc]
    omega
  rw [hw, hbytes, hsz]
  by_cases he : side_data = []
  · rw [if_pos he, he]
    rfl
  · rw [if_neg he, if_neg (fun h0 => he (List.length_eq_zero.mp h0))]
    rfl

theorem read_cc_data_pkts_add (n m : Nat) : ∀ (i : Nat) (rw : GetBitContext)
    (cur : CEA708CCData),
    read_cc_data_pkts (n + m) i rw cur =
      (read_cc_data_pkts n i rw cur).check fun rw cur => read_cc_data_pkts m (i + n) rw cur := by
  induction n with
  | zero =>
    intro i rw cur
    rw [Nat.zero_add]
    rfl
  | succ n ih =>
    intro i rw cur
    rw [show n + 1 + m = (n + m) + 1 by omega]
    simp only [read_cc_data_pkts]
    cases hg : cur.cc_data_pkts.get? i with
    | none => rfl
    | some pkt =>
      simp only
      cases hp : cbs_misc_read_cea708_cc_data_packet rw pkt with
      | fail e c => rfl
      | ok rw1 c =>
        simp only [Ret.member_ok, Ret.check_ok]
        rw [ih, show i + 1 + n = i + (n + 1) by omega]

theorem read_a53_cc_side_data_count_zero (d : A53UserData) (b : Nat) :
    ff_cbs_read_a53_cc_side_data d (List.replicate 12884901888 b) =
      .ok ⟨List.replicate 12884901888 b, 0, 8 * 12884901888⟩ (cc_side_data_init 0) := by
  unfold ff_cbs_read_a53_cc_side_data
  simp only [List.length_replicate]
  rw [if_neg (by decide)]
  have e1 : to_int ((12884901888 / 3 : Nat) : Int) = 0 := by decide
  have e2 : to_uint8 0 = 0 := by decide
  simp only [e1, e2, if_neg (show ¬ (0 : Int) > 31 by decide), init_get_bits]
  rfl

set_option maxRecDepth 8192 in
theorem bytes_to_bits_replicate_ff :
    bytes_to_bits (List.replicate 93 0xff) =
      cc_data_pkts_bits (List.replicate 31 ⟨1, 3, 0xff, 0xff⟩) := by
  decide

theorem decoded_encodedEq (v d : A53UserData) (hv : v.Valid) : (v.decoded d).EncodedEq v := by
  refine ⟨rfl, ?_, ?_⟩
  · intro h1
    have ea : (v.decoded d).atsc = v.atsc.decoded d.atsc := by
      unfold A53UserData.decoded
      rw [if_pos h1]
    rw [ea]
    refine ⟨rfl, ?_, ?_⟩
    · intro h2
      have ec : (v.atsc.decoded d.atsc).cc_data = v.atsc.cc_data.decoded d.atsc.cc_data := by
        unfold A53ATSCUserData.decoded
        rw [if_pos h2]
      rw [ec]
      refine ⟨rfl, rfl, rfl, rfl, rfl, ?_⟩
      have hc := ((hv.2.1 h1).2.1 h2)
      show (v.atsc.cc_data.cc_data_pkts.take v.atsc.cc_data.cc_count ++
        d.atsc.cc_data.cc_data_pkts.drop v.atsc.cc_data.cc_count).take v.atsc.cc_data.cc_count = _
      rw [List.take_append_of_le_length (by
        rw [List.length_take, hc.2.2.2.2.2.1]
        have := hc.2.2.2.1
        omega), List.take_take, Nat.min_self]
    · intro h2
      have h3 : ¬ v.atsc.user_data_type_code = A53_USER_DATA_TYPE_CODE_CC_DATA := by
        rw [h2]; decide
      have eb : (v.atsc.decoded d.atsc).bar_data = v.atsc.bar_data.decoded d.atsc.bar_data := by
        unfold A53ATSCUserData.decoded
        rw [if_neg h3, if_pos h2, if_neg h3]
      rw [eb]
      unfold A53BarData.decoded
      refine ⟨rfl, rfl, rfl, rfl, ?_, ?_, ?_, ?_⟩ <;> intro hf <;> exact if_pos hf
  · intro h1
    have h3 : ¬ v.user_identifier = A53_USER_IDENTIFIER_ATSC := by
      rw [h1]; decide
    have ea : (v.decoded d).afd = v.afd.decoded d.afd := by
      unfold A53UserData.decoded
      rw [if_neg h3, if_pos h1, if_neg h3]
    rw [ea]
    exact ⟨rfl, fun hf => if_pos hf⟩

/-! ## The cursor stays inside the grid -/

theorem write_char_none {row : List Nat} {col ch : Nat} (h : (write_char row col ch).2 = none)
    (hch : ch ≠ 0) : col < 32 := by
  unfold write_char SCREEN_COLUMNS at h
  by_cases hc : col < 32
  · exact hc
  · rw [if_neg hc, if_neg (fun hh => hch hh.2)] at h
    cases h

theorem write_char_advance (row : List Nat) (col ch : Nat) (hch : ch ≠ 0) (hcol : col ≤ 32) :
    (if (write_char row col ch).2 = none then col + 1 else col) ≤ 32 := by
  split_ifs with h
  · have := write_char_none h hch
    omega
  · exact hcol

theorem reap_screen_cursor (ctx : CCaptionSubContext) :
    (reap_screen ctx).cursor_row = ctx.cursor_row ∧
    (reap_screen ctx).cursor_column = ctx.cursor_column :=
  ⟨rfl, rfl⟩

theorem roll_up_cursor (ctx : CCaptionSubContext) :
    (roll_up ctx).cursor_row = ctx.cursor_row ∧
    (roll_up ctx).cursor_column = ctx.cursor_column := by
  unfold roll_up
  split_ifs
  · exact ⟨rfl, rfl⟩
  · exact ⟨(set_screen_cursor _ _ _).1, (set_screen_cursor _ _ _).2.1⟩

theorem handle_erase_cursor (ctx : CCaptionSubContext) (n : Nat) :
    (handle_erase ctx n).cursor_row = ctx.cursor_row ∧
    (handle_erase ctx n).cursor_column = ctx.cursor_column := by
  unfold handle_erase
  exact ⟨(set_screen_cursor _ _ _).1, (set_screen_cursor _ _ _).2.1⟩

theorem handle_delete_end_of_row_cursor (ctx : CCaptionSubContext) (hi lo : Nat) :
    (handle_delete_end_of_row ctx hi lo).cursor_row = ctx.cursor_row ∧
    (handle_delete_end_of_row ctx hi lo).cursor_column = ctx.cursor_column := by
  unfold handle_delete_end_of_row
  exact ⟨(set_screen_cursor _ _ _).1, (set_screen_cursor _ _ _).2.1⟩

theorem handle_textattr_cursor (ctx : CCaptionSubContext) (hi lo : Nat)
    (hc : ctx.cursor_column ≤ 32) :
    (handle_textattr ctx hi lo).cursor_row = ctx.cursor_row ∧
    (handle_textattr ctx hi lo).cursor_column ≤ 32 := by
  unfold handle_textattr
  dsimp only
  by_cases hi32 : lo - 0x20 ≥ 32
  · rw [if_pos hi32]
    exact ⟨rfl, hc⟩
  · rw [if_neg hi32]
    by_cases hw : (write_char ((ctx.screen_at (get_writing_screen ctx)).characters.getD
        ctx.cursor_row []) ctx.cursor_column 0x20).2 = none
    · rw [if_pos hw]
      refine ⟨(set_screen_cursor _ _ _).1, ?_⟩
      show (CCaptionSubContext.set_screen _ _ _).cursor_column + 1 ≤ 32
      rw [(set_screen_cursor _ _ _).2.1]
      have := write_char_none hw (by decide)
      show ctx.cursor_column + 1 ≤ 32
      omega
    · rw [if_neg hw]
      refine ⟨(set_screen_cursor _ _ _).1, ?_⟩
      rw [(set_screen_cursor _ _ _).2.1]
      exact hc

theorem handle_pac_cursor (ctx : CCaptionSubContext) (hi lo : Nat)
    (hpac : (hi = 0x10 ∧ (lo ≥ 0x40 ∧ lo ≤ 0x5f)) ∨
      ((hi ≥ 0x11 ∧ hi ≤ 0x17) ∧ (lo ≥ 0x40 ∧ lo ≤ 0x7f))) :
    (handle_pac ctx hi lo).cursor_row ≤ 14 ∧ (handle_pac ctx hi lo).cursor_column ≤ 32 := by
  obtain ⟨hpos, hle⟩ := pac_row_pos hi lo hpac
  have hk : lo &&& 0x1f < 32 := Nat.lt_succ_of_le Nat.and_le_right
  have hind := pac_indent_le (lo &&& 0x1f) hk
  unfold handle_pac
  dsimp only
  rw [if_neg (by omega)]
  refine ⟨?_, ?_⟩
  · show (CCaptionSubContext.set_screen _ _ _).cursor_row ≤ 14
    rw [(set_screen_cursor _ _ _).1]
    show (row_map.getD (((hi <<< 1) &&& 0x0e) ||| ((lo >>> 5) &&& 0x01)) 0 - 1).toNat ≤ 14
    omega
  · show (handle_pac_indent _ _).2 ≤ 32
    rw [handle_pac_indent_snd _ _ 0 (by omega)]
    omega

theorem handle_char_cursor (ctx : CCaptionSubContext) (hi lo : Nat) (hhi : 0x20 ≤ hi)
    (hc : ctx.cursor_column ≤ 32) :
    (handle_char ctx hi lo).cursor_row = ctx.cursor_row ∧
    (handle_char ctx hi lo).cursor_column ≤ 32 := by
  unfold handle_char
  dsimp only
  refine ⟨(set_screen_cursor _ _ _).1, ?_⟩
  have h1 := write_char_advance ((ctx.screen_at (get_writing_screen ctx)).characters.getD
    ctx.cursor_row []) ctx.cursor_column hi (by omega) hc
  by_cases hlo : lo ≠ 0
  · rw [if_pos hlo]
    exact write_char_advance _ _ lo hlo h1
  · rw [if_neg hlo]
    exact h1

theorem process_cc608_switch_cursor (ctx : CCaptionSubContext) (hi lo : Nat)
    (hr : ctx.cursor_row ≤ 14) (hc : ctx.cursor_column ≤ 32) :
    (process_cc608_switch ctx hi lo).cursor_row ≤ 14 ∧
    (process_cc608_switch ctx hi lo).cursor_column ≤ 32 := by
  unfold process_cc608_switch
  by_cases h20 : lo = 0x20
  · rw [if_pos h20]
    exact ⟨hr, hc⟩
  rw [if_neg h20]
  by_cases h24 : lo = 0x24
  · rw [if_pos h24, (handle_delete_end_of_row_cursor ctx hi lo).1,
      (handle_delete_end_of_row_cursor ctx hi lo).2]
    exact ⟨hr, hc⟩
  rw [if_neg h24]
  by_cases h25 : lo = 0x25
  · rw [if_pos h25]
    exact ⟨hr, hc⟩
  rw [if_neg h25]
  by_cases h26 : lo = 0x26
  · rw [if_pos h26]
    exact ⟨hr, hc⟩
  rw [if_neg h26]
  by_cases h27 : lo = 0x27
  · rw [if_pos h27]
    exact ⟨hr, hc⟩
  rw [if_neg h27]
  by_cases h29 : lo = 0x29
  · rw [if_pos h29]
    exact ⟨hr, hc⟩
  rw [if_neg h29]
  by_cases h2b : lo = 0x2b
  · rw [if_pos h2b]
    exact ⟨hr, hc⟩
  rw [if_neg h2b]
  by_cases h2c : lo = 0x2c
  · rw [if_pos h2c, (handle_erase_cursor ctx _).1, (handle_erase_cursor ctx _).2]
    exact ⟨hr, hc⟩
  rw [if_neg h2c]
  by_cases h2d : lo = 0x2d
  · rw [if_pos h2d]
    refine ⟨?_, Nat.zero_le _⟩
    show (roll_up (reap_screen ctx)).cursor_row ≤ 14
    rw [(roll_up_cursor _).1]
    exact hr
  rw [if_neg h2d]
  by_cases h2e : lo = 0x2e
  · rw [if_pos h2e, (handle_erase_cursor ctx _).1, (handle_erase_cursor ctx _).2]
    exact ⟨hr, hc⟩
  rw [if_neg h2e]
  by_cases h2f : lo = 0x2f
  · rw [if_pos h2f]
    exact ⟨hr, Nat.zero_le _⟩
  rw [if_neg h2f]
  exact ⟨hr, hc⟩

theorem process_cc608_cursor (ctx : CCaptionSubContext) (hi lo : Nat)
    (hr : ctx.cursor_row ≤ 14) (hc : ctx.cursor_column ≤ 32) :
    (process_cc608 ctx hi lo).cursor_row ≤ 14 ∧ (process_cc608 ctx hi lo).cursor_column ≤ 32 := by
  show (process_cc608_dispatch ctx hi lo).cursor_row ≤ 14 ∧
    (process_cc608_dispatch ctx hi lo).cursor_column ≤ 32
  unfold process_cc608_dispatch
  split_ifs with h0 h1 h2 h3 h4 h5
  · exact ⟨hr, hc⟩
  · exact handle_pac_cursor ctx hi lo h1
  · have := handle_textattr_cursor ctx hi lo hc
    rw [this.1]
    exact ⟨hr, this.2⟩
  · exact process_cc608_switch_cursor ctx hi lo hr hc
  · exact ⟨hr, hc⟩
  · have := handle_char_cursor ctx hi lo h5 hc
    rw [this.1]
    exact ⟨hr, this.2⟩
  · exact ⟨hr, hc⟩

/-! ## The rows keep their terminating zero -/

theorem sound_iff (s : Screen) : s.Sound ↔ s.WF ∧ s.Terminated := by
  unfold Screen.Sound Screen.WF Screen.Terminated GridRows row_terminated row_sized
  constructor
  · rintro ⟨⟨h1, h2⟩, h3, h4⟩
    exact ⟨⟨⟨h1, fun r hr => (h2 r hr).1⟩, h3, h4⟩, fun r hr => (h2 r hr).2⟩
  · rintro ⟨⟨⟨h1, h2⟩, h3, h4⟩, h5⟩
    exact ⟨⟨h1, fun r hr => ⟨h2 r hr, h5 r hr⟩⟩, h3, h4⟩

theorem GridRows.set {P : List Nat → Prop} {g : List (List Nat)} (h : GridRows P g) (r : Nat)
    (x : List Nat) (hx : r < SCREEN_ROWS → P x) : GridRows P (g.set r x) := by
  obtain ⟨hl, hp⟩ := h
  refine ⟨by rw [List.length_set, hl], ?_⟩
  intro row hrow
  by_cases hr : r < SCREEN_ROWS
  · rcases List.mem_or_eq_of_mem_set hrow with hm | he
    · exact hp row hm
    · rw [he]
      exact hx hr
  · rw [List.set_eq_of_length_le (by omega)] at hrow
    exact hp row hrow

theorem GridRows.getD {P : List Nat → Prop} {g : List (List Nat)} (h : GridRows P g) (r : Nat)
    (hr : r < SCREEN_ROWS) : P (g.getD r []) := by
  obtain ⟨hl, hp⟩ := h
  rw [List.getD_eq_getElem _ _ (by rw [hl]; exact hr)]
  exact hp _ (List.getElem_mem _)

theorem row_terminated.sized {row : List Nat} (h : row_terminated row) : row_sized row := h.1

theorem write_char_terminated (row : List Nat) (col ch : Nat) (h : row_terminated row) :
    row_terminated (write_char row col ch).1 := by
  obtain ⟨hl, ht⟩ := h
  unfold SCREEN_COLUMNS at hl ht
  unfold write_char row_terminated SCREEN_COLUMNS
  by_cases hc : col < 32
  · rw [if_pos hc]
    exact ⟨by rw [List.length_set, hl], by rw [List.getElem?_set_ne (by omega), ht]⟩
  · rw [if_neg hc]
    by_cases hz : col = 32 ∧ ch = 0
    · rw [if_pos hz, hz.1, hz.2]
      exact ⟨by rw [List.length_set, hl], List.getElem?_set_self (by omega)⟩
    · rw [if_neg hz]
      exact ⟨hl, ht⟩

theorem handle_pac_indent_terminated : ∀ (n : Nat) (row : List Nat) (c : Nat),
    row_terminated row → row_terminated (handle_pac_indent n (row, c)).1
  | 0, _, _, h => h
  | n + 1, row, c, h => by
    unfold handle_pac_indent
    exact handle_pac_indent_terminated n _ _ (write_char_terminated row c 0x20 h)

theorem memcpy_terminated (dst src : List Nat) (h : row_terminated dst)
    (hs : row_sized src) : row_terminated (memcpy dst src SCREEN_COLUMNS) := by
  obtain ⟨hl, ht⟩ := h
  unfold row_sized at hs
  unfold SCREEN_COLUMNS at hl ht hs
  unfold memcpy row_terminated SCREEN_COLUMNS
  refine ⟨?_, ?_⟩
  · rw [List.length_append, List.length_take, List.length_drop, hl, hs]
    rfl
  · rw [List.getElem?_append_right (by rw [List.length_take, hs]; decide), List.length_take, hs,
      List.getElem?_drop]
    exact ht

theorem memcpy_sized (dst src : List Nat) (h : row_sized dst) (hs : row_sized src) :
    row_sized (memcpy dst src SCREEN_COLUMNS) := by
  unfold row_sized at *
  unfold SCREEN_COLUMNS at *
  unfold memcpy
  rw [List.length_append, List.length_take, List.length_drop, h, hs]
  rfl

theorem grid_row_sized {P : List Nat → Prop} {g : List (List Nat)} (h : GridRows P g)
    (hP : ∀ row, P row → row_sized row) (after : List Nat) (ha : row_sized after) (i : Nat) :
    row_sized (grid_row g after i) := by
  unfold grid_row
  split_ifs with hi
  · exact hP _ (h.getD i hi)
  · exact ha

theorem after_fonts_sized : row_sized after_fonts := by
  unfold row_sized after_fonts
  rw [List.length_replicate]

theorem sound_row_used (s : Screen) (x : Nat) (h : s.Sound) :
    ({ s with row_used := x } : Screen).Sound := h

theorem roll_up_shift_sound (cursor_row : Nat) (keep_lines : Int) :
    ∀ (fuel : Nat) (i : Int) (screen : Screen), screen.Sound →
      (roll_up_shift cursor_row keep_lines fuel i screen).Sound := by
  intro fuel
  induction fuel with
  | zero => intro i screen h; exact h
  | succ fuel ih =>
    intro i screen h
    by_cases hc : i < keep_lines ∧ screen.row_used ≠ 0
    · rw [roll_up_shift_turn cursor_row keep_lines fuel i screen hc.1 hc.2]
      apply ih
      obtain ⟨h1, h2, h3⟩ := h
      refine ⟨?_, ?_, ?_⟩
      · exact h1.set _ _ fun hr => memcpy_terminated _ _ (h1.getD _ hr)
          (grid_row_sized h1 (fun _ hp => hp.1) _
            (h2.getD 0 (by decide)) _)
      · exact h2.set _ _ fun hr => memcpy_sized _ _ (h2.getD _ hr)
          (grid_row_sized h2 (fun _ hp => hp) _ (h3.getD 0 (by decide)) _)
      · exact h3.set _ _ fun hr => memcpy_sized _ _ (h3.getD _ hr)
          (grid_row_sized h3 (fun _ hp => hp) _ after_fonts_sized _)
    · unfold roll_up_shift
      rw [if_neg hc]
      exact h

theorem screen_at_sound (ctx : CCaptionSubContext) (n : Nat)
    (h : ctx.screen.1.Sound ∧ ctx.screen.2.Sound) : (ctx.screen_at n).Sound := by
  unfold CCaptionSubContext.screen_at
  split_ifs
  · exact h.1
  · exact h.2

theorem set_screen_sound (ctx : CCaptionSubContext) (n : Nat) (s : Screen)
    (h : ctx.screen.1.Sound ∧ ctx.screen.2.Sound) (hs : s.Sound) :
    (ctx.set_screen n s).screen.1.Sound ∧ (ctx.set_screen n s).screen.2.Sound := by
  unfold CCaptionSubContext.set_screen
  split_ifs
  · exact ⟨hs, h.2⟩
  · exact ⟨h.1, hs⟩

theorem sound_characters (s : Screen) (r : Nat) (x : List Nat) (h : s.Sound)
    (hx : r < SCREEN_ROWS → row_terminated x) :
    ({ s with characters := s.characters.set r x } : Screen).Sound :=
  ⟨h.1.set r x hx, h.2.1, h.2.2⟩

theorem roll_up_sound (ctx : CCaptionSubContext) (h : ctx.screen.1.Sound ∧ ctx.screen.2.Sound) :
    (roll_up ctx).screen.1.Sound ∧ (roll_up ctx).screen.2.Sound := by
  unfold roll_up
  split_ifs
  · exact h
  · apply set_screen_sound _ _ _ h
    dsimp only
    apply sound_row_used
    apply roll_up_shift_sound
    apply sound_row_used
    exact screen_at_sound ctx _ h

theorem handle_erase_sound (ctx : CCaptionSubContext) (n : Nat)
    (h : ctx.screen.1.Sound ∧ ctx.screen.2.Sound) :
    (handle_erase ctx n).screen.1.Sound ∧ (handle_erase ctx n).screen.2.Sound := by
  unfold handle_erase
  exact set_screen_sound _ _ _ h (sound_row_used _ _ (screen_at_sound ctx _ h))

theorem handle_delete_end_of_row_sound (ctx : CCaptionSubContext) (hi lo : Nat)
    (h : ctx.screen.1.Sound ∧ ctx.screen.2.Sound) :
    (handle_delete_end_of_row ctx hi lo).screen.1.Sound ∧
    (handle_delete_end_of_row ctx hi lo).screen.2.Sound := by
  unfold handle_delete_end_of_row
  have hs := screen_at_sound ctx (get_writing_screen ctx) h
  exact set_screen_sound _ _ _ h (sound_characters _ _ _ hs fun hr =>
    write_char_terminated _ _ _ (hs.1.getD _ hr))

theorem handle_textattr_sound (ctx : CCaptionSubContext) (hi lo : Nat)
    (h : ctx.screen.1.Sound ∧ ctx.screen.2.Sound) :
    (handle_textattr ctx hi lo).screen.1.Sound ∧ (handle_textattr ctx hi lo).screen.2.Sound := by
  unfold handle_textattr
  dsimp only
  have hs := screen_at_sound ctx (get_writing_screen ctx) h
  have key : ((({ ctx with
      cursor_color := (pac2_attribs.getD (lo - 0x20) (0, 0, 0)).1
      cursor_font := (pac2_attribs.getD (lo - 0x20) (0, 0, 0)).2.1 } :
      CCaptionSubContext).set_screen (get_writing_screen ctx)
      { characters := (ctx.screen_at (get_writing_screen ctx)).characters.set ctx.cursor_row
          (write_char ((ctx.screen_at (get_writing_screen ctx)).characters.getD ctx.cursor_row [])
            ctx.cursor_column 0x20).1
        colors := (ctx.screen_at (get_writing_screen ctx)).colors
        fonts := (ctx.screen_at (get_writing_screen ctx)).fonts
        row_used := SET_FLAG (ctx.screen_at (get_writing_screen ctx)).row_used
          ctx.cursor_row }).screen.1.Sound) ∧
      ((({ ctx with
      cursor_color := (pac2_attribs.getD (lo - 0x20) (0, 0, 0)).1
      cursor_font := (pac2_attribs.getD (lo - 0x20) (0, 0, 0)).2.1 } :
      CCaptionSubContext).set_screen (get_writing_screen ctx)
      { characters := (ctx.screen_at (get_writing_screen ctx)).characters.set ctx.cursor_row
          (write_char ((ctx.screen_at (get_writing_screen ctx)).characters.getD ctx.cursor_row [])
            ctx.cursor_column 0x20).1
        colors := (ctx.screen_at (get_writing_screen ctx)).colors
        fonts := (ctx.screen_at (get_writing_screen ctx)).fonts
        row_used := SET_FLAG (ctx.screen_at (get_writing_screen ctx)).row_used
          ctx.cursor_row }).screen.2.Sound) :=
    set_screen_sound _ _ _ h ⟨hs.1.set _ _ fun hr =>
      write_char_terminated _ _ _ (hs.1.getD _ hr), hs.2.1, hs.2.2⟩
  split_ifs
  · exact h
  · exact key
  · exact key

theorem handle_pac_sound (ctx : CCaptionSubContext) (hi lo : Nat)
    (h : ctx.screen.1.Sound ∧ ctx.screen.2.Sound) :
    (handle_pac ctx hi lo).screen.1.Sound ∧ (handle_pac ctx hi lo).screen.2.Sound := by
  unfold handle_pac
  dsimp only
  have hs := screen_at_sound ctx (get_writing_screen ctx) h
  split_ifs
  · exact h
  · exact set_screen_sound _ _ _ h ⟨hs.1.set _ _ fun hr =>
      handle_pac_indent_terminated _ _ _ (hs.1.getD _ hr), hs.2.1, hs.2.2⟩

theorem handle_char_sound (ctx : CCaptionSubContext) (hi lo : Nat)
    (h : ctx.screen.1.Sound ∧ ctx.screen.2.Sound) :
    (handle_char ctx hi lo).screen.1.Sound ∧ (handle_char ctx hi lo).screen.2.Sound := by
  unfold handle_char
  dsimp only
  have hs := screen_at_sound ctx (get_writing_screen ctx) h
  refine set_screen_sound _ _ _ h ⟨hs.1.set _ _ fun hr => ?_, hs.2.1, hs.2.2⟩
  have h0 := hs.1.getD _ hr
  have h1 := write_char_terminated _ ctx.cursor_column hi h0
  apply write_char_terminated
  split_ifs <;> first | exact h1 | exact write_char_terminated _ _ _ h1

theorem handle_textattr_row (ctx : CCaptionSubContext) (hi lo : Nat) :
    (handle_textattr ctx hi lo).cursor_row = ctx.cursor_row := by
  unfold handle_textattr
  dsimp only
  split_ifs
  · rfl
  · exact (set_screen_cursor _ _ _).1
  · exact (set_screen_cursor _ _ _).1

theorem handle_char_row (ctx : CCaptionSubContext) (hi lo : Nat) :
    (handle_char ctx hi lo).cursor_row = ctx.cursor_row := by
  unfold handle_char
  dsimp only
  exact (set_screen_cursor _ _ _).1

theorem process_cc608_switch_row (ctx : CCaptionSubContext) (hi lo : Nat) :
    (process_cc608_switch ctx hi lo).cursor_row = ctx.cursor_row := by
  unfold process_cc608_switch
  by_cases h20 : lo = 0x20
  · rw [if_pos h20]
  rw [if_neg h20]
  by_cases h24 : lo = 0x24
  · rw [if_pos h24, (handle_delete_end_of_row_cursor ctx hi lo).1]
  rw [if_neg h24]
  by_cases h25 : lo = 0x25
  · rw [if_pos h25]
  rw [if_neg h25]
  by_cases h26 : lo = 0x26
  · rw [if_pos h26]
  rw [if_neg h26]
  by_cases h27 : lo = 0x27
  · rw [if_pos h27]
  rw [if_neg h27]
  by_cases h29 : lo = 0x29
  · rw [if_pos h29]
  rw [if_neg h29]
  by_cases h2b : lo = 0x2b
  · rw [if_pos h2b]
  rw [if_neg h2b]
  by_cases h2c : lo = 0x2c
  · rw [if_pos h2c, (handle_erase_cursor ctx _).1]
  rw [if_neg h2c]
  by_cases h2d : lo = 0x2d
  · rw [if_pos h2d]
    show (roll_up (reap_screen ctx)).cursor_row = _
    rw [(roll_up_cursor _).1]
    rfl
  rw [if_neg h2d]
  by_cases h2e : lo = 0x2e
  · rw [if_pos h2e, (handle_erase_cursor ctx _).1]
  rw [if_neg h2e]
  by_cases h2f : lo = 0x2f
  · rw [if_pos h2f]
    rfl
  rw [if_neg h2f]

theorem process_cc608_row (ctx : CCaptionSubContext) (hi lo : Nat)
    (hr : ctx.cursor_row < SCREEN_ROWS) : (process_cc608 ctx hi lo).cursor_row < SCREEN_ROWS := by
  show (process_cc608_dispatch ctx hi lo).cursor_row < SCREEN_ROWS
  unfold process_cc608_dispatch
  split_ifs with h0 h1 h2 h3 h4 h5
  · exact hr
  · exact Nat.lt_succ_of_le (handle_pac_cursor ctx hi lo h1).1
  · rw [handle_textattr_row]
    exact hr
  · rw [process_cc608_switch_row]
    exact hr
  · exact hr
  · rw [handle_char_row]
    exact hr
  · exact hr

theorem process_cc608_switch_sound (ctx : CCaptionSubContext) (hi lo : Nat)
    (h : ctx.screen.1.Sound ∧ ctx.screen.2.Sound) :
    (process_cc608_switch ctx hi lo).screen.1.Sound ∧
    (process_cc608_switch ctx hi lo).screen.2.Sound := by
  unfold process_cc608_switch
  by_cases h20 : lo = 0x20
  · rw [if_pos h20]
    exact h
  rw [if_neg h20]
  by_cases h24 : lo = 0x24
  · rw [if_pos h24]
    exact handle_delete_end_of_row_sound ctx hi lo h
  rw [if_neg h24]
  by_cases h25 : lo = 0x25
  · rw [if_pos h25]
    exact h
  rw [if_neg h25]
  by_cases h26 : lo = 0x26
  · rw [if_pos h26]
    exact h
  rw [if_neg h26]
  by_cases h27 : lo = 0x27
  · rw [if_pos h27]
    exact h
  rw [if_neg h27]
  by_cases h29 : lo = 0x29
  · rw [if_pos h29]
    exact h
  rw [if_neg h29]
  by_cases h2b : lo = 0x2b
  · rw [if_pos h2b]
    exact h
  rw [if_neg h2b]
  by_cases h2c : lo = 0x2c
  · rw [if_pos h2c]
    exact handle_erase_sound ctx _ h
  rw [if_neg h2c]
  by_cases h2d : lo = 0x2d
  · rw [if_pos h2d]
    exact roll_up_sound (reap_screen ctx) h
  rw [if_neg h2d]
  by_cases h2e : lo = 0x2e
  · rw [if_pos h2e]
    exact handle_erase_sound ctx _ h
  rw [if_neg h2e]
  by_cases h2f : lo = 0x2f
  · rw [if_pos h2f]
    exact h
  rw [if_neg h2f]
  exact h

theorem process_cc608_sound (ctx : CCaptionSubContext) (hi lo : Nat)
    (h : ctx.screen.1.Sound ∧ ctx.screen.2.Sound) :
    (process_cc608 ctx hi lo).screen.1.Sound ∧ (process_cc608 ctx hi lo).screen.2.Sound := by
  show (process_cc608_dispatch ctx hi lo).screen.1.Sound ∧
    (process_cc608_dispatch ctx hi lo).screen.2.Sound
  unfold process_cc608_dispatch
  split_ifs
  · exact h
  · exact handle_pac_sound ctx hi lo h
  · exact handle_textattr_sound ctx hi lo h
  · exact process_cc608_switch_sound ctx hi lo h
  · exact h
  · exact handle_char_sound ctx hi lo h
  · exact h

theorem process_pairs_sound : ∀ (pairs : List (Nat × Nat)) (ctx : CCaptionSubContext),
    ctx.cursor_row < SCREEN_ROWS → ctx.screen.1.Sound ∧ ctx.screen.2.Sound →
    (process_pairs ctx pairs).cursor_row < SCREEN_ROWS ∧
    (process_pairs ctx pairs).screen.1.Sound ∧ (process_pairs ctx pairs).screen.2.Sound
  | [], _, hr, h => ⟨hr, h⟩
  | p :: pairs, ctx, hr, h =>
    process_pairs_sound pairs (process_cc608 ctx p.1 p.2) (process_cc608_row ctx p.1 p.2 hr)
      (process_cc608_sound ctx p.1 p.2 h)

theorem takeWhile_stop (p : Nat → Bool) : ∀ (l : List Nat) (k x : Nat),
    l[k]? = some x → p x = false →
    (l.takeWhile p).length ≤ k ∧ ∃ y, l[(l.takeWhile p).length]? = some y ∧ p y = false
  | [], k, x, h, _ => by simp at h
  | a :: l, k, x, h, hx => by
    rw [List.takeWhile_cons]
    cases hpa : p a with
    | false => exact ⟨Nat.zero_le _, a, List.getElem?_cons_zero, hpa⟩
    | true =>
      rw [if_pos rfl]
      cases k with
      | zero =>
        rw [List.getElem?_cons_zero] at h
        rw [Option.some.inj h, hx] at hpa
        exact absurd hpa (by decide)
      | succ k =>
        rw [List.getElem?_cons_succ] at h
        obtain ⟨h1, y, h2, h3⟩ := takeWhile_stop p l k x h hx
        exact ⟨Nat.succ_le_succ h1, y, by
          show (a :: l)[(List.takeWhile p l).length + 1]? = some y
          rw [List.getElem?_cons_succ]; exact h2, h3⟩

theorem dropWhile_getElem? (p : Nat → Bool) (l : List Nat) (j : Nat) :
    (l.dropWhile p)[j]? = l[(l.takeWhile p).length + j]? := by
  have h : (l.takeWhile p ++ l.dropWhile p)[(l.takeWhile p).length + j]? =
      (l.dropWhile p)[(l.takeWhile p).length + j - (l.takeWhile p).length]? :=
    List.getElem?_append_right (Nat.le_add_right _ _)
  rw [List.takeWhile_append_dropWhile, Nat.add_sub_cancel_left] at h
  exact h.symm

theorem c_str_terminator (row : List Nat) (k : Nat) (h : row[k]? = some 0) :
    (c_str row).length ≤ k ∧ row[(c_str row).length]? = some 0 := by
  obtain ⟨h1, y, h2, h3⟩ := takeWhile_stop (fun c => c ≠ 0) row k 0 h (by decide)
  refine ⟨h1, ?_⟩
  have hy : y = 0 := by simpa using h3
  rw [← hy]
  exact h2

theorem reap_scan_terminator (row : List Nat) (k : Nat) (h : row[k]? = some 0) :
    (row.takeWhile (fun c => c = 0x20)).length +
        (c_str (row.dropWhile (fun c => c = 0x20))).length ≤ k ∧
    row[(row.takeWhile (fun c => c = 0x20)).length +
        (c_str (row.dropWhile (fun c => c = 0x20))).length]? = some 0 := by
  obtain ⟨h1, -⟩ := takeWhile_stop (fun c => c = 0x20) row k 0 h (by decide)
  have hd : (row.dropWhile (fun c => c = 0x20))[k -
      (row.takeWhile (fun c => c = 0x20)).length]? = some 0 := by
    rw [dropWhile_getElem?, Nat.add_sub_cancel' h1]
    exact h
  obtain ⟨h2, h3⟩ := c_str_terminator _ _ hd
  rw [dropWhile_getElem?] at h3
  exact ⟨by omega, h3⟩

/-! ## Claims -/

/-- C1 (counterexample).  The AFD value with `active_format_flag = 0` and
`active_format = 5` has every field within its bit width and is written as
the five bytes 'D','T','G','1',0x01; reading these bytes into a zero record
succeeds but yields `active_format = 0`, so the record read is not the value
written. -/
theorem a53_user_data_round_trip_not_exact :
    afd_unset_user_data.Valid ∧
    ff_cbs_write_a53_user_data 5 afd_unset_user_data =
      .ok ([0x44, 0x54, 0x47, 0x31, 0x01], 5) ∧
    ff_cbs_read_a53_user_data zero_user_data [0x44, 0x54, 0x47, 0x31, 0x01] =
      .ok ⟨[0x44, 0x54, 0x47, 0x31, 0x01], 40, 40⟩
        { zero_user_data with user_identifier := A53_USER_IDENTIFIER_AFD } ∧
    { zero_user_data with user_identifier := A53_USER_IDENTIFIER_AFD } ≠ afd_unset_user_data := by
  refine ⟨by decide, by decide, by decide, by decide⟩

/-- C1 (amended).  Round trip of the general codec: for every value `v` whose
encoded fields fit their bit widths (`v.Valid`), every destination record `d`
(with its 31-entry packet array) and every capacity `length` of at least the
encoded size, `ff_cbs_write_a53_user_data` succeeds with the encoded size as
the new length, and `ff_cbs_read_a53_user_data` on the written bytes succeeds,
consumes all of them and leaves a record that holds the value of `v` in the
identifier and in every field the grammar encodes for `v`. -/
theorem a53_user_data_round_trip (v d : A53UserData) (length : Nat) (hv : v.Valid)
    (hd : d.atsc.cc_data.cc_data_pkts.length = 31) (hlen : a53_user_data_size v ≤ length) :
    ∃ (bytes : List Nat) (r : A53UserData),
      ff_cbs_write_a53_user_data length v = .ok (bytes, a53_user_data_size v) ∧
      bytes.length = a53_user_data_size v ∧
      ff_cbs_read_a53_user_data d bytes =
        .ok ⟨bytes, 8 * a53_user_data_size v, 8 * a53_user_data_size v⟩ r ∧
      r.EncodedEq v := by
  refine ⟨bits_to_bytes (a53_user_data_bits v), v.decoded d, ?_, ?_,
    read_a53_user_data_valid v d hv hd, decoded_encodedEq v d hv⟩
  · rw [write_a53_user_data_valid length v hv, if_pos hlen]
  · exact (bits_to_bytes_aligned _ _
      (a53_user_data_bits_length v (Valid.cc_count_le hv))).2

/-- C1 (witness): the round trip at CC data with two packets, read into a zero record. -/
theorem a53_user_data_round_trip_witness :
    cc_user_data.Valid ∧ zero_user_data.atsc.cc_data.cc_data_pkts.length = 31 ∧
    a53_user_data_size cc_user_data ≤ 14 ∧
    ∃ (bytes : List Nat) (r : A53UserData),
      ff_cbs_write_a53_user_data 14 cc_user_data = .ok (bytes, a53_user_data_size cc_user_data) ∧
      bytes.length = a53_user_data_size cc_user_data ∧
      ff_cbs_read_a53_user_data zero_user_data bytes =
        .ok ⟨bytes, 8 * a53_user_data_size cc_user_data, 8 * a53_user_data_size cc_user_data⟩
          r ∧
      r.EncodedEq cc_user_data :=
  ⟨by decide, by decide, by decide,
    a53_user_data_round_trip cc_user_data zero_user_data 14 (by decide) (by decide) (by decide)⟩

/-- C2 (the code at the failing input).  A payload of `3 * 2^32` bytes has a
length that is a multiple of 3, a third of which, `2^32`, exceeds 31.  The
conversion of the count to `int` gives 0, the check `cc_count > 31` is not
taken and `ff_cbs_read_a53_cc_side_data` returns 0, with a record of no
packets, not invalid-argument. -/
theorem read_a53_cc_side_data_einval_wraps :
    (List.replicate 12884901888 0).length % 3 = 0 ∧
    (List.replicate 12884901888 0).length / 3 > 31 ∧
    to_int (((List.replicate 12884901888 0).length / 3 : Nat) : Int) = 0 ∧
    (∃ rw, ff_cbs_read_a53_cc_side_data zero_user_data (List.replicate 12884901888 0) =
      .ok rw (cc_side_data_init 0)) ∧
    ∀ c, ff_cbs_read_a53_cc_side_data zero_user_data (List.replicate 12884901888 0) ≠
      .fail .EINVAL c := by
  refine ⟨?_, ?_, ?_, ⟨_, read_a53_cc_side_data_count_zero zero_user_data 0⟩, ?_⟩
  · rw [List.length_replicate]
  · rw [List.length_replicate]
    decide
  · rw [List.length_replicate]
    decide
  · intro c h
    rw [read_a53_cc_side_data_count_zero zero_user_data 0] at h
    cases h

/-- C3.  For a side-data payload of `3 * n` bytes with `n ≤ 31` whose
triplets all start with the five marker bits 11111,
`ff_cbs_read_a53_cc_side_data` succeeds and returns a record tagged
ATSC / CC_DATA with `process_cc_data_flag = 1`, the other two flags and
`em_data` zero and `cc_count = n`, whose packet `i < n` has `cc_valid` = bit 2
of byte `3i`, `cc_type` = the two low bits of byte `3i`, `cc_data_1` = byte
`3i + 1` and `cc_data_2` = byte `3i + 2`. -/
theorem read_a53_cc_side_data_packets (d : A53UserData) (n : Nat) (side_data : List Nat)
    (hlen : side_data.length = 3 * n) (hn : n ≤ 31) (hb : ∀ b ∈ side_data, b < 256)
    (hm : ∀ i, i < n → side_data.getD (3 * i) 0 / 8 = 0x1f) :
    ∃ rw r, ff_cbs_read_a53_cc_side_data d side_data = .ok rw r ∧
      r.user_identifier = A53_USER_IDENTIFIER_ATSC ∧
      r.atsc.user_data_type_code = A53_USER_DATA_TYPE_CODE_CC_DATA ∧
      r.atsc.cc_data.process_cc_data_flag = 1 ∧
      r.atsc.cc_data.process_em_data_flag = 0 ∧
      r.atsc.cc_data.additional_data_flag = 0 ∧
      r.atsc.cc_data.em_data = 0 ∧
      r.atsc.cc_data.cc_count = n ∧
      r.atsc.cc_data.cc_data_pkts.length = 31 ∧
      ∀ i, i < n → r.atsc.cc_data.cc_data_pkts.get? i =
        some ⟨side_data.getD (3 * i) 0 / 4 % 2, side_data.getD (3 * i) 0 % 4,
          side_data.getD (3 * i + 1) 0, side_data.getD (3 * i + 2) 0⟩ := by
  obtain ⟨_, i2, _, i4⟩ := side_data_pkts_spec n side_data hlen hb hm
  refine ⟨_, _, read_a53_cc_side_data_ok d n side_data hlen hn hb hm, rfl, rfl, rfl, rfl, rfl,
    rfl, rfl, ?_, ?_⟩
  · simp only [List.length_append, i2, List.length_replicate]
    omega
  · intro i hi
    simp only [List.get?_eq_getElem?]
    rw [List.getElem?_append_left (by omega), ← List.get?_eq_getElem?]
    exact i4 i hi

/-- C3 (witness): the payload of the two triplets FC 94 20, FD 48 69. -/
theorem read_a53_cc_side_data_packets_witness :
    ∃ rw r, ff_cbs_read_a53_cc_side_data zero_user_data [0xfc, 0x94, 0x20, 0xfd, 0x48, 0x69] =
        .ok rw r ∧
      r.user_identifier = A53_USER_IDENTIFIER_ATSC ∧
      r.atsc.user_data_type_code = A53_USER_DATA_TYPE_CODE_CC_DATA ∧
      r.atsc.cc_data.process_cc_data_flag = 1 ∧
      r.atsc.cc_data.process_em_data_flag = 0 ∧
      r.atsc.cc_data.additional_data_flag = 0 ∧
      r.atsc.cc_data.em_data = 0 ∧
      r.atsc.cc_data.cc_count = 2 ∧
      r.atsc.cc_data.cc_data_pkts.length = 31 ∧
      ∀ i, i < 2 → r.atsc.cc_data.cc_data_pkts.get? i =
        some ⟨[0xfc, 0x94, 0x20, 0xfd, 0x48, 0x69].getD (3 * i) 0 / 4 % 2,
          [0xfc, 0x94, 0x20, 0xfd, 0x48, 0x69].getD (3 * i) 0 % 4,
          [0xfc, 0x94, 0x20, 0xfd, 0x48, 0x69].getD (3 * i + 1) 0,
          [0xfc, 0x94, 0x20, 0xfd, 0x48, 0x69].getD (3 * i + 2) 0⟩ :=
  read_a53_cc_side_data_packets zero_user_data 2 [0xfc, 0x94, 0x20, 0xfd, 0x48, 0x69]
    (by decide) (by decide) (by decide) (by decide)

/-- C4.  For a record tagged ATSC / CC_DATA with `cc_count = n ≤ 31` whose
first `n` packets have in-range fields, and an existing destination buffer of
`side_data_size` bytes (a `NULL` pointer being the empty buffer),
`ff_cbs_write_a53_cc_side_data` returns 0, sets the size to
`side_data_size + 3 * n`, leaves the first `side_data_size` bytes unchanged
and stores the triplet `(0xF8 | cc_valid << 2 | cc_type, cc_data_1, cc_data_2)`
of packet `i` at offset `side_data_size + 3 * i`, for every `i < n`. -/
theorem write_a53_cc_side_data_appends (side_data : Option (List Nat)) (side_data_size : Nat)
    (data : A53UserData) (h1 : data.user_identifier = A53_USER_IDENTIFIER_ATSC)
    (h2 : data.atsc.user_data_type_code = A53_USER_DATA_TYPE_CODE_CC_DATA)
    (hn : data.atsc.cc_data.cc_count ≤ 31) (hlen : data.atsc.cc_data.cc_data_pkts.length = 31)
    (hp : ∀ p ∈ data.atsc.cc_data.cc_data_pkts.take data.atsc.cc_data.cc_count, p.Valid)
    (hs : (side_data.getD []).length = side_data_size) :
    (ff_cbs_write_a53_cc_side_data side_data side_data_size data).ret = none ∧
    (ff_cbs_write_a53_cc_side_data side_data side_data_size data).side_data_size =
      side_data_size + 3 * data.atsc.cc_data.cc_count ∧
    ((ff_cbs_write_a53_cc_side_data side_data side_data_size data).side_data.getD []).length =
      side_data_size + 3 * data.atsc.cc_data.cc_count ∧
    ((ff_cbs_write_a53_cc_side_data side_data side_data_size data).side_data.getD []).take
      side_data_size = side_data.getD [] ∧
    ∀ i, i < data.atsc.cc_data.cc_count → ∃ p, data.atsc.cc_data.cc_data_pkts.get? i = some p ∧
      (((ff_cbs_write_a53_cc_side_data side_data side_data_size data).side_data.getD []).drop
        (side_data_size + 3 * i)).take 3 =
        [0xF8 ||| (p.cc_valid <<< 2) ||| p.cc_type, p.cc_data_1, p.cc_data_2] := by
  rw [write_a53_cc_side_data_ok side_data side_data_size data h1 h2 hn hlen hp hs]
  have htl : (data.atsc.cc_data.cc_data_pkts.take data.atsc.cc_data.cc_count).length =
      data.atsc.cc_data.cc_count := by
    simp only [List.length_take]; omega
  have hout : (if side_data_size + 3 * data.atsc.cc_data.cc_count = 0 then none
      else some (side_data.getD [] ++ pkts_side_data
        (data.atsc.cc_data.cc_data_pkts.take data.atsc.cc_data.cc_count))).getD [] =
      side_data.getD [] ++ pkts_side_data
        (data.atsc.cc_data.cc_data_pkts.take data.atsc.cc_data.cc_count) := by
    split_ifs with h0
    · have e1 : side_data.getD [] = [] := List.length_eq_zero.mp (by omega)
      have e2 : data.atsc.cc_data.cc_count = 0 := by omega
      simp [e1, e2, pkts_side_data]
    · rfl
  simp only [hout]
  refine ⟨trivial, trivial, ?_, ?_, ?_⟩
  · simp only [List.length_append, pkts_side_data_length, htl, hs]
  · rw [← hs, List.take_left]
  · intro i hi
    have hi2 : i < data.atsc.cc_data.cc_data_pkts.length := by omega
    refine ⟨data.atsc.cc_data.cc_data_pkts[i], ?_, ?_⟩
    · rw [List.get?_eq_getElem?, List.getElem?_eq_getElem hi2]
    · rw [← hs, ← List.drop_drop, List.drop_left]
      exact pkts_side_data_triplet _ i _ (by
        rw [List.get?_eq_getElem?, List.getElem?_take_of_lt hi, List.getElem?_eq_getElem hi2])

/-- C4 (witness): two packets appended to a buffer of two bytes. -/
theorem write_a53_cc_side_data_appends_witness :
    (ff_cbs_write_a53_cc_side_data (some [9, 9]) 2 cc_user_data).ret = none ∧
    (ff_cbs_write_a53_cc_side_data (some [9, 9]) 2 cc_user_data).side_data_size =
      2 + 3 * cc_user_data.atsc.cc_data.cc_count ∧
    ((ff_cbs_write_a53_cc_side_data (some [9, 9]) 2 cc_user_data).side_data.getD []).length =
      2 + 3 * cc_user_data.atsc.cc_data.cc_count ∧
    ((ff_cbs_write_a53_cc_side_data (some [9, 9]) 2 cc_user_data).side_data.getD []).take 2 =
      (some [9, 9]).getD [] ∧
    ∀ i, i < cc_user_data.atsc.cc_data.cc_count →
      ∃ p, cc_user_data.atsc.cc_data.cc_data_pkts.get? i = some p ∧
      (((ff_cbs_write_a53_cc_side_data (some [9, 9]) 2 cc_user_data).side_data.getD []).drop
        (2 + 3 * i)).take 3 =
        [0xF8 ||| (p.cc_valid <<< 2) ||| p.cc_type, p.cc_data_1, p.cc_data_2] :=
  write_a53_cc_side_data_appends (some [9, 9]) 2 cc_user_data (by decide) (by decide)
    (by decide) (by decide) (by decide) (by decide)

/-- C5.  When the record's `user_identifier` is not ATSC or its
`user_data_type_code` is not CC_DATA, `ff_cbs_write_a53_cc_side_data` returns
invalid-argument and leaves the destination pointer and its recorded size as
they were. -/
theorem write_a53_cc_side_data_einval (side_data : Option (List Nat)) (side_data_size : Nat)
    (data : A53UserData)
    (h : data.user_identifier ≠ A53_USER_IDENTIFIER_ATSC ∨
      data.atsc.user_data_type_code ≠ A53_USER_DATA_TYPE_CODE_CC_DATA) :
    ff_cbs_write_a53_cc_side_data side_data side_data_size data =
      ⟨some .EINVAL, side_data, side_data_size⟩ := by
  unfold ff_cbs_write_a53_cc_side_data
  rw [if_pos h]

/-- C5 (witness): AFD data offered to the CC side-data writer. -/
theorem write_a53_cc_side_data_einval_witness :
    ff_cbs_write_a53_cc_side_data (some [1, 2, 3]) 3 afd_unset_user_data =
      ⟨some .EINVAL, some [1, 2, 3], 3⟩ :=
  write_a53_cc_side_data_einval (some [1, 2, 3]) 3 afd_unset_user_data (Or.inl (by decide))

/-- C6.  Out-of-space is the only error of the encoder: for a value whose
encoded fields fit their bit widths, `ff_cbs_write_a53_user_data` fails if and
only if the capacity `length` is smaller than the encoded size, every failure
is out-of-space, and a successful call reports exactly the encoded size (and
that many bytes). -/
theorem write_a53_user_data_enospc (length : Nat) (v : A53UserData) (hv : v.Valid) :
    ((∃ e, ff_cbs_write_a53_user_data length v = .error e) ↔ length < a53_user_data_size v) ∧
    (∀ e, ff_cbs_write_a53_user_data length v = .error e → e = .ENOSPC) ∧
    (∀ bytes n, ff_cbs_write_a53_user_data length v = .ok (bytes, n) →
      n = a53_user_data_size v ∧ bytes.length = a53_user_data_size v) := by
  rw [write_a53_user_data_valid length v hv]
  have hb := (bits_to_bytes_aligned _ _
    (a53_user_data_bits_length v (Valid.cc_count_le hv))).2
  by_cases h : a53_user_data_size v ≤ length
  · rw [if_pos h]
    refine ⟨⟨fun ⟨e, he⟩ => (by cases he), fun h2 => (by omega)⟩,
      fun e he => (by cases he), ?_⟩
    intro bytes n hok
    simp only [Except.ok.injEq, Prod.mk.injEq] at hok
    exact ⟨hok.2.symm, hok.1 ▸ hb⟩
  · rw [if_neg h]
    refine ⟨⟨fun _ => (by omega), fun _ => ⟨_, rfl⟩⟩,
      fun e he => (Except.error.inj he).symm, ?_⟩
    intro bytes n hok
    cases hok

/-- C6 (witness): CC data with two packets needs 14 bytes; a capacity of 13 fails. -/
theorem write_a53_user_data_enospc_witness :
    ((∃ e, ff_cbs_write_a53_user_data 13 cc_user_data = .error e) ↔
      13 < a53_user_data_size cc_user_data) ∧
    (∀ e, ff_cbs_write_a53_user_data 13 cc_user_data = .error e → e = .ENOSPC) ∧
    (∀ bytes n, ff_cbs_write_a53_user_data 13 cc_user_data = .ok (bytes, n) →
      n = a53_user_data_size cc_user_data ∧ bytes.length = a53_user_data_size cc_user_data) :=
  write_a53_user_data_enospc 13 cc_user_data (by decide)

/-- C7.  The write grammar ends on a byte boundary: whenever
`cbs_misc_write_a53_user_data` succeeds on a fresh cursor, for any value at
all, the number of bits written is a multiple of 8, the alignment assertion of
`ff_cbs_write_a53_user_data` holds, and the entry point returns the flushed
bytes with the length `bits / 8`. -/
theorem write_a53_user_data_aligned (length : Nat) (data : A53UserData) (pbc : PutBitContext)
    (h : cbs_misc_write_a53_user_data (init_put_bits length) data = .ok pbc) :
    put_bits_count pbc % 8 = 0 ∧
    ff_cbs_write_a53_user_data length data ≠ .error .assert_failed ∧
    ff_cbs_write_a53_user_data length data = .ok (flush_put_bits pbc, put_bits_count pbc / 8) := by
  have hw := write_a53_user_data_ok h
  have ha : put_bits_count pbc % 8 = 0 := by
    rw [hw]
    simpa [put_bits_count, init_put_bits] using a53_user_data_bits_aligned data
  have he : ff_cbs_write_a53_user_data length data =
      .ok (flush_put_bits pbc, put_bits_count pbc / 8) := by
    unfold ff_cbs_write_a53_user_data
    simp only [h]
    rw [if_neg (by omega)]
  exact ⟨ha, (by rw [he]; exact fun h => (by cases h)), he⟩

/-- C7 (witness): the AFD value with an unset flag in a buffer of five bytes. -/
theorem write_a53_user_data_aligned_witness :
    put_bits_count ⟨nat_bits 32 A53_USER_IDENTIFIER_AFD ++ nat_bits 8 1, 40⟩ % 8 = 0 ∧
    ff_cbs_write_a53_user_data 5 afd_unset_user_data ≠ .error .assert_failed ∧
    ff_cbs_write_a53_user_data 5 afd_unset_user_data =
      .ok (flush_put_bits ⟨nat_bits 32 A53_USER_IDENTIFIER_AFD ++ nat_bits 8 1, 40⟩,
        put_bits_count ⟨nat_bits 32 A53_USER_IDENTIFIER_AFD ++ nat_bits 8 1, 40⟩ / 8) :=
  write_a53_user_data_aligned 5 afd_unset_user_data
    ⟨nat_bits 32 A53_USER_IDENTIFIER_AFD ++ nat_bits 8 1, 40⟩ (by decide)

/-- C8.  A fixed-field mismatch makes the read fail with the invalid-data
condition.  First: reading a CC packet at a cursor whose next five bits are
not 0x1f fails with invalid data and leaves the record as it was.  Second: on
every input that has the shape of the dispatched grammar for some value `v`,
with the values `fx` at the positions of the fixed fields and any bits after
it, `ff_cbs_read_a53_user_data` fails with invalid data as soon as one fixed
field that the grammar reads for `v` differs from its expected value.  Third:
on any input at all, every failure of `ff_cbs_read_a53_user_data` is the
invalid-data condition, and after a success the input begins with the shape of
the result in which every fixed field holds its expected value. -/
theorem read_fixed_field_mismatch :
    (∀ (rw : GetBitContext) (cur : CEA708CCDataPacket),
      bits_val (((bytes_to_bits rw.buffer).drop rw.index).take 5) ≠ 0x1f →
      cbs_misc_read_cea708_cc_data_packet rw cur = .fail .INVALIDDATA cur) ∧
    (∀ (d v : A53UserData) (fx : FixedFields) (buf : List Nat) (rest : List Bool),
      d.atsc.cc_data.cc_data_pkts.length = 31 → v.Valid → fx.InRange →
      bytes_to_bits buf = a53_user_data_stream fx v ++ rest → v.Mismatch fx →
      ∃ c, ff_cbs_read_a53_user_data d buf = .fail .INVALIDDATA c) ∧
    (∀ (d : A53UserData) (buf : List Nat), d.atsc.cc_data.cc_data_pkts.length = 31 →
      FailsInvalid (ff_cbs_read_a53_user_data d buf) ∧
      ∀ rw r, ff_cbs_read_a53_user_data d buf = .ok rw r →
        ∃ rest, bytes_to_bits buf = a53_user_data_stream FixedFields.expected r ++ rest) := by
  refine ⟨read_cea708_cc_data_packet_marker, ?_, ?_⟩
  · intro d v fx buf rest hd hv hfx hbits hm
    cases hres : ff_cbs_read_a53_user_data d buf with
    | fail e c =>
      rw [ff_read_a53_user_data_failsInvalid d buf hd e c hres]
      exact ⟨c, rfl⟩
    | ok rw r =>
      obtain ⟨hrv, rest1, hb⟩ := ff_read_a53_user_data_layout hd hres
      exact absurd hm (a53_user_data_stream_inj hfx hv hrv (hbits.symm.trans hb))
  · intro d buf hd
    refine ⟨ff_read_a53_user_data_failsInvalid d buf hd, fun rw r h => ?_⟩
    obtain ⟨_, rest, hb⟩ := ff_read_a53_user_data_layout hd h
    exact ⟨rest, by rw [a53_user_data_stream_expected]; exact hb⟩

/-- C8 (witness): bar data with the top and left bars present, the marker of
the left bar holding 2 instead of 3. -/
theorem read_fixed_field_mismatch_witness :
    ∃ c, ff_cbs_read_a53_user_data zero_user_data
      [0x47, 0x41, 0x39, 0x34, 0x06, 0xaf, 0xc0, 0x14, 0x80, 0x1e, 0x00] =
        .fail .INVALIDDATA c :=
  read_fixed_field_mismatch.2.1 zero_user_data bar_user_data
    { FixedFields.expected with left_one_bits := 2 }
    [0x47, 0x41, 0x39, 0x34, 0x06, 0xaf, 0xc0, 0x14, 0x80, 0x1e, 0x00] (nat_bits 8 0)
    (by decide) (by decide) (by decide) (by decide)
    (Or.inr (Or.inl ⟨rfl, rfl, Or.inr (Or.inr (Or.inr (Or.inl ⟨by decide, by decide⟩)))⟩))

/-- C9.  Unknown tags are not errors.  For an input whose first four bytes
form a `user_identifier` that is neither ATSC nor AFD,
`ff_cbs_read_a53_user_data` succeeds with the cursor at bit 32 whatever bytes
follow, having stored only the identifier; and for an ATSC input whose type
code `t` is neither 0x03 nor 0x06 it succeeds with the cursor at bit 40,
having stored only the identifier and the type code. -/
theorem read_a53_user_data_unknown (d : A53UserData) (b0 b1 b2 b3 t : Nat) (rest : List Nat)
    (h0 : b0 < 256) (h1 : b1 < 256) (h2 : b2 < 256) (h3 : b3 < 256) (ht : t < 256) :
    (MKBETAG b0 b1 b2 b3 ≠ A53_USER_IDENTIFIER_ATSC →
      MKBETAG b0 b1 b2 b3 ≠ A53_USER_IDENTIFIER_AFD →
      ∃ rw, ff_cbs_read_a53_user_data d (b0 :: b1 :: b2 :: b3 :: rest) =
          .ok rw { d with user_identifier := MKBETAG b0 b1 b2 b3 } ∧
        get_bits_count rw = 32) ∧
    (t ≠ A53_USER_DATA_TYPE_CODE_CC_DATA → t ≠ A53_USER_DATA_TYPE_CODE_BAR_DATA →
      ∃ rw, ff_cbs_read_a53_user_data d (0x47 :: 0x41 :: 0x39 :: 0x34 :: t :: rest) =
          .ok rw
            { d with
              user_identifier := A53_USER_IDENTIFIER_ATSC
              atsc := { d.atsc with user_data_type_code := t } } ∧
        get_bits_count rw = 40) :=
  ⟨fun ha hb => ⟨_, read_a53_user_data_unknown_id d b0 b1 b2 b3 rest h0 h1 h2 h3 ha hb, rfl⟩,
    fun ha hb => ⟨_, read_a53_user_data_unknown_type d t rest ht ha hb, rfl⟩⟩

/-- C9 (witness): the identifier 'X','Y','Z','W' followed by garbage, and the
ATSC type code 0x09 followed by garbage. -/
theorem read_a53_user_data_unknown_witness :
    (∃ rw, ff_cbs_read_a53_user_data zero_user_data [0x58, 0x59, 0x5a, 0x57, 0xde, 0xad] =
        .ok rw { zero_user_data with user_identifier := MKBETAG 0x58 0x59 0x5a 0x57 } ∧
      get_bits_count rw = 32) ∧
    (∃ rw, ff_cbs_read_a53_user_data zero_user_data [0x47, 0x41, 0x39, 0x34, 0x09, 0xde, 0xad] =
        .ok rw
          { zero_user_data with
            user_identifier := A53_USER_IDENTIFIER_ATSC
            atsc := { zero_user_data.atsc with user_data_type_code := 0x09 } } ∧
      get_bits_count rw = 40) :=
  ⟨(read_a53_user_data_unknown zero_user_data 0x58 0x59 0x5a 0x57 0x09 [0xde, 0xad]
      (by decide) (by decide) (by decide) (by decide) (by decide)).1 (by decide) (by decide),
    (read_a53_user_data_unknown zero_user_data 0x58 0x59 0x5a 0x57 0x09 [0xde, 0xad]
      (by decide) (by decide) (by decide) (by decide) (by decide)).2 (by decide) (by decide)⟩

set_option maxRecDepth 8192 in
/-- C10 (the code at the failing input).  A payload of `3 * (2^31 + 255)`
bytes 0xff: the count of triplets, `2^31 + 255`, converted to `int` is
negative, so the check `cc_count > 31` is not taken, and its conversion to the
`uint8_t` field gives `cc_count = 255`.  The loop over `cc->cc_count` reads
the 31 packets of the array and then `cc_data_pkts[31]`, an index outside the
array, which ends the call abnormally in the embedding, with `cc_count = 255`
in the record. -/
theorem read_a53_cc_side_data_count_255 :
    (List.replicate 6442451709 0xff).length % 3 = 0 ∧
    (List.replicate 6442451709 0xff).length / 3 = 2147483903 ∧
    to_int 2147483903 = -2147483393 ∧ ¬ to_int 2147483903 > 31 ∧
    to_uint8 (to_int 2147483903) = 255 ∧
    ∃ r, ff_cbs_read_a53_cc_side_data zero_user_data (List.replicate 6442451709 0xff) =
        .fail .out_of_bounds r ∧
      r.atsc.cc_data.cc_count = 255 ∧ r.atsc.cc_data.cc_data_pkts.length = 31 ∧
      r.atsc.cc_data.cc_data_pkts.get? 31 = none := by
  refine ⟨?_, ?_, by decide, by decide, by decide, ?_⟩
  · rw [List.length_replicate]
  · rw [List.length_replicate]
  have hr : Reads ⟨List.replicate 6442451709 0xff, 0, 8 * 6442451709⟩
      (cc_data_pkts_bits (List.replicate 31 ⟨1, 3, 0xff, 0xff⟩) ++
        bytes_to_bits (List.replicate 6442451616 0xff)) := by
    have h := reads_init (List.replicate (93 + 6442451616) 0xff)
    rw [List.replicate_add, bytes_to_bits_append, bytes_to_bits_replicate_ff,
      ← List.replicate_add, List.length_replicate] at h
    exact h
  have hloop := read_cc_data_pkts_eq (List.replicate 31 ⟨1, 3, 0xff, 0xff⟩) 31 0 _ _
    (cc_side_data_init 255).atsc.cc_data hr (by decide) (by decide) (by decide)
  have hsplit := read_cc_data_pkts_add 31 224 0
    ⟨List.replicate 6442451709 0xff, 0, 8 * 6442451709⟩ (cc_side_data_init 255).atsc.cc_data
  rw [hloop] at hsplit
  unfold ff_cbs_read_a53_cc_side_data
  simp only [List.length_replicate]
  rw [if_neg (by decide)]
  have e1 : to_int ((6442451709 / 3 : Nat) : Int) = -2147483393 := by decide
  have e2 : to_uint8 (-2147483393) = 255 := by decide
  simp only [e1, e2, if_neg (show ¬ (-2147483393 : Int) > 31 by decide), init_get_bits]
  have hc : (cc_side_data_init 255).atsc.cc_data.cc_count = 31 + 224 := rfl
  rw [hc, hsplit]
  exact ⟨_, rfl, by decide, by decide, by decide⟩

/-- C11.  Redundant command suppression: for every context and every control
pair (`hi < 0x20`), processing the pair twice in a row with `process_cc608`
leaves exactly the context reached after processing it once. -/
theorem process_cc608_control_twice (ctx : CCaptionSubContext) (hi lo : Nat) (_ : hi < 0x20) :
    process_cc608 (process_cc608 ctx hi lo) hi lo = process_cc608 ctx hi lo :=
  process_cc608_repeat ctx hi lo

/-- C11 (witness): two consecutive erase-displayed-memory pairs on a context
with three used rows; the first pair clears the used rows of the displayed
screen, the second changes nothing. -/
theorem process_cc608_control_twice_witness :
    (0x14 : Nat) < 0x20 ∧
    process_cc608 (process_cc608 rollup_context 0x14 0x2c) 0x14 0x2c =
      process_cc608 rollup_context 0x14 0x2c :=
  ⟨by decide, process_cc608_control_twice rollup_context 0x14 0x2c (by decide)⟩

/-- C12 (the code at the failing input).  On a freshly initialised context the
printable pair 'H', 'i' processed twice in a row is rendered once: after the
first call the cursor row of the writing screen holds "Hi" and the cursor
column is 2, `prev_cmd` holds the pair although `handle_char` had cleared it,
and the second call leaves that context as it is. -/
theorem process_cc608_char_pair_twice :
    (process_cc608 (fresh_context 0) 0x48 0x69).cursor_column = 2 ∧
    (process_cc608 (fresh_context 0) 0x48 0x69).prev_cmd = (0x48, 0x69) ∧
    (handle_char (fresh_context 0) 0x48 0x69).prev_cmd = (0, 0) ∧
    process_cc608 (process_cc608 (fresh_context 0) 0x48 0x69) 0x48 0x69 =
      process_cc608 (fresh_context 0) 0x48 0x69 ∧
    (process_cc608 (process_cc608 (fresh_context 0) 0x48 0x69) 0x48 0x69).cursor_column = 2 ∧
    ((process_cc608 (process_cc608 (fresh_context 0) 0x48 0x69) 0x48 0x69).screen.2.characters.getD
      0 []).take 5 = [0x48, 0x69, 0, 0, 0] := by
  decide

/-- C13.  After `process_cc608 ctx hi lo` the previous-command cache holds
`(hi, lo)`, for every context and every pair: the store follows the dispatch
on every path, the suppressed and the ignored ones included. -/
theorem process_cc608_prev_cmd (ctx : CCaptionSubContext) (hi lo : Nat) :
    (process_cc608 ctx hi lo).prev_cmd = (hi, lo) :=
  rfl

/-- C14.  A unit whose validity bit is set, whose type is 0 or 1 and whose
third byte does not have odd parity is rejected by `validate_cc_data_pair`
with invalid data, its bytes unchanged; and `decode` of a packet made of `n`
such units returns 0, adds no cue and leaves every field of the context as it
was, the packet buffer apart, which holds the packet. -/
theorem decode_bad_parity (rescale : Int → AVRational → AVRational → Int)
    (avctx : AVCodecContext) (ctx : CCaptionSubContext) (sub : AVSubtitle) (avpkt : AVPacket)
    (n : Nat) (hlen : avpkt.data.length = 3 * n)
    (hbad : ∀ k, k < n → avpkt.data.getD (3 * k) 0 &&& 4 ≠ 0 ∧
      (avpkt.data.getD (3 * k) 0 &&& 3 = 0 ∨ avpkt.data.getD (3 * k) 0 &&& 3 = 1) ∧
      av_parity (avpkt.data.getD (3 * k + 2) 0) = 0) :
    (∀ p0 p1 p2, p0 &&& 4 ≠ 0 → (p0 &&& 3 = 0 ∨ p0 &&& 3 = 1) → av_parity p2 = 0 →
      validate_cc_data_pair (p0, p1, p2) = (some .INVALIDDATA, (p0, p1, p2))) ∧
    decode rescale avctx ctx sub avpkt =
      some ⟨none, { ctx with pktbuf := avpkt.data ++ ctx.pktbuf.drop avpkt.data.length }, sub,
        if sub.num_rects > 0 then 1 else 0⟩ := by
  refine ⟨validate_third_byte_parity, ?_⟩
  rw [decode_eq rescale avctx ctx sub avpkt n hlen,
    decode_units_rejected rescale avctx avpkt n 0 _ sub avpkt.data (by omega)]
  · rfl
  · intro k hk
    obtain ⟨h1, h2, h3⟩ := hbad k hk
    rw [Nat.zero_add]
    exact ⟨.INVALIDDATA, validate_third_byte_parity _ _ _ h1 h2 h3⟩

/-- C14 (witness): a packet of two units with bad parity on the third byte,
of types 0 and 1, decoded on a context in ROLL-UP mode. -/
theorem decode_bad_parity_witness :
    (∀ p0 p1 p2, p0 &&& 4 ≠ 0 → (p0 &&& 3 = 0 ∨ p0 &&& 3 = 1) → av_parity p2 = 0 →
      validate_cc_data_pair (p0, p1, p2) = (some .INVALIDDATA, (p0, p1, p2))) ∧
    decode rescale_id ⟨⟨1, 1000⟩⟩ rollup_context ⟨[], 0⟩ ⟨[0xfc, 0x94, 0x00, 0xfd, 0x20, 0x03], 7⟩ =
      some ⟨none, { rollup_context with
        pktbuf := [0xfc, 0x94, 0x00, 0xfd, 0x20, 0x03] ++ rollup_context.pktbuf.drop 6 },
        ⟨[], 0⟩, if (⟨[], 0⟩ : AVSubtitle).num_rects > 0 then 1 else 0⟩ :=
  decode_bad_parity rescale_id ⟨⟨1, 1000⟩⟩ rollup_context ⟨[], 0⟩
    ⟨[0xfc, 0x94, 0x00, 0xfd, 0x20, 0x03], 7⟩ 2 (by decide) (by decide)

/-- C15 (counterexample).  The unit FC 41 C2 has its validity bit set, type 0,
odd parity on the third byte and bad parity on the second byte;
`validate_cc_data_pair` accepts it and replaces the second byte by 0x7F, which
is not the space 0x20, and `decode` writes 0x7F, 'B' on the row, where the
pair (0x20, 'B') would write a space and 'B'. -/
theorem validate_second_byte_not_space :
    0xFC &&& 4 ≠ 0 ∧ 0xFC &&& 3 = 0 ∧ av_parity 0xC2 = 1 ∧ av_parity 0x41 = 0 ∧
    validate_cc_data_pair (0xFC, 0x41, 0xC2) = (none, (0xFC, 0x7F, 0x42)) ∧
    (0x7F : Nat) ≠ 0x20 ∧
    (decode rescale_id ⟨⟨1, 1000⟩⟩ (fresh_context 0) ⟨[], 0⟩ ⟨[0xFC, 0x41, 0xC2], 0⟩).map
      (fun r => (r.ctx.screen.2.characters.getD 0 []).take 3) = some [0x7F, 0x42, 0] ∧
    ((process_cc608 (fresh_context 0) 0x20 0x42).screen.2.characters.getD 0 []).take 3 =
      [0x20, 0x42, 0] := by
  decide

/-- C15 (amended).  For every unit with the validity bit set, type 0, odd
parity on the third byte and bad parity on the second byte,
`validate_cc_data_pair` returns success and leaves the unit with its second
byte replaced by 0x7F and its third byte stripped of the parity bit; the loop
of `decode` then hands the pair `(0x7F, p2 & 0x7F)` to `process_cc608`. -/
theorem validate_second_byte_parity (p0 p1 p2 : Nat) (hv : p0 &&& 4 ≠ 0) (ht : p0 &&& 3 = 0)
    (h2 : av_parity p2 = 1) (h1 : av_parity p1 = 0) :
    validate_cc_data_pair (p0, p1, p2) = (none, (p0, 0x7F, p2 &&& 0x7F)) ∧
    ∀ (rescale : Int → AVRational → AVRational → Int) (avctx : AVCodecContext)
      (avpkt : AVPacket) (n : Nat) (ctx : CCaptionSubContext) (sub : AVSubtitle)
      (rest : List Nat),
      decode_units rescale avctx avpkt (n + 1) 0 ctx sub (p0 :: p1 :: p2 :: rest) =
        if (process_cc608 ctx 0x7F (p2 &&& 0x7F)).screen_reaped = 0 then
          decode_units rescale avctx avpkt n 3 (process_cc608 ctx 0x7F (p2 &&& 0x7F)) sub
            (p0 :: 0x7F :: (p2 &&& 0x7F) :: rest)
        else
          decode_units rescale avctx avpkt n 3
            (decode_emit rescale avctx avpkt (process_cc608 ctx 0x7F (p2 &&& 0x7F)) sub).1
            (decode_emit rescale avctx avpkt (process_cc608 ctx 0x7F (p2 &&& 0x7F)) sub).2
            (p0 :: 0x7F :: (p2 &&& 0x7F) :: rest) :=
  ⟨validate_second_byte_substituted p0 p1 p2 hv ht h2 h1,
    fun rescale avctx avpkt n ctx sub rest =>
      decode_units_accepted rescale avctx avpkt n ctx sub p0 p1 p2 0x7F (p2 &&& 0x7F) rest
        (validate_second_byte_substituted p0 p1 p2 hv ht h2 h1) rfl (and_7f_and_7f p2)
        (by omega)⟩

/-- C15 (witness): the unit FC 41 C2. -/
theorem validate_second_byte_parity_witness :
    validate_cc_data_pair (0xFC, 0x41, 0xC2) = (none, (0xFC, 0x7F, 0xC2 &&& 0x7F)) ∧
    ∀ (rescale : Int → AVRational → AVRational → Int) (avctx : AVCodecContext)
      (avpkt : AVPacket) (n : Nat) (ctx : CCaptionSubContext) (sub : AVSubtitle)
      (rest : List Nat),
      decode_units rescale avctx avpkt (n + 1) 0 ctx sub (0xFC :: 0x41 :: 0xC2 :: rest) =
        if (process_cc608 ctx 0x7F (0xC2 &&& 0x7F)).screen_reaped = 0 then
          decode_units rescale avctx avpkt n 3 (process_cc608 ctx 0x7F (0xC2 &&& 0x7F)) sub
            (0xFC :: 0x7F :: (0xC2 &&& 0x7F) :: rest)
        else
          decode_units rescale avctx avpkt n 3
            (decode_emit rescale avctx avpkt (process_cc608 ctx 0x7F (0xC2 &&& 0x7F)) sub).1
            (decode_emit rescale avctx avpkt (process_cc608 ctx 0x7F (0xC2 &&& 0x7F)) sub).2
            (0xFC :: 0x7F :: (0xC2 &&& 0x7F) :: rest) :=
  validate_second_byte_parity 0xFC 0x41 0xC2 (by decide) (by decide) (by decide) (by decide)

/-- C16 (counterexample).  The unit FA 00 00 is a filler pattern (first byte
0xFA, both data bytes zero in their low 7 bits) and 708-typed (type 2), and
`validate_cc_data_pair` returns invalid data for it, its validity bit being
clear; the filler FC 00 00, whose third byte lacks odd parity, is rejected
with invalid data as well. -/
theorem validate_filler_invalid :
    0xFA &&& 3 = 2 ∧ 0x00 &&& 0x7F = 0 ∧
    (validate_cc_data_pair (0xFA, 0x00, 0x00)).1 = some .INVALIDDATA ∧
    (validate_cc_data_pair (0xFA, 0x00, 0x00)).1 ≠ some .PATCHWELCOME ∧
    (validate_cc_data_pair (0xFC, 0x00, 0x00)).1 = some .INVALIDDATA := by
  decide

/-- C16 (amended).  For every unit whose validity bit is set and which is
708-typed (type 2 or 3), or whose first byte is 0xFC or 0xFD while both data
bytes have odd parity and are zero in their low 7 bits,
`validate_cc_data_pair` returns the feature-not-implemented condition, and so
not the malformed-input condition. -/
theorem validate_not_handled (p0 p1 p2 : Nat) (hv : p0 &&& 4 ≠ 0)
    (h : (p0 &&& 3 = 2 ∨ p0 &&& 3 = 3) ∨
      ((p0 = 0xFC ∨ p0 = 0xFD) ∧ av_parity p1 = 1 ∧ av_parity p2 = 1 ∧
        p1 &&& 0x7F = 0 ∧ p2 &&& 0x7F = 0)) :
    (validate_cc_data_pair (p0, p1, p2)).1 = some .PATCHWELCOME ∧
    (validate_cc_data_pair (p0, p1, p2)).1 ≠ some .INVALIDDATA := by
  rw [validate_patchwelcome p0 p1 p2 hv h]
  exact ⟨rfl, by decide⟩

/-- C16 (witness): the filler FC 80 80. -/
theorem validate_not_handled_witness :
    (validate_cc_data_pair (0xFC, 0x80, 0x80)).1 = some .PATCHWELCOME ∧
    (validate_cc_data_pair (0xFC, 0x80, 0x80)).1 ≠ some .INVALIDDATA :=
  validate_not_handled 0xFC 0x80 0x80 (by decide)
    (Or.inr ⟨Or.inl rfl, by decide, by decide, by decide, by decide⟩)

/-- C17.  Whenever `validate_cc_data_pair` returns success, the first byte of
the unit is unchanged and both data bytes are at most 0x7F: the third is the
low 7 bits of the input byte, and the second is the low 7 bits of the input
byte unless it was substituted for bad parity, when it is 0x7F. -/
theorem validate_strips_parity (p0 p1 p2 : Nat)
    (h : (validate_cc_data_pair (p0, p1, p2)).1 = none) :
    (validate_cc_data_pair (p0, p1, p2)).2.1 = p0 ∧
    (validate_cc_data_pair (p0, p1, p2)).2.2.1 ≤ 0x7F ∧
    (validate_cc_data_pair (p0, p1, p2)).2.2.2 ≤ 0x7F ∧
    (validate_cc_data_pair (p0, p1, p2)).2.2.1 =
      (if av_parity p1 = 0 then 0x7F else p1 &&& 0x7F) ∧
    (validate_cc_data_pair (p0, p1, p2)).2.2.2 = p2 &&& 0x7F := by
  rw [(validate_ok p0 p1 p2 h).1]
  refine ⟨rfl, ?_, and_7f_le p2, rfl, rfl⟩
  show (if av_parity p1 = 0 then 0x7F else p1 &&& 0x7F) ≤ 0x7F
  split_ifs
  · exact le_refl _
  · exact and_7f_le p1

/-- C17 (witness): the unit FC C8 E9, 'H' and 'i' with their parity bits. -/
theorem validate_strips_parity_witness :
    (validate_cc_data_pair (0xFC, 0xC8, 0xE9)).2.1 = 0xFC ∧
    (validate_cc_data_pair (0xFC, 0xC8, 0xE9)).2.2.1 ≤ 0x7F ∧
    (validate_cc_data_pair (0xFC, 0xC8, 0xE9)).2.2.2 ≤ 0x7F ∧
    (validate_cc_data_pair (0xFC, 0xC8, 0xE9)).2.2.1 =
      (if av_parity 0xC8 = 0 then 0x7F else 0xC8 &&& 0x7F) ∧
    (validate_cc_data_pair (0xFC, 0xC8, 0xE9)).2.2.2 = 0xE9 &&& 0x7F :=
  validate_strips_parity 0xFC 0xC8 0xE9 (by decide)

/-- C18 (counterexample).  A freshly initialised decoder, in its default batch
mode, emits no cue while it decodes the units resume-pop-on twice, 'H' 'i',
end-of-caption twice: the text is held for the next reap. -/
theorem decode_hi_batch_no_cue :
    (decode rescale_id ⟨⟨1, 1000⟩⟩ (fresh_context 0) ⟨[], 0⟩ hi_packet).map
      (fun r => (r.sub.rects, r.got_sub, r.ctx.prev_string)) =
      some ([], 0, some [0x48, 0x69, 0x0d, 0x0a]) := by
  decide

/-- C18 (amended).  From a freshly initialised decoder, whatever the content
of its packet buffer, the time base and the packet's `pts`, the units
resume-pop-on twice, 'H' 'i', end-of-caption twice yield, in real-time mode,
exactly one cue, whose text is "Hi", whose start is the rescaled `pts`
converted to `int` and whose duration is -1; in batch mode they yield no cue,
and the text "Hi" followed by CR LF is held with the packet's `pts` for the
next reap. -/
theorem decode_hi (rescale : Int → AVRational → AVRational → Int) (avctx : AVCodecContext)
    (pktbuf : List Nat) (pts : Int) :
    (decode rescale avctx (init_decoder (zero_context 1) pktbuf) ⟨[], 0⟩
        ⟨hi_packet.data, pts⟩).map (fun r => (r.ret, r.sub.rects, r.got_sub)) =
      some (none, [⟨[0x48, 0x69], to_int (rescale pts avctx.time_base ass_tb), -1⟩], 1) ∧
    (decode rescale avctx (init_decoder (zero_context 0) pktbuf) ⟨[], 0⟩
        ⟨hi_packet.data, pts⟩).map
        (fun r => (r.ret, r.sub.rects, r.got_sub, r.ctx.prev_string, r.ctx.prev_time)) =
      some (none, [], 0, some [0x48, 0x69, 0x0d, 0x0a], pts) := by
  have h1 : ({ init_decoder (zero_context 1) pktbuf with pktbuf := [] } : CCaptionSubContext) =
      init_decoder (zero_context 1) [] := rfl
  have h0 : ({ init_decoder (zero_context 0) pktbuf with pktbuf := [] } : CCaptionSubContext) =
      init_decoder (zero_context 0) [] := rfl
  rw [decode_eq rescale avctx (init_decoder (zero_context 1) pktbuf) ⟨[], 0⟩
      ⟨hi_packet.data, pts⟩ 5 rfl,
    decode_eq rescale avctx (init_decoder (zero_context 0) pktbuf) ⟨[], 0⟩
      ⟨hi_packet.data, pts⟩ 5 rfl, h1, h0]
  exact ⟨rfl, rfl⟩

/-- C19 (counterexample).  A context in ROLL-UP mode with window 2 and the
cursor on row 5, reached by writing text on rows 7, 8 and 5: after a carriage
return the rows 4, 7 and 8 of the screen are used, three rows and not at most
two. -/
theorem carriage_return_three_rows :
    rollup_context.mode = .CCMODE_ROLLUP ∧ rollup_context.rollup = 2 ∧
    rollup_context.cursor_row = 5 ∧
    used_rows (rollup_context.screen_at rollup_context.active_screen) = [5, 7, 8] ∧
    ((rollup_context.screen_at rollup_context.active_screen).characters.getD 5 []).take 3 =
      [0x43, 0x44, 0] ∧
    used_rows ((process_cc608 rollup_context 0x14 0x2d).screen_at rollup_context.active_screen) =
      [4, 7, 8] ∧
    ¬ (used_rows ((process_cc608 rollup_context 0x14 0x2d).screen_at
      rollup_context.active_screen)).length ≤ 2 := by
  decide

/-- C19 (amended).  For every context in ROLL-UP mode with window 2 and the
cursor on row 5, whose row 5 of the active screen is marked used and whose
previous command is not the carriage return itself, a carriage return leaves
at most two of the rows 0 to 5 of that screen used, which are at most two rows
in all when no row below the cursor was used; row 4 is used and holds in its
32 character columns what row 5 held, row 5 is unused, and the cursor column
is 0. -/
theorem carriage_return_window_two (ctx : CCaptionSubContext)
    (hmode : ctx.mode = .CCMODE_ROLLUP) (hroll : ctx.rollup = 2) (hrow : ctx.cursor_row = 5)
    (hused : (ctx.screen_at ctx.active_screen).used 5)
    (hprev : ctx.prev_cmd ≠ (0x14, 0x2d))
    (hwf : (ctx.screen_at ctx.active_screen).WF) :
    ((used_rows ((process_cc608 ctx 0x14 0x2d).screen_at ctx.active_screen)).filter
      (fun i => i < 6)).length ≤ 2 ∧
    ((∀ i, 6 ≤ i → i < SCREEN_ROWS → ¬ (ctx.screen_at ctx.active_screen).used i) →
      (used_rows ((process_cc608 ctx 0x14 0x2d).screen_at ctx.active_screen)).length ≤ 2) ∧
    ((process_cc608 ctx 0x14 0x2d).screen_at ctx.active_screen).used 4 ∧
    ¬ ((process_cc608 ctx 0x14 0x2d).screen_at ctx.active_screen).used 5 ∧
    (((process_cc608 ctx 0x14 0x2d).screen_at ctx.active_screen).characters.getD 4 []).take
        SCREEN_COLUMNS =
      ((ctx.screen_at ctx.active_screen).characters.getD 5 []).take SCREEN_COLUMNS ∧
    (process_cc608 ctx 0x14 0x2d).cursor_column = 0 := by
  have hs : (process_cc608 ctx 0x14 0x2d).screen_at ctx.active_screen =
      (roll_up (reap_screen ctx)).screen_at ctx.active_screen := by
    rw [process_cc608_carriage_return ctx hprev]
    rfl
  have hc : (process_cc608 ctx 0x14 0x2d).cursor_column = 0 := by
    rw [process_cc608_carriage_return ctx hprev]
  obtain ⟨hR, hC⟩ := roll_up_window_two (reap_screen ctx) hmode hroll hrow hused
  have es : (reap_screen ctx).screen_at (reap_screen ctx).active_screen =
      ctx.screen_at ctx.active_screen := rfl
  have ea : (reap_screen ctx).active_screen = ctx.active_screen := rfl
  rw [es, ea] at hR hC
  have h5 : (ctx.screen_at ctx.active_screen).row_used.testBit 5 = true :=
    (check_flag_ne_zero_iff _ _).mp hused
  have hbit : ∀ i, ((process_cc608 ctx 0x14 0x2d).screen_at ctx.active_screen).used i ↔
      (decide (i = 4) || ((ctx.screen_at ctx.active_screen).row_used.testBit i &&
        (decide (i = 3) || (decide (6 ≤ i) && decide (i < 16))))) = true := by
    intro i
    unfold Screen.used
    rw [check_flag_ne_zero_iff, hs]
    rw [hR]
    exact Eq.congr_left (rolled_mask_testBit _ i h5)
  have n0 : ¬ ((process_cc608 ctx 0x14 0x2d).screen_at ctx.active_screen).used 0 := by
    rw [hbit]; simp
  have n1 : ¬ ((process_cc608 ctx 0x14 0x2d).screen_at ctx.active_screen).used 1 := by
    rw [hbit]; simp
  have n2 : ¬ ((process_cc608 ctx 0x14 0x2d).screen_at ctx.active_screen).used 2 := by
    rw [hbit]; simp
  have n5 : ¬ ((process_cc608 ctx 0x14 0x2d).screen_at ctx.active_screen).used 5 := by
    rw [hbit]; simp
  have hsix := used_rows_below_six _ n0 n1 n2 n5
  refine ⟨hsix, ?_, ?_, n5, ?_, hc⟩
  · intro hbelow
    rw [← used_rows_all_below_six _ (fun i h6 h15 => ?_)]
    · exact hsix
    · rw [hbit]
      have hb : (ctx.screen_at ctx.active_screen).row_used.testBit i = false := by
        have := hbelow i h6 h15
        unfold Screen.used at this
        rw [check_flag_ne_zero_iff] at this
        exact Bool.eq_false_iff.mpr this
      have d4 : decide (i = 4) = false := by simp; omega
      rw [hb, d4]
      simp
  · rw [hbit]; simp
  · obtain ⟨⟨hlen, hrows⟩, _, _⟩ := hwf
    rw [hs, hC]
    have hl5 : SCREEN_COLUMNS ≤ ((ctx.screen_at ctx.active_screen).characters.getD 5 []).length := by
      rw [List.getD_eq_getElem _ _ (by rw [hlen]; decide),
        hrows _ (List.getElem_mem _)]
      decide
    rw [List.getD_eq_getElem?_getD, List.getElem?_set_ne (by decide),
      List.getElem?_set_self (by rw [hlen]; decide)]
    exact take_memcpy _ _ _ hl5

/-- C19 (witness): ROLL-UP mode with window 2, text on row 5 alone. -/
theorem carriage_return_window_two_witness :
    (used_rows (rollup_row5_context.screen_at rollup_row5_context.active_screen)) = [5] ∧
    (used_rows ((process_cc608 rollup_row5_context 0x14 0x2d).screen_at
      rollup_row5_context.active_screen)).length ≤ 2 ∧
    ((process_cc608 rollup_row5_context 0x14 0x2d).screen_at
      rollup_row5_context.active_screen).used 4 ∧
    ¬ ((process_cc608 rollup_row5_context 0x14 0x2d).screen_at
      rollup_row5_context.active_screen).used 5 ∧
    (process_cc608 rollup_row5_context 0x14 0x2d).cursor_column = 0 :=
  ⟨by decide,
    (carriage_return_window_two rollup_row5_context (by decide) (by decide) (by decide)
      (by decide) (by decide) (by decide)).2.1 (by decide),
    (carriage_return_window_two rollup_row5_context (by decide) (by decide) (by decide)
      (by decide) (by decide) (by decide)).2.2.1,
    (carriage_return_window_two rollup_row5_context (by decide) (by decide) (by decide)
      (by decide) (by decide) (by decide)).2.2.2.1,
    (carriage_return_window_two rollup_row5_context (by decide) (by decide) (by decide)
      (by decide) (by decide) (by decide)).2.2.2.2.2⟩

/-- C20.  `reap_screen` sets the text buffer to the text of the active screen:
the texts of its used rows, in increasing row order, each the zero-terminated
characters of the row with the leading spaces removed, joined by the marker
`\N` with none after the last; it sets the screen-reaped flag and changes
nothing else. -/
theorem reap_screen_text (ctx : CCaptionSubContext) :
    reap_screen ctx =
      { ctx with buffer := screen_text (ctx.screen_at ctx.active_screen), screen_reaped := 1 } ∧
    (reap_screen ctx).buffer =
      join_lines ((used_rows (ctx.screen_at ctx.active_screen)).map
        (fun i => ((c_str ((ctx.screen_at ctx.active_screen).characters.getD i [])).dropWhile
          (fun c => c = 0x20)))) ∧
    (reap_screen ctx).screen_reaped = 1 := by
  rw [reap_screen_eq]
  exact ⟨rfl, rfl, rfl⟩

/-- C21 (counterexample).  The active screen of a freshly initialised decoder
has no used rows and the screen-reaped flag is 0; `reap_screen` leaves an
empty text buffer and sets the flag to 1. -/
theorem reap_screen_empty_sets_flag :
    used_rows ((fresh_context 0).screen_at (fresh_context 0).active_screen) = [] ∧
    (fresh_context 0).screen_reaped = 0 ∧
    (reap_screen (fresh_context 0)).buffer = [] ∧
    (reap_screen (fresh_context 0)).screen_reaped = 1 := by
  decide

/-- C21 (amended).  Reaping an active screen that has no used rows leaves an
empty text buffer and sets the screen-reaped flag, as every reap does; a
second reap with no command in between leaves the same empty buffer, and the
same context. -/
theorem reap_screen_empty (ctx : CCaptionSubContext)
    (h : used_rows (ctx.screen_at ctx.active_screen) = []) :
    (reap_screen ctx).buffer = [] ∧ (reap_screen ctx).screen_reaped = 1 ∧
    (reap_screen (reap_screen ctx)).buffer = [] ∧
    reap_screen (reap_screen ctx) = reap_screen ctx := by
  have hs : screen_text (ctx.screen_at ctx.active_screen) = [] := by
    unfold screen_text
    rw [h]
    rfl
  have e : reap_screen ctx = { ctx with buffer := [], screen_reaped := 1 } := by
    rw [reap_screen_eq, hs]
  have e2 : reap_screen (reap_screen ctx) = reap_screen ctx := by
    rw [e, reap_screen_eq]
    show ({ ctx with buffer := screen_text (ctx.screen_at ctx.active_screen), screen_reaped := 1 } :
      CCaptionSubContext) = _
    rw [hs]
  rw [e2, e]
  exact ⟨rfl, rfl, rfl, rfl⟩

/-- C21 (witness): the freshly initialised decoder. -/
theorem reap_screen_empty_witness :
    (reap_screen (fresh_context 0)).buffer = [] ∧ (reap_screen (fresh_context 0)).screen_reaped = 1 ∧
    (reap_screen (reap_screen (fresh_context 0))).buffer = [] ∧
    reap_screen (reap_screen (fresh_context 0)) = reap_screen (fresh_context 0) :=
  reap_screen_empty (fresh_context 0) (by decide)

/-- C22.  Double buffering: a printable pair (`hi ≥ 0x20`) processed by
`process_cc608` in POP-ON mode leaves the active screen as it was, and in
PAINT-ON, ROLL-UP and TEXT modes leaves the inactive screen as it was; the
index of the active screen does not change. -/
theorem process_cc608_char_double_buffering (ctx : CCaptionSubContext) (hi lo : Nat)
    (hhi : 0x20 ≤ hi) :
    (ctx.mode = .CCMODE_POPON →
      (process_cc608 ctx hi lo).screen_at ctx.active_screen = ctx.screen_at ctx.active_screen) ∧
    (ctx.mode ≠ .CCMODE_POPON →
      (process_cc608 ctx hi lo).screen_at (lnot ctx.active_screen) =
        ctx.screen_at (lnot ctx.active_screen)) ∧
    (process_cc608 ctx hi lo).active_screen = ctx.active_screen := by
  by_cases hprev : ctx.prev_cmd = (hi, lo)
  · rw [process_cc608_suppressed ctx hi lo hprev]
    exact ⟨fun _ => rfl, fun _ => rfl, rfl⟩
  · rw [process_cc608_char ctx hi lo hhi hprev]
    have hs : ∀ n, ({ handle_char ctx hi lo with prev_cmd := (hi, lo) } :
        CCaptionSubContext).screen_at n = (handle_char ctx hi lo).screen_at n := fun _ => rfl
    refine ⟨?_, ?_, ?_⟩
    · intro hm
      have hw : get_writing_screen ctx = lnot ctx.active_screen := by
        unfold get_writing_screen
        rw [hm]
      have h := handle_char_screen_at_other ctx hi lo
      rw [hw] at h
      rw [hs, ← lnot_lnot_screen_at ctx ctx.active_screen,
        ← lnot_lnot_screen_at (handle_char ctx hi lo) ctx.active_screen]
      exact h
    · intro hm
      have hw : get_writing_screen ctx = ctx.active_screen := by
        unfold get_writing_screen
        cases hmode : ctx.mode
        · exact absurd hmode hm
        all_goals rfl
      have h := handle_char_screen_at_other ctx hi lo
      rw [hw] at h
      rw [hs]
      exact h
    · show (handle_char ctx hi lo).active_screen = ctx.active_screen
      unfold handle_char
      exact set_screen_active_screen _ _ _

/-- C22 (witness): the pair 'H', 'i' on a fresh decoder, which is in POP-ON
mode (the inactive screen takes the text), and on a context in ROLL-UP mode
(the active screen takes it). -/
theorem process_cc608_char_double_buffering_witness :
    (fresh_context 0).mode = .CCMODE_POPON ∧
    (process_cc608 (fresh_context 0) 0x48 0x69).screen_at (fresh_context 0).active_screen =
      (fresh_context 0).screen_at (fresh_context 0).active_screen ∧
    (process_cc608 (fresh_context 0) 0x48 0x69).screen_at (lnot (fresh_context 0).active_screen) ≠
      (fresh_context 0).screen_at (lnot (fresh_context 0).active_screen) ∧
    rollup_row5_context.mode = .CCMODE_ROLLUP ∧
    (process_cc608 rollup_row5_context 0x41 0x42).screen_at
        (lnot rollup_row5_context.active_screen) =
      rollup_row5_context.screen_at (lnot rollup_row5_context.active_screen) ∧
    (process_cc608 rollup_row5_context 0x41 0x42).screen_at rollup_row5_context.active_screen ≠
      rollup_row5_context.screen_at rollup_row5_context.active_screen :=
  ⟨by decide,
    (process_cc608_char_double_buffering (fresh_context 0) 0x48 0x69 (by decide)).1 (by decide),
    by decide, by decide,
    (process_cc608_char_double_buffering rollup_row5_context 0x41 0x42 (by decide)).2.1
      (by decide),
    by decide⟩

/-- C23.  Mode transitions.  For `hi` in 0x14, 0x15, 0x1c and a pair that is
not suppressed as redundant, `lo = 0x20` sets the mode to POP-ON, `lo = 0x25`,
`0x26`, `0x27` set the mode to ROLL-UP with window 2, 3, 4, `lo = 0x29` sets
PAINT-ON and `lo = 0x2b` sets TEXT, and the context is otherwise the one
before, with the pair in the previous-command cache; every other pair, and
every suppressed pair, leaves the mode as it was. -/
theorem process_cc608_mode (ctx : CCaptionSubContext) (hi lo : Nat) :
    ((hi = 0x14 ∨ hi = 0x15 ∨ hi = 0x1c) → ctx.prev_cmd ≠ (hi, lo) →
      (lo = 0x20 →
        process_cc608 ctx hi lo = { ctx with mode := .CCMODE_POPON, prev_cmd := (hi, lo) }) ∧
      (lo = 0x25 →
        process_cc608 ctx hi lo =
          { ctx with rollup := 2, mode := .CCMODE_ROLLUP, prev_cmd := (hi, lo) }) ∧
      (lo = 0x26 →
        process_cc608 ctx hi lo =
          { ctx with rollup := 3, mode := .CCMODE_ROLLUP, prev_cmd := (hi, lo) }) ∧
      (lo = 0x27 →
        process_cc608 ctx hi lo =
          { ctx with rollup := 4, mode := .CCMODE_ROLLUP, prev_cmd := (hi, lo) }) ∧
      (lo = 0x29 →
        process_cc608 ctx hi lo = { ctx with mode := .CCMODE_PAINTON, prev_cmd := (hi, lo) }) ∧
      (lo = 0x2b →
        process_cc608 ctx hi lo = { ctx with mode := .CCMODE_TEXT, prev_cmd := (hi, lo) })) ∧
    (¬ ((hi = 0x14 ∨ hi = 0x15 ∨ hi = 0x1c) ∧ ctx.prev_cmd ≠ (hi, lo) ∧
        (lo = 0x20 ∨ lo = 0x25 ∨ lo = 0x26 ∨ lo = 0x27 ∨ lo = 0x29 ∨ lo = 0x2b)) →
      (process_cc608 ctx hi lo).mode = ctx.mode) := by
  refine ⟨?_, ?_⟩
  · intro hhi hprev
    refine ⟨?_, ?_, ?_, ?_, ?_, ?_⟩
    all_goals
      intro hlo
      subst hlo
      rw [process_cc608_control ctx hi _ hhi (by decide) hprev]
      rfl
  · intro h
    exact process_cc608_dispatch_mode ctx hi lo h

/-- C23 (witness): the roll-up command with window 2 on a fresh decoder, and a
printable pair, which leaves the mode. -/
theorem process_cc608_mode_witness :
    process_cc608 (fresh_context 0) 0x14 0x25 =
      { fresh_context 0 with rollup := 2, mode := .CCMODE_ROLLUP, prev_cmd := (0x14, 0x25) } ∧
    (process_cc608 rollup_row5_context 0x41 0x42).mode = .CCMODE_ROLLUP :=
  ⟨((process_cc608_mode (fresh_context 0) 0x14 0x25).1 (by decide) (by decide)).2.1 rfl,
    ((process_cc608_mode rollup_row5_context 0x41 0x42).2 (by decide)).trans (by decide)⟩

/-- C24.  PAC handling: for every pair in the PAC ranges that is not
suppressed, `process_cc608` sets the cursor row to
`row_map[((hi << 1) & 0x0e) | ((lo >> 5) & 1)] - 1`, the cursor colour and
font to those of `pac2_attribs[lo & 0x1f]`, writes `indent`, the third entry
of `pac2_attribs[lo & 0x1f]`, spaces into the columns 0 to `indent - 1` of
that row of the writing screen, the rest of the row kept, and leaves the
cursor column at `indent`. -/
theorem process_cc608_pac_cursor (ctx : CCaptionSubContext) (hi lo : Nat)
    (hpac : (hi = 0x10 ∧ (lo ≥ 0x40 ∧ lo ≤ 0x5f)) ∨
      ((hi ≥ 0x11 ∧ hi ≤ 0x17) ∧ (lo ≥ 0x40 ∧ lo ≤ 0x7f)))
    (hprev : ctx.prev_cmd ≠ (hi, lo))
    (hwf : (ctx.screen_at (get_writing_screen ctx)).WF) :
    ((process_cc608 ctx hi lo).cursor_row : Int) =
      row_map.getD (((hi <<< 1) &&& 0x0e) ||| ((lo >>> 5) &&& 0x01)) 0 - 1 ∧
    (process_cc608 ctx hi lo).cursor_color = (pac2_attribs.getD (lo &&& 0x1f) (0, 0, 0)).1 ∧
    (process_cc608 ctx hi lo).cursor_font = (pac2_attribs.getD (lo &&& 0x1f) (0, 0, 0)).2.1 ∧
    (process_cc608 ctx hi lo).cursor_column = (pac2_attribs.getD (lo &&& 0x1f) (0, 0, 0)).2.2 ∧
    ((process_cc608 ctx hi lo).screen_at (get_writing_screen ctx)).characters.getD
        (process_cc608 ctx hi lo).cursor_row [] =
      List.replicate (pac2_attribs.getD (lo &&& 0x1f) (0, 0, 0)).2.2 0x20 ++
        ((ctx.screen_at (get_writing_screen ctx)).characters.getD
          (process_cc608 ctx hi lo).cursor_row []).drop
          (pac2_attribs.getD (lo &&& 0x1f) (0, 0, 0)).2.2 := by
  obtain ⟨hpos, hle⟩ := pac_row_pos hi lo hpac
  have hk : lo &&& 0x1f < 32 := Nat.lt_succ_of_le Nat.and_le_right
  have hind := pac_indent_le (lo &&& 0x1f) hk
  generalize hR : row_map.getD (((hi <<< 1) &&& 0x0e) ||| ((lo >>> 5) &&& 0x01)) 0 = R at hpos hle
  generalize hI : (pac2_attribs.getD (lo &&& 0x1f) (0, 0, 0)).2.2 = indent at hind
  have hr : (R - 1).toNat < SCREEN_ROWS := by
    unfold SCREEN_ROWS
    omega
  have hrl := wf_row_length _ hwf (R - 1).toNat hr
  have hclen : (ctx.screen_at (get_writing_screen ctx)).characters.length = SCREEN_ROWS := hwf.1.1
  have e : process_cc608 ctx hi lo =
      { ({ ctx with
            cursor_row := (R - 1).toNat
            cursor_color := (pac2_attribs.getD (lo &&& 0x1f) (0, 0, 0)).1
            cursor_font := (pac2_attribs.getD (lo &&& 0x1f) (0, 0, 0)).2.1
            cursor_column := 0 } : CCaptionSubContext).set_screen (get_writing_screen ctx)
          { ctx.screen_at (get_writing_screen ctx) with
            characters := (ctx.screen_at (get_writing_screen ctx)).characters.set (R - 1).toNat
              (List.replicate indent 0x20 ++
                ((ctx.screen_at (get_writing_screen ctx)).characters.getD (R - 1).toNat []).drop
                  indent) } with
        cursor_column := indent
        prev_cmd := (hi, lo) } := by
    rw [process_cc608_pac ctx hi lo hpac hprev]
    unfold handle_pac
    dsimp only
    rw [hR, hI, if_neg (by omega),
      handle_pac_indent_snd indent _ 0 (by omega),
      handle_pac_indent_row indent _ (by omega) (by rw [hrl]; unfold SCREEN_COLUMNS; omega),
      Nat.zero_add]
  rw [e]
  refine ⟨?_, ?_, ?_, rfl, ?_⟩
  · show (((CCaptionSubContext.set_screen _ _ _).cursor_row : Nat) : Int) = R - 1
    rw [(set_screen_cursor _ _ _).1]
    show (((R - 1).toNat : Nat) : Int) = R - 1
    omega
  · show (CCaptionSubContext.set_screen _ _ _).cursor_color = _
    rw [(set_screen_cursor _ _ _).2.2.1]
  · show (CCaptionSubContext.set_screen _ _ _).cursor_font = _
    rw [(set_screen_cursor _ _ _).2.2.2]
  · show ((CCaptionSubContext.set_screen _ _ _).screen_at (get_writing_screen ctx)).characters.getD
      (CCaptionSubContext.set_screen _ _ _).cursor_row [] = _ ++ List.drop _
        (List.getD _ (CCaptionSubContext.set_screen _ _ _).cursor_row [])
    rw [screen_at_set_screen, (set_screen_cursor _ _ _).1]
    exact getD_set_self _ _ _ (by rw [hclen]; exact hr)

/-- C24 (witness): the pair 0x15 0x74 on a fresh decoder: row 5 of the
inactive screen takes eight spaces and the cursor is left on row 5, column
8. -/
theorem process_cc608_pac_cursor_witness :
    ((process_cc608 (fresh_context 0) 0x15 0x74).cursor_row : Int) = 6 - 1 ∧
    (process_cc608 (fresh_context 0) 0x15 0x74).cursor_column = 8 ∧
    (((process_cc608 (fresh_context 0) 0x15 0x74).screen_at 1).characters.getD 5 []).take 10 =
      [0x20, 0x20, 0x20, 0x20, 0x20, 0x20, 0x20, 0x20, 0, 0] ∧
    ((process_cc608 (fresh_context 0) 0x15 0x74).screen_at
        (get_writing_screen (fresh_context 0))).characters.getD
        (process_cc608 (fresh_context 0) 0x15 0x74).cursor_row [] =
      List.replicate (pac2_attribs.getD (0x74 &&& 0x1f) (0, 0, 0)).2.2 0x20 ++
        (((fresh_context 0).screen_at (get_writing_screen (fresh_context 0))).characters.getD
          (process_cc608 (fresh_context 0) 0x15 0x74).cursor_row []).drop
          (pac2_attribs.getD (0x74 &&& 0x1f) (0, 0, 0)).2.2 :=
  ⟨(process_cc608_pac_cursor (fresh_context 0) 0x15 0x74 (by decide) (by decide)
      (by decide)).1.trans (by decide),
    (process_cc608_pac_cursor (fresh_context 0) 0x15 0x74 (by decide) (by decide)
      (by decide)).2.2.2.1.trans (by decide),
    by decide,
    (process_cc608_pac_cursor (fresh_context 0) 0x15 0x74 (by decide) (by decide)
      (by decide)).2.2.2.2⟩

/-- C25.  Printable characters and line overflow: for a pair with `hi ≥ 0x20`
that is not suppressed, with the cursor inside the grid, `process_cc608`
marks the cursor row of the writing screen used, writes `hi` at the cursor
column and `lo`, when it is not zero, at the next column, each only when its
column is one of the columns 0 to 31, advances the cursor column by one for
each character written, and writes a zero at the column it leaves; the other
cells of the row are kept, so a character that would land beyond column 31
changes neither the columns 0 to 31 nor the cursor column. -/
theorem process_cc608_char_cells (ctx : CCaptionSubContext) (hi lo : Nat) (hhi : 0x20 ≤ hi)
    (hprev : ctx.prev_cmd ≠ (hi, lo))
    (hwf : (ctx.screen_at (get_writing_screen ctx)).WF)
    (hr : ctx.cursor_row < SCREEN_ROWS) (hc : ctx.cursor_column ≤ SCREEN_COLUMNS) :
    ((process_cc608 ctx hi lo).screen_at (get_writing_screen ctx)).used ctx.cursor_row ∧
    (process_cc608 ctx hi lo).cursor_row = ctx.cursor_row ∧
    (process_cc608 ctx hi lo).cursor_column =
      min SCREEN_COLUMNS (ctx.cursor_column + if lo = 0 then 1 else 2) ∧
    (ctx.cursor_column < SCREEN_COLUMNS →
      (((process_cc608 ctx hi lo).screen_at (get_writing_screen ctx)).characters.getD
        ctx.cursor_row [])[ctx.cursor_column]? = some hi) ∧
    (lo ≠ 0 → ctx.cursor_column + 1 < SCREEN_COLUMNS →
      (((process_cc608 ctx hi lo).screen_at (get_writing_screen ctx)).characters.getD
        ctx.cursor_row [])[ctx.cursor_column + 1]? = some lo) ∧
    (((process_cc608 ctx hi lo).screen_at (get_writing_screen ctx)).characters.getD
      ctx.cursor_row [])[(process_cc608 ctx hi lo).cursor_column]? = some 0 ∧
    (∀ j, j < ctx.cursor_column ∨ (process_cc608 ctx hi lo).cursor_column < j →
      (((process_cc608 ctx hi lo).screen_at (get_writing_screen ctx)).characters.getD
        ctx.cursor_row [])[j]? =
      ((ctx.screen_at (get_writing_screen ctx)).characters.getD ctx.cursor_row [])[j]?) ∧
    (ctx.cursor_column = SCREEN_COLUMNS →
      (process_cc608 ctx hi lo).cursor_column = SCREEN_COLUMNS ∧
      ∀ j, j < SCREEN_COLUMNS →
        (((process_cc608 ctx hi lo).screen_at (get_writing_screen ctx)).characters.getD
          ctx.cursor_row [])[j]? =
        ((ctx.screen_at (get_writing_screen ctx)).characters.getD ctx.cursor_row [])[j]?) := by
  have hlen := wf_row_length _ hwf ctx.cursor_row hr
  have hclen : (ctx.screen_at (get_writing_screen ctx)).characters.length = SCREEN_ROWS := hwf.1.1
  unfold SCREEN_COLUMNS at hc hlen ⊢
  obtain ⟨ROW, COL, e, hCOL, h1, h2, h3, h4⟩ := handle_char_cells ctx hi lo hhi hlen hc
  have hrow : ((process_cc608 ctx hi lo).screen_at (get_writing_screen ctx)).characters.getD
      ctx.cursor_row [] = ROW := by
    rw [process_cc608_char ctx hi lo hhi hprev, e]
    show ((CCaptionSubContext.set_screen _ _ _).screen_at (get_writing_screen ctx)).characters.getD
      ctx.cursor_row [] = ROW
    rw [screen_at_set_screen]
    exact getD_set_self _ _ _ (by rw [hclen]; exact hr)
  have hcol : (process_cc608 ctx hi lo).cursor_column = COL := by
    rw [process_cc608_char ctx hi lo hhi hprev, e]
  have hused : ((process_cc608 ctx hi lo).screen_at (get_writing_screen ctx)).used
      ctx.cursor_row := by
    rw [process_cc608_char ctx hi lo hhi hprev, e]
    show ((CCaptionSubContext.set_screen _ _ _).screen_at (get_writing_screen ctx)).used
      ctx.cursor_row
    rw [screen_at_set_screen]
    unfold Screen.used
    rw [check_flag_ne_zero_iff]
    dsimp only
    rw [testBit_set_flag]
    simp
  have hcrow : (process_cc608 ctx hi lo).cursor_row = ctx.cursor_row := by
    rw [process_cc608_char ctx hi lo hhi hprev, e]
    show (CCaptionSubContext.set_screen _ _ _).cursor_row = _
    rw [(set_screen_cursor _ _ _).1]
  rw [hrow, hcol]
  refine ⟨hused, hcrow, hCOL, h1, h2, h3, h4, ?_⟩
  intro h32
  refine ⟨?_, ?_⟩
  · rw [hCOL, h32]
    split_ifs <;> rfl
  · intro j hj
    exact h4 j (Or.inl (by omega))

set_option maxRecDepth 4096 in
/-- C25 (witness): the pair 'H', 'i' on a fresh decoder, which writes both
characters and a zero and leaves the cursor on column 2; and the pair 'E',
'F' on a full row, which is dropped: the cursor stays on column 32 and the
row keeps its 32 characters. -/
theorem process_cc608_char_cells_witness :
    (process_cc608 (fresh_context 0) 0x48 0x69).cursor_column = 2 ∧
    (((process_cc608 (fresh_context 0) 0x48 0x69).screen_at
      (get_writing_screen (fresh_context 0))).characters.getD 0 []).take 3 = [0x48, 0x69, 0] ∧
    ((process_cc608 (fresh_context 0) 0x48 0x69).screen_at
      (get_writing_screen (fresh_context 0))).used (fresh_context 0).cursor_row ∧
    full_row_context.cursor_column = SCREEN_COLUMNS ∧
    (process_cc608 full_row_context 0x45 0x46).cursor_column = SCREEN_COLUMNS ∧
    ∀ j, j < SCREEN_COLUMNS →
      (((process_cc608 full_row_context 0x45 0x46).screen_at
        (get_writing_screen full_row_context)).characters.getD
          full_row_context.cursor_row [])[j]? =
      ((full_row_context.screen_at (get_writing_screen full_row_context)).characters.getD
        full_row_context.cursor_row [])[j]? :=
  ⟨(process_cc608_char_cells (fresh_context 0) 0x48 0x69 (by decide) (by decide) (by decide)
      (by decide) (by decide)).2.2.1.trans (by decide),
    by decide,
    (process_cc608_char_cells (fresh_context 0) 0x48 0x69 (by decide) (by decide) (by decide)
      (by decide) (by decide)).1,
    by decide,
    ((process_cc608_char_cells full_row_context 0x45 0x46 (by decide) (by decide) (by decide)
      (by decide) (by decide)).2.2.2.2.2.2.2 (by decide)).1,
    ((process_cc608_char_cells full_row_context 0x45 0x46 (by decide) (by decide) (by decide)
      (by decide) (by decide)).2.2.2.2.2.2.2 (by decide)).2⟩

/-- C26.  End of caption: a pair with `hi` in 0x14, 0x15, 0x1c and
`lo = 0x2f` that is not suppressed toggles the index of the active screen,
sets the cursor column to 0 and reaps the newly active screen: the text buffer
becomes the text of the screen that was inactive, the screen-reaped flag is
set, the pair is recorded, and nothing else changes, the two screens
included. -/
theorem process_cc608_end_of_caption (ctx : CCaptionSubContext) (hi : Nat)
    (hhi : hi = 0x14 ∨ hi = 0x15 ∨ hi = 0x1c) (hprev : ctx.prev_cmd ≠ (hi, 0x2f)) :
    process_cc608 ctx hi 0x2f =
      { ctx with
        active_screen := lnot ctx.active_screen
        cursor_column := 0
        buffer := screen_text (ctx.screen_at (lnot ctx.active_screen))
        screen_reaped := 1
        prev_cmd := (hi, 0x2f) } ∧
    (process_cc608 ctx hi 0x2f).active_screen = lnot ctx.active_screen ∧
    (process_cc608 ctx hi 0x2f).cursor_column = 0 ∧
    (process_cc608 ctx hi 0x2f).buffer = screen_text (ctx.screen_at (lnot ctx.active_screen)) ∧
    (process_cc608 ctx hi 0x2f).screen = ctx.screen := by
  rw [process_cc608_eoc ctx hi hhi hprev]
  exact ⟨rfl, rfl, rfl, rfl, rfl⟩

/-- C26 (witness): end of caption on the POP-ON context whose inactive screen
holds "Hi"; the text buffer becomes "Hi" and screen 1 is the active one. -/
theorem process_cc608_end_of_caption_witness :
    (process_cc608 popon_hi_context 0x14 0x2f).buffer = [0x48, 0x69] ∧
    popon_hi_context.active_screen = 0 ∧
    (process_cc608 popon_hi_context 0x14 0x2f).active_screen = 1 ∧
    (process_cc608 popon_hi_context 0x14 0x2f).cursor_column = 0 ∧
    (process_cc608 popon_hi_context 0x14 0x2f).buffer =
      screen_text (popon_hi_context.screen_at (lnot popon_hi_context.active_screen)) ∧
    (process_cc608 popon_hi_context 0x14 0x2f).screen = popon_hi_context.screen :=
  ⟨by decide, by decide,
    (process_cc608_end_of_caption popon_hi_context 0x14 (by decide) (by decide)).2.1,
    (process_cc608_end_of_caption popon_hi_context 0x14 (by decide) (by decide)).2.2.1,
    (process_cc608_end_of_caption popon_hi_context 0x14 (by decide) (by decide)).2.2.2.1,
    (process_cc608_end_of_caption popon_hi_context 0x14 (by decide) (by decide)).2.2.2.2⟩

/-- C27 (counterexample).  A batch decoder whose packets have the time base of
the cues holds "Hi" from a reap at time `2^32 + 1000` and takes an
end-of-caption unit at time `2^32 + 3000`.  The cue it emits has the held text
and the duration 2000, but its start is 1000 and not the timestamp of the
previous reap. -/
theorem decode_batch_cue_start_wraps :
    held_late_context.real_time = 0 ∧
    held_late_context.prev_string = some [0x48, 0x69, 0x0d, 0x0a] ∧
    held_late_context.prev_time = 4294968296 ∧
    rescale_id 4294968296 ass_tb ass_tb = 4294968296 ∧
    (decode rescale_id ⟨ass_tb⟩ held_late_context ⟨[], 0⟩ ⟨[0xfc, 0x94, 0x2f], 4294970296⟩).map
        (fun r => r.sub.rects) =
      some [⟨[0x48, 0x69, 0x0d, 0x0a], 1000, 2000⟩] ∧
    (1000 : Int) ≠ 4294968296 := by
  decide

/-- C27 (amended).  Batch cue emission.  In batch mode (`real_time = 0`) the
step that `decode` takes at a reap emits no cue when no text is held (the
first reap), and when a text is held appends exactly one cue, whose text is
the held text, whose start is the held timestamp and whose duration is the
packet's timestamp minus the held one, each timestamp converted by
`av_rescale_q` to the cue time base and then to `int`, and the difference
taken in `int`; the text just reaped, followed by CR LF, and the packet's
timestamp become the held ones and the reaped flag is cleared.  So `decode` of
a packet that holds one end-of-caption unit emits the held cue, if any, and
holds the text of the screen that becomes active. -/
theorem decode_batch_cue (rescale : Int → AVRational → AVRational → Int)
    (avctx : AVCodecContext) (avpkt : AVPacket) (ctx : CCaptionSubContext) (sub : AVSubtitle)
    (hbatch : ctx.real_time = 0) :
    (ctx.prev_string = none → (decode_emit rescale avctx avpkt ctx sub).2 = sub) ∧
    (∀ held, ctx.prev_string = some held →
      (decode_emit rescale avctx avpkt ctx sub).2.rects =
        sub.rects ++ [⟨c_str held, to_int (rescale ctx.prev_time avctx.time_base ass_tb),
          to_int (to_int (rescale avpkt.pts avctx.time_base ass_tb) -
            to_int (rescale ctx.prev_time avctx.time_base ass_tb))⟩]) ∧
    (decode_emit rescale avctx avpkt ctx sub).1.prev_string =
      some (c_str (ctx.buffer ++ [0x0d, 0x0a])) ∧
    (decode_emit rescale avctx avpkt ctx sub).1.prev_time = avpkt.pts ∧
    (decode_emit rescale avctx avpkt ctx sub).1.screen_reaped = 0 ∧
    (ctx.prev_cmd ≠ (0x14, 0x2f) →
      (decode rescale avctx ctx sub ⟨[0xfc, 0x94, 0x2f], avpkt.pts⟩).map
          (fun r => (r.sub.rects, r.ctx.prev_string, r.ctx.prev_time)) =
        some
          (sub.rects ++
            (match ctx.prev_string with
            | none => []
            | some held =>
              [⟨c_str held, to_int (rescale ctx.prev_time avctx.time_base ass_tb),
                to_int (to_int (rescale avpkt.pts avctx.time_base ass_tb) -
                  to_int (rescale ctx.prev_time avctx.time_base ass_tb))⟩]),
            some (screen_text (ctx.screen_at (lnot ctx.active_screen)) ++ [0x0d, 0x0a]),
            avpkt.pts)) := by
  refine ⟨?_, ?_, ?_, ?_, ?_, ?_⟩
  · intro h
    rw [decode_emit_batch rescale avctx avpkt ctx sub hbatch, h]
  · intro held h
    rw [decode_emit_batch rescale avctx avpkt ctx sub hbatch, h]
  · rw [decode_emit_batch rescale avctx avpkt ctx sub hbatch]
  · rw [decode_emit_batch rescale avctx avpkt ctx sub hbatch]
  · rw [decode_emit_batch rescale avctx avpkt ctx sub hbatch]
  · intro hprev
    exact decode_end_of_caption rescale avctx ctx sub avpkt.pts hbatch hprev

/-- C27 (witness): a batch decoder that holds "Hi" from a reap at time 1000
and takes an end-of-caption unit at time 3000 with "Yo" on the inactive
screen.  One cue is emitted, with the held text, start 1000 and duration 2000,
and "Yo" is held with the time 3000; the first packet, decoded by a fresh
decoder, emitted no cue. -/
theorem decode_batch_cue_witness :
    (decode rescale_id ⟨⟨1, 1000⟩⟩ (fresh_context 0) ⟨[], 0⟩ hi_packet).map
      (fun r => r.sub.rects) = some [] ∧
    held_hi_context.real_time = 0 ∧
    held_hi_context.prev_string = some [0x48, 0x69, 0x0d, 0x0a] ∧
    held_hi_context.prev_time = 1000 ∧
    (decode_emit rescale_id ⟨⟨1, 1000⟩⟩ ⟨[0xfc, 0x94, 0x2f], 3000⟩ held_hi_context ⟨[], 0⟩).2.rects =
      [⟨[0x48, 0x69, 0x0d, 0x0a], 1000, 2000⟩] ∧
    (decode rescale_id ⟨⟨1, 1000⟩⟩ held_hi_context ⟨[], 0⟩ ⟨[0xfc, 0x94, 0x2f], 3000⟩).map
        (fun r => (r.sub.rects, r.ctx.prev_string, r.ctx.prev_time)) =
      some ([⟨[0x48, 0x69, 0x0d, 0x0a], 1000, 2000⟩], some [0x59, 0x6f, 0x0d, 0x0a], 3000) :=
  ⟨by decide, by decide, by decide, by decide,
    ((decode_batch_cue rescale_id ⟨⟨1, 1000⟩⟩ ⟨[0xfc, 0x94, 0x2f], 3000⟩ held_hi_context ⟨[], 0⟩
      (by decide)).2.1 [0x48, 0x69, 0x0d, 0x0a] (by decide)).trans (by decide),
    ((decode_batch_cue rescale_id ⟨⟨1, 1000⟩⟩ ⟨[0xfc, 0x94, 0x2f], 3000⟩ held_hi_context ⟨[], 0⟩
      (by decide)).2.2.2.2.2 (by decide)).trans (by decide)⟩

/-- C28 (the code at the failing input).  In ROLL-UP mode with window 3 and the
cursor on row 5, rows 3 and 5 used and row 4 unused, the retained rows are 3
and 4.  After the carriage return row 3 holds what row 4 held, an empty
string, and its used bit is still set although the bit of row 4 was clear; the
next reap yields an empty first line. -/
theorem roll_up_stale_used_bit :
    rollup3_gap_context.mode = .CCMODE_ROLLUP ∧ rollup3_gap_context.rollup = 3 ∧
    rollup3_gap_context.cursor_row = 5 ∧
    get_writing_screen rollup3_gap_context = 0 ∧
    used_rows (rollup3_gap_context.screen_at 0) = [3, 5] ∧
    ¬ (rollup3_gap_context.screen_at 0).used 4 ∧
    ((roll_up rollup3_gap_context).screen_at 0).used 3 ∧
    used_rows ((process_cc608 rollup3_gap_context 0x14 0x2d).screen_at 0) = [3, 4] ∧
    c_str (((process_cc608 rollup3_gap_context 0x14 0x2d).screen_at 0).characters.getD 3 []) =
      [] ∧
    c_str (((process_cc608 rollup3_gap_context 0x14 0x2d).screen_at 0).characters.getD 4 []) =
      [0x43, 0x44] ∧
    (reap_screen (process_cc608 rollup3_gap_context 0x14 0x2d)).buffer =
      [0x5c, 0x4e, 0x43, 0x44] := by
  decide

/-- C29 (the code at the failing input).  In ROLL-UP mode with window 2 and the
cursor on row 5, rows 3 and 5 used, the retained window is rows 4 and 5 and
row 3 lies strictly above it.  After the carriage return row 3 is still marked
used and still holds "AB", which the next reap yields again; the cursor row 5
is unused. -/
theorem roll_up_row_above_window :
    rollup2_above_context.mode = .CCMODE_ROLLUP ∧ rollup2_above_context.rollup = 2 ∧
    rollup2_above_context.cursor_row = 5 ∧
    get_writing_screen rollup2_above_context = 0 ∧
    used_rows (rollup2_above_context.screen_at 0) = [3, 5] ∧
    ((roll_up rollup2_above_context).screen_at 0).used 3 ∧
    ¬ ((roll_up rollup2_above_context).screen_at 0).used 5 ∧
    used_rows ((process_cc608 rollup2_above_context 0x14 0x2d).screen_at 0) = [3, 4] ∧
    (reap_screen (process_cc608 rollup2_above_context 0x14 0x2d)).buffer =
      [0x41, 0x42, 0x5c, 0x4e, 0x43, 0x44] := by
  decide

/-- C30 (counterexample).  In POP-ON mode, with "Hi" on row 0 of the inactive
screen, a carriage return clears the used bit of that row; in PAINT-ON mode,
with a roll-up window of 2 and "CD" on row 5 of the active screen, a carriage
return moves the text to row 4 and changes the used rows from 5 to 4. -/
theorem carriage_return_rolls_outside_rollup :
    popon_hi_context.mode = .CCMODE_POPON ∧
    used_rows (popon_hi_context.screen_at 1) = [0] ∧
    used_rows ((process_cc608 popon_hi_context 0x14 0x2d).screen_at 1) = [] ∧
    (process_cc608 popon_hi_context 0x14 0x2d).screen.2.row_used ≠
      popon_hi_context.screen.2.row_used ∧
    painton_row5_context.mode = .CCMODE_PAINTON ∧
    used_rows (painton_row5_context.screen_at 0) = [5] ∧
    used_rows ((process_cc608 painton_row5_context 0x14 0x2d).screen_at 0) = [4] ∧
    (process_cc608 painton_row5_context 0x14 0x2d).screen.1.row_used ≠
      painton_row5_context.screen.1.row_used ∧
    (process_cc608 painton_row5_context 0x14 0x2d).screen.1.characters ≠
      painton_row5_context.screen.1.characters := by
  decide

/-- C30 (amended).  A carriage return, `lo = 0x2d` with `hi` in 0x14, 0x15,
0x1c, leaves both screens as they were in TEXT mode; in every other mode,
POP-ON and PAINT-ON included, a carriage return that is not suppressed reaps
the active screen and rolls the writing screen up, which leaves the cursor row
of the writing screen unused. -/
theorem carriage_return_modes (ctx : CCaptionSubContext) (hi : Nat)
    (hhi : hi = 0x14 ∨ hi = 0x15 ∨ hi = 0x1c) :
    (ctx.mode = .CCMODE_TEXT → (process_cc608 ctx hi 0x2d).screen = ctx.screen) ∧
    (ctx.mode ≠ .CCMODE_TEXT → ctx.prev_cmd ≠ (hi, 0x2d) →
      process_cc608 ctx hi 0x2d =
        { roll_up (reap_screen ctx) with cursor_column := 0, prev_cmd := (hi, 0x2d) } ∧
      (ctx.cursor_row < SCREEN_ROWS →
        ¬ ((process_cc608 ctx hi 0x2d).screen_at (get_writing_screen ctx)).used
          ctx.cursor_row)) := by
  have e : ctx.prev_cmd ≠ (hi, 0x2d) → process_cc608 ctx hi 0x2d =
      { roll_up (reap_screen ctx) with cursor_column := 0, prev_cmd := (hi, 0x2d) } := by
    intro hprev
    rw [process_cc608_control ctx hi 0x2d hhi (by decide) hprev]
    rfl
  refine ⟨?_, ?_⟩
  · intro hmode
    by_cases hprev : ctx.prev_cmd = (hi, 0x2d)
    · rw [process_cc608_suppressed ctx hi 0x2d hprev]
    · rw [e hprev, roll_up_text (reap_screen ctx) hmode]
      rfl
  · intro hmode hprev
    refine ⟨e hprev, ?_⟩
    intro hrow
    rw [e hprev]
    have h := roll_up_cursor_row_unused (reap_screen ctx) hmode
      (by unfold SCREEN_ROWS at hrow; exact Nat.lt_trans hrow (by decide))
    exact h

/-- C30 (witness): a carriage return in TEXT mode, with "Hi" on row 0, leaves
the screens; in POP-ON mode it leaves the cursor row of the inactive screen
unused, which was used. -/
theorem carriage_return_modes_witness :
    text_hi_context.mode = .CCMODE_TEXT ∧
    used_rows (text_hi_context.screen_at 0) = [0] ∧
    (process_cc608 text_hi_context 0x14 0x2d).screen = text_hi_context.screen ∧
    popon_hi_context.mode = .CCMODE_POPON ∧
    (popon_hi_context.screen_at (get_writing_screen popon_hi_context)).used
      popon_hi_context.cursor_row ∧
    ¬ ((process_cc608 popon_hi_context 0x14 0x2d).screen_at
      (get_writing_screen popon_hi_context)).used popon_hi_context.cursor_row :=
  ⟨by decide, by decide,
    (carriage_return_modes text_hi_context 0x14 (by decide)).1 (by decide),
    by decide, by decide,
    ((carriage_return_modes popon_hi_context 0x14 (by decide)).2 (by decide) (by decide)).2
      (by decide)⟩

/-- C31.  The writer range-checks every field it encodes.  For a record with
its 31-entry packet array: when some encoded field exceeds its bit width (the
value is not `Valid`: a flag above 1, `cc_type` above 3, `cc_count` above 31,
`cc_valid` above 1 or a data byte above 255 in one of the first `cc_count`
packets, a line number of 2^14 or more for a set flag, or `active_format`
above 15 with the flag set), `ff_cbs_write_a53_user_data` fails, with invalid
data or, when the buffer ends before the field is reached, out of space; and
whenever it succeeds every encoded field fits its width and the bytes written
hold the bit layout of the value, each field in full. -/
theorem write_a53_user_data_range_checked (length : Nat) (v : A53UserData)
    (harr : v.atsc.cc_data.cc_data_pkts.length = 31) :
    (¬ v.Valid → ∃ e, ff_cbs_write_a53_user_data length v = .error e ∧
      (e = .INVALIDDATA ∨ e = .ENOSPC)) ∧
    (∀ bytes n, ff_cbs_write_a53_user_data length v = .ok (bytes, n) →
      v.Valid ∧ bytes = bits_to_bytes (a53_user_data_bits v) ∧
      bytes_to_bits bytes = a53_user_data_bits v) := by
  refine ⟨?_, ?_⟩
  · intro hv
    cases hw : ff_cbs_write_a53_user_data length v with
    | error e => exact ⟨e, rfl, ff_write_a53_user_data_failsRange length v harr e hw⟩
    | ok r =>
      exact absurd (@ff_write_a53_user_data_checked length r.2 v r.1 hw harr) hv
  · intro bytes n h
    have hv := ff_write_a53_user_data_checked h harr
    rw [write_a53_user_data_valid length v hv] at h
    split_ifs at h
    have hb : bytes = bits_to_bytes (a53_user_data_bits v) :=
      (congrArg Prod.fst (Except.ok.inj h)).symm
    refine ⟨hv, hb, ?_⟩
    rw [hb]
    exact (bits_to_bytes_aligned _ _ (a53_user_data_bits_length v (Valid.cc_count_le hv))).1

/-- C31 (witness): CC data whose first packet has `cc_valid = 2` is refused
with invalid data by a writer with room for the 14 bytes of its layout, and
with `cc_valid = 1` the same record is written. -/
theorem write_a53_user_data_range_checked_witness :
    ¬ cc_valid_two_user_data.Valid ∧
    ff_cbs_write_a53_user_data 14 cc_valid_two_user_data = .error .INVALIDDATA ∧
    (∃ e, ff_cbs_write_a53_user_data 14 cc_valid_two_user_data = .error e ∧
      (e = .INVALIDDATA ∨ e = .ENOSPC)) ∧
    ff_cbs_write_a53_user_data 14 cc_user_data =
      .ok ([0x47, 0x41, 0x39, 0x34, 0x03, 0x42, 0xff, 0xfc, 0x94, 0x20, 0xfd, 0x48, 0x69, 0xff],
        14) :=
  ⟨by decide, by decide,
    (write_a53_user_data_range_checked 14 cc_valid_two_user_data (by decide)).1 (by decide),
    by decide⟩

/-- C32.  Exact big-endian layout.  For a value whose encoded fields fit
their widths, written into a buffer that holds its encoding: ATSC / CC_DATA
with `n = cc_count` packets yields the `8 + 3n` bytes 'G','A','9','4', 0x03,
`process_em_data_flag << 7 | process_cc_data_flag << 6 |
additional_data_flag << 5 | n`, `em_data`, the `n` triplets, 0xFF; ATSC /
BAR_DATA with `k` flags set yields the `6 + 2k` bytes tag, 0x06,
`flags << 4 | 0x0F` and the two big-endian bytes of `0xC000 | line_number` for
each set flag in top, bottom, left, right order; AFD yields 'D','T','G','1',
`active_format_flag << 6 | 0x01`, followed by `0xF0 | active_format` only when
the flag is set. -/
theorem write_a53_user_data_layout (length : Nat) (v : A53UserData) (hv : v.Valid)
    (hlen : a53_user_data_size v ≤ length) :
    (v.user_identifier = A53_USER_IDENTIFIER_ATSC →
      v.atsc.user_data_type_code = A53_USER_DATA_TYPE_CODE_CC_DATA →
      ff_cbs_write_a53_user_data length v =
        .ok (cc_data_bytes v.atsc.cc_data, 8 + 3 * v.atsc.cc_data.cc_count) ∧
      (cc_data_bytes v.atsc.cc_data).length = 8 + 3 * v.atsc.cc_data.cc_count) ∧
    (v.user_identifier = A53_USER_IDENTIFIER_ATSC →
      v.atsc.user_data_type_code = A53_USER_DATA_TYPE_CODE_BAR_DATA →
      ff_cbs_write_a53_user_data length v =
        .ok (bar_data_bytes v.atsc.bar_data, 6 + 2 * bar_flags_set v.atsc.bar_data) ∧
      (bar_data_bytes v.atsc.bar_data).length = 6 + 2 * bar_flags_set v.atsc.bar_data) ∧
    (v.user_identifier = A53_USER_IDENTIFIER_AFD →
      ff_cbs_write_a53_user_data length v =
        .ok (afd_data_bytes v.afd, 5 + (if v.afd.active_format_flag ≠ 0 then 1 else 0)) ∧
      (afd_data_bytes v.afd).length = 5 + (if v.afd.active_format_flag ≠ 0 then 1 else 0)) := by
  have hw := write_a53_user_data_valid length v hv
  rw [if_pos hlen] at hw
  have hbl : (bits_to_bytes (a53_user_data_bits v)).length = a53_user_data_size v :=
    (bits_to_bytes_aligned _ _ (a53_user_data_bits_length v (Valid.cc_count_le hv))).2
  refine ⟨?_, ?_, ?_⟩
  · intro h1 h2
    have hs : a53_user_data_size v = 8 + 3 * v.atsc.cc_data.cc_count := by
      unfold a53_user_data_size
      rw [if_pos h1, if_pos h2]
      omega
    rw [hw, ← cc_data_bits_bytes v hv h1 h2, hs]
    exact ⟨rfl, hs ▸ hbl⟩
  · intro h1 h2
    have hc : ¬ v.atsc.user_data_type_code = A53_USER_DATA_TYPE_CODE_CC_DATA := by
      rw [h2]; decide
    have hs : a53_user_data_size v = 6 + 2 * bar_flags_set v.atsc.bar_data := by
      unfold a53_user_data_size bar_flags_set
      rw [if_pos h1, if_neg hc, if_pos h2]
      split_ifs <;> omega
    rw [hw, ← bar_data_bits_bytes v hv h1 h2, hs]
    exact ⟨rfl, hs ▸ hbl⟩
  · intro h1
    have ha : ¬ v.user_identifier = A53_USER_IDENTIFIER_ATSC := by
      rw [h1]; decide
    have hs : a53_user_data_size v = 5 + (if v.afd.active_format_flag ≠ 0 then 1 else 0) := by
      unfold a53_user_data_size
      rw [if_neg ha, if_pos h1]
      omega
    rw [hw, ← afd_data_bits_bytes v hv h1, hs]
    exact ⟨rfl, hs ▸ hbl⟩

/-- C32 (witness): CC data with two packets, bar data with the top and left
bars at lines 20 and 30, and AFD data with active format 10. -/
theorem write_a53_user_data_layout_witness :
    ff_cbs_write_a53_user_data 14 cc_user_data =
      .ok ([0x47, 0x41, 0x39, 0x34, 0x03, 0x42, 0xff, 0xfc, 0x94, 0x20, 0xfd, 0x48, 0x69, 0xff],
        8 + 3 * 2) ∧
    ff_cbs_write_a53_user_data 10 bar_user_data =
      .ok ([0x47, 0x41, 0x39, 0x34, 0x06, 0xaf, 0xc0, 0x14, 0xc0, 0x1e], 6 + 2 * 2) ∧
    ff_cbs_write_a53_user_data 6 afd_set_user_data =
      .ok ([0x44, 0x54, 0x47, 0x31, 0x41, 0xfa], 5 + 1) :=
  ⟨((write_a53_user_data_layout 14 cc_user_data (by decide) (by decide)).1 (by decide)
      (by decide)).1.trans (by decide),
    ((write_a53_user_data_layout 10 bar_user_data (by decide) (by decide)).2.1 (by decide)
      (by decide)).1.trans (by decide),
    ((write_a53_user_data_layout 6 afd_set_user_data (by decide) (by decide)).2.2
      (by decide)).1.trans (by decide)⟩

/-- C33 (the code at the failing input).  Two contexts in PAINT-ON mode in
which no row of the displayed screen is used and the cursor is on column 2 of
row 0; they differ only in the characters of the unused row 0, "AB" in one and
"XY" in the other, written before the displayed memory was erased.  The pair
'C', 'D' and a carriage return give the reaped text "ABCD" in the first and
"XYCD" in the second: the erased characters are in the text, and the two texts
differ. -/
theorem erased_text_reappears :
    erased_context.mode = .CCMODE_PAINTON ∧
    erased_context.screen.1.row_used = 0 ∧ erased_other_context.screen.1.row_used = 0 ∧
    erased_context.screen.1.characters.getD 0 [] = [0x41, 0x42] ++ List.replicate 31 0 ∧
    erased_other_context =
      { erased_context with
        screen :=
          ({ erased_context.screen.1 with
              characters := erased_context.screen.1.characters.set 0
                ([0x58, 0x59] ++ List.replicate 31 0) },
            erased_context.screen.2) } ∧
    (process_pairs erased_context [(0x43, 0x44), (0x14, 0x2d)]).buffer =
      [0x41, 0x42, 0x43, 0x44] ∧
    (process_pairs erased_other_context [(0x43, 0x44), (0x14, 0x2d)]).buffer =
      [0x58, 0x59, 0x43, 0x44] := by
  decide

/-- C34.  Byte-level round trip of the general codec.  For every buffer of
bytes that `ff_cbs_read_a53_user_data` decodes successfully, into a record
whose packet array has its 31 entries, the decoder has consumed the encoded
size of the decoded value, which lies inside the buffer, and
`ff_cbs_write_a53_user_data` of the decoded value, into a buffer that holds
that size, succeeds and writes exactly the bytes that the decoder
consumed. -/
theorem a53_user_data_reencode (d r : A53UserData) (buf : List Nat) (rw : GetBitContext)
    (length : Nat) (hb : ∀ b ∈ buf, b < 256) (hd : d.atsc.cc_data.cc_data_pkts.length = 31)
    (h : ff_cbs_read_a53_user_data d buf = .ok rw r) (hlen : a53_user_data_size r ≤ length) :
    get_bits_count rw = 8 * a53_user_data_size r ∧ a53_user_data_size r ≤ buf.length ∧
    ff_cbs_write_a53_user_data length r =
      .ok (buf.take (a53_user_data_size r), a53_user_data_size r) := by
  obtain ⟨hv, rest, hl⟩ := ff_read_a53_user_data_layout hd h
  have hbits := a53_user_data_bits_length r (Valid.cc_count_le hv)
  obtain ⟨hn, hp⟩ := bytes_to_bits_prefix buf _ rest _ hb hl hbits
  have hcount : get_bits_count rw = 8 * a53_user_data_size r := by
    unfold ff_cbs_read_a53_user_data at h
    simp only [init_get_bits] at h
    obtain ⟨⟨hadv, _⟩, _, _⟩ := read_a53_user_data_ok h (reads_init buf)
    rw [hadv, hbits]
    unfold get_bits_count GetBitContext.adv
    simp
  refine ⟨hcount, hn, ?_⟩
  rw [write_a53_user_data_valid length r hv, if_pos hlen, hp]

/-- C34 (witness): CC data with two packets followed by two more bytes. -/
theorem a53_user_data_reencode_witness :
    ff_cbs_read_a53_user_data zero_user_data
      [0x47, 0x41, 0x39, 0x34, 0x03, 0x42, 0xff, 0xfc, 0x94, 0x20, 0xfd, 0x48, 0x69, 0xff,
        0xde, 0xad] =
      .ok ⟨[0x47, 0x41, 0x39, 0x34, 0x03, 0x42, 0xff, 0xfc, 0x94, 0x20, 0xfd, 0x48, 0x69, 0xff,
        0xde, 0xad], 112, 128⟩ cc_user_data ∧
    ff_cbs_write_a53_user_data 16 cc_user_data =
      .ok ([0x47, 0x41, 0x39, 0x34, 0x03, 0x42, 0xff, 0xfc, 0x94, 0x20, 0xfd, 0x48, 0x69, 0xff],
        14) :=
  ⟨by decide,
    (a53_user_data_reencode zero_user_data cc_user_data
      [0x47, 0x41, 0x39, 0x34, 0x03, 0x42, 0xff, 0xfc, 0x94, 0x20, 0xfd, 0x48, 0x69, 0xff,
        0xde, 0xad]
      ⟨[0x47, 0x41, 0x39, 0x34, 0x03, 0x42, 0xff, 0xfc, 0x94, 0x20, 0xfd, 0x48, 0x69, 0xff,
        0xde, 0xad], 112, 128⟩ 16 (by decide) (by decide) (by decide) (by decide)).2.2.trans
      (by decide)⟩

/-- C35 (the code at the failing input).  The payload of `3 * 2^32` bytes
0xff is accepted by `ff_cbs_read_a53_cc_side_data`, with a record of no
packets; `ff_cbs_write_a53_cc_side_data` of that record onto an empty buffer
leaves the buffer empty, not the payload. -/
theorem cc_side_data_round_trip_wraps :
    (List.replicate 12884901888 0xff).length = 12884901888 ∧
    (∃ rw, ff_cbs_read_a53_cc_side_data zero_user_data (List.replicate 12884901888 0xff) =
      .ok rw (cc_side_data_init 0)) ∧
    ff_cbs_write_a53_cc_side_data none 0 (cc_side_data_init 0) = ⟨none, none, 0⟩ :=
  ⟨List.length_replicate _ _, ⟨_, read_a53_cc_side_data_count_zero zero_user_data 0xff⟩,
    by decide⟩

/-- C36.  Cursor bounds are an invariant of the state machine: from a context
with `cursor_row ≤ 14` and `cursor_column ≤ 32`, `process_cc608` of any byte
pair leaves `cursor_row ≤ 14` and `cursor_column ≤ 32`; and for every pair in
the ranges that `process_cc608` dispatches to `handle_pac` the entry of
`row_map` is between 1 and 15, so the invalid-index branch of `handle_pac` is
not taken and the row it sets is one of the rows 0 to 14. -/
theorem process_cc608_cursor_bounds (ctx : CCaptionSubContext) (hi lo : Nat)
    (hr : ctx.cursor_row ≤ 14) (hc : ctx.cursor_column ≤ 32) :
    (process_cc608 ctx hi lo).cursor_row ≤ 14 ∧
    (process_cc608 ctx hi lo).cursor_column ≤ 32 ∧
    (((hi = 0x10 ∧ (lo ≥ 0x40 ∧ lo ≤ 0x5f)) ∨
        ((hi ≥ 0x11 ∧ hi ≤ 0x17) ∧ (lo ≥ 0x40 ∧ lo ≤ 0x7f))) →
      ¬ row_map.getD (((hi <<< 1) &&& 0x0e) ||| ((lo >>> 5) &&& 0x01)) 0 ≤ 0 ∧
      row_map.getD (((hi <<< 1) &&& 0x0e) ||| ((lo >>> 5) &&& 0x01)) 0 ≤ 15 ∧
      (ctx.prev_cmd ≠ (hi, lo) →
        ((process_cc608 ctx hi lo).cursor_row : Int) =
          row_map.getD (((hi <<< 1) &&& 0x0e) ||| ((lo >>> 5) &&& 0x01)) 0 - 1)) := by
  refine ⟨(process_cc608_cursor ctx hi lo hr hc).1, (process_cc608_cursor ctx hi lo hr hc).2, ?_⟩
  intro hpac
  obtain ⟨hpos, hle⟩ := pac_row_pos hi lo hpac
  refine ⟨by omega, hle, ?_⟩
  intro hprev
  rw [process_cc608_pac ctx hi lo hpac hprev]
  show ((handle_pac ctx hi lo).cursor_row : Int) = _
  unfold handle_pac
  dsimp only
  rw [if_neg (by omega)]
  show (((CCaptionSubContext.set_screen _ _ _).cursor_row : Nat) : Int) = _
  rw [(set_screen_cursor _ _ _).1]
  show (((row_map.getD (((hi <<< 1) &&& 0x0e) ||| ((lo >>> 5) &&& 0x01)) 0 - 1).toNat : Nat) :
    Int) = _
  omega

set_option maxRecDepth 4096 in
/-- C36 (witness): the PAC 0x14 0x60, which puts the cursor on the last row,
and a pair of characters on a full row. -/
theorem process_cc608_cursor_bounds_witness :
    (process_cc608 (fresh_context 0) 0x14 0x60).cursor_row = 14 ∧
    (process_cc608 (fresh_context 0) 0x14 0x60).cursor_row ≤ 14 ∧
    full_row_context.cursor_column = 32 ∧
    (process_cc608 full_row_context 0x45 0x46).cursor_column ≤ 32 :=
  ⟨by decide,
    (process_cc608_cursor_bounds (fresh_context 0) 0x14 0x60 (by decide) (by decide)).1,
    by decide,
    (process_cc608_cursor_bounds full_row_context 0x45 0x46 (by decide) (by decide)).2.1⟩

/-- C37 (the code at the failing input).  In ROLL-UP mode with window 2, the
cursor on row 14 and text on that row, the second loop of `roll_up` makes two
turns; their source rows `i_row + 1` are 14 and 15, and 15 is `SCREEN_ROWS`,
one past the last row of the grids.  Row 14 of the characters takes the 32
bytes that follow the grid, which are those of the first row of the colours. -/
theorem roll_up_reads_row_15 :
    rollup_bottom_context.mode = .CCMODE_ROLLUP ∧ rollup_bottom_context.rollup = 2 ∧
    rollup_bottom_context.cursor_row = 14 ∧
    roll_up_source_rows rollup_bottom_context = [14, 15] ∧ ¬ 15 < SCREEN_ROWS ∧
    rollup_bottom_context.screen.1.characters.getD 14 [] =
      [0x41, 0x42] ++ List.replicate 31 0 ∧
    (roll_up rollup_bottom_context).screen.1.characters.getD 14 [] =
      memcpy (rollup_bottom_context.screen.1.characters.getD 14 [])
        (rollup_bottom_context.screen.1.colors.getD 0 []) SCREEN_COLUMNS := by
  decide

set_option maxRecDepth 8192 in
/-- C38 (the code at the failing input).  For the record tagged ATSC / CC_DATA
with `cc_count = 32` the side-data writer passes its tag check, writes the 31
packets of the array and then reads `cc_data_pkts[31]`, an index outside the
array, which ends the call abnormally in the embedding.  The general writer
refuses the same record by the range check of its 5-bit `cc_count`. -/
theorem write_a53_cc_side_data_index_31 :
    cc_count_32_user_data.user_identifier = A53_USER_IDENTIFIER_ATSC ∧
    cc_count_32_user_data.atsc.user_data_type_code = A53_USER_DATA_TYPE_CODE_CC_DATA ∧
    cc_count_32_user_data.atsc.cc_data.cc_count = 32 ∧
    cc_count_32_user_data.atsc.cc_data.cc_data_pkts.length = 31 ∧
    (∃ rw, write_cc_data_pkts cc_count_32_user_data.atsc.cc_data.cc_data_pkts 31 0
        (init_put_bits (3 * 32)) = .ok rw ∧
      cc_count_32_user_data.atsc.cc_data.cc_data_pkts.get? 31 = none ∧
      write_cc_data_pkts cc_count_32_user_data.atsc.cc_data.cc_data_pkts 1 31 rw =
        .error .out_of_bounds) ∧
    ff_cbs_write_a53_cc_side_data none 0 cc_count_32_user_data =
      ⟨some .out_of_bounds, none, 0⟩ ∧
    ff_cbs_write_a53_user_data 200 cc_count_32_user_data = .error .INVALIDDATA := by
  refine ⟨by decide, by decide, by decide, by decide, ?_, by decide, by decide⟩
  cases h : write_cc_data_pkts cc_count_32_user_data.atsc.cc_data.cc_data_pkts 31 0
      (init_put_bits (3 * 32)) with
  | error e =>
    exfalso
    have hv : ∀ p ∈ (cc_count_32_user_data.atsc.cc_data.cc_data_pkts.drop 0).take 31,
        p.Valid := by decide
    rw [write_cc_data_pkts_eq _ 31 0 _ (by decide) hv] at h
    unfold put_chk at h
    rw [if_pos (by decide)] at h
    cases h
  | ok rw => exact ⟨rw, rfl, by decide, rfl⟩

/-- C39.  The zero in column 32 of every row is an invariant of the state
machine.  From a context whose two screens have their sizes, whose cursor row
is one of the 15 rows and in which column 32 of every row of both screens is
zero, any sequence of `process_cc608` calls leads to a context in which
column 32 of every row of both screens is zero again; so every row of either
screen is a zero-terminated string of at most 32 characters, and the scans of
`reap_screen` on it (the leading spaces, then the text up to its zero) end on
a zero at an index of at most 32, inside the row of 33 bytes. -/
theorem process_pairs_terminated (ctx : CCaptionSubContext) (pairs : List (Nat × Nat))
    (hwf : ctx.screen.1.WF ∧ ctx.screen.2.WF) (hr : ctx.cursor_row < SCREEN_ROWS)
    (ht : ctx.screen.1.Terminated ∧ ctx.screen.2.Terminated) :
    (process_pairs ctx pairs).screen.1.Terminated ∧
    (process_pairs ctx pairs).screen.2.Terminated ∧
    ∀ n, ∀ row ∈ ((process_pairs ctx pairs).screen_at n).characters,
      row.length = SCREEN_COLUMNS + 1 ∧ row[SCREEN_COLUMNS]? = some 0 ∧
      (c_str row).length ≤ SCREEN_COLUMNS ∧ row[(c_str row).length]? = some 0 ∧
      (row.takeWhile (fun c => c = 0x20)).length +
          (c_str (row.dropWhile (fun c => c = 0x20))).length ≤ SCREEN_COLUMNS ∧
      row[(row.takeWhile (fun c => c = 0x20)).length +
          (c_str (row.dropWhile (fun c => c = 0x20))).length]? = some 0 := by
  obtain ⟨-, h1, h2⟩ := process_pairs_sound pairs ctx hr
    ⟨(sound_iff _).2 ⟨hwf.1, ht.1⟩, (sound_iff _).2 ⟨hwf.2, ht.2⟩⟩
  refine ⟨((sound_iff _).1 h1).2, ((sound_iff _).1 h2).2, ?_⟩
  intro n row hrow
  obtain ⟨hl, hz⟩ := (screen_at_sound _ n ⟨h1, h2⟩).1.2 row hrow
  exact ⟨hl, hz, (c_str_terminator row _ hz).1, (c_str_terminator row _ hz).2,
    (reap_scan_terminator row _ hz).1, (reap_scan_terminator row _ hz).2⟩

set_option maxRecDepth 8192 in
/-- C39 (witness): a fresh context, then a PAC with an indent of 28, six
characters of which two are dropped at the end of the row, a carriage return
in roll-up mode and an end of caption. -/
theorem process_pairs_terminated_witness :
    (fresh_context 0).screen.1.Terminated ∧
    (process_pairs (fresh_context 0)
      [(0x14, 0x25), (0x15, 0x7e), (0x41, 0x42), (0x43, 0x44), (0x45, 0x46), (0x14, 0x2d),
        (0x14, 0x2f)]).screen.1.Terminated :=
  ⟨by decide,
    (process_pairs_terminated (fresh_context 0)
      [(0x14, 0x25), (0x15, 0x7e), (0x41, 0x42), (0x43, 0x44), (0x45, 0x46), (0x14, 0x2d),
        (0x14, 0x2f)] (by decide) (by decide) (by decide)).1⟩

set_option maxRecDepth 16384 in
/-- C40 (the code at the failing input).  The packet buffer of `stale_context`
holds 0x61, 0x62 at the indices 4 and 5, left by an earlier packet.  A packet
of the three bytes 0xfc 0x94 0x2c leaves "ab" on row 0 of the screen written
to; the packet of four bytes 0xfc 0x94 0x2c 0xfc leaves "abab": its last byte
is taken as a unit with the bytes at the indices 4 and 5 of the buffer, which
are not bytes of the packet, and the pair 'a', 'b' is processed.  On a context
that differs only in these two bytes of the buffer the same packet leaves
"ab".  A packet of 130 bytes that ends with 0xfc reads the indices 130 and 131
of a buffer of 130 bytes. -/
theorem decode_trailing_unit :
    stale_context.pktbuf.take 6 = [0xfc, 0x14, 0x20, 0xfc, 0x61, 0x62] ∧
    (decode rescale_id ⟨⟨1, 1000⟩⟩ stale_context ⟨[], 0⟩ ⟨[0xfc, 0x94, 0x2c], 0⟩).map
        (fun r => ((r.ctx.screen.2.characters.getD 0 []).take 5, r.ctx.prev_cmd)) =
      some ([0x61, 0x62, 0, 0, 0], (0x14, 0x2c)) ∧
    (decode rescale_id ⟨⟨1, 1000⟩⟩ stale_context ⟨[], 0⟩ ⟨[0xfc, 0x94, 0x2c, 0xfc], 0⟩).map
        (fun r => ((r.ctx.screen.2.characters.getD 0 []).take 5, r.ctx.prev_cmd)) =
      some ([0x61, 0x62, 0x61, 0x62, 0], (0x61, 0x62)) ∧
    (decode rescale_id ⟨⟨1, 1000⟩⟩
        { stale_context with pktbuf := (stale_context.pktbuf.set 4 0).set 5 0 } ⟨[], 0⟩
        ⟨[0xfc, 0x94, 0x2c, 0xfc], 0⟩).map
        (fun r => ((r.ctx.screen.2.characters.getD 0 []).take 5, r.ctx.prev_cmd)) =
      some ([0x61, 0x62, 0, 0, 0], (0x14, 0x2c)) ∧
    (fresh_context 0).pktbuf.length = 128 ∧
    decode rescale_id ⟨⟨1, 1000⟩⟩ (fresh_context 0) ⟨[], 0⟩
      ⟨List.replicate 129 0 ++ [0xfc], 0⟩ = none := by
  decide

end FFmpeg
